import Mathlib

/-!
Consumer protocol handler of the agreement bot.

A shallow embedding of `agreementbot/consumer_protocol_handler.go`: the command
handlers of `BaseConsumerProtocolHandler` become functions on an explicit
`World` (agreement store, the two inbound work queues and a ghost trace of the
calls made to collaborators).  Collaborators that live in other packages
(exchange, compcheck, policy manager, protocol handler) are fields of `Env`.
-/

namespace agreementbot

/-! ## Data model -/

/-- Priority section of a workload (`policy.WorkloadPriority`); lower values are
tried first. -/
structure WorkloadPriority where
  PriorityValue : Int
deriving DecidableEq, Repr

/-- One workload choice of a policy (`policy.Workload`). -/
structure Workload where
  Deployment : String
  DeploymentSignature : String
  ClusterDeployment : String
  ClusterDeploymentSignature : String
  Priority : WorkloadPriority
  WorkloadURL : String
  Org : String
  Version : String
  Arch : String
deriving DecidableEq, Repr

/-- Header of a policy (`policy.PolicyHeader`). -/
structure PolicyHeader where
  Name : String
deriving DecidableEq, Repr

/-- A policy document (`policy.Policy`), restricted to the fields the handler reads. -/
structure Policy where
  Header : PolicyHeader
  PatternId : String
  Workloads : List Workload
  ClusterNamespace : String
deriving DecidableEq, Repr

/-- Property and constraint document (`externalpolicy.ExternalPolicy`). -/
structure ExternalPolicy where
  Properties : List (String × String)
  Constraints : List String
deriving DecidableEq, Repr

/-- A row of the agreement table (`persistence.Agreement`). -/
structure Agreement where
  CurrentAgreementId : String
  Org : String
  DeviceId : String
  DeviceType : String
  AgreementProtocol : String
  AgreementCreationTime : Nat
  AgreementFinalizedTime : Nat
  AgreementTimedout : Nat
  Policy : String
  PolicyName : String
  CounterPartyAddress : String
  LastPolicyUpdateTime : Nat
  Pattern : String
  ServiceId : List String
  Archived : Bool
deriving DecidableEq, Repr

/-- A row of the workload-usage table (`persistence.WorkloadUsage`). -/
structure WorkloadUsage where
  DeviceId : String
  PolicyName : String
  CurrentAgreementId : String
  Priority : Int
  PendingUpgrade : Bool
deriving DecidableEq, Repr

/-- A row of the un-partitioned table `ha_workload_upgrade`. -/
structure UpgradingHAGroupWorkload where
  GroupOrg : String
  GroupName : String
  PolicyName : String
  NodeId : String
deriving DecidableEq, Repr

/-- The exchange record of a node (`exchange.Device`). -/
structure Device where
  PublicKey : String
  MsgEndPoint : String
  MaxInterval : Nat
  Arch : String
  SoftwareVersions : List (String × String)
  HAGroup : String
  NodeType : String
  ClusterNamespace : String
  IsNamespaceScoped : Bool
deriving DecidableEq, Repr

/-- A service definition of the exchange (`exchange.ServiceDefinition`). -/
structure ServiceDefinition where
  URL : String
  Version : String
  Arch : String
  DeploymentString : String
  DeploymentSignature : String
  ClusterDeploymentString : String
  ClusterDeploymentSignature : String
deriving DecidableEq, Repr

/-- Items placed on the prioritized work queue (`AgreementWork`). -/
inductive AgreementWork where
  | HandleReply (reply : String) (sender : String) (pubKey : String) (messageId : Int)
  | HandleDataReceivedAck (ack : String) (sender : String) (pubKey : String) (messageId : Int)
  | CancelAgreement (agreementId : String) (protocol : String) (reason : Nat) (messageId : Int)
  | InitiateAgreement (producerPolicy : Policy) (consumerPolicy : Policy) (org : String)
      (device : String) (consumerPolicyName : String) (servicePolicies : List (String × ExternalPolicy))
  | HandleWorkloadUpgrade (agreementId : String) (protocol : String) (deviceId : String) (policyName : String)
  | ObjectPolicyChange (event : String)
  | StopWorker
deriving DecidableEq, Repr

/-- Constructor `NewCancelAgreement` of the cancel work item. -/
def NewCancelAgreement (agreementId : String) (protocol : String) (reason : Nat) (messageId : Int) :
    AgreementWork :=
  AgreementWork.CancelAgreement agreementId protocol reason messageId

/-- The `PolicyChanged` command: organization and serialized policy of the event. -/
structure PolicyChangedCommand where
  Org : String
  PolicyString : String
deriving DecidableEq, Repr

/-- The `NewProtocolMessage` command: sender, its public key, the id of the exchange
message and the message itself. -/
structure NewProtocolMessageCommand where
  From : String
  PubKey : String
  MessageId : Int
  Message : String
deriving DecidableEq, Repr

/-- A validated cancel message (`abstractprotocol.Cancel`), by its accessors. -/
structure Cancel where
  AgreementId : String
  Protocol : String
  Reason : Nat
deriving DecidableEq, Repr

/-- The `PolicyDeleted` command: organization and serialized policy of the event. -/
structure PolicyDeletedCommand where
  Org : String
  PolicyString : String
deriving DecidableEq, Repr

/-- The `ServicePolicyChanged` command. -/
structure ServicePolicyChangedCommand where
  BusinessPolOrg : String
  BusinessPolName : String
  ServiceId : String
deriving DecidableEq, Repr

/-- The `ServicePolicyDeleted` command. -/
structure ServicePolicyDeletedCommand where
  BusinessPolOrg : String
  BusinessPolName : String
  ServiceId : String
deriving DecidableEq, Repr

/-- The `NodePolicyChanged` command. -/
structure NodePolicyChangedCommand where
  NodeId : String
  NodePolOrg : String
deriving DecidableEq, Repr

/-- Result tuple of `compcheck.CheckPolicyCompatiblility`. -/
structure CompatibilityResult where
  compatible : Bool
  reason : String
  producerPol : Policy
  consumerPol : Policy
  err : Option String
deriving DecidableEq, Repr

/-- Result tuple of `compcheck.CheckClusterNamespaceCompatibility`. -/
structure NamespaceResult where
  compatible : Bool
  consumerNamespace : String
  reason : String
deriving DecidableEq, Repr

/-! ## Constants -/

def TERM_REASON_POLICY_CHANGED : String := "PolicyChanged"

/-- Modelled from the spec: `persistence.DEVICE_TYPE_DEVICE` is declared outside this
file; the data model gives `deviceType ∈ {device, cluster}`. -/
def DEVICE_TYPE_DEVICE : String := "device"

/-- Modelled from the spec: `persistence.DEVICE_TYPE_CLUSTER` is declared outside this
file; the data model gives `deviceType ∈ {device, cluster}`. -/
def DEVICE_TYPE_CLUSTER : String := "cluster"

/-- Modelled from the spec: `exchange.AGENT_VERSION` is declared outside this file; the
exchange interface gives `softwareVersions: {horizon: version}`. -/
def AGENT_VERSION : String := "horizon"

/-- Modelled from the spec: `basicprotocol.MsgUpdateTypePolicyChange` is declared outside
this file; the update type of a policy-change update is `PolicyChange`. -/
def MsgUpdateTypePolicyChange : String := "PolicyChange"

/-- Modelled from the spec: `Agreement.GetDeviceType` is declared outside this file; a
device type is `device` or `cluster`, an unset one counting as `device`. -/
def Agreement.GetDeviceType (ag : Agreement) : String :=
  if ag.DeviceType = "" then DEVICE_TYPE_DEVICE else ag.DeviceType

/-- Modelled from the spec: `Device.GetNodeType` is declared outside this file; a node
type is `device` or `cluster`, an unset one counting as `device`. -/
def Device.GetNodeType (dev : Device) : String :=
  if dev.NodeType = "" then DEVICE_TYPE_DEVICE else dev.NodeType

/-! ## Ghost trace of collaborator calls -/

/-- The calls to collaborators and to `CancelAgreement` that the trace records. -/
inductive Call where
  | GetServiceWithId (svcId : String)
  | GetServicePolicyWithDefaultProperties (svcId : String)
  | GetBusinessPolicy (policyName : String)
  | GetNodePolicy (deviceId : String)
  | GetExchangeDevice (deviceId : String)
  | CheckPolicyCompatiblility
  | CheckClusterNamespaceCompatibility
  | GetService (url : String) (org : String) (version : String) (arch : String)
  | Create_Terms_And_Conditions
  | UpdateAgreement (ag : Agreement) (updateType : String) (metadata : Policy)
  | CancelAgreement (agreementId : String) (reason : String) (policyMatches : Bool)
  | GetDevice (deviceId : String)
  | FindAgreements (protocol : String)
  | FindWorkloadUsages
  | FindSingleWorkloadUsageByDeviceAndPolicyName (deviceId : String) (policyName : String)
  | UpdatePendingUpgrade (deviceId : String) (policyName : String)
  | DeleteWorkloadUsage (deviceId : String) (policyName : String)
  | GetHAUpgradingWorkload (org : String) (haGroup : String) (policyName : String)
  | InsertHAUpgradingWorkloadForGroupAndPolicy (org : String) (haGroup : String)
      (policyName : String) (deviceId : String)
  | FindSingleAgreementByAgreementId (agreementId : String) (protocol : String)
  | AgreementHandleMMSObjectPolicy (agreementId : String)
deriving DecidableEq, Repr

/-- How a recorded call ended: with a result, with a nil result and no error, or with
an error. -/
inductive Outcome where
  | ok
  | missing
  | failed
deriving DecidableEq, Repr

/-- One entry of the trace. -/
structure Step where
  call : Call
  outcome : Outcome
deriving DecidableEq, Repr

/-- Outcome of a call that returns `(pointer, error)`. -/
def Outcome.ofResult {α : Type} : Except String (Option α) → Outcome
  | .error _ => .failed
  | .ok none => .missing
  | .ok (some _) => .ok

/-- Outcome of a call that returns `(value, error)`. -/
def Outcome.ofExcept {α : Type} : Except String α → Outcome
  | .error _ => .failed
  | .ok _ => .ok

/-! ## Store, queues and environment -/

/-- Modelled from the spec: `persistence.AgbotDatabase` is declared outside this file.
The agreement store holds the agreement and workload-usage tables of this agbot's
partition and the un-partitioned HA-upgrading-workload table. -/
structure AgbotDatabase where
  agreements : List Agreement
  workloadUsages : List WorkloadUsage
  haUpgrading : List UpgradingHAGroupWorkload
deriving DecidableEq, Repr

/-- State the handler acts on: the store, the channels `InboundHigh` and `InboundLow` of
the work queue (oldest item first) and the trace. -/
structure World where
  db : AgbotDatabase
  inboundHigh : List AgreementWork
  inboundLow : List AgreementWork
  trace : List Step
deriving DecidableEq, Repr

/-- Collaborators of the handler that are declared outside this file, as parameters. -/
structure Env where
  /-- Result of `cph.Name()`. -/
  Name : String
  /-- Function `policy.DemarshalPolicy`. -/
  DemarshalPolicy : String → Except String Policy
  /-- Method `b.pm.MatchesMine`: the error it returns, if any. -/
  MatchesMine : String → Policy → Option String
  /-- Function `exchange.GetServiceWithId`. -/
  GetServiceWithId : String → Except String (Option ServiceDefinition)
  /-- Function `compcheck.GetServicePolicyWithDefaultProperties`, by service URL, org,
  version and arch. -/
  GetServicePolicyWithDefaultProperties : String → String → String → String →
    Except String (Option ExternalPolicy)
  /-- Method `ExternalPolicy.MergeWith`. -/
  MergeWith : ExternalPolicy → ExternalPolicy → ExternalPolicy
  /-- Function `compcheck.GetBusinessPolicy`, the generated policy. -/
  GetBusinessPolicy : String → Except String Policy
  /-- Function `compcheck.GetNodePolicy`. -/
  GetNodePolicy : String → Except String ExternalPolicy
  /-- Function `exchange.GetExchangeDevice`. -/
  GetExchangeDevice : String → Except String (Option Device)
  /-- Method `ArchSynonyms.GetCanonicalArch`. -/
  GetCanonicalArch : String → String
  /-- Function `externalpolicy.ContainsAllBuiltInNodeProps`. -/
  ContainsAllBuiltInNodeProps : List (String × String) → String → String → Bool
  /-- Function `compcheck.CheckPolicyCompatiblility`. -/
  CheckPolicyCompatiblility : ExternalPolicy → Policy → ExternalPolicy → String → CompatibilityResult
  /-- Function `compcheck.CheckClusterNamespaceCompatibility`. -/
  CheckClusterNamespaceCompatibility : String → String → Bool → String → String → String → NamespaceResult
  /-- Handler `exchange.GetHTTPServiceHandler(b)`. -/
  GetService : String → String → String → String → Except String (Option ServiceDefinition)
  /-- Method `Policy.IsSamePolicy`. -/
  IsSamePolicy : Policy → Option Policy → Bool
  /-- Function `policy.Create_Terms_And_Conditions`. -/
  Create_Terms_And_Conditions : Policy → Policy → Workload → String → Except String Policy
  /-- Value of `time.Now().Unix()`. -/
  now : Nat
  /-- Whether `cph.AgreementProtocolHandler(...)` is not nil. -/
  AgreementProtocolHandlerReady : Bool
  /-- Method `b.GetDeviceMessageEndpoint`: the message endpoint and the public key. -/
  GetDeviceMessageEndpoint : String → Except String (String × String)
  /-- Function `exchange.CreateMessageTarget`, by device id, public key and endpoint. -/
  CreateMessageTarget : String → String → String → Except String String
  /-- The protocol handler's `UpdateAgreement`: the error it returns, if any. -/
  ProtocolUpdateAgreement : String → String → Policy → String → Option String
  /-- Function `GetDevice` of the agreementbot package. -/
  GetDevice : String → Except String (Option Device)
  /-- Function `exchange.GetOrg`. -/
  GetOrg : String → String
  /-- Method `cph.GetTerminationCode`. -/
  GetTerminationCode : String → Nat
  /-- Whether the store answers the call with an error. -/
  dbFault : Call → Bool
  /-- What the other agbots do to the un-partitioned table `ha_workload_upgrade` between
  this handler's query of it and its insert. -/
  otherAgbots : List UpgradingHAGroupWorkload → List UpgradingHAGroupWorkload
  /-- The protocol handler's `ValidateReply`: the proposal reply, or an error. -/
  ValidateReply : String → Except String String
  /-- The protocol handler's `ValidateDataReceivedAck`. -/
  ValidateDataReceivedAck : String → Except String String
  /-- The protocol handler's `ValidateCancel`. -/
  ValidateCancel : String → Except String Cancel
  /-- Method `cph.HandleExtensionMessage`: the error it returns, if any. -/
  HandleExtensionMessage : NewProtocolMessageCommand → Option String
  /-- Method `b.pm.GetPolicy`, by organization and policy name. -/
  GetPolicy : String → String → Option Policy
  /-- Function `cutil.FormOrgSpecUrl`. -/
  FormOrgSpecUrl : String → String → String
  /-- Result of `b.GetCSSURL()`. -/
  GetCSSURL : String

/-- Append one entry to the trace. -/
def World.record (w : World) (c : Call) (o : Outcome) : World :=
  { w with trace := w.trace ++ [{ call := c, outcome := o }] }

/-- Send on `cph.WorkQueue().InboundHigh()`. -/
def World.enqueueHigh (w : World) (work : AgreementWork) : World :=
  { w with inboundHigh := w.inboundHigh ++ [work] }

/-- Send on `cph.WorkQueue().InboundLow()`. -/
def World.enqueueLow (w : World) (work : AgreementWork) : World :=
  { w with inboundLow := w.inboundLow ++ [work] }


/-! ## Agreement store operations -/

/-- Key test of the workload-usage table: one row per `(deviceId, policyName)`. -/
def WorkloadUsage.hasKey (deviceId : String) (policyName : String) (u : WorkloadUsage) : Bool :=
  decide (u.DeviceId = deviceId ∧ u.PolicyName = policyName)

/-- Key test of the HA table: one row per `(org, haGroup, policyName)`. -/
def UpgradingHAGroupWorkload.hasKey (org : String) (haGroup : String) (policyName : String)
    (r : UpgradingHAGroupWorkload) : Bool :=
  decide (r.GroupOrg = org ∧ r.GroupName = haGroup ∧ r.PolicyName = policyName)

/-- Modelled from the spec: `FindSingleWorkloadUsageByDeviceAndPolicyName` of the store is
declared outside this file; it looks up the workload-usage row for
`(deviceId, policyName)`, nil when there is none. -/
def FindSingleWorkloadUsageByDeviceAndPolicyName (env : Env) (deviceId : String)
    (policyName : String) (w : World) : Except String (Option WorkloadUsage) × World :=
  let c := Call.FindSingleWorkloadUsageByDeviceAndPolicyName deviceId policyName
  let r : Except String (Option WorkloadUsage) :=
    if env.dbFault c then .error "database error"
    else .ok (w.db.workloadUsages.find? (WorkloadUsage.hasKey deviceId policyName))
  (r, w.record c (Outcome.ofResult r))

/-- The workload-usage table without the row of `(deviceId, policyName)`. -/
def deleteUsage (deviceId : String) (policyName : String) (rows : List WorkloadUsage) :
    List WorkloadUsage :=
  rows.filter (fun u => !WorkloadUsage.hasKey deviceId policyName u)

/-- The workload-usage table with the row of `(deviceId, policyName)` set to
`pendingUpgrade = true`. -/
def markPending (deviceId : String) (policyName : String) (rows : List WorkloadUsage) :
    List WorkloadUsage :=
  rows.map (fun u =>
    if WorkloadUsage.hasKey deviceId policyName u then { u with PendingUpgrade := true } else u)

/-- Modelled from the spec: `DeleteWorkloadUsage` of the store is declared outside this
file; it deletes the workload-usage row for `(deviceId, policyName)`.  The handler only
logs an error of this call. -/
def DeleteWorkloadUsage (deviceId : String) (policyName : String) (w : World) : World :=
  { w with
    db := { w.db with workloadUsages := deleteUsage deviceId policyName w.db.workloadUsages }
    trace := w.trace ++ [{ call := Call.DeleteWorkloadUsage deviceId policyName, outcome := .ok }] }

/-- Modelled from the spec: `UpdatePendingUpgrade` of the store is declared outside this
file; it sets the workload-usage row of `(deviceId, policyName)` to
`pendingUpgrade = true`.  The handler only logs an error of this call. -/
def UpdatePendingUpgrade (deviceId : String) (policyName : String) (w : World) : World :=
  { w with
    db := { w.db with workloadUsages := markPending deviceId policyName w.db.workloadUsages }
    trace := w.trace ++ [{ call := Call.UpdatePendingUpgrade deviceId policyName, outcome := .ok }] }

/-- Modelled from the spec: `GetHAUpgradingWorkload` of the store is declared outside this
file; it returns the row of `(org, haGroup, policyName)`, nil when there is none. -/
def GetHAUpgradingWorkload (env : Env) (org : String) (haGroup : String) (policyName : String)
    (w : World) : Except String (Option UpgradingHAGroupWorkload) × World :=
  let c := Call.GetHAUpgradingWorkload org haGroup policyName
  let r : Except String (Option UpgradingHAGroupWorkload) :=
    if env.dbFault c then .error "database error"
    else .ok (w.db.haUpgrading.find? (UpgradingHAGroupWorkload.hasKey org haGroup policyName))
  (r, w.record c (Outcome.ofResult r))

/-- Modelled from the spec: the insert-if-absent of the HA table is declared outside this
file; it is atomic and returns the winning deviceId: the node of the row already there for
`(org, haGroup, policyName)`, else `deviceId` after inserting its row. -/
def insertIfAbsent (org : String) (haGroup : String) (policyName : String) (deviceId : String)
    (table : List UpgradingHAGroupWorkload) : String × List UpgradingHAGroupWorkload :=
  match table.find? (UpgradingHAGroupWorkload.hasKey org haGroup policyName) with
  | some r => (r.NodeId, table)
  | none =>
    (deviceId,
      table ++ [{ GroupOrg := org, GroupName := haGroup, PolicyName := policyName, NodeId := deviceId }])

/-- Modelled from the spec: `InsertHAUpgradingWorkloadForGroupAndPolicy` of the store is
declared outside this file; it is the insert-if-absent of the HA table. -/
def InsertHAUpgradingWorkloadForGroupAndPolicy (env : Env) (org : String) (haGroup : String)
    (policyName : String) (deviceId : String) (w : World) : Except String String × World :=
  let c := Call.InsertHAUpgradingWorkloadForGroupAndPolicy org haGroup policyName deviceId
  if env.dbFault c then (.error "database error", w.record c .failed)
  else
    let r := insertIfAbsent org haGroup policyName deviceId w.db.haUpgrading
    (.ok r.1,
      { w with
        db := { w.db with haUpgrading := r.2 }
        trace := w.trace ++ [{ call := c, outcome := .ok }] })

/-- Function `GetDevice` of the agreementbot package, an exchange call. -/
def GetDevice (env : Env) (deviceId : String) (w : World) : Except String (Option Device) × World :=
  let r := env.GetDevice deviceId
  (r, w.record (Call.GetDevice deviceId) (Outcome.ofResult r))

/-- The other agbots act on the un-partitioned HA table. -/
def World.interleave (env : Env) (w : World) : World :=
  { w with db := { w.db with haUpgrading := env.otherAgbots w.db.haUpgrading } }

/-! ## `CancelAgreement` -/

/-- Where `CancelAgreement` stands between two accesses to the HA table. -/
inductive CancelStage where
  | finished
  | query (haGroup : String)
  | claim (haGroup : String)
deriving DecidableEq, Repr

/-- Lines 801-813 of `CancelAgreement`: delete the workload usage and queue the
cancellation. -/
def CancelAgreement.cancelNow (env : Env) (ag : Agreement) (reason : String) (w : World) : World :=
  (DeleteWorkloadUsage ag.DeviceId ag.PolicyName w).enqueueHigh
    (NewCancelAgreement ag.CurrentAgreementId ag.AgreementProtocol (env.GetTerminationCode reason) 0)

/-- Lines 742-765 of `CancelAgreement`: workload-usage lookup, device fetch and the
pending-upgrade mark; a device outside an HA group is cancelled at once. -/
def CancelAgreement.start (env : Env) (ag : Agreement) (reason : String) (policyMatches : Bool)
    (w0 : World) : CancelStage × World :=
  let w := w0.record (Call.CancelAgreement ag.CurrentAgreementId reason policyMatches) .ok
  let found := FindSingleWorkloadUsageByDeviceAndPolicyName env ag.DeviceId ag.PolicyName w
  match found.1 with
  | .error _ => (.finished, CancelAgreement.cancelNow env ag reason found.2)
  | .ok wlUsage =>
    if wlUsage.isSome ∧ policyMatches = true then
      let fetched := GetDevice env ag.DeviceId found.2
      match fetched.1 with
      | .error _ => (.finished, fetched.2)
      | .ok none => (.finished, CancelAgreement.cancelNow env ag reason fetched.2)
      | .ok (some theDev) =>
        if theDev.HAGroup ≠ "" then
          (.query theDev.HAGroup, UpdatePendingUpgrade ag.DeviceId ag.PolicyName fetched.2)
        else (.finished, CancelAgreement.cancelNow env ag reason fetched.2)
    else (.finished, CancelAgreement.cancelNow env ag reason found.2)

/-- Lines 765-775 of `CancelAgreement`: is a workload of the group already upgrading? -/
def CancelAgreement.query (env : Env) (ag : Agreement) (haGroup : String) (w : World) :
    CancelStage × World :=
  let deviceAndGroupOrg := env.GetOrg ag.DeviceId
  let upgrading := GetHAUpgradingWorkload env deviceAndGroupOrg haGroup ag.PolicyName w
  match upgrading.1 with
  | .error _ => (.finished, upgrading.2)
  | .ok (some _) => (.finished, upgrading.2)
  | .ok none => (.claim haGroup, upgrading.2)

/-- Lines 777-797 of `CancelAgreement`: insert-if-absent into the HA table; the winner
deletes its workload usage and queues the cancellation. -/
def CancelAgreement.claim (env : Env) (ag : Agreement) (reason : String) (haGroup : String)
    (w : World) : World :=
  let deviceAndGroupOrg := env.GetOrg ag.DeviceId
  let inserted := InsertHAUpgradingWorkloadForGroupAndPolicy env deviceAndGroupOrg haGroup
    ag.PolicyName ag.DeviceId w
  match inserted.1 with
  | .error _ => inserted.2
  | .ok currentNodeId =>
    if currentNodeId = ag.DeviceId then CancelAgreement.cancelNow env ag reason inserted.2
    else inserted.2

/-- One stage of `CancelAgreement`. -/
def CancelAgreement.step (env : Env) (ag : Agreement) (reason : String) (policyMatches : Bool)
    (stage : Option CancelStage) (w : World) : CancelStage × World :=
  match stage with
  | none => CancelAgreement.start env ag reason policyMatches w
  | some (.query haGroup) => CancelAgreement.query env ag haGroup w
  | some (.claim haGroup) => (.finished, CancelAgreement.claim env ag reason haGroup w)
  | some .finished => (.finished, w)

/-- Method `BaseConsumerProtocolHandler.CancelAgreement` (lines 741-814). -/
def CancelAgreement (env : Env) (ag : Agreement) (reason : String) (policyMatches : Bool)
    (w : World) : World :=
  let started := CancelAgreement.start env ag reason policyMatches w
  match started.1 with
  | .query haGroup =>
    let queried := CancelAgreement.query env ag haGroup started.2
    match queried.1 with
    | .claim g => CancelAgreement.claim env ag reason g (queried.2.interleave env)
    | _ => queried.2
  | _ => started.2

/-- Modelled from the spec: `FindAgreements` of the store is declared outside this file; it
enumerates the agreements of the given protocol handler that pass every filter. -/
def FindAgreements (env : Env) (filters : List (Agreement → Bool)) (protocol : String)
    (w : World) : Except String (List Agreement) × World :=
  let c := Call.FindAgreements protocol
  let r : Except String (List Agreement) :=
    if env.dbFault c then .error "database error"
    else .ok (w.db.agreements.filter
      (fun a => decide (a.AgreementProtocol = protocol) && filters.all (fun f => f a)))
  (r, w.record c (Outcome.ofExcept r))

/-- Modelled from the spec: `FindWorkloadUsages` of the store is declared outside this file;
it enumerates the workload-usage rows that pass every filter. -/
def FindWorkloadUsages (env : Env) (filters : List (WorkloadUsage → Bool)) (w : World) :
    Except String (List WorkloadUsage) × World :=
  let c := Call.FindWorkloadUsages
  let r : Except String (List WorkloadUsage) :=
    if env.dbFault c then .error "database error"
    else .ok (w.db.workloadUsages.filter (fun u => filters.all (fun f => f u)))
  (r, w.record c (Outcome.ofExcept r))

/-- Modelled from the spec: `persistence.UnarchivedAFilter` is declared outside this file;
it keeps the un-archived agreements. -/
def UnarchivedAFilter : Agreement → Bool :=
  fun a => !a.Archived

/-- The filter `InProgress` that each handler declares. -/
def InProgress : Agreement → Bool :=
  fun e => decide (e.AgreementCreationTime ≠ 0 ∧ e.AgreementTimedout = 0)

/-- Modelled from the spec: `persistence.PNoAWUFilter` is declared outside this file; it
keeps the workload-usage rows with the given policy name that have no agreement id
associated. -/
def PNoAWUFilter (policyName : String) : WorkloadUsage → Bool :=
  fun u => decide (u.PolicyName = policyName ∧ u.CurrentAgreementId = "")

/-- The filter `AgNotKept` of `HandlePolicyChanged`, with `cutil.SliceContains`. -/
def AgNotKept (validAgs : List String) : WorkloadUsage → Bool :=
  fun u => !validAgs.contains u.CurrentAgreementId

/-! ## Workload priorities -/

/-- Modelled from the spec: `policy.GetWorkloadWithPriority` is declared outside this file;
it is the workload in the list with the given priority, nil when there is none. -/
def GetWorkloadWithPriority (workloads : List Workload) (priority : Int) : Option Workload :=
  workloads.find? (fun wl => decide (wl.Priority.PriorityValue = priority))

/-- Modelled from the spec: `policy.GetNextWorkloadChoice` is declared outside this file;
the walk over the workloads is in priority order, so the next choice after
`currentPriority` is the workload with the least priority value above it (the first such
in the list), nil when there is none. -/
def GetNextWorkloadChoice : List Workload → Int → Option Workload
  | [], _ => none
  | wl :: rest, currentPriority =>
    match GetNextWorkloadChoice rest currentPriority with
    | none => if currentPriority < wl.Priority.PriorityValue then some wl else none
    | some best =>
      if currentPriority < wl.Priority.PriorityValue ∧
          wl.Priority.PriorityValue ≤ best.Priority.PriorityValue then some wl
      else some best

/-- Modelled from the spec: `Workload.IsSame` is declared outside this file; two workloads
are the same when they are identical. -/
def Workload.IsSame (w : Workload) (compare : Workload) : Bool :=
  decide (w = compare)

/-! ## `HandlePolicyChangeForAgreement` -/

/-- Lines 401-413: fetch the service definition and the merged service policy of every
service of the agreement and merge them; `none` stands for the early return
`false, false, false`. -/
def HandlePolicyChangeForAgreement.mergeServicePolicies (env : Env) :
    List String → ExternalPolicy → World → Option ExternalPolicy × World
  | [], svcAllPol, w => (some svcAllPol, w)
  | svcId :: rest, svcAllPol, w =>
    let r := env.GetServiceWithId svcId
    let w1 := w.record (Call.GetServiceWithId svcId) (Outcome.ofResult r)
    match r with
    | .error _ => (none, w1)
    | .ok none => mergeServicePolicies env rest svcAllPol w1
    | .ok (some svcDef) =>
      let p := env.GetServicePolicyWithDefaultProperties svcDef.URL (env.GetOrg svcId)
        svcDef.Version svcDef.Arch
      let w2 := w1.record (Call.GetServicePolicyWithDefaultProperties svcId) (Outcome.ofResult p)
      match p with
      | .error _ => (none, w2)
      | .ok none => mergeServicePolicies env rest svcAllPol w2
      | .ok (some mergedSvcPol) =>
        mergeServicePolicies env rest (env.MergeWith svcAllPol mergedSvcPol) w2

/-- Lines 496-504: the loop over the workloads of the new policy; `true` stands for the
return `true, false, false` inside the loop.  Every iteration moves to a workload of a
greater priority value, so the number of workloads plus one is enough fuel. -/
def HandlePolicyChangeForAgreement.priorityWalk (busWorkloads : List Workload)
    (oldWorkloads : List Workload) (wlUsagePriority : Int) : Nat → Int → Option Workload → Bool
  | 0, _, _ => false
  | fuel + 1, choice, nextPriority =>
    match nextPriority with
    | none => false
    | some np =>
      if choice ≤ wlUsagePriority then
        let choice1 := np.Priority.PriorityValue
        match GetWorkloadWithPriority oldWorkloads choice1 with
        | none => true
        | some matchingWL =>
          if !matchingWL.IsSame np then true
          else priorityWalk busWorkloads oldWorkloads wlUsagePriority fuel choice1
            (GetNextWorkloadChoice busWorkloads choice1)
      else false

/-- Method `BaseConsumerProtocolHandler.UpdateAgreement` (lines 949-961); every error is
logged there and nothing is returned. -/
def UpdateAgreement (env : Env) (ag : Agreement) (updateType : String) (metadata : Policy)
    (w : World) : World :=
  let c := Call.UpdateAgreement ag updateType metadata
  if !env.AgreementProtocolHandlerReady then w.record c .missing
  else
    match env.GetDeviceMessageEndpoint ag.DeviceId with
    | .error _ => w.record c .failed
    | .ok (whisperTo, pubkeyTo) =>
      match env.CreateMessageTarget ag.DeviceId pubkeyTo whisperTo with
      | .error _ => w.record c .failed
      | .ok mt =>
        match env.ProtocolUpdateAgreement ag.CurrentAgreementId updateType metadata mt with
        | some _ => w.record c .failed
        | none => w.record c .ok

/-- Outcome of a call by the error it returns, if any. -/
def Outcome.ofError : Option String → Outcome
  | some _ => .failed
  | none => .ok

/-- Lines 442-445: the canonical arch of the node, its own arch when there is no synonym. -/
def HandlePolicyChangeForAgreement.nodeArch (env : Env) (dev : Device) : String :=
  if env.GetCanonicalArch dev.Arch ≠ "" then env.GetCanonicalArch dev.Arch else dev.Arch

/-- Lines 447-450: the agent software version of the node, `0.0.0` when absent. -/
def HandlePolicyChangeForAgreement.swVers (dev : Device) : String :=
  (dev.SoftwareVersions.lookup AGENT_VERSION).getD "0.0.0"

/-- Lines 481-485: the priority of the workload usage, 0 when there is no row. -/
def HandlePolicyChangeForAgreement.wlUsagePriority : Option WorkloadUsage → Int
  | some wlUsage => wlUsage.Priority
  | none => 0

/-- Lines 528-530: a workload without arch takes the arch of the node. -/
def HandlePolicyChangeForAgreement.fillArch (wl : Workload) (nodeArch : String) : Workload :=
  if wl.Arch = "" ∨ wl.Arch = "*" then { wl with Arch := nodeArch } else wl

/-- Lines 540-546: the workload with the deployment strings of the service definition. -/
def HandlePolicyChangeForAgreement.fillDeployment (dev : Device) (svcDef : ServiceDefinition)
    (wl : Workload) : Workload :=
  if dev.NodeType = DEVICE_TYPE_CLUSTER then
    { wl with ClusterDeployment := svcDef.ClusterDeploymentString
              ClusterDeploymentSignature := svcDef.ClusterDeploymentSignature }
  else
    { wl with Deployment := svcDef.DeploymentString
              DeploymentSignature := svcDef.DeploymentSignature }

/-- Lines 528-568: fill in the chosen workload, compare the new consumer policy with the
old one and send the update. -/
def HandlePolicyChangeForAgreement.update (env : Env) (ag : Agreement) (oldPolicy : Option Policy)
    (producerPol : Policy) (consumerPol : Policy) (dev : Device) (nodeArch : String)
    (wl0 : Workload) (w : World) : (Bool × Bool × Bool) × World :=
  let wl := fillArch wl0 nodeArch
  let r := env.GetService wl.WorkloadURL wl.Org wl.Version wl.Arch
  let w1 := w.record (Call.GetService wl.WorkloadURL wl.Org wl.Version wl.Arch) (Outcome.ofResult r)
  match r with
  | .error _ => ((false, false, false), w1)
  | .ok none => ((false, false, false), w1)
  | .ok (some svcDef) =>
    let wl1 := fillDeployment dev svcDef wl
    if env.IsSamePolicy consumerPol oldPolicy then ((true, true, true), w1)
    else
      let t := env.Create_Terms_And_Conditions producerPol consumerPol wl1 ag.CurrentAgreementId
      let w2 := w1.record Call.Create_Terms_And_Conditions (Outcome.ofExcept t)
      match t with
      | .error _ => ((false, false, false), w2)
      | .ok newTsCs =>
        let ag1 := { ag with LastPolicyUpdateTime := env.now }
        ((true, true, true), UpdateAgreement env ag1 MsgUpdateTypePolicyChange newTsCs w2)

/-- Lines 495-526 and the call of lines 528-568: with an old policy, the walk over the
priorities of the new policy and the cluster namespace analysis; then the update. -/
def HandlePolicyChangeForAgreement.analyse (env : Env) (ag : Agreement) (oldPolicy : Option Policy)
    (busPol : Policy) (cr : CompatibilityResult) (dev : Device) (nodeArch : String)
    (wlUsagePriority : Int) (wl : Workload) (w2 : World) : (Bool × Bool × Bool) × World :=
  let choice : Int := -1
  let nextPriority := GetNextWorkloadChoice busPol.Workloads choice
  match oldPolicy with
  | none => update env ag oldPolicy cr.producerPol cr.consumerPol dev nodeArch wl w2
  | some old =>
    if priorityWalk busPol.Workloads old.Workloads wlUsagePriority
        (busPol.Workloads.length + 1) choice nextPriority then
      ((true, false, false), w2)
    else if dev.NodeType = DEVICE_TYPE_CLUSTER ∧
        busPol.ClusterNamespace ≠ old.ClusterNamespace then
      let ns := env.CheckClusterNamespaceCompatibility dev.NodeType dev.ClusterNamespace
        dev.IsNamespaceScoped busPol.ClusterNamespace wl.ClusterDeployment ag.Pattern
      let w3 := w2.record Call.CheckClusterNamespaceCompatibility .ok
      if !ns.compatible then ((true, true, false), w3)
      else if ns.consumerNamespace ≠ old.ClusterNamespace then ((true, true, false), w3)
      else update env ag oldPolicy cr.producerPol cr.consumerPol dev nodeArch wl w3
    else update env ag oldPolicy cr.producerPol cr.consumerPol dev nodeArch wl w2

/-- Lines 442-493: built-in properties, compatibility check, finalization and the current
workload, once the policies and the device are at hand; then the analysis. -/
def HandlePolicyChangeForAgreement.evaluate (env : Env) (ag : Agreement) (oldPolicy : Option Policy)
    (svcAllPol : ExternalPolicy) (busPol : Policy) (nodePol : ExternalPolicy) (dev : Device)
    (w : World) : (Bool × Bool × Bool) × World :=
  let nodeArch := nodeArch env dev
  if !env.ContainsAllBuiltInNodeProps nodePol.Properties (swVers dev) dev.GetNodeType then
    ((true, true, true), w)
  else
    let cr := env.CheckPolicyCompatiblility nodePol busPol svcAllPol nodeArch
    let w1 := w.record Call.CheckPolicyCompatiblility (Outcome.ofError cr.err)
    if !cr.compatible then ((false, true, false), w1)
    else if ag.AgreementFinalizedTime = 0 then ((true, true, true), w1)
    else
      let found := FindSingleWorkloadUsageByDeviceAndPolicyName env ag.DeviceId ag.PolicyName w1
      let w2 := found.2
      match found.1 with
      | .error _ => ((false, false, false), w2)
      | .ok wlUsage =>
        match GetWorkloadWithPriority busPol.Workloads (wlUsagePriority wlUsage) with
        | none => ((true, false, false), w2)
        | some wl =>
          analyse env ag oldPolicy busPol cr dev nodeArch (wlUsagePriority wlUsage) wl w2

/-- Method `BaseConsumerProtocolHandler.HandlePolicyChangeForAgreement` (lines 390-568):
the triple `(policyMatches, noNewPriority, clusterNSNotChange)`. -/
def HandlePolicyChangeForAgreement (env : Env) (ag : Agreement) (oldPolicy : Option Policy)
    (w : World) : (Bool × Bool × Bool) × World :=
  let merged := HandlePolicyChangeForAgreement.mergeServicePolicies env ag.ServiceId
      { Properties := [], Constraints := [] } w
  match merged.1 with
  | none => ((false, false, false), merged.2)
  | some svcAllPol =>
    let busRes := env.GetBusinessPolicy ag.PolicyName
    let w2 := merged.2.record (Call.GetBusinessPolicy ag.PolicyName) (Outcome.ofExcept busRes)
    match busRes with
    | .error _ => ((false, false, false), w2)
    | .ok busPol =>
      let nodeRes := env.GetNodePolicy ag.DeviceId
      let w3 := w2.record (Call.GetNodePolicy ag.DeviceId) (Outcome.ofExcept nodeRes)
      match nodeRes with
      | .error _ => ((false, false, false), w3)
      | .ok nodePol =>
        let devRes := env.GetExchangeDevice ag.DeviceId
        let w4 := w3.record (Call.GetExchangeDevice ag.DeviceId) (Outcome.ofResult devRes)
        match devRes with
        | .error _ => ((false, false, false), w4)
        | .ok none => ((false, false, false), w4)
        | .ok (some dev) =>
          HandlePolicyChangeForAgreement.evaluate env ag oldPolicy svcAllPol busPol nodePol dev w4

/-! ## `HandlePolicyChanged` -/

/-- Lines 311-358: the body of the loop of `HandlePolicyChanged` over the agreements found,
on the world and the list `stillValidAgs`. -/
def HandlePolicyChanged.body (env : Env) (cmd : PolicyChangedCommand) (eventPol : Policy)
    (acc : World × List String) (ag : Agreement) : World × List String :=
  match env.DemarshalPolicy ag.Policy with
  | .error _ => acc
  | .ok pol =>
    if eventPol.Header.Name ≠ pol.Header.Name then acc
    else
      match env.MatchesMine cmd.Org pol with
      | none => acc
      | some _ =>
        let r : (Bool × Bool × Bool) × World :=
          if ag.Pattern = "" then HandlePolicyChangeForAgreement env ag (some pol) acc.1
          else ((true, false, true), acc.1)
        let policyMatches := r.1.1
        let noNewPriority := r.1.2.1
        let clusterNSNotChange := r.1.2.2
        let agStillValid :=
          if ag.Pattern = "" then
            if ag.GetDeviceType = DEVICE_TYPE_CLUSTER then
              (policyMatches && noNewPriority) && clusterNSNotChange
            else policyMatches && noNewPriority
          else false
        if !agStillValid then
          (CancelAgreement env ag TERM_REASON_POLICY_CHANGED policyMatches r.2, acc.2)
        else (r.2, acc.2 ++ [ag.CurrentAgreementId])

/-- Method `BaseConsumerProtocolHandler.HandlePolicyChanged` (lines 293-384). -/
def HandlePolicyChanged (env : Env) (cmd : PolicyChangedCommand) (w : World) : World :=
  match env.DemarshalPolicy cmd.PolicyString with
  | .error _ => w
  | .ok eventPol =>
    let found := FindAgreements env [UnarchivedAFilter, InProgress] env.Name w
    let scanned : World × List String :=
      match found.1 with
      | .ok agreements =>
        agreements.foldl (HandlePolicyChanged.body env cmd eventPol) (found.2, [])
      | .error _ => (found.2, [])
    let usages := FindWorkloadUsages env
      [PNoAWUFilter eventPol.Header.Name, AgNotKept scanned.2] scanned.1
    match usages.1 with
    | .error _ => usages.2
    | .ok wlu_array =>
      wlu_array.foldl (fun acc wlu => DeleteWorkloadUsage wlu.DeviceId wlu.PolicyName acc) usages.2

/-! ## `DispatchProtocolMessage` -/

/-- Constructor `NewHandleReply` of the reply work item. -/
def NewHandleReply (reply : String) (sender : String) (pubKey : String) (messageId : Int) :
    AgreementWork :=
  AgreementWork.HandleReply reply sender pubKey messageId

/-- Constructor `NewHandleDataReceivedAck` of the acknowledgement work item. -/
def NewHandleDataReceivedAck (ack : String) (sender : String) (pubKey : String)
    (messageId : Int) : AgreementWork :=
  AgreementWork.HandleDataReceivedAck ack sender pubKey messageId

/-- The log prefix `BCPHlogstring` (lines 1075-1077). -/
def BCPHlogstring (p : String) (v : String) : String :=
  "Base Consumer Protocol Handler (" ++ p ++ ") " ++ v

/-- Modelled from the spec: `FindSingleAgreementByAgreementId` of the store is declared
outside this file; it looks the agreement up by its id and protocol among those that pass
every filter, nil when there is none. -/
def FindSingleAgreementByAgreementId (env : Env) (agreementId : String) (protocol : String)
    (filters : List (Agreement → Bool)) (w : World) : Except String (Option Agreement) × World :=
  let c := Call.FindSingleAgreementByAgreementId agreementId protocol
  let r : Except String (Option Agreement) :=
    if env.dbFault c then .error "database error"
    else .ok (w.db.agreements.find? (fun a =>
      decide (a.CurrentAgreementId = agreementId ∧ a.AgreementProtocol = protocol) &&
        filters.all (fun f => f a)))
  (r, w.record c (Outcome.ofResult r))

/-- Method `BaseConsumerProtocolHandler.HandleExtensionMessage` (lines 1027-1029): the base
handler accepts every message. -/
def HandleExtensionMessage (_cmd : NewProtocolMessageCommand) : Option String :=
  none

/-- Method `BaseConsumerProtocolHandler.DispatchProtocolMessage` (lines 234-278): the error
it returns, if any, and the world it leaves. -/
def DispatchProtocolMessage (env : Env) (cmd : NewProtocolMessageCommand) (w : World) :
    Option String × World :=
  match env.ValidateReply cmd.Message with
  | .ok reply => (none, w.enqueueHigh (NewHandleReply reply cmd.From cmd.PubKey cmd.MessageId))
  | .error _ =>
    match env.ValidateDataReceivedAck cmd.Message with
    | .ok _ =>
      (none, w.enqueueHigh
        (NewHandleDataReceivedAck cmd.Message cmd.From cmd.PubKey cmd.MessageId))
    | .error _ =>
      match env.ValidateCancel cmd.Message with
      | .ok can =>
        let found := FindSingleAgreementByAgreementId env can.AgreementId can.Protocol [] w
        match found.1 with
        | .error _ => (none, found.2)
        | .ok none => (none, found.2)
        | .ok (some ag) =>
          if ag.DeviceId ≠ cmd.From then (none, found.2)
          else
            (none, found.2.enqueueHigh
              (NewCancelAgreement can.AgreementId can.Protocol can.Reason cmd.MessageId))
      | .error _ =>
        match env.HandleExtensionMessage cmd with
        | none => (none, w)
        | some _ =>
          (some (BCPHlogstring env.Name ("unexpected protocol msg " ++ cmd.Message)), w)

/-! ## The other policy handlers -/

/-- Lines 577-593 of `HandlePolicyDeleted`: delete the workload usages of the deleted policy
name that have no agreement id associated. -/
def HandlePolicyDeleted.usages (env : Env) (cmd : PolicyDeletedCommand) (w : World) : World :=
  match env.DemarshalPolicy cmd.PolicyString with
  | .error _ => w
  | .ok eventPol =>
    let usages := FindWorkloadUsages env [PNoAWUFilter eventPol.Header.Name] w
    match usages.1 with
    | .error _ => usages.2
    | .ok wlu_array =>
      wlu_array.foldl (fun acc wlu => DeleteWorkloadUsage wlu.DeviceId wlu.PolicyName acc) usages.2

/-- Lines 600-619: the body of the loop of `HandlePolicyDeleted` over the agreements found. -/
def HandlePolicyDeleted.body (env : Env) (cmd : PolicyDeletedCommand) (w : World)
    (ag : Agreement) : World :=
  match env.DemarshalPolicy ag.Policy with
  | .error _ => w
  | .ok pol =>
    if cmd.Org = ag.Org then
      match env.GetPolicy cmd.Org pol.Header.Name with
      | none =>
        (DeleteWorkloadUsage ag.DeviceId ag.PolicyName w).enqueueHigh
          (NewCancelAgreement ag.CurrentAgreementId ag.AgreementProtocol
            (env.GetTerminationCode TERM_REASON_POLICY_CHANGED) 0)
      | some _ => w
    else w

/-- Method `BaseConsumerProtocolHandler.HandlePolicyDeleted` (lines 570-623). -/
def HandlePolicyDeleted (env : Env) (cmd : PolicyDeletedCommand) (w : World) : World :=
  let w1 := HandlePolicyDeleted.usages env cmd w
  let found := FindAgreements env [UnarchivedAFilter, InProgress] env.Name w1
  match found.1 with
  | .ok agreements => agreements.foldl (HandlePolicyDeleted.body env cmd) found.2
  | .error _ => found.2

/-- The test of lines 637 and 690, `ag.Pattern == "" && ag.PolicyName == ... &&
ag.ServiceId[0] == ...`, evaluated from the left; `none` is the run-time panic of indexing
an empty `ServiceId`. -/
def inServicePolicyScope (businessPolOrg : String) (businessPolName : String)
    (serviceId : String) (ag : Agreement) : Option Bool :=
  if ag.Pattern = "" ∧ ag.PolicyName = businessPolOrg ++ "/" ++ businessPolName then
    match ag.ServiceId with
    | [] => none
    | first :: _ => some (decide (first = serviceId))
  else some false

/-- A `for ... range` loop over the agreements found whose body may panic: the world
reached, and whether the loop ended in a panic. -/
def rangeAgreements (body : World → Agreement → Option World) :
    List Agreement → World → World × Bool
  | [], w => (w, false)
  | ag :: rest, w =>
    match body w ag with
    | none => (w, true)
    | some w1 => rangeAgreements body rest w1

/-- Lines 637-644: the body of the loop of `HandleServicePolicyChanged`. -/
def HandleServicePolicyChanged.body (env : Env) (cmd : ServicePolicyChangedCommand) (w : World)
    (ag : Agreement) : Option World :=
  match inServicePolicyScope cmd.BusinessPolOrg cmd.BusinessPolName cmd.ServiceId ag with
  | none => none
  | some false => some w
  | some true =>
    let r := HandlePolicyChangeForAgreement env ag none w
    let policyMatches := r.1.1
    let noNewPriority := r.1.2.1
    let agStillValid := policyMatches && noNewPriority
    if !agStillValid then
      some (CancelAgreement env ag TERM_REASON_POLICY_CHANGED policyMatches r.2)
    else some r.2

/-- Method `BaseConsumerProtocolHandler.HandleServicePolicyChanged` (lines 625-649). -/
def HandleServicePolicyChanged (env : Env) (cmd : ServicePolicyChangedCommand) (w : World) :
    World × Bool :=
  let found := FindAgreements env [UnarchivedAFilter, InProgress] env.Name w
  match found.1 with
  | .ok agreements => rangeAgreements (HandleServicePolicyChanged.body env cmd) agreements found.2
  | .error _ => (found.2, false)

/-- Modelled from the spec: `AgreementHandleMMSObjectPolicy` is declared outside this file;
it walks each service of the agreement, fetches its object policy and adds or removes the
device as a destination in the object store.  The agreement store and the work queue are
not involved; the call is entered in the trace. -/
def AgreementHandleMMSObjectPolicy (agreement : Agreement) (w : World) : World :=
  w.record (Call.AgreementHandleMMSObjectPolicy agreement.CurrentAgreementId) .ok

/-- Method `BaseConsumerProtocolHandler.HandlePolicyChangeForMMSObject` (lines 723-735). -/
def HandlePolicyChangeForMMSObject (env : Env) (agreement : Agreement) (w : World) : World :=
  if agreement.GetDeviceType = DEVICE_TYPE_DEVICE then
    if env.GetCSSURL ≠ "" ∧ agreement.Pattern = "" then AgreementHandleMMSObjectPolicy agreement w
    else w
  else w

/-- Lines 662-672: the body of the loop of `HandleNodePolicyChanged`. -/
def HandleNodePolicyChanged.body (env : Env) (cmd : NodePolicyChangedCommand) (w : World)
    (ag : Agreement) : World :=
  if ag.Pattern = "" ∧ ag.DeviceId = env.FormOrgSpecUrl cmd.NodeId cmd.NodePolOrg then
    let r := HandlePolicyChangeForAgreement env ag none w
    let policyMatches := r.1.1
    let noNewPriority := r.1.2.1
    let agStillValid := policyMatches && noNewPriority
    if !agStillValid then CancelAgreement env ag TERM_REASON_POLICY_CHANGED policyMatches r.2
    else HandlePolicyChangeForMMSObject env ag r.2
  else w

/-- Method `BaseConsumerProtocolHandler.HandleNodePolicyChanged` (lines 651-677). -/
def HandleNodePolicyChanged (env : Env) (cmd : NodePolicyChangedCommand) (w : World) : World :=
  let found := FindAgreements env [UnarchivedAFilter, InProgress] env.Name w
  match found.1 with
  | .ok agreements => agreements.foldl (HandleNodePolicyChanged.body env cmd) found.2
  | .error _ => found.2

/-- Lines 690-702: the body of the loop of `HandleServicePolicyDeleted`. -/
def HandleServicePolicyDeleted.body (env : Env) (cmd : ServicePolicyDeletedCommand) (w : World)
    (ag : Agreement) : Option World :=
  match inServicePolicyScope cmd.BusinessPolOrg cmd.BusinessPolName cmd.ServiceId ag with
  | none => none
  | some false => some w
  | some true =>
    some ((DeleteWorkloadUsage ag.DeviceId ag.PolicyName w).enqueueHigh
      (NewCancelAgreement ag.CurrentAgreementId ag.AgreementProtocol
        (env.GetTerminationCode TERM_REASON_POLICY_CHANGED) 0))

/-- Method `BaseConsumerProtocolHandler.HandleServicePolicyDeleted` (lines 679-707). -/
def HandleServicePolicyDeleted (env : Env) (cmd : ServicePolicyDeletedCommand) (w : World) :
    World × Bool :=
  let found := FindAgreements env [UnarchivedAFilter, InProgress] env.Name w
  match found.1 with
  | .ok agreements => rangeAgreements (HandleServicePolicyDeleted.body env cmd) agreements found.2
  | .error _ => (found.2, false)

/-! ## Concrete scenarios -/

namespace Scenario

/-- A workload with the given priority and version. -/
def workload (prio : Int) (v : String) : Workload :=
  { Deployment := "", DeploymentSignature := "", ClusterDeployment := "",
    ClusterDeploymentSignature := "", Priority := { PriorityValue := prio },
    WorkloadURL := "svc", Org := "org1", Version := v, Arch := "amd64" }

/-- A policy named `org1/pol` with the given workloads and cluster namespace. -/
def policy (wls : List Workload) (ns : String) : Policy :=
  { Header := { Name := "org1/pol" }, PatternId := "", Workloads := wls, ClusterNamespace := ns }

/-- A node of the exchange in the given HA group. -/
def device (haGroup : String) (nodeType : String) : Device :=
  { PublicKey := "key", MsgEndPoint := "", MaxInterval := 0, Arch := "amd64",
    SoftwareVersions := [("horizon", "2.30.0")], HAGroup := haGroup, NodeType := nodeType,
    ClusterNamespace := "", IsNamespaceScoped := false }

/-- The service definition every fetch answers with. -/
def service : ServiceDefinition :=
  { URL := "svc", Version := "1.0", Arch := "amd64", DeploymentString := "deploy",
    DeploymentSignature := "sig", ClusterDeploymentString := "", ClusterDeploymentSignature := "" }

/-- A finalized, policy-based agreement `A1` with device `org1/D1`; its stored policy is
the string `old`. -/
def agreement : Agreement :=
  { CurrentAgreementId := "A1", Org := "org1", DeviceId := "org1/D1", DeviceType := "device",
    AgreementProtocol := "Basic", AgreementCreationTime := 100, AgreementFinalizedTime := 200,
    AgreementTimedout := 0, Policy := "old", PolicyName := "org1/pol", CounterPartyAddress := "D1",
    LastPolicyUpdateTime := 0, Pattern := "", ServiceId := ["org1/svc_1.0_amd64"],
    Archived := false }

/-- An environment in which every fetch succeeds: the stored policy `old` demarshals to
`oldPol`, the exchange holds the business policy `busPol` and the node is in `haGroup`. -/
def env (oldPol : Policy) (busPol : Policy) (haGroup : String) : Env :=
  { Name := "Basic"
    DemarshalPolicy := fun s =>
      if s = "old" then .ok oldPol else if s = "new" then .ok busPol else .error "bad policy"
    MatchesMine := fun _ _ => some "policy differs"
    GetServiceWithId := fun _ => .ok (some service)
    GetServicePolicyWithDefaultProperties := fun _ _ _ _ => .ok (some { Properties := [], Constraints := [] })
    MergeWith := fun a b => { Properties := a.Properties ++ b.Properties,
                              Constraints := a.Constraints ++ b.Constraints }
    GetBusinessPolicy := fun _ => .ok busPol
    GetNodePolicy := fun _ => .ok { Properties := [], Constraints := [] }
    GetExchangeDevice := fun _ => .ok (some (device haGroup "device"))
    GetCanonicalArch := fun _ => ""
    ContainsAllBuiltInNodeProps := fun _ _ _ => true
    CheckPolicyCompatiblility := fun _ bp _ _ =>
      { compatible := true, reason := "", producerPol := bp, consumerPol := bp, err := none }
    CheckClusterNamespaceCompatibility := fun _ _ _ ns _ _ =>
      { compatible := true, consumerNamespace := ns, reason := "" }
    GetService := fun _ _ _ _ => .ok (some service)
    IsSamePolicy := fun p old => decide (some p = old)
    Create_Terms_And_Conditions := fun _ c _ _ => .ok c
    now := 300
    AgreementProtocolHandlerReady := true
    GetDeviceMessageEndpoint := fun _ => .ok ("", "key")
    CreateMessageTarget := fun d _ _ => .ok d
    ProtocolUpdateAgreement := fun _ _ _ _ => none
    GetDevice := fun _ => .ok (some (device haGroup "device"))
    GetOrg := fun _ => "org1"
    GetTerminationCode := fun _ => 200
    dbFault := fun _ => false
    otherAgbots := fun t => t
    ValidateReply := fun _ => .error "not a reply"
    ValidateDataReceivedAck := fun _ => .error "not an acknowledgement"
    ValidateCancel := fun m =>
      if m = "cancel A1" then .ok { AgreementId := "A1", Protocol := "Basic", Reason := 201 }
      else .error "not a cancel"
    HandleExtensionMessage := fun _ => none
    GetPolicy := fun _ _ => none
    FormOrgSpecUrl := fun id org => org ++ "/" ++ id
    GetCSSURL := "https://css" }

/-- A store with the agreement `A1` and its workload usage at the given priority. -/
def world (prio : Int) : World :=
  { db := { agreements := [agreement]
            workloadUsages := [{ DeviceId := "org1/D1", PolicyName := "org1/pol",
                                 CurrentAgreementId := "A1", Priority := prio,
                                 PendingUpgrade := false }]
            haUpgrading := [] }
    inboundHigh := [], inboundLow := [], trace := [] }

end Scenario

namespace Scenario

/-- The scenario in which another agbot takes the upgrade slot of group `g1` for node
`org1/D2` between this handler's query and its insert. -/
def raceEnv : Env :=
  { env (policy [] "") (policy [] "") "g1" with
    otherAgbots := fun t => (insertIfAbsent "org1" "g1" "org1/pol" "org1/D2" t).2 }

end Scenario

/-! ## Reading the trace -/

/-- Calls that read or write the HA table. -/
def Call.isHAUpgrading : Call → Bool
  | .GetHAUpgradingWorkload _ _ _ => true
  | .InsertHAUpgradingWorkloadForGroupAndPolicy _ _ _ _ => true
  | _ => false

/-- Calls of the insert-if-absent of the HA table. -/
def Call.isInsert : Call → Bool
  | .InsertHAUpgradingWorkloadForGroupAndPolicy _ _ _ _ => true
  | _ => false

/-- Calls of `CancelAgreement`. -/
def Call.isCancel : Call → Bool
  | .CancelAgreement _ _ _ => true
  | _ => false

/-- The entries a run added to the trace of the world it started from. -/
def World.newSteps (before : World) (after : World) : List Step :=
  after.trace.drop before.trace.length

/-- Calls that `HandlePolicyChangeForAgreement` makes. -/
def Call.isEvaluation : Call → Bool
  | .GetServiceWithId _ => true
  | .GetServicePolicyWithDefaultProperties _ => true
  | .GetBusinessPolicy _ => true
  | .GetNodePolicy _ => true
  | .GetExchangeDevice _ => true
  | .CheckPolicyCompatiblility => true
  | .CheckClusterNamespaceCompatibility => true
  | .GetService _ _ _ _ => true
  | .Create_Terms_And_Conditions => true
  | .UpdateAgreement _ _ _ => true
  | .FindSingleWorkloadUsageByDeviceAndPolicyName _ _ => true
  | _ => false

/-- The world `w` is `w0` with further trace entries, all satisfying `p`: store and queues
are those of `w0`. -/
def World.readOnlyFrom (w : World) (p : Step → Bool) (w0 : World) : Prop :=
  w.db = w0.db ∧ w.inboundHigh = w0.inboundHigh ∧ w.inboundLow = w0.inboundLow ∧
    ∃ steps, w.trace = w0.trace ++ steps ∧ ∀ s ∈ steps, p s = true

/-- Entries of the trace that are calls of the evaluation. -/
def evaluationStep (s : Step) : Bool := s.call.isEvaluation

/-- The world `w` has the trace of `w0` followed by entries that all satisfy `p`. -/
def World.tracedFrom (w : World) (p : Step → Bool) (w0 : World) : Prop :=
  ∃ steps, w.trace = w0.trace ++ steps ∧ ∀ s ∈ steps, p s = true

/-- Entries of the trace other than the entry of `CancelAgreement`. -/
def insideCancel (s : Step) : Bool := !s.call.isCancel

/-- The calls of `CancelAgreement` among the entries. -/
def cancelCalls (steps : List Step) : List Step :=
  steps.filter (fun s => s.call.isCancel)

namespace Scenario

/-- The policy of the scenarios with one workload of priority 2. -/
def pol2 : Policy := policy [workload 2 "1.0"] ""

/-- The agreement `A1` as a pattern-based agreement. -/
def patternAgreement : Agreement := { agreement with Pattern := "org1/pat" }

/-- The `PolicyChanged` command for the policy `org1/pol`. -/
def policyChanged : PolicyChangedCommand := { Org := "org1", PolicyString := "new" }

end Scenario

/-- Entries after which `HandlePolicyChangeForAgreement` returns `false, false, false`: a
fetch or lookup that failed, a device or a workload service that is missing, terms and
conditions that could not be built. -/
def Step.isFatal (s : Step) : Bool :=
  match s.call, s.outcome with
  | .GetServiceWithId _, .failed => true
  | .GetServicePolicyWithDefaultProperties _, .failed => true
  | .GetBusinessPolicy _, .failed => true
  | .GetNodePolicy _, .failed => true
  | .GetExchangeDevice _, .failed => true
  | .GetExchangeDevice _, .missing => true
  | .FindSingleWorkloadUsageByDeviceAndPolicyName _ _, .failed => true
  | .GetService _ _ _ _, .failed => true
  | .GetService _ _ _ _, .missing => true
  | .Create_Terms_And_Conditions, .failed => true
  | _, _ => false

/-- Entries that are not fatal. -/
def harmless (s : Step) : Bool := !s.isFatal

/-- A result of the evaluation other than `false, false, false` comes with a trace that
continues the one of `w0` by harmless entries only. -/
def harmlessUnlessFailed (w0 : World) (res : (Bool × Bool × Bool) × World) : Prop :=
  res.1 ≠ (false, false, false) → res.2.tracedFrom harmless w0

/-- Calls of `UpdateAgreement`, the dispatch of an agreement update. -/
def Call.isUpdate : Call → Bool
  | .UpdateAgreement _ _ _ => true
  | _ => false

/-- Entries other than the dispatch of an agreement update. -/
def beforeUpdate (s : Step) : Bool := !s.call.isUpdate

/-- A result of the evaluation other than `true, true, true` comes with a trace that
continues the one of `w0` without any dispatch of an agreement update. -/
def updatedOnlyIfKept (w0 : World) (res : (Bool × Bool × Bool) × World) : Prop :=
  res.1 ≠ (true, true, true) → res.2.tracedFrom beforeUpdate w0

namespace Scenario

/-- The policy `pol2` with another cluster namespace. -/
def pol2ns : Policy := policy [workload 2 "1.0"] "ns1"

/-- The scenario in which the business policy differs from the stored one and the protocol
handler fails to send the agreement update. -/
def failingUpdateEnv : Env :=
  { env pol2 pol2ns "" with ProtocolUpdateAgreement := fun _ _ _ _ => some "send failed" }

/-- The scenario in which the exchange fails to return the business policy. -/
def noBusinessPolicyEnv : Env :=
  { env pol2 pol2 "" with GetBusinessPolicy := fun _ => .error "exchange error" }

end Scenario

/-- The new policy has a workload of priority `q` and the old policy has no workload of
that priority, or its workload of that priority is not the same. -/
def addedOrModified (busWorkloads : List Workload) (oldWorkloads : List Workload) (q : Int) :
    Prop :=
  ∃ np, GetWorkloadWithPriority busWorkloads q = some np ∧
    (GetWorkloadWithPriority oldWorkloads q = none ∨
      ∃ m, GetWorkloadWithPriority oldWorkloads q = some m ∧ m.IsSame np = false)

/-- The workload-usage priority that lines 477-485 read for the agreement: the priority of
its row, 0 when there is none. -/
def currentPriority (w : World) (ag : Agreement) : Int :=
  HandlePolicyChangeForAgreement.wlUsagePriority
    (w.db.workloadUsages.find? (WorkloadUsage.hasKey ag.DeviceId ag.PolicyName))

/-- The run of `HandlePolicyChangeForAgreement` gets to the priority analysis of line 470:
every fetch succeeds, the node policy has all built-in properties, the compatibility check
passes, the agreement is finalized and the workload-usage lookup succeeds. -/
structure ReachesPriorityAnalysis (env : Env) (ag : Agreement) (w : World)
    (svcAllPol : ExternalPolicy) (busPol : Policy) (nodePol : ExternalPolicy) (dev : Device) :
    Prop where
  services : (HandlePolicyChangeForAgreement.mergeServicePolicies env ag.ServiceId
    { Properties := [], Constraints := [] } w).1 = some svcAllPol
  business : env.GetBusinessPolicy ag.PolicyName = .ok busPol
  node : env.GetNodePolicy ag.DeviceId = .ok nodePol
  device : env.GetExchangeDevice ag.DeviceId = .ok (some dev)
  builtIns : env.ContainsAllBuiltInNodeProps nodePol.Properties
    (HandlePolicyChangeForAgreement.swVers dev) dev.GetNodeType = true
  compatible : (env.CheckPolicyCompatiblility nodePol busPol svcAllPol
    (HandlePolicyChangeForAgreement.nodeArch env dev)).compatible = true
  finalized : ag.AgreementFinalizedTime ≠ 0
  lookup : env.dbFault
    (Call.FindSingleWorkloadUsageByDeviceAndPolicyName ag.DeviceId ag.PolicyName) = false

namespace Scenario

/-- The new policy of the scenario "higher priority added": priorities 1 and 2. -/
def pol12 : Policy := policy [workload 1 "2.0", workload 2 "1.0"] ""

/-- The new policy of the scenario with a workload added below the current one:
priorities 1, 2 and 3. -/
def pol123 : Policy := policy [workload 1 "2.0", workload 2 "1.0", workload 3 "0.5"] ""

/-- The merged service policy of the scenarios. -/
def svcAllPol : ExternalPolicy := { Properties := [], Constraints := [] }

end Scenario

namespace Scenario

/-- A store with the agreement `A1` and no workload usage. -/
def worldNoUsage : World :=
  { db := { agreements := [agreement], workloadUsages := [], haUpgrading := [] }
    inboundHigh := [], inboundLow := [], trace := [] }

end Scenario

/-! ## Several agbots on the shared HA table -/

/-- One agbot that runs `CancelAgreement` with `policyMatches = true` for one of its
agreements: its collaborators, the call, the stage the call has reached (`none` before it
starts) and the agbot's own partition, queues and trace. -/
structure Agbot where
  env : Env
  ag : Agreement
  reason : String
  stage : Option CancelStage
  world : World

/-- Three agbots and the table `ha_workload_upgrade` that they share. -/
structure Fleet where
  shared : List UpgradingHAGroupWorkload
  agbots : Fin 3 → Agbot

/-- The world of an agbot with the shared HA table in its current state. -/
def Agbot.view (a : Agbot) (shared : List UpgradingHAGroupWorkload) : World :=
  { a.world with db := { a.world.db with haUpgrading := shared } }

/-- Agbot `i` runs the next stage of its `CancelAgreement`: at most one access to the
shared table, which is atomic. -/
def Fleet.step (f : Fleet) (i : Fin 3) : Fleet :=
  let a := f.agbots i
  let r := CancelAgreement.step a.env a.ag a.reason true a.stage (a.view f.shared)
  { shared := r.2.db.haUpgrading
    agbots := Function.update f.agbots i { a with stage := some r.1, world := r.2 } }

/-- An interleaving of the three calls: the agbots take their steps in the order of the
schedule. -/
def Fleet.run (f : Fleet) (schedule : List (Fin 3)) : Fleet :=
  schedule.foldl Fleet.step f

/-- The row of the HA table that an agbot inserts for its device. -/
def Agbot.row (a : Agbot) (haGroup : String) : UpgradingHAGroupWorkload :=
  { GroupOrg := a.env.GetOrg a.ag.DeviceId, GroupName := haGroup, PolicyName := a.ag.PolicyName,
    NodeId := a.ag.DeviceId }

/-- The cancel work item that an agbot queues for its agreement. -/
def Agbot.cancelItem (a : Agbot) : AgreementWork :=
  AgreementWork.CancelAgreement a.ag.CurrentAgreementId a.ag.AgreementProtocol
    (a.env.GetTerminationCode a.reason) 0

/-- An agbot about to cancel an agreement of a device of HA group `haGroup` of `org` under
policy `policyName`: the call has not started, the device has a workload-usage row, the
exchange returns the device in the group, and the store answers every call. -/
structure RaceReady (a : Agbot) (org : String) (haGroup : String) (policyName : String) :
    Prop where
  fresh : a.stage = none
  usage : a.world.db.workloadUsages.find? (WorkloadUsage.hasKey a.ag.DeviceId a.ag.PolicyName)
    ≠ none
  device : ∃ d, a.env.GetDevice a.ag.DeviceId = .ok (some d) ∧ d.HAGroup = haGroup
  org : a.env.GetOrg a.ag.DeviceId = org
  policy : a.ag.PolicyName = policyName
  store : ∀ c, a.env.dbFault c = false

/-- The rows of the shared table for the key `(org, haGroup, policyName)`. -/
def Fleet.rows (g : Fleet) (org : String) (haGroup : String) (policyName : String) :
    List UpgradingHAGroupWorkload :=
  g.shared.filter (UpgradingHAGroupWorkload.hasKey org haGroup policyName)

/-- How far a call of `CancelAgreement` has got. -/
def CancelStage.rank : Option CancelStage → Nat
  | none => 0
  | some (.query _) => 1
  | some (.claim _) => 2
  | some .finished => 3

/-- What holds of agbot `i` in every state `g` of the race that started in `f0`: its call
is unchanged; before it returns it has queued nothing and the row of the key is not its
own; once returned, either it has queued its cancel and holds the row of the key, or it
has queued nothing and another agbot holds the row. -/
def raceAgbotInv (f0 g : Fleet) (org haGroup policyName : String) (i : Fin 3) : Prop :=
  (g.agbots i).env = (f0.agbots i).env ∧ (g.agbots i).ag = (f0.agbots i).ag
  ∧ (g.agbots i).reason = (f0.agbots i).reason
  ∧ match (g.agbots i).stage with
    | none =>
      (g.agbots i).world.db.workloadUsages = (f0.agbots i).world.db.workloadUsages
      ∧ (g.agbots i).world.inboundHigh = (f0.agbots i).world.inboundHigh
      ∧ g.rows org haGroup policyName ≠ [(f0.agbots i).row haGroup]
    | some (.query h) =>
      h = haGroup ∧ (g.agbots i).world.inboundHigh = (f0.agbots i).world.inboundHigh
      ∧ g.rows org haGroup policyName ≠ [(f0.agbots i).row haGroup]
    | some (.claim h) =>
      h = haGroup ∧ (g.agbots i).world.inboundHigh = (f0.agbots i).world.inboundHigh
      ∧ g.rows org haGroup policyName ≠ [(f0.agbots i).row haGroup]
    | some .finished =>
      ((g.agbots i).world.inboundHigh =
          (f0.agbots i).world.inboundHigh ++ [(f0.agbots i).cancelItem]
        ∧ g.rows org haGroup policyName = [(f0.agbots i).row haGroup])
      ∨ ((g.agbots i).world.inboundHigh = (f0.agbots i).world.inboundHigh
        ∧ ∃ j, j ≠ i ∧ g.rows org haGroup policyName = [(f0.agbots j).row haGroup])

/-- The invariant of the race: the key has no row or the row of one of the agbots, and
every agbot is as `raceAgbotInv` says. -/
def raceInv (f0 g : Fleet) (org haGroup policyName : String) : Prop :=
  (g.rows org haGroup policyName = []
    ∨ ∃ j, g.rows org haGroup policyName = [(f0.agbots j).row haGroup])
  ∧ ∀ i, raceAgbotInv f0 g org haGroup policyName i

namespace Scenario

/-- An agbot about to cancel the agreement `agreementId` of device `deviceId`, which is in
HA group `g1` and has a workload usage of priority 2. -/
def raceAgbot (deviceId : String) (agreementId : String) : Agbot :=
  { env := env (policy [] "") (policy [] "") "g1"
    ag := { agreement with DeviceId := deviceId, CurrentAgreementId := agreementId }
    reason := "PolicyChanged"
    stage := none
    world :=
      { db := { agreements := []
                workloadUsages := [{ DeviceId := deviceId, PolicyName := "org1/pol",
                                     CurrentAgreementId := agreementId, Priority := 2,
                                     PendingUpgrade := false }]
                haUpgrading := [] }
        inboundHigh := [], inboundLow := [], trace := [] } }

/-- Three agbots cancel agreements of three devices of HA group `g1` for the policy
`org1/pol`; the HA table is empty. -/
def fleet : Fleet :=
  { shared := []
    agbots := fun i =>
      if i = 0 then raceAgbot "org1/D1" "A1"
      else if i = 1 then raceAgbot "org1/D2" "A2"
      else raceAgbot "org1/D3" "A3" }

/-- The interleaving in which all three agbots query the HA table before any of them
inserts. -/
def allQueryFirst : List (Fin 3) := [0, 1, 2, 0, 1, 2, 2, 1, 0]

end Scenario

/-! ## Reading the message classification -/

/-- The validation of a message succeeded: the message parses as that kind. -/
def parses {α : Type} : Except String α → Bool
  | .ok _ => true
  | .error _ => false

namespace Scenario

/-- The cancel of agreement `A1` that comes from the node `org1/D2`. -/
def cancelFromD2 : NewProtocolMessageCommand :=
  { From := "org1/D2", PubKey := "key", MessageId := 7, Message := "cancel A1" }

/-- The cancel of agreement `A1` that comes from the node `org1/D1` of the agreement. -/
def cancelFromD1 : NewProtocolMessageCommand :=
  { From := "org1/D1", PubKey := "key", MessageId := 8, Message := "cancel A1" }

/-- A message of no known kind. -/
def unknownMessage : NewProtocolMessageCommand :=
  { From := "org1/D1", PubKey := "key", MessageId := 9, Message := "hello" }

/-- The scenario of a protocol handler whose extension hook accepts no message. -/
def strictEnv : Env :=
  { env pol2 pol2 "" with HandleExtensionMessage := fun _ => some "unknown message" }

end Scenario

/-! ## Reading the trace of the policy handlers -/

/-- Calls of `AgreementHandleMMSObjectPolicy`. -/
def Call.isMMS : Call → Bool
  | .AgreementHandleMMSObjectPolicy _ => true
  | _ => false

/-- Entries other than a hand-over to `AgreementHandleMMSObjectPolicy`. -/
def notMMS (s : Step) : Bool := !s.call.isMMS

/-- The hand-overs to `AgreementHandleMMSObjectPolicy` among the entries. -/
def mmsCalls (steps : List Step) : List Step :=
  steps.filter (fun s => s.call.isMMS)

/-- The entry of `CancelAgreement` and the calls it makes to the store and the exchange. -/
def Call.isCancelStep : Call → Bool
  | .CancelAgreement _ _ _ => true
  | .GetDevice _ => true
  | .FindSingleWorkloadUsageByDeviceAndPolicyName _ _ => true
  | .UpdatePendingUpgrade _ _ => true
  | .DeleteWorkloadUsage _ _ => true
  | .GetHAUpgradingWorkload _ _ _ => true
  | .InsertHAUpgradingWorkloadForGroupAndPolicy _ _ _ _ => true
  | _ => false

/-- Entries that `CancelAgreement` writes. -/
def cancelStep (s : Step) : Bool := s.call.isCancelStep

/-- The agreements a handler scans: those of its protocol that are un-archived and in
progress. -/
def scanned (env : Env) (w : World) : List Agreement :=
  w.db.agreements.filter (fun a =>
    decide (a.AgreementProtocol = env.Name) &&
      (!a.Archived && decide (a.AgreementCreationTime ≠ 0 ∧ a.AgreementTimedout = 0)))

namespace Scenario

/-- The `NodePolicyChanged` command for the node `D1` of `org1`. -/
def nodePolicyChanged : NodePolicyChangedCommand := { NodeId := "D1", NodePolOrg := "org1" }

/-- The `PolicyDeleted` command of `org1`. -/
def policyDeleted : PolicyDeletedCommand := { Org := "org1", PolicyString := "new" }

/-- The agreement `A1` as an agreement of organization `org2`. -/
def foreignAgreement : Agreement := { agreement with Org := "org2" }

/-- The `ServicePolicyDeleted` command for the service of agreement `A1`. -/
def servicePolicyDeleted : ServicePolicyDeletedCommand :=
  { BusinessPolOrg := "org1", BusinessPolName := "pol", ServiceId := "org1/svc_1.0_amd64" }

end Scenario

namespace Scenario

/-- A store with the agreement `A1` of organization `org2` and its workload usage. -/
def foreignWorld : World :=
  { world 2 with db := { (world 2).db with agreements := [foreignAgreement] } }

end Scenario

/-- The fetches of lines 401-440: service definitions, merged service policies, business
policy, node policy and exchange device. -/
def Call.isFetch : Call → Bool
  | .GetServiceWithId _ => true
  | .GetServicePolicyWithDefaultProperties _ => true
  | .GetBusinessPolicy _ => true
  | .GetNodePolicy _ => true
  | .GetExchangeDevice _ => true
  | _ => false

/-- Entries that are fetches. -/
def fetchStep (s : Step) : Bool := s.call.isFetch

/-- Lookups of the workload usage. -/
def Call.isUsageLookup : Call → Bool
  | .FindSingleWorkloadUsageByDeviceAndPolicyName _ _ => true
  | _ => false

namespace Scenario

/-- The scenario of a node whose policy does not have the built-in properties yet. -/
def noBuiltInsEnv : Env :=
  { env pol2 pol2ns "" with ContainsAllBuiltInNodeProps := fun _ _ _ => false }

/-- The `ServicePolicyChanged` command for the service of agreement `A1`. -/
def servicePolicyChanged : ServicePolicyChangedCommand :=
  { BusinessPolOrg := "org1", BusinessPolName := "pol", ServiceId := "org1/svc_1.0_amd64" }

end Scenario

namespace Scenario

/-- The old policy of the scenario "cluster namespace changed": namespace `nsA`. -/
def polNsA : Policy := policy [workload 2 "1.0"] "nsA"

/-- The new policy of the scenario "cluster namespace changed": namespace `nsB`. -/
def polNsB : Policy := policy [workload 2 "1.0"] "nsB"

/-- The agreement `A1` as an agreement with a cluster. -/
def clusterAgreement : Agreement := { agreement with DeviceType := "cluster" }

/-- The scenario "cluster namespace changed": the node is a cluster, the stored policy has
namespace `nsA`, the business policy `nsB`, and the namespace check passes with the
namespace of the business policy. -/
def clusterEnv : Env :=
  { env polNsA polNsB "" with
    GetExchangeDevice := fun _ => .ok (some (device "" "cluster"))
    GetDevice := fun _ => .ok (some (device "" "cluster")) }

end Scenario

/-- The dispatches of an agreement update among the entries. -/
def updateCalls (steps : List Step) : List Step :=
  steps.filter (fun s => s.call.isUpdate)

/-- The run of `HandlePolicyChangeForAgreement` gets to the dispatch of lines 556-565: it
reaches the priority analysis (fetches, built-ins, compatibility, finalization, lookup),
the new policy has the workload `wl` of the current priority, the walk over the priorities
and the cluster namespace analysis pass, the service definition of the workload is
fetched, the new consumer policy is not the same as the old policy and the terms and
conditions `newTsCs` are built. -/
structure DispatchesUpdate (env : Env) (ag : Agreement) (oldPolicy : Option Policy) (w : World)
    (svcAllPol : ExternalPolicy) (busPol : Policy) (nodePol : ExternalPolicy) (dev : Device)
    (wl : Workload) (svcDef : ServiceDefinition) (newTsCs : Policy) : Prop where
  reaches : ReachesPriorityAnalysis env ag w svcAllPol busPol nodePol dev
  current : GetWorkloadWithPriority busPol.Workloads (currentPriority w ag) = some wl
  priority : ∀ old, oldPolicy = some old →
    HandlePolicyChangeForAgreement.priorityWalk busPol.Workloads old.Workloads
      (currentPriority w ag) (busPol.Workloads.length + 1) (-1)
      (GetNextWorkloadChoice busPol.Workloads (-1)) = false
  clusterNs : ∀ old, oldPolicy = some old → dev.NodeType = DEVICE_TYPE_CLUSTER →
    busPol.ClusterNamespace ≠ old.ClusterNamespace →
    (env.CheckClusterNamespaceCompatibility dev.NodeType dev.ClusterNamespace
        dev.IsNamespaceScoped busPol.ClusterNamespace wl.ClusterDeployment
        ag.Pattern).compatible = true
    ∧ (env.CheckClusterNamespaceCompatibility dev.NodeType dev.ClusterNamespace
        dev.IsNamespaceScoped busPol.ClusterNamespace wl.ClusterDeployment
        ag.Pattern).consumerNamespace = old.ClusterNamespace
  service : env.GetService
    (HandlePolicyChangeForAgreement.fillArch wl
      (HandlePolicyChangeForAgreement.nodeArch env dev)).WorkloadURL
    (HandlePolicyChangeForAgreement.fillArch wl
      (HandlePolicyChangeForAgreement.nodeArch env dev)).Org
    (HandlePolicyChangeForAgreement.fillArch wl
      (HandlePolicyChangeForAgreement.nodeArch env dev)).Version
    (HandlePolicyChangeForAgreement.fillArch wl
      (HandlePolicyChangeForAgreement.nodeArch env dev)).Arch = .ok (some svcDef)
  changed : env.IsSamePolicy
    (env.CheckPolicyCompatiblility nodePol busPol svcAllPol
      (HandlePolicyChangeForAgreement.nodeArch env dev)).consumerPol oldPolicy = false
  terms : env.Create_Terms_And_Conditions
    (env.CheckPolicyCompatiblility nodePol busPol svcAllPol
      (HandlePolicyChangeForAgreement.nodeArch env dev)).producerPol
    (env.CheckPolicyCompatiblility nodePol busPol svcAllPol
      (HandlePolicyChangeForAgreement.nodeArch env dev)).consumerPol
    (HandlePolicyChangeForAgreement.fillDeployment dev svcDef
      (HandlePolicyChangeForAgreement.fillArch wl
        (HandlePolicyChangeForAgreement.nodeArch env dev)))
    ag.CurrentAgreementId = .ok newTsCs

namespace Scenario

/-- The agreement `A1` before it is finalized. -/
def unfinalizedAgreement : Agreement := { agreement with AgreementFinalizedTime := 0 }

/-- The scenario in which the node policy and the business policy are no longer compatible. -/
def incompatibleEnv : Env :=
  { env pol2 pol2 "" with
    CheckPolicyCompatiblility := fun _ bp _ _ =>
      { compatible := false, reason := "constraints", producerPol := bp, consumerPol := bp,
        err := none } }

end Scenario

/-! ## Comparing stores, for `HandlePolicyChanged` run twice -/

/-- No row of the workload-usage table has the key `(deviceId, policyName)`. -/
def absentKey (deviceId : String) (policyName : String) (rows : List WorkloadUsage) : Prop :=
  ∀ u ∈ rows, WorkloadUsage.hasKey deviceId policyName u = false

/-- Every row of the workload-usage table with the key `(deviceId, policyName)` is marked
`pendingUpgrade`. -/
def allPending (deviceId : String) (policyName : String) (rows : List WorkloadUsage) : Prop :=
  ∀ u ∈ rows, WorkloadUsage.hasKey deviceId policyName u = true → u.PendingUpgrade = true

/-- The priority of the row that a lookup of `(deviceId, policyName)` finds, if any. -/
def firstPriority (deviceId : String) (policyName : String) (rows : List WorkloadUsage) :
    Option Int :=
  (rows.find? (WorkloadUsage.hasKey deviceId policyName)).map (fun u => u.Priority)

/-- The HA table has a row for `(org, haGroup, policyName)`. -/
def heldSlot (org : String) (haGroup : String) (policyName : String)
    (table : List UpgradingHAGroupWorkload) : Prop :=
  (table.find? (UpgradingHAGroupWorkload.hasKey org haGroup policyName)).isSome = true

/-- The store `db1` is a later state of the store `db` under the handlers of this file: the
agreements are the same; of the workload usages some keys were deleted and some marked
pending, so a key that is still there is looked up with the same priority, a key that was
absent is absent and a key that was pending is pending; and the slots of the HA table that
were held are held. -/
structure Later (db : AgbotDatabase) (db1 : AgbotDatabase) : Prop where
  agreements : db1.agreements = db.agreements
  priority : ∀ d p, absentKey d p db1.workloadUsages ∨
    firstPriority d p db1.workloadUsages = firstPriority d p db.workloadUsages
  absent : ∀ d p, absentKey d p db.workloadUsages → absentKey d p db1.workloadUsages
  pending : ∀ d p, allPending d p db.workloadUsages → allPending d p db1.workloadUsages
  held : ∀ o g p, heldSlot o g p db.haUpgrading → heldSlot o g p db1.haUpgrading

/-- The workload-usage table `rows1` comes from the table `rows` by deleting rows and by
setting pending flags only, and every row of `rows` that satisfies `safe` is still there,
unchanged. -/
structure Spares (safe : WorkloadUsage → Prop) (rows : List WorkloadUsage)
    (rows1 : List WorkloadUsage) : Prop where
  origin : ∀ u1 ∈ rows1, ∃ u ∈ rows, u.DeviceId = u1.DeviceId ∧ u.PolicyName = u1.PolicyName
    ∧ u.CurrentAgreementId = u1.CurrentAgreementId ∧ u.Priority = u1.Priority
  kept : ∀ u ∈ rows, safe u → u ∈ rows1

/-- Lines 333-336 of `HandlePolicyChanged`: whether the agreement is still valid, by the
triple of the evaluation. -/
def agStillValid (ag : Agreement) (r : Bool × Bool × Bool) : Bool :=
  if ag.GetDeviceType = DEVICE_TYPE_CLUSTER then (r.1 && r.2.1) && r.2.2 else r.1 && r.2.1

/-- Lines 310-361 of `HandlePolicyChanged`: the scan of the agreements, giving the world
reached and the agreements kept. -/
def HandlePolicyChanged.scan (env : Env) (cmd : PolicyChangedCommand) (eventPol : Policy)
    (w : World) : World × List String :=
  match (FindAgreements env [UnarchivedAFilter, InProgress] env.Name w).1 with
  | .ok agreements =>
    agreements.foldl (HandlePolicyChanged.body env cmd eventPol)
      ((FindAgreements env [UnarchivedAFilter, InProgress] env.Name w).2, [])
  | .error _ => ((FindAgreements env [UnarchivedAFilter, InProgress] env.Name w).2, [])

/-- Lines 363-382 of `HandlePolicyChanged`: the deletion of the workload usages of the
changed policy name that have no agreement id associated. -/
def HandlePolicyChanged.cleanup (env : Env) (eventPol : Policy) (s : World × List String) :
    World :=
  match (FindWorkloadUsages env [PNoAWUFilter eventPol.Header.Name, AgNotKept s.2] s.1).1 with
  | .error _ => (FindWorkloadUsages env [PNoAWUFilter eventPol.Header.Name, AgNotKept s.2] s.1).2
  | .ok wlu_array =>
    wlu_array.foldl (fun acc wlu => DeleteWorkloadUsage wlu.DeviceId wlu.PolicyName acc)
      (FindWorkloadUsages env [PNoAWUFilter eventPol.Header.Name, AgNotKept s.2] s.1).2

namespace Scenario

/-- A store without agreements that holds a workload usage of another policy and a workload
usage of the policy `org1/pol` with the id of an agreement that is not in the store. -/
def staleWorld : World :=
  { db := { agreements := []
            workloadUsages :=
              [{ DeviceId := "org1/D7", PolicyName := "org1/other", CurrentAgreementId := "",
                 Priority := 1, PendingUpgrade := false },
               { DeviceId := "org1/D9", PolicyName := "org1/pol", CurrentAgreementId := "A9",
                 Priority := 2, PendingUpgrade := false }]
            haUpgrading := [] }
    inboundHigh := [], inboundLow := [], trace := [] }

/-- A store with the agreement `A1`, its workload usage, and a workload usage of the policy
`org1/pol` for the node `org1/D5` that has no agreement id associated. -/
def unassociatedWorld : World :=
  { db := { agreements := [agreement]
            workloadUsages :=
              [{ DeviceId := "org1/D1", PolicyName := "org1/pol", CurrentAgreementId := "A1",
                 Priority := 2, PendingUpgrade := false },
               { DeviceId := "org1/D5", PolicyName := "org1/pol", CurrentAgreementId := "",
                 Priority := 1, PendingUpgrade := false }]
            haUpgrading := [] }
    inboundHigh := [], inboundLow := [], trace := [] }

end Scenario


/-! ## The simple commands -/

/-- The `MMSObjectPolicy` command: the object-policy event it carries. -/
structure MMSObjectPolicyEventCommand where
  Msg : String

/-- The `WorkloadUpgrade` command. -/
structure WorkloadUpgradeCommand where
  AgreementId : String
  AgreementProtocol : String
  DeviceId : String
  PolicyName : String

/-- The `MakeAgreement` command. -/
structure MakeAgreementCommand where
  ProducerPolicy : Policy
  ConsumerPolicy : Policy
  Org : String
  Device : String
  ConsumerPolicyName : String
  ServicePolicies : List (String × ExternalPolicy)

/-- Constructor `NewObjectPolicyChange` of the object-policy work item. -/
def NewObjectPolicyChange (event : String) : AgreementWork :=
  AgreementWork.ObjectPolicyChange event

/-- Constructor `NewHandleWorkloadUpgrade` of the upgrade work item. -/
def NewHandleWorkloadUpgrade (agreementId : String) (protocol : String) (deviceId : String)
    (policyName : String) : AgreementWork :=
  AgreementWork.HandleWorkloadUpgrade agreementId protocol deviceId policyName

/-- Constructor `NewInitiateAgreement` of the work item that starts an agreement. -/
def NewInitiateAgreement (producerPolicy : Policy) (consumerPolicy : Policy) (org : String)
    (device : String) (consumerPolicyName : String)
    (servicePolicies : List (String × ExternalPolicy)) : AgreementWork :=
  AgreementWork.InitiateAgreement producerPolicy consumerPolicy org device consumerPolicyName
    servicePolicies

/-- Constructor `NewStopWorker` of the work item that stops a worker. -/
def NewStopWorker : AgreementWork :=
  AgreementWork.StopWorker

/-- Method `BaseConsumerProtocolHandler.HandleMMSObjectPolicy` (lines 709-718). -/
def HandleMMSObjectPolicy (cmd : MMSObjectPolicyEventCommand) (w : World) : World :=
  w.enqueueHigh (NewObjectPolicyChange cmd.Msg)

/-- Method `BaseConsumerProtocolHandler.HandleWorkloadUpgrade` (lines 816-825). -/
def HandleWorkloadUpgrade (cmd : WorkloadUpgradeCommand) (w : World) : World :=
  w.enqueueHigh
    (NewHandleWorkloadUpgrade cmd.AgreementId cmd.AgreementProtocol cmd.DeviceId cmd.PolicyName)

/-- Method `BaseConsumerProtocolHandler.HandleMakeAgreement` (lines 827-836). -/
def HandleMakeAgreement (cmd : MakeAgreementCommand) (w : World) : World :=
  w.enqueueLow
    (NewInitiateAgreement cmd.ProducerPolicy cmd.ConsumerPolicy cmd.Org cmd.Device
      cmd.ConsumerPolicyName cmd.ServicePolicies)

/-- The loop `for ix := 0; ix < AgreementWorkers; ix++` of `HandleStopProtocol` (lines
843-846), from the index `ix` on. -/
def HandleStopProtocol.loop (agreementWorkers : Int) (ix : Int) (w : World) : World :=
  if ix < agreementWorkers then
    HandleStopProtocol.loop agreementWorkers (ix + 1) (w.enqueueHigh NewStopWorker)
  else w
termination_by (agreementWorkers - ix).toNat
decreasing_by omega

/-- Method `BaseConsumerProtocolHandler.HandleStopProtocol` (lines 838-851), with the
configured `AgreementWorkers` (a Go `int`). -/
def HandleStopProtocol (agreementWorkers : Int) (w : World) : World :=
  HandleStopProtocol.loop agreementWorkers 0 w

/-! ## `sendMessage` and `RecordConsumerAgreementState` -/

/-- How a call of a method that has a retry loop ends: it returns, it stops with a run-time
panic, or it is still retrying when the given number of attempts is used up. -/
inductive Completion (α : Type) where
  | returned (a : α)
  | panicked
  | retrying
deriving DecidableEq, Repr

/-- Severity of a log line of `glog`. -/
inductive Severity where
  | info
  | warning
  | error
deriving DecidableEq, Repr

/-- One line written to the log. -/
structure LogEntry where
  severity : Severity
  text : String
deriving DecidableEq, Repr

/-- A proposal of the agreement protocol (`abstractprotocol.Proposal`), restricted to its
agreement id. -/
structure Proposal where
  AgreementId : String
deriving DecidableEq, Repr

/-- The message target of the exchange (`exchange.ExchangeMessageTarget`). -/
structure ExchangeMessageTarget where
  ReceiverExchangeId : String
  ReceiverPublicKeyObj : Option String
  ReceiverPublicKeyBytes : String
  ReceiverMsgEndPoint : String
deriving DecidableEq, Repr

/-- The argument `mt interface{}` of `sendMessage`: an exchange message target, or a value of
another type (by the name of the type). -/
inductive MessageTarget where
  | exchange (messageTarget : ExchangeMessageTarget)
  | other (typeName : String)
deriving DecidableEq, Repr

/-- The organization record of the exchange (`exchange.Organization`), restricted to the
heartbeat interval. -/
structure Organization where
  MaxInterval : Nat
deriving DecidableEq, Repr

/-- Body of a request to the exchange: the post message of `exchange.CreatePostMessage`, or
the agreement state `exchange.PutAgbotAgreementState`. -/
inductive ExchangeBody where
  | PostMessage (message : String) (ttl : Nat)
  | PutAgbotAgreementState (org : String) (pattern : String) (url : String) (state : String)
deriving DecidableEq, Repr

/-- One request sent to the exchange. -/
structure Request where
  method : String
  url : String
  body : ExchangeBody
deriving DecidableEq, Repr

/-- Collaborators of `sendMessage` and `RecordConsumerAgreementState` that are declared
outside this file, and the configuration they read. -/
structure Transport where
  /-- Result of `w.Name()`. -/
  Name : String
  /-- The verbosity of `glog`: `glog.V(n)` holds when `n` is at most this level. -/
  verbosity : Nat
  /-- Function `abstractprotocol.DemarshalProposal`. -/
  DemarshalProposal : String → Except String Proposal
  /-- Function `abstractprotocol.ObscureProposalSecret`. -/
  ObscureProposalSecret : String → Except String String
  /-- Function `cutil.TruncateDisplayString`. -/
  TruncateDisplayString : String → Nat → String
  /-- Configuration value `AgreementBot.MessageKeyPath`. -/
  MessageKeyPath : String
  /-- Function `exchange.GetKeys`: the public and the private key. -/
  GetKeys : String → Except String (String × String)
  /-- Function `exchange.DemarshalPublicKey`. -/
  DemarshalPublicKey : String → Except String String
  /-- Function `exchange.GetExchangeDevice`. -/
  GetExchangeDevice : String → Except String (Option Device)
  /-- Function `exchange.GetOrganization`. -/
  GetOrganization : String → Except String (Option Organization)
  /-- Function `exchange.GetOrg`. -/
  GetOrg : String → String
  /-- Function `exchange.GetId`. -/
  GetId : String → String
  /-- Configuration value `AgreementBot.ExchangeURL`. -/
  ExchangeURL : String
  /-- Field `agbotId` of the handler. -/
  agbotId : String
  /-- Method `AgreementBot.GetExchangeMessageTTL`. -/
  GetExchangeMessageTTL : Nat → Nat
  /-- Function `exchange.ConstructExchangeMessage`, by payload, own keys and receiver key. -/
  ConstructExchangeMessage : String → String → String → String → Except String String
  /-- Function `json.Marshal` on the encrypted message. -/
  Marshal : String → Except String String
  /-- Function `exchange.InvokeExchange`: what the exchange answers to the request with the
  given number (requests are counted from 0), as the pair `(err, tpErr)`. -/
  InvokeExchange : Nat → String → String → ExchangeBody → Option String × Option String

/-- What `sendMessage` and `RecordConsumerAgreementState` leave behind: the log lines
written, the sleeps taken (in seconds) and the requests sent to the exchange. -/
structure Journal where
  log : List LogEntry
  sleeps : List Nat
  requests : List Request
deriving DecidableEq, Repr

/-- Write a log line unconditionally (`glog.Warningf`, `glog.Errorf`). -/
def Journal.write (j : Journal) (severity : Severity) (text : String) : Journal :=
  { j with log := j.log ++ [{ severity := severity, text := text }] }

/-- Write an info line under the guard `glog.V(level)`. -/
def Journal.infoV (j : Journal) (t : Transport) (level : Nat) (text : String) : Journal :=
  if level ≤ t.verbosity then j.write .info text else j

/-- Call `time.Sleep` for the given number of seconds. -/
def Journal.sleep (j : Journal) (seconds : Nat) : Journal :=
  { j with sleeps := j.sleeps ++ [seconds] }

/-- Enter a request to the exchange. -/
def Journal.request (j : Journal) (method : String) (url : String) (body : ExchangeBody) :
    Journal :=
  { j with requests := j.requests ++ [{ method := method, url := url, body := body }] }

/-- Lines 153-167 of `sendMessage`: the rendering of the payload for the verbose log. -/
def sendMessage.logMsg (t : Transport) (pay : String) : String :=
  if 5 ≤ t.verbosity then
    match t.DemarshalProposal pay with
    | .ok newProp =>
      if newProp.AgreementId.length > 0 then
        match t.ObscureProposalSecret pay with
        | .ok obscured => obscured
        | .error _ => ""
      else pay
    | .error _ => pay
  else pay

/-- Lines 170-173 of `sendMessage`: the two log lines about the message to send. -/
def sendMessage.announce (t : Transport) (messageTarget : ExchangeMessageTarget) (pay : String)
    (j : Journal) : Journal :=
  (j.infoV t 3 (BCPHlogstring t.Name ("sending exchange message to: " ++
      messageTarget.ReceiverExchangeId ++ ", message " ++ t.TruncateDisplayString pay 300))).infoV
    t 5 (BCPHlogstring t.Name ("sending exchange message to: " ++
      messageTarget.ReceiverExchangeId ++ ", message " ++ sendMessage.logMsg t pay))

/-- Result of lines 175-215 of `sendMessage`: an error to return, a run-time panic (nil
device or organization), or the URL and the post message for the loop. -/
inductive Prepared where
  | failed (err : String)
  | panicked
  | ready (targetURL : String) (pm : ExchangeBody)
deriving DecidableEq, Repr

/-- Lines 194-202 of `sendMessage`: the time to live of the message, from the heartbeat
interval of the node or, when that is 0, of its organization. -/
def sendMessage.messageTTL (t : Transport) (messageTarget : ExchangeMessageTarget)
    (exchDev : Device) : Except Prepared Nat :=
  if exchDev.MaxInterval = 0 then
    match t.GetOrganization (t.GetOrg messageTarget.ReceiverExchangeId) with
    | .error err => .error (.failed ("Unable to get org from exchange: " ++ err))
    | .ok none => .error .panicked
    | .ok (some exchOrg) => .ok (t.GetExchangeMessageTTL exchOrg.MaxInterval)
  else .ok (t.GetExchangeMessageTTL exchDev.MaxInterval)

/-- Lines 204-215 of `sendMessage`: encrypt the payload and serialize it. -/
def sendMessage.seal (t : Transport) (messageTarget : ExchangeMessageTarget) (pay : String)
    (myPubKey : String) (myPrivKey : String) (receiverKey : String)
    (exchangeMessageTTL : Nat) : Prepared :=
  match t.ConstructExchangeMessage pay myPubKey myPrivKey receiverKey with
  | .error err =>
    .failed ("Unable to construct encrypted message, error " ++ err ++ " for message " ++ pay)
  | .ok encryptedMsg =>
    match t.Marshal encryptedMsg with
    | .error err =>
      .failed ("Unable to marshal exchange message, error " ++ err ++ " for message " ++
        encryptedMsg)
    | .ok msgBody =>
      .ready (t.ExchangeURL ++ "orgs/" ++ t.GetOrg messageTarget.ReceiverExchangeId ++
          "/nodes/" ++ t.GetId messageTarget.ReceiverExchangeId ++ "/msgs")
        (ExchangeBody.PostMessage msgBody exchangeMessageTTL)

/-- Lines 175-215 of `sendMessage`: keys, receiver key (kept in the message target), time to
live, encryption and serialization. -/
def sendMessage.prepare (t : Transport) (messageTarget : ExchangeMessageTarget) (pay : String) :
    Prepared × ExchangeMessageTarget :=
  match t.GetKeys t.MessageKeyPath with
  | .error keyErr => (.failed ("error getting keys: " ++ keyErr), messageTarget)
  | .ok (myPubKey, myPrivKey) =>
    let key : Except String String :=
      match messageTarget.ReceiverPublicKeyObj with
      | some mtpk => .ok mtpk
      | none => t.DemarshalPublicKey messageTarget.ReceiverPublicKeyBytes
    match key with
    | .error err =>
      (.failed ("Unable to demarshal device\x27s public key " ++
        messageTarget.ReceiverPublicKeyBytes ++ ", error " ++ err), messageTarget)
    | .ok mtpk =>
      let messageTarget1 := { messageTarget with ReceiverPublicKeyObj := some mtpk }
      match t.GetExchangeDevice messageTarget.ReceiverExchangeId with
      | .error err => (.failed ("Unable to get device from exchange: " ++ err), messageTarget1)
      | .ok none => (.panicked, messageTarget1)
      | .ok (some exchDev) =>
        match sendMessage.messageTTL t messageTarget exchDev with
        | .error stop => (stop, messageTarget1)
        | .ok exchangeMessageTTL =>
          (sendMessage.seal t messageTarget pay myPubKey myPrivKey mtpk exchangeMessageTTL,
            messageTarget1)

/-- Lines 216-229 of `sendMessage`: the loop that posts the message, for at most the given
number of attempts. -/
def sendMessage.post (t : Transport) (messageTarget : ExchangeMessageTarget)
    (targetURL : String) (pm : ExchangeBody) : Nat → Journal → Completion (Option String) × Journal
  | 0, j => (.retrying, j)
  | fuel + 1, j =>
    match t.InvokeExchange j.requests.length "POST" targetURL pm with
    | (some err, _) => (.returned (some err), j.request "POST" targetURL pm)
    | (none, some tpErr) =>
      sendMessage.post t messageTarget targetURL pm fuel
        (((j.request "POST" targetURL pm).write .warning tpErr).sleep 10)
    | (none, none) =>
      (.returned none, (j.request "POST" targetURL pm).infoV t 5
        (BCPHlogstring t.Name ("sent message for " ++ messageTarget.ReceiverExchangeId ++
          " to exchange.")))

/-- Method `BaseConsumerProtocolHandler.sendMessage` (lines 140-232): the error it returns,
if any, the journal it leaves and the message target as it leaves it. -/
def sendMessage (t : Transport) (mt : MessageTarget) (pay : String) (fuel : Nat) (j : Journal) :
    Completion (Option String) × Journal × MessageTarget :=
  match mt with
  | .other typeName =>
    (.returned (some ("input message target is " ++ typeName ++
      ", expecting exchange.MessageTarget")), j, mt)
  | .exchange messageTarget =>
    let j1 := sendMessage.announce t messageTarget pay j
    match sendMessage.prepare t messageTarget pay with
    | (.failed err, messageTarget1) => (.returned (some err), j1, .exchange messageTarget1)
    | (.panicked, messageTarget1) => (.panicked, j1, .exchange messageTarget1)
    | (.ready targetURL pm, messageTarget1) =>
      ((sendMessage.post t messageTarget targetURL pm fuel j1).1,
        (sendMessage.post t messageTarget targetURL pm fuel j1).2, .exchange messageTarget1)

/-- The log prefix `BCPHlogstring2` (lines 1079-1081). -/
def BCPHlogstring2 (workerID : String) (v : String) : String :=
  "Base Consumer Protocol Handler (" ++ workerID ++ "): " ++ v

/-- Lines 898-912 of `RecordConsumerAgreementState`: the loop that puts the agreement
state, for at most the given number of attempts. -/
def RecordConsumerAgreementState.put (t : Transport) (agreementId : String) (state : String)
    (workerID : String) (targetURL : String) (as : ExchangeBody) :
    Nat → Journal → Completion (Option String) × Journal
  | 0, j => (.retrying, j)
  | fuel + 1, j =>
    match t.InvokeExchange j.requests.length "PUT" targetURL as with
    | (some err, _) => (.returned (some err), (j.request "PUT" targetURL as).write .error err)
    | (none, some tpErr) =>
      RecordConsumerAgreementState.put t agreementId state workerID targetURL as fuel
        (((j.request "PUT" targetURL as).write .warning tpErr).sleep 10)
    | (none, none) =>
      (.returned none, (j.request "PUT" targetURL as).infoV t 5
        (BCPHlogstring2 workerID ("set agreement " ++ agreementId ++ " to state " ++ state)))

/-- Method `BaseConsumerProtocolHandler.RecordConsumerAgreementState` (lines 880-914);
`pol.Workloads[0]` panics when the policy has no workload. -/
def RecordConsumerAgreementState (t : Transport) (agreementId : String) (pol : Policy)
    (org : String) (state : String) (workerID : String) (fuel : Nat) (j : Journal) :
    Completion (Option String) × Journal :=
  match pol.Workloads with
  | [] => (.panicked, j)
  | first :: _ =>
    let workload := first.WorkloadURL
    RecordConsumerAgreementState.put t agreementId state workerID
      (t.ExchangeURL ++ "orgs/" ++ t.GetOrg t.agbotId ++ "/agbots/" ++ t.GetId t.agbotId ++
        "/agreements/" ++ agreementId)
      (ExchangeBody.PutAgbotAgreementState org (t.GetId pol.PatternId) workload state) fuel
      (j.infoV t 5 (BCPHlogstring2 workerID ("setting agreement " ++ agreementId ++
        " for workload " ++ org ++ "/" ++ workload ++ " state to " ++ state)))

/-- The journal after `n` more requests that the exchange answered with the transport errors
`tp 0`, ..., `tp (n - 1)`: each request is followed by a warning and a sleep of 10 seconds. -/
def Journal.retried (j : Journal) (method : String) (url : String) (body : ExchangeBody)
    (tp : Nat → String) : Nat → Journal
  | 0 => j
  | n + 1 =>
    (((Journal.retried j method url body tp n).request method url body).write .warning
      (tp n)).sleep 10

/-! ## Deferred commands and the event channel -/

/-- Modelled from the spec: a buffered channel of Go, by the items in its buffer (oldest
first) and its capacity. -/
structure Chan (α : Type) where
  buf : List α
  cap : Nat
deriving DecidableEq, Repr

/-- The send `c <- x` on a buffered channel nobody receives from meanwhile: `none` when the
buffer is full and the send blocks. -/
def Chan.send {α : Type} (c : Chan α) (x : α) : Option (Chan α) :=
  if c.buf.length < c.cap then some { c with buf := c.buf ++ [x] } else none

/-- The fields of `BaseConsumerProtocolHandler` that `DeferCommand`, `GetDeferredCommands`
and `SendEventMessage` use: the deferred commands, the event channel `messages`, and the
value of `config.GetAgbotAgreementQueueSize()` (a `uint64`). -/
structure BaseConsumerProtocolHandler where
  deferredCommands : List AgreementWork
  messages : Chan String
  AgbotAgreementQueueSize : Nat
deriving DecidableEq, Repr

/-- The conversion `int(x)` of a `uint64` (64-bit `int`). -/
def intOfUint64 (x : Nat) : Int :=
  if x % 2 ^ 64 < 2 ^ 63 then ((x % 2 ^ 64 : Nat) : Int) else ((x % 2 ^ 64 : Nat) : Int) - 2 ^ 64

/-- Method `BaseConsumerProtocolHandler.DeferCommand` (lines 1013-1015). -/
def DeferCommand (cmd : AgreementWork) (b : BaseConsumerProtocolHandler) :
    BaseConsumerProtocolHandler :=
  { b with deferredCommands := b.deferredCommands ++ [cmd] }

/-- Method `BaseConsumerProtocolHandler.GetDeferredCommands` (lines 1017-1021): the
commands returned and the handler with a fresh, empty buffer. -/
def GetDeferredCommands (b : BaseConsumerProtocolHandler) :
    List AgreementWork × BaseConsumerProtocolHandler :=
  (b.deferredCommands, { b with deferredCommands := [] })

/-- Method `BaseConsumerProtocolHandler.SendEventMessage` (lines 1054-1058): `none` when the
send on the channel blocks. -/
def SendEventMessage (event : String) (b : BaseConsumerProtocolHandler) :
    Option BaseConsumerProtocolHandler :=
  if (b.messages.buf.length : Int) < intOfUint64 b.AgbotAgreementQueueSize then
    match b.messages.send event with
    | some messages => some { b with messages := messages }
    | none => none
  else some b

namespace Scenario

/-- A proposal payload for agreement `A1` that carries the secret `alpha`. -/
def payloadA : String := "proposal A1 secret alpha"

/-- The same proposal payload with the secret `bravo`. -/
def payloadB : String := "proposal A1 secret bravo"

/-- A transport with verbose logging (`-v 5`): the two payloads demarshal as proposals of
`A1` and have the same obscured rendering; the exchange answers the first two requests with
a transport error and the third with success. -/
def transport : Transport :=
  { Name := "Basic"
    verbosity := 5
    DemarshalProposal := fun s =>
      if s = payloadA ∨ s = payloadB then .ok { AgreementId := "A1" }
      else .error "not a proposal"
    ObscureProposalSecret := fun s =>
      if s = payloadA ∨ s = payloadB then .ok "proposal A1 secret ********"
      else .error "not a proposal"
    TruncateDisplayString := fun s n => if s.length ≤ n then s else (s.take n) ++ "..."
    MessageKeyPath := "/keys"
    GetKeys := fun _ => .ok ("pub", "priv")
    DemarshalPublicKey := fun b => .ok b
    GetExchangeDevice := fun _ => .ok (some (device "" "device"))
    GetOrganization := fun _ => .ok (some { MaxInterval := 60 })
    GetOrg := fun _ => "org1"
    GetId := fun _ => "D1"
    ExchangeURL := "https://exchange/"
    agbotId := "org1/agbot"
    GetExchangeMessageTTL := fun hb => 2 * hb
    ConstructExchangeMessage := fun _ _ _ _ => .ok "sealed"
    Marshal := fun m => .ok m
    InvokeExchange := fun k _ _ _ =>
      if k < 2 then (none, some "connection refused") else (none, none) }

/-- The transport with an encryption that fails. -/
def noSealTransport : Transport :=
  { transport with ConstructExchangeMessage := fun _ _ _ _ => .error "bad key" }

/-- The message target of the node `org1/D1`. -/
def messageTarget : ExchangeMessageTarget :=
  { ReceiverExchangeId := "org1/D1", ReceiverPublicKeyObj := none,
    ReceiverPublicKeyBytes := "key", ReceiverMsgEndPoint := "" }

/-- The empty journal. -/
def journal : Journal := { log := [], sleeps := [], requests := [] }

/-- The agreement `A1` without any service id. -/
def noServiceAgreement : Agreement := { agreement with ServiceId := [] }

/-- A store whose only agreement is `A1` without any service id. -/
def noServiceWorld : World :=
  { world 2 with db := { (world 2).db with agreements := [noServiceAgreement] } }

/-- An agreement `A0` with the device `org1/D0`: in progress, policy based, with the policy
name `org1/pol` and without any service id. -/
def strayAgreement : Agreement :=
  { agreement with CurrentAgreementId := "A0", DeviceId := "org1/D0", ServiceId := [] }

/-- A store in which the agreement `A0` comes before the agreement `A1`; the workload usage
is the one of `A1`. -/
def panicWorld : World :=
  { world 2 with db := { (world 2).db with agreements := [strayAgreement, agreement] } }

/-- A handler with two deferred commands, and two events in an event channel of
capacity 2, the configured queue size. -/
def fullHandler : BaseConsumerProtocolHandler :=
  { deferredCommands := [AgreementWork.StopWorker, AgreementWork.ObjectPolicyChange "o1"]
    messages := { buf := ["e1", "e2"], cap := 2 }
    AgbotAgreementQueueSize := 2 }

/-- The same handler with one event in the channel. -/
def roomyHandler : BaseConsumerProtocolHandler :=
  { fullHandler with messages := { buf := ["e1"], cap := 2 } }

end Scenario

/-! ## Read-only runs -/

theorem World.readOnlyFrom_refl (p : Step → Bool) (w : World) : w.readOnlyFrom p w :=
  ⟨rfl, rfl, rfl, [], by simp, by simp⟩

theorem World.readOnlyFrom_record {p : Step → Bool} {w w0 : World} (c : Call) (o : Outcome)
    (h : w.readOnlyFrom p w0) (hp : p { call := c, outcome := o } = true) :
    (w.record c o).readOnlyFrom p w0 := by
  obtain ⟨hdb, hhi, hlo, steps, htr, hall⟩ := h
  refine ⟨hdb, hhi, hlo, steps ++ [{ call := c, outcome := o }], ?_, ?_⟩
  · simp [World.record, htr]
  · intro s hs
    rcases List.mem_append.mp hs with h1 | h1
    · exact hall s h1
    · simp at h1
      simpa [h1] using hp

theorem World.readOnlyFrom_newSteps {p : Step → Bool} {w w0 : World}
    (h : w.readOnlyFrom p w0) : ∀ s ∈ w0.newSteps w, p s = true := by
  obtain ⟨_, _, _, steps, htr, hall⟩ := h
  simpa [World.newSteps, htr] using hall

theorem FindSingleWorkloadUsage_readOnly {p : Step → Bool} {w w0 : World} (env : Env)
    (deviceId policyName : String) (h : w.readOnlyFrom p w0)
    (hp : ∀ o, p { call := Call.FindSingleWorkloadUsageByDeviceAndPolicyName deviceId policyName,
                   outcome := o } = true) :
    (FindSingleWorkloadUsageByDeviceAndPolicyName env deviceId policyName w).2.readOnlyFrom p w0 :=
  World.readOnlyFrom_record _ _ h (hp _)

theorem UpdateAgreement_readOnly {p : Step → Bool} {w w0 : World} (env : Env) (ag : Agreement)
    (updateType : String) (metadata : Policy) (h : w.readOnlyFrom p w0)
    (hp : ∀ o, p { call := Call.UpdateAgreement ag updateType metadata, outcome := o } = true) :
    (UpdateAgreement env ag updateType metadata w).readOnlyFrom p w0 := by
  unfold UpdateAgreement
  repeat' split
  all_goals exact World.readOnlyFrom_record _ _ h (hp _)

theorem update_readOnly {w w0 : World} (env : Env) (ag : Agreement) (oldPolicy : Option Policy)
    (producerPol consumerPol : Policy) (dev : Device) (nodeArch : String) (wl0 : Workload)
    (h : w.readOnlyFrom evaluationStep w0) :
    (HandlePolicyChangeForAgreement.update env ag oldPolicy producerPol consumerPol dev nodeArch
      wl0 w).2.readOnlyFrom evaluationStep w0 := by
  simp only [HandlePolicyChangeForAgreement.update]
  repeat' split
  all_goals
    repeat' first
      | apply UpdateAgreement_readOnly
      | apply World.readOnlyFrom_record
      | exact h
      | exact rfl
      | exact fun _ => rfl

theorem mergeServicePolicies_readOnly (env : Env) (ids : List String) :
    ∀ (svcAllPol : ExternalPolicy) (w w0 : World), w.readOnlyFrom evaluationStep w0 →
      (HandlePolicyChangeForAgreement.mergeServicePolicies env ids svcAllPol w).2.readOnlyFrom
        evaluationStep w0 := by
  induction ids with
  | nil => intro svcAllPol w w0 h; simpa [HandlePolicyChangeForAgreement.mergeServicePolicies] using h
  | cons svcId rest ih =>
    intro svcAllPol w w0 h
    simp only [HandlePolicyChangeForAgreement.mergeServicePolicies]
    repeat' split
    all_goals
      repeat' first
        | apply ih
        | apply World.readOnlyFrom_record
        | exact h
        | exact rfl

theorem analyse_readOnly {w w0 : World} (env : Env) (ag : Agreement) (oldPolicy : Option Policy)
    (busPol : Policy) (cr : CompatibilityResult) (dev : Device) (nodeArch : String)
    (wlUsagePriority : Int) (wl : Workload) (h : w.readOnlyFrom evaluationStep w0) :
    (HandlePolicyChangeForAgreement.analyse env ag oldPolicy busPol cr dev nodeArch
      wlUsagePriority wl w).2.readOnlyFrom evaluationStep w0 := by
  simp only [HandlePolicyChangeForAgreement.analyse]
  repeat' split
  all_goals
    repeat' first
      | apply update_readOnly
      | apply World.readOnlyFrom_record
      | exact h
      | exact rfl

theorem evaluate_readOnly {w w0 : World} (env : Env) (ag : Agreement) (oldPolicy : Option Policy)
    (svcAllPol : ExternalPolicy) (busPol : Policy) (nodePol : ExternalPolicy) (dev : Device)
    (h : w.readOnlyFrom evaluationStep w0) :
    (HandlePolicyChangeForAgreement.evaluate env ag oldPolicy svcAllPol busPol nodePol dev
      w).2.readOnlyFrom evaluationStep w0 := by
  simp only [HandlePolicyChangeForAgreement.evaluate]
  repeat' split
  all_goals
    repeat' first
      | apply analyse_readOnly
      | apply FindSingleWorkloadUsage_readOnly
      | apply World.readOnlyFrom_record
      | exact h
      | exact rfl
      | exact fun _ => rfl

theorem HandlePolicyChangeForAgreement_readOnly (env : Env) (ag : Agreement)
    (oldPolicy : Option Policy) (w : World) :
    (HandlePolicyChangeForAgreement env ag oldPolicy w).2.readOnlyFrom evaluationStep w := by
  simp only [HandlePolicyChangeForAgreement]
  repeat' split
  all_goals
    repeat' first
      | apply evaluate_readOnly
      | apply mergeServicePolicies_readOnly
      | apply World.readOnlyFrom_record
      | exact World.readOnlyFrom_refl _ _
      | exact rfl


/-! ## Trace of `CancelAgreement` -/

theorem World.tracedFrom_refl (p : Step → Bool) (w : World) : w.tracedFrom p w :=
  ⟨[], by simp, by simp⟩

theorem World.tracedFrom_step {p : Step → Bool} {w w1 w0 : World} (c : Call) (o : Outcome)
    (htrace : w1.trace = w.trace ++ [{ call := c, outcome := o }])
    (h : w.tracedFrom p w0) (hp : p { call := c, outcome := o } = true) :
    w1.tracedFrom p w0 := by
  obtain ⟨steps, htr, hall⟩ := h
  refine ⟨steps ++ [{ call := c, outcome := o }], ?_, ?_⟩
  · simp [htrace, htr]
  · intro s hs
    rcases List.mem_append.mp hs with h1 | h1
    · exact hall s h1
    · simp at h1
      simpa [h1] using hp

theorem World.tracedFrom_same {p : Step → Bool} {w w1 w0 : World}
    (htrace : w1.trace = w.trace) (h : w.tracedFrom p w0) : w1.tracedFrom p w0 := by
  obtain ⟨steps, htr, hall⟩ := h
  exact ⟨steps, by simp [htrace, htr], hall⟩

theorem World.readOnlyFrom.traced {p : Step → Bool} {w w0 : World}
    (h : w.readOnlyFrom p w0) : w.tracedFrom p w0 := h.2.2.2

theorem World.tracedFrom_trans {p : Step → Bool} {w w1 w0 : World}
    (h1 : w1.tracedFrom p w0) (h : w.tracedFrom p w1) : w.tracedFrom p w0 := by
  obtain ⟨s1, htr1, hall1⟩ := h1
  obtain ⟨s2, htr2, hall2⟩ := h
  refine ⟨s1 ++ s2, by simp [htr2, htr1], ?_⟩
  intro s hs
  rcases List.mem_append.mp hs with h | h
  · exact hall1 s h
  · exact hall2 s h

theorem World.tracedFrom_mono {p q : Step → Bool} {w w0 : World}
    (hpq : ∀ s, p s = true → q s = true) (h : w.tracedFrom p w0) : w.tracedFrom q w0 := by
  obtain ⟨steps, htr, hall⟩ := h
  exact ⟨steps, htr, fun s hs => hpq s (hall s hs)⟩

theorem World.tracedFrom_record {p : Step → Bool} {w w0 : World} (c : Call) (o : Outcome)
    (h : w.tracedFrom p w0) (hp : p { call := c, outcome := o } = true) :
    (w.record c o).tracedFrom p w0 :=
  World.tracedFrom_step c o rfl h hp

theorem FindSingleWorkloadUsage_traced {p : Step → Bool} {w w0 : World} (env : Env)
    (deviceId policyName : String) (h : w.tracedFrom p w0)
    (hp : ∀ o, p { call := Call.FindSingleWorkloadUsageByDeviceAndPolicyName deviceId policyName,
                   outcome := o } = true) :
    (FindSingleWorkloadUsageByDeviceAndPolicyName env deviceId policyName w).2.tracedFrom p w0 :=
  World.tracedFrom_record _ _ h (hp _)

theorem GetDevice_traced {p : Step → Bool} {w w0 : World} (env : Env) (deviceId : String)
    (h : w.tracedFrom p w0)
    (hp : ∀ o, p { call := Call.GetDevice deviceId, outcome := o } = true) :
    (GetDevice env deviceId w).2.tracedFrom p w0 :=
  World.tracedFrom_record _ _ h (hp _)

theorem GetHAUpgradingWorkload_traced {p : Step → Bool} {w w0 : World} (env : Env)
    (org haGroup policyName : String) (h : w.tracedFrom p w0)
    (hp : ∀ o, p { call := Call.GetHAUpgradingWorkload org haGroup policyName,
                   outcome := o } = true) :
    (GetHAUpgradingWorkload env org haGroup policyName w).2.tracedFrom p w0 :=
  World.tracedFrom_record _ _ h (hp _)

theorem InsertHAUpgradingWorkload_traced {p : Step → Bool} {w w0 : World} (env : Env)
    (org haGroup policyName deviceId : String) (h : w.tracedFrom p w0)
    (hp : ∀ o, p { call := Call.InsertHAUpgradingWorkloadForGroupAndPolicy org haGroup policyName
                     deviceId, outcome := o } = true) :
    (InsertHAUpgradingWorkloadForGroupAndPolicy env org haGroup policyName deviceId
      w).2.tracedFrom p w0 := by
  simp only [InsertHAUpgradingWorkloadForGroupAndPolicy]
  split
  · exact World.tracedFrom_record _ _ h (hp _)
  · exact World.tracedFrom_step _ _ rfl h (hp _)

theorem DeleteWorkloadUsage_traced {p : Step → Bool} {w w0 : World}
    (deviceId policyName : String) (h : w.tracedFrom p w0)
    (hp : p { call := Call.DeleteWorkloadUsage deviceId policyName, outcome := .ok } = true) :
    (DeleteWorkloadUsage deviceId policyName w).tracedFrom p w0 :=
  World.tracedFrom_step _ _ rfl h hp

theorem UpdatePendingUpgrade_traced {p : Step → Bool} {w w0 : World}
    (deviceId policyName : String) (h : w.tracedFrom p w0)
    (hp : p { call := Call.UpdatePendingUpgrade deviceId policyName, outcome := .ok } = true) :
    (UpdatePendingUpgrade deviceId policyName w).tracedFrom p w0 :=
  World.tracedFrom_step _ _ rfl h hp

theorem World.enqueueHigh_traced {p : Step → Bool} {w w0 : World} (work : AgreementWork)
    (h : w.tracedFrom p w0) : (w.enqueueHigh work).tracedFrom p w0 :=
  World.tracedFrom_same rfl h

theorem World.interleave_traced {p : Step → Bool} {w w0 : World} (env : Env)
    (h : w.tracedFrom p w0) : (w.interleave env).tracedFrom p w0 :=
  World.tracedFrom_same rfl h

theorem cancelNow_traced {w w0 : World} (env : Env) (ag : Agreement) (reason : String)
    (h : w.tracedFrom insideCancel w0) :
    (CancelAgreement.cancelNow env ag reason w).tracedFrom insideCancel w0 :=
  World.enqueueHigh_traced _ (DeleteWorkloadUsage_traced _ _ h rfl)

theorem CancelAgreement_start_traced {w w0 : World} (env : Env) (ag : Agreement)
    (reason : String) (policyMatches : Bool)
    (h : (w.record (Call.CancelAgreement ag.CurrentAgreementId reason policyMatches)
      .ok).tracedFrom insideCancel w0) :
    (CancelAgreement.start env ag reason policyMatches w).2.tracedFrom insideCancel w0 := by
  simp only [CancelAgreement.start]
  repeat' split
  all_goals
    repeat' first
      | apply cancelNow_traced
      | apply UpdatePendingUpgrade_traced
      | apply GetDevice_traced
      | apply FindSingleWorkloadUsage_traced
      | exact h
      | exact rfl
      | exact fun _ => rfl

theorem CancelAgreement_query_traced {w w0 : World} (env : Env) (ag : Agreement)
    (haGroup : String) (h : w.tracedFrom insideCancel w0) :
    (CancelAgreement.query env ag haGroup w).2.tracedFrom insideCancel w0 := by
  simp only [CancelAgreement.query]
  repeat' split
  all_goals exact GetHAUpgradingWorkload_traced _ _ _ _ h (fun _ => rfl)

theorem CancelAgreement_claim_traced {w w0 : World} (env : Env) (ag : Agreement)
    (reason haGroup : String) (h : w.tracedFrom insideCancel w0) :
    (CancelAgreement.claim env ag reason haGroup w).tracedFrom insideCancel w0 := by
  simp only [CancelAgreement.claim]
  repeat' split
  all_goals
    repeat' first
      | apply cancelNow_traced
      | apply InsertHAUpgradingWorkload_traced
      | exact h
      | exact fun _ => rfl

/-- The trace of `CancelAgreement` is its own entry followed by calls to the store and the
exchange. -/
theorem CancelAgreement_traced (env : Env) (ag : Agreement) (reason : String)
    (policyMatches : Bool) (w : World) :
    (CancelAgreement env ag reason policyMatches w).tracedFrom insideCancel
      (w.record (Call.CancelAgreement ag.CurrentAgreementId reason policyMatches) .ok) := by
  have hs : (CancelAgreement.start env ag reason policyMatches w).2.tracedFrom insideCancel
      (w.record (Call.CancelAgreement ag.CurrentAgreementId reason policyMatches) .ok) :=
    CancelAgreement_start_traced env ag reason policyMatches (World.tracedFrom_refl _ _)
  simp only [CancelAgreement]
  split
  · split
    · exact CancelAgreement_claim_traced _ _ _ _
        (World.interleave_traced _ (CancelAgreement_query_traced _ _ _ hs))
    · exact CancelAgreement_query_traced _ _ _ hs
  · exact hs

/-! ## `CancelAgreement` -/

/-- C3: in `CancelAgreement`, when there is no workload-usage row for
`(deviceId, policyName)`, or `policyMatches` is false, or the device fetched from the
exchange is not in an HA group, the workload-usage row is deleted and exactly one
`CancelAgreement` work item (agreement id, protocol, `GetTerminationCode(reason)`,
message id 0) is appended to `inboundHigh`; `inboundLow` and the HA table are unchanged
and no call of the run reads or writes the HA table. -/
theorem C3_CancelAgreement_without_HA (env : Env) (ag : Agreement) (reason : String)
    (policyMatches : Bool) (w : World)
    (h : w.db.workloadUsages.find? (WorkloadUsage.hasKey ag.DeviceId ag.PolicyName) = none
      ∨ policyMatches = false
      ∨ ∃ d, env.GetDevice ag.DeviceId = .ok d ∧ ∀ dev, d = some dev → dev.HAGroup = "") :
    (CancelAgreement env ag reason policyMatches w).db.workloadUsages =
        deleteUsage ag.DeviceId ag.PolicyName w.db.workloadUsages
    ∧ (CancelAgreement env ag reason policyMatches w).inboundHigh =
        w.inboundHigh ++ [AgreementWork.CancelAgreement ag.CurrentAgreementId
          ag.AgreementProtocol (env.GetTerminationCode reason) 0]
    ∧ (CancelAgreement env ag reason policyMatches w).inboundLow = w.inboundLow
    ∧ (CancelAgreement env ag reason policyMatches w).db.haUpgrading = w.db.haUpgrading
    ∧ ∀ s ∈ w.newSteps (CancelAgreement env ag reason policyMatches w),
        s.call.isHAUpgrading = false := by
  revert h
  cases hf : env.dbFault
      (Call.FindSingleWorkloadUsageByDeviceAndPolicyName ag.DeviceId ag.PolicyName) <;>
    cases hfind : w.db.workloadUsages.find? (WorkloadUsage.hasKey ag.DeviceId ag.PolicyName) <;>
    cases policyMatches <;> intro h <;>
    simp [CancelAgreement, CancelAgreement.start, FindSingleWorkloadUsageByDeviceAndPolicyName,
      CancelAgreement.cancelNow, DeleteWorkloadUsage, World.enqueueHigh, World.record,
      NewCancelAgreement, World.newSteps, Call.isHAUpgrading, hf, hfind]
  rcases h with h | h | ⟨d, hd, hg⟩
  · simp at h
  · simp at h
  · cases d with
    | none => simp [GetDevice, World.record, hd, Call.isHAUpgrading]
    | some dev =>
      have := hg dev rfl
      simp [GetDevice, World.record, hd, this, Call.isHAUpgrading]

/-- C2: in `CancelAgreement` with `policyMatches = true`, when the lookup returns a
workload-usage row and the fetched device is in an HA group, the row is marked
`pendingUpgrade = true`; if the query of the HA table returns a row, nothing is queued,
the marked workload-usage row is kept and no insert is attempted; if it returns none, the
insert-if-absent is called once and, when it returns this device, the workload-usage row
is deleted and exactly one `CancelAgreement` work item (`GetTerminationCode(reason)`,
message id 0) is appended to `inboundHigh`, while when it returns another device nothing
is queued and the marked row is kept. -/
theorem C2_CancelAgreement_HA_group (env : Env) (ag : Agreement) (reason : String) (w : World)
    (u : WorkloadUsage) (dev : Device)
    (hlookup : (FindSingleWorkloadUsageByDeviceAndPolicyName env ag.DeviceId ag.PolicyName w).1
      = .ok (some u))
    (hdev : env.GetDevice ag.DeviceId = .ok (some dev))
    (hgroup : dev.HAGroup ≠ "") :
    ({ call := Call.UpdatePendingUpgrade ag.DeviceId ag.PolicyName, outcome := .ok } ∈
        w.newSteps (CancelAgreement env ag reason true w))
    ∧ (∀ r, (GetHAUpgradingWorkload env (env.GetOrg ag.DeviceId) dev.HAGroup ag.PolicyName w).1
          = .ok (some r) →
        (CancelAgreement env ag reason true w).inboundHigh = w.inboundHigh
        ∧ (CancelAgreement env ag reason true w).db.workloadUsages =
            markPending ag.DeviceId ag.PolicyName w.db.workloadUsages
        ∧ ∀ s ∈ w.newSteps (CancelAgreement env ag reason true w), s.call.isInsert = false)
    ∧ ((GetHAUpgradingWorkload env (env.GetOrg ag.DeviceId) dev.HAGroup ag.PolicyName w).1
          = .ok none →
        ((w.newSteps (CancelAgreement env ag reason true w)).filter
            (fun s => s.call.isInsert)).length = 1
        ∧ ∀ winner, (InsertHAUpgradingWorkloadForGroupAndPolicy env (env.GetOrg ag.DeviceId)
              dev.HAGroup ag.PolicyName ag.DeviceId (w.interleave env)).1 = .ok winner →
          (winner = ag.DeviceId →
            (CancelAgreement env ag reason true w).db.workloadUsages =
                deleteUsage ag.DeviceId ag.PolicyName
                  (markPending ag.DeviceId ag.PolicyName w.db.workloadUsages)
            ∧ (CancelAgreement env ag reason true w).inboundHigh =
                w.inboundHigh ++ [AgreementWork.CancelAgreement ag.CurrentAgreementId
                  ag.AgreementProtocol (env.GetTerminationCode reason) 0])
          ∧ (winner ≠ ag.DeviceId →
            (CancelAgreement env ag reason true w).inboundHigh = w.inboundHigh
            ∧ (CancelAgreement env ag reason true w).db.workloadUsages =
                markPending ag.DeviceId ag.PolicyName w.db.workloadUsages)) := by
  have hf : env.dbFault
      (Call.FindSingleWorkloadUsageByDeviceAndPolicyName ag.DeviceId ag.PolicyName) = false := by
    cases h : env.dbFault
      (Call.FindSingleWorkloadUsageByDeviceAndPolicyName ag.DeviceId ag.PolicyName)
    · rfl
    · simp [FindSingleWorkloadUsageByDeviceAndPolicyName, h] at hlookup
  have hfind : w.db.workloadUsages.find? (WorkloadUsage.hasKey ag.DeviceId ag.PolicyName)
      = some u := by
    simpa [FindSingleWorkloadUsageByDeviceAndPolicyName, hf] using hlookup
  cases hq : env.dbFault
      (Call.GetHAUpgradingWorkload (env.GetOrg ag.DeviceId) dev.HAGroup ag.PolicyName) <;>
    cases hrow : w.db.haUpgrading.find?
      (UpgradingHAGroupWorkload.hasKey (env.GetOrg ag.DeviceId) dev.HAGroup ag.PolicyName) <;>
    cases hi : env.dbFault (Call.InsertHAUpgradingWorkloadForGroupAndPolicy
      (env.GetOrg ag.DeviceId) dev.HAGroup ag.PolicyName ag.DeviceId) <;>
    by_cases hw : (insertIfAbsent (env.GetOrg ag.DeviceId) dev.HAGroup ag.PolicyName ag.DeviceId
      (env.otherAgbots w.db.haUpgrading)).1 = ag.DeviceId <;>
    simp [CancelAgreement, CancelAgreement.start, CancelAgreement.query, CancelAgreement.claim,
      FindSingleWorkloadUsageByDeviceAndPolicyName, GetDevice, GetHAUpgradingWorkload,
      InsertHAUpgradingWorkloadForGroupAndPolicy, UpdatePendingUpgrade,
      CancelAgreement.cancelNow, DeleteWorkloadUsage, World.enqueueHigh, World.record,
      World.interleave, NewCancelAgreement, World.newSteps, Call.isInsert,
      hf, hfind, hdev, hgroup, hq, hrow, hi, hw]

/-- Witness of C3 at `policyMatches = false`: the device of agreement `A1` has a
workload-usage row and is in HA group `g1`, and the cancel is queued at once. -/
theorem C3_CancelAgreement_without_HA_witness :
    (Scenario.world 2).db.workloadUsages.find?
        (WorkloadUsage.hasKey Scenario.agreement.DeviceId Scenario.agreement.PolicyName) ≠ none
    ∧ (CancelAgreement (Scenario.env (Scenario.policy [] "") (Scenario.policy [] "") "g1")
        Scenario.agreement "PolicyChanged" false (Scenario.world 2)).db.workloadUsages = []
    ∧ (CancelAgreement (Scenario.env (Scenario.policy [] "") (Scenario.policy [] "") "g1")
        Scenario.agreement "PolicyChanged" false (Scenario.world 2)).inboundHigh =
        [AgreementWork.CancelAgreement "A1" "Basic" 200 0] :=
  ⟨by decide,
    (C3_CancelAgreement_without_HA
      (Scenario.env (Scenario.policy [] "") (Scenario.policy [] "") "g1") Scenario.agreement
      "PolicyChanged" false (Scenario.world 2) (Or.inr (Or.inl rfl))).1,
    (C3_CancelAgreement_without_HA
      (Scenario.env (Scenario.policy [] "") (Scenario.policy [] "") "g1") Scenario.agreement
      "PolicyChanged" false (Scenario.world 2) (Or.inr (Or.inl rfl))).2.1⟩

/-- Witness of C2 in the lost race: the query finds no row, another agbot then takes the
slot for `org1/D2`, the insert returns `org1/D2`, nothing is queued and the marked row is
kept. -/
theorem C2_CancelAgreement_HA_group_witness :
    (FindSingleWorkloadUsageByDeviceAndPolicyName Scenario.raceEnv Scenario.agreement.DeviceId
        Scenario.agreement.PolicyName (Scenario.world 2)).1 =
      .ok (some { DeviceId := "org1/D1", PolicyName := "org1/pol", CurrentAgreementId := "A1",
                  Priority := 2, PendingUpgrade := false })
    ∧ Scenario.raceEnv.GetDevice Scenario.agreement.DeviceId =
        .ok (some (Scenario.device "g1" "device"))
    ∧ (Scenario.device "g1" "device").HAGroup ≠ ""
    ∧ (GetHAUpgradingWorkload Scenario.raceEnv (Scenario.raceEnv.GetOrg Scenario.agreement.DeviceId)
        (Scenario.device "g1" "device").HAGroup Scenario.agreement.PolicyName
        (Scenario.world 2)).1 = .ok none
    ∧ (InsertHAUpgradingWorkloadForGroupAndPolicy Scenario.raceEnv
        (Scenario.raceEnv.GetOrg Scenario.agreement.DeviceId)
        (Scenario.device "g1" "device").HAGroup Scenario.agreement.PolicyName
        Scenario.agreement.DeviceId ((Scenario.world 2).interleave Scenario.raceEnv)).1 =
        .ok "org1/D2"
    ∧ (CancelAgreement Scenario.raceEnv Scenario.agreement "PolicyChanged" true
        (Scenario.world 2)).inboundHigh = (Scenario.world 2).inboundHigh
    ∧ (CancelAgreement Scenario.raceEnv Scenario.agreement "PolicyChanged" true
        (Scenario.world 2)).db.workloadUsages =
        markPending Scenario.agreement.DeviceId Scenario.agreement.PolicyName
          (Scenario.world 2).db.workloadUsages :=
  ⟨rfl, rfl, by decide, rfl, rfl,
    (((C2_CancelAgreement_HA_group Scenario.raceEnv Scenario.agreement "PolicyChanged"
      (Scenario.world 2) _ (Scenario.device "g1" "device") rfl rfl (by decide)).2.2 rfl).2
      "org1/D2" rfl).2 (by decide)⟩

/-- C4, amended: whenever `CancelAgreement` puts a cancel work item on `inboundHigh`, either
the workload-usage lookup returned no row (none found, or the lookup failed), or
`policyMatches` was false, or the device was absent from the exchange or not in an HA
group, or the device is in an HA group and the HA insert-if-absent returned this device as
the winner. -/
theorem C4_cancel_items_of_CancelAgreement (env : Env) (ag : Agreement) (reason : String)
    (policyMatches : Bool) (w : World)
    (henq : (CancelAgreement env ag reason policyMatches w).inboundHigh ≠ w.inboundHigh) :
    (∀ u, (FindSingleWorkloadUsageByDeviceAndPolicyName env ag.DeviceId ag.PolicyName w).1
        ≠ .ok (some u))
    ∨ policyMatches = false
    ∨ (∃ d, env.GetDevice ag.DeviceId = .ok d ∧ ∀ dev, d = some dev → dev.HAGroup = "")
    ∨ ∃ dev, env.GetDevice ag.DeviceId = .ok (some dev) ∧ dev.HAGroup ≠ "" ∧
        (InsertHAUpgradingWorkloadForGroupAndPolicy env (env.GetOrg ag.DeviceId) dev.HAGroup
          ag.PolicyName ag.DeviceId (w.interleave env)).1 = .ok ag.DeviceId := by
  revert henq
  cases hf : env.dbFault
      (Call.FindSingleWorkloadUsageByDeviceAndPolicyName ag.DeviceId ag.PolicyName) <;>
    cases hfind : w.db.workloadUsages.find? (WorkloadUsage.hasKey ag.DeviceId ag.PolicyName) <;>
    cases policyMatches <;>
    simp [FindSingleWorkloadUsageByDeviceAndPolicyName, hf, hfind]
  rcases hdev : env.GetDevice ag.DeviceId with e | d
  · simp [CancelAgreement, CancelAgreement.start, FindSingleWorkloadUsageByDeviceAndPolicyName,
      GetDevice, World.record, hf, hfind, hdev]
  · cases d with
    | none => simp
    | some dev =>
      by_cases hg : dev.HAGroup = ""
      · simp [hg]
      · cases hq : env.dbFault
            (Call.GetHAUpgradingWorkload (env.GetOrg ag.DeviceId) dev.HAGroup ag.PolicyName) <;>
          cases hrow : w.db.haUpgrading.find?
            (UpgradingHAGroupWorkload.hasKey (env.GetOrg ag.DeviceId) dev.HAGroup ag.PolicyName) <;>
          cases hi : env.dbFault (Call.InsertHAUpgradingWorkloadForGroupAndPolicy
            (env.GetOrg ag.DeviceId) dev.HAGroup ag.PolicyName ag.DeviceId) <;>
          by_cases hw : (insertIfAbsent (env.GetOrg ag.DeviceId) dev.HAGroup ag.PolicyName
            ag.DeviceId (env.otherAgbots w.db.haUpgrading)).1 = ag.DeviceId <;>
          simp [CancelAgreement, CancelAgreement.start, CancelAgreement.query,
            CancelAgreement.claim, FindSingleWorkloadUsageByDeviceAndPolicyName, GetDevice,
            GetHAUpgradingWorkload, InsertHAUpgradingWorkloadForGroupAndPolicy,
            UpdatePendingUpgrade, CancelAgreement.cancelNow, DeleteWorkloadUsage,
            World.enqueueHigh, World.record, World.interleave, NewCancelAgreement,
            hf, hfind, hdev, hg, hq, hrow, hi, hw]

/-- Witness of C4, amended: the device of agreement `A1` is in no HA group and the cancel is
queued. -/
theorem C4_cancel_items_of_CancelAgreement_witness :
    (CancelAgreement (Scenario.env (Scenario.policy [] "") (Scenario.policy [] "") "")
        Scenario.agreement "PolicyChanged" true (Scenario.world 2)).inboundHigh
      ≠ (Scenario.world 2).inboundHigh
    ∧ ((∀ u, (FindSingleWorkloadUsageByDeviceAndPolicyName
          (Scenario.env (Scenario.policy [] "") (Scenario.policy [] "") "")
          Scenario.agreement.DeviceId Scenario.agreement.PolicyName (Scenario.world 2)).1
          ≠ .ok (some u))
      ∨ true = false
      ∨ (∃ d, (Scenario.env (Scenario.policy [] "") (Scenario.policy [] "") "").GetDevice
            Scenario.agreement.DeviceId = .ok d ∧ ∀ dev, d = some dev → dev.HAGroup = "")
      ∨ ∃ dev, (Scenario.env (Scenario.policy [] "") (Scenario.policy [] "") "").GetDevice
            Scenario.agreement.DeviceId = .ok (some dev) ∧ dev.HAGroup ≠ "" ∧
          (InsertHAUpgradingWorkloadForGroupAndPolicy
            (Scenario.env (Scenario.policy [] "") (Scenario.policy [] "") "")
            ((Scenario.env (Scenario.policy [] "") (Scenario.policy [] "") "").GetOrg
              Scenario.agreement.DeviceId) dev.HAGroup
            Scenario.agreement.PolicyName Scenario.agreement.DeviceId
            ((Scenario.world 2).interleave
              (Scenario.env (Scenario.policy [] "") (Scenario.policy [] "") ""))).1
            = .ok Scenario.agreement.DeviceId) :=
  ⟨by decide,
    C4_cancel_items_of_CancelAgreement
      (Scenario.env (Scenario.policy [] "") (Scenario.policy [] "") "") Scenario.agreement
      "PolicyChanged" true (Scenario.world 2) (by decide)⟩

/-- C4 fails as stated: with `policyMatches = false`, `CancelAgreement` queues the cancel of
agreement `A1` although its device has a workload-usage row, is in HA group `g1` and never
called the HA insert-if-absent. -/
theorem C4_counterexample :
    (Scenario.world 2).db.workloadUsages.find?
        (WorkloadUsage.hasKey Scenario.agreement.DeviceId Scenario.agreement.PolicyName) ≠ none
    ∧ (Scenario.env (Scenario.policy [] "") (Scenario.policy [] "") "g1").GetDevice
        Scenario.agreement.DeviceId = .ok (some (Scenario.device "g1" "device"))
    ∧ (Scenario.device "g1" "device").HAGroup ≠ ""
    ∧ (∀ s ∈ (Scenario.world 2).newSteps
          (CancelAgreement (Scenario.env (Scenario.policy [] "") (Scenario.policy [] "") "g1")
            Scenario.agreement "PolicyChanged" false (Scenario.world 2)),
        s.call.isInsert = false)
    ∧ (CancelAgreement (Scenario.env (Scenario.policy [] "") (Scenario.policy [] "") "g1")
        Scenario.agreement "PolicyChanged" false (Scenario.world 2)).inboundHigh =
        [AgreementWork.CancelAgreement "A1" "Basic" 200 0] := by
  refine ⟨by decide, rfl, by decide, ?_, by decide⟩
  decide

/-! ## `HandlePolicyChanged` -/

theorem evaluationStep_insideCancel (s : Step) (h : evaluationStep s = true) :
    insideCancel s = true := by
  obtain ⟨c, o⟩ := s
  cases c <;> simp_all [evaluationStep, insideCancel, Call.isEvaluation, Call.isCancel]

theorem cancelCalls_of_traced {w w0 : World} (h : w.tracedFrom insideCancel w0) :
    cancelCalls (w0.newSteps w) = [] := by
  obtain ⟨steps, htr, hall⟩ := h
  simp only [cancelCalls, World.newSteps, htr, List.drop_left, List.filter_eq_nil_iff]
  intro s hs
  have := hall s hs
  simpa [insideCancel] using this

theorem cancelCalls_CancelAgreement {w w0 : World} (env : Env) (ag : Agreement)
    (reason : String) (policyMatches : Bool) (h : w.tracedFrom insideCancel w0) :
    cancelCalls (w0.newSteps (CancelAgreement env ag reason policyMatches w)) =
      [{ call := Call.CancelAgreement ag.CurrentAgreementId reason policyMatches,
         outcome := .ok }] := by
  obtain ⟨s1, htr1, hall1⟩ := h
  obtain ⟨s2, htr2, hall2⟩ := CancelAgreement_traced env ag reason policyMatches w
  have h1 : s1.filter (fun s => s.call.isCancel) = [] := by
    simp only [List.filter_eq_nil_iff]
    intro s hs
    simpa [insideCancel] using hall1 s hs
  have h2 : s2.filter (fun s => s.call.isCancel) = [] := by
    simp only [List.filter_eq_nil_iff]
    intro s hs
    simpa [insideCancel] using hall2 s hs
  simp only [cancelCalls, World.newSteps, htr2, World.record, htr1, List.append_assoc,
    List.drop_left, List.filter_append, h1, h2]
  simp [Call.isCancel]

/-- C1, amended: for an agreement in scope of the `PolicyChanged` command (its stored policy
demarshals, has the name of the changed policy and `MatchesMine` reports an error) the body
of the loop of `HandlePolicyChanged` does the following.  With an empty pattern it runs
`HandlePolicyChangeForAgreement` with the stored policy as old policy and, on its triple,
calls `CancelAgreement` once, with reason `PolicyChanged` and the `policyMatches` of the
triple, exactly when not (policyMatches and noNewPriority and (deviceType is not cluster or
clusterNsUnchanged)); otherwise it calls no `CancelAgreement` and appends the agreement id
to the agreements kept.  With a non-empty pattern it does not run the evaluation and calls
`CancelAgreement` once with reason `PolicyChanged` and `policyMatches = true`. -/
theorem C1_policy_changed_cancels (env : Env) (cmd : PolicyChangedCommand) (eventPol : Policy)
    (w : World) (kept : List String) (ag : Agreement) (pol : Policy) (e : String)
    (hpol : env.DemarshalPolicy ag.Policy = .ok pol)
    (hname : eventPol.Header.Name = pol.Header.Name)
    (hmine : env.MatchesMine cmd.Org pol = some e) :
    (ag.Pattern = "" →
      ((HandlePolicyChangeForAgreement env ag (some pol) w).1.1 = true
        ∧ (HandlePolicyChangeForAgreement env ag (some pol) w).1.2.1 = true
        ∧ (ag.GetDeviceType ≠ DEVICE_TYPE_CLUSTER
            ∨ (HandlePolicyChangeForAgreement env ag (some pol) w).1.2.2 = true) →
        HandlePolicyChanged.body env cmd eventPol (w, kept) ag =
            ((HandlePolicyChangeForAgreement env ag (some pol) w).2,
              kept ++ [ag.CurrentAgreementId])
        ∧ cancelCalls (w.newSteps (HandlePolicyChanged.body env cmd eventPol (w, kept) ag).1)
            = [])
      ∧ (¬ ((HandlePolicyChangeForAgreement env ag (some pol) w).1.1 = true
          ∧ (HandlePolicyChangeForAgreement env ag (some pol) w).1.2.1 = true
          ∧ (ag.GetDeviceType ≠ DEVICE_TYPE_CLUSTER
              ∨ (HandlePolicyChangeForAgreement env ag (some pol) w).1.2.2 = true)) →
        HandlePolicyChanged.body env cmd eventPol (w, kept) ag =
            (CancelAgreement env ag TERM_REASON_POLICY_CHANGED
                (HandlePolicyChangeForAgreement env ag (some pol) w).1.1
                (HandlePolicyChangeForAgreement env ag (some pol) w).2, kept)
        ∧ cancelCalls (w.newSteps (HandlePolicyChanged.body env cmd eventPol (w, kept) ag).1)
            = [{ call := Call.CancelAgreement ag.CurrentAgreementId TERM_REASON_POLICY_CHANGED
                   (HandlePolicyChangeForAgreement env ag (some pol) w).1.1,
                 outcome := .ok }]))
    ∧ (ag.Pattern ≠ "" →
        HandlePolicyChanged.body env cmd eventPol (w, kept) ag =
          (CancelAgreement env ag TERM_REASON_POLICY_CHANGED true w, kept)
        ∧ cancelCalls (w.newSteps (HandlePolicyChanged.body env cmd eventPol (w, kept) ag).1)
            = [{ call := Call.CancelAgreement ag.CurrentAgreementId TERM_REASON_POLICY_CHANGED
                   true, outcome := .ok }]) := by
  have hro := HandlePolicyChangeForAgreement_readOnly env ag (some pol) w
  have htr : (HandlePolicyChangeForAgreement env ag (some pol) w).2.tracedFrom insideCancel w :=
    World.tracedFrom_mono evaluationStep_insideCancel hro.traced
  refine ⟨fun hpat => ?_, fun hpat => ?_⟩
  · generalize hr : HandlePolicyChangeForAgreement env ag (some pol) w = r at htr ⊢
    obtain ⟨⟨a, b, c⟩, w1⟩ := r
    have hbody : HandlePolicyChanged.body env cmd eventPol (w, kept) ag =
        if (a && b) && (!decide (ag.GetDeviceType = DEVICE_TYPE_CLUSTER) || c) then
          (w1, kept ++ [ag.CurrentAgreementId])
        else (CancelAgreement env ag TERM_REASON_POLICY_CHANGED a w1, kept) := by
      by_cases hc : ag.GetDeviceType = DEVICE_TYPE_CLUSTER <;>
        cases a <;> cases b <;> cases c <;>
        simp [HandlePolicyChanged.body, hpol, hname, hmine, hpat, hr, hc]
    constructor
    · rintro ⟨h1, h2, h3⟩
      have hcond : ((a && b) && (!decide (ag.GetDeviceType = DEVICE_TYPE_CLUSTER) || c)) = true := by
        simp only [] at h1 h2 h3
        subst h1 h2
        rcases h3 with h3 | h3
        · simp [h3]
        · simp [h3]
      rw [hbody, if_pos hcond]
      exact ⟨rfl, cancelCalls_of_traced htr⟩
    · intro hn
      have hcond : ¬ ((a && b) && (!decide (ag.GetDeviceType = DEVICE_TYPE_CLUSTER) || c)) = true := by
        intro h
        apply hn
        simp only [Bool.and_eq_true, Bool.or_eq_true, Bool.not_eq_true', decide_eq_false_iff_not] at h
        exact ⟨h.1.1, h.1.2, h.2⟩
      rw [hbody, if_neg hcond]
      exact ⟨rfl, cancelCalls_CancelAgreement _ _ _ _ htr⟩
  · have hb : HandlePolicyChanged.body env cmd eventPol (w, kept) ag =
        (CancelAgreement env ag TERM_REASON_POLICY_CHANGED true w, kept) := by
      simp [HandlePolicyChanged.body, hpol, hname, hmine, hpat]
    exact ⟨hb, by rw [hb]; exact cancelCalls_CancelAgreement _ _ _ _ (World.tracedFrom_refl _ _)⟩

/-- Witness of C1, amended: agreement `A1` is in scope, its policy is unchanged, the
evaluation returns `(true, true, true)` and the agreement is kept without a cancel. -/
theorem C1_policy_changed_cancels_witness :
    (Scenario.env Scenario.pol2 Scenario.pol2 "").DemarshalPolicy Scenario.agreement.Policy
      = .ok Scenario.pol2
    ∧ Scenario.pol2.Header.Name = Scenario.pol2.Header.Name
    ∧ (Scenario.env Scenario.pol2 Scenario.pol2 "").MatchesMine Scenario.policyChanged.Org
        Scenario.pol2 = some "policy differs"
    ∧ Scenario.agreement.Pattern = ""
    ∧ (HandlePolicyChangeForAgreement (Scenario.env Scenario.pol2 Scenario.pol2 "")
        Scenario.agreement (some Scenario.pol2) (Scenario.world 2)).1 = (true, true, true)
    ∧ (HandlePolicyChanged.body (Scenario.env Scenario.pol2 Scenario.pol2 "")
        Scenario.policyChanged Scenario.pol2 (Scenario.world 2, []) Scenario.agreement).2
        = [] ++ [Scenario.agreement.CurrentAgreementId]
    ∧ cancelCalls ((Scenario.world 2).newSteps
        (HandlePolicyChanged.body (Scenario.env Scenario.pol2 Scenario.pol2 "")
          Scenario.policyChanged Scenario.pol2 (Scenario.world 2, []) Scenario.agreement).1)
        = [] :=
  ⟨rfl, rfl, rfl, rfl, by decide,
    congrArg Prod.snd (((C1_policy_changed_cancels (Scenario.env Scenario.pol2 Scenario.pol2 "")
      Scenario.policyChanged Scenario.pol2 (Scenario.world 2) [] Scenario.agreement
      Scenario.pol2 "policy differs" rfl rfl rfl).1 rfl).1 (by decide)).1,
    (((C1_policy_changed_cancels (Scenario.env Scenario.pol2 Scenario.pol2 "")
      Scenario.policyChanged Scenario.pol2 (Scenario.world 2) [] Scenario.agreement
      Scenario.pol2 "policy differs" rfl rfl rfl).1 rfl).1 (by decide)).2⟩

/-- C1 fails as stated: the pattern-based agreement `A1` is in scope of the command and
`HandlePolicyChangeForAgreement` returns `(true, true, true)` for it, yet the loop body
calls `CancelAgreement` (reason `PolicyChanged`, `policyMatches = true`) and does not record
the agreement as kept. -/
theorem C1_counterexample :
    (Scenario.env Scenario.pol2 Scenario.pol2 "").DemarshalPolicy
        Scenario.patternAgreement.Policy = .ok Scenario.pol2
    ∧ (Scenario.env Scenario.pol2 Scenario.pol2 "").MatchesMine Scenario.policyChanged.Org
        Scenario.pol2 = some "policy differs"
    ∧ (HandlePolicyChangeForAgreement (Scenario.env Scenario.pol2 Scenario.pol2 "")
        Scenario.patternAgreement (some Scenario.pol2) (Scenario.world 2)).1 = (true, true, true)
    ∧ Scenario.patternAgreement.GetDeviceType ≠ DEVICE_TYPE_CLUSTER
    ∧ (HandlePolicyChanged.body (Scenario.env Scenario.pol2 Scenario.pol2 "")
        Scenario.policyChanged Scenario.pol2 (Scenario.world 2, []) Scenario.patternAgreement).2
        = []
    ∧ cancelCalls ((Scenario.world 2).newSteps
        (HandlePolicyChanged.body (Scenario.env Scenario.pol2 Scenario.pol2 "")
          Scenario.policyChanged Scenario.pol2 (Scenario.world 2, [])
          Scenario.patternAgreement).1)
        = [{ call := Call.CancelAgreement "A1" "PolicyChanged" true, outcome := .ok }] := by
  refine ⟨rfl, rfl, by decide, by decide, by decide, by decide⟩

/-! ## Error paths of `HandlePolicyChangeForAgreement` -/

theorem UpdateAgreement_traced {p : Step → Bool} {w w0 : World} (env : Env) (ag : Agreement)
    (updateType : String) (metadata : Policy) (h : w.tracedFrom p w0)
    (hp : ∀ o, p { call := Call.UpdateAgreement ag updateType metadata, outcome := o } = true) :
    (UpdateAgreement env ag updateType metadata w).tracedFrom p w0 := by
  unfold UpdateAgreement
  repeat' split
  all_goals exact World.tracedFrom_record _ _ h (hp _)

theorem update_harmless {w w0 : World} (env : Env) (ag : Agreement) (oldPolicy : Option Policy)
    (producerPol consumerPol : Policy) (dev : Device) (nodeArch : String) (wl0 : Workload)
    (h : w.tracedFrom harmless w0) :
    harmlessUnlessFailed w0 (HandlePolicyChangeForAgreement.update env ag oldPolicy producerPol
      consumerPol dev nodeArch wl0 w) := by
  simp only [HandlePolicyChangeForAgreement.update]
  repeat' split
  all_goals try simp only [*]
  all_goals
    first
      | exact fun hne => absurd rfl hne
      | exact fun _ => World.tracedFrom_record _ _ h rfl
      | exact fun _ => UpdateAgreement_traced _ _ _ _
          (World.tracedFrom_record _ _ (World.tracedFrom_record _ _ h rfl) rfl) (fun _ => rfl)

theorem mergeServicePolicies_harmless (env : Env) (ids : List String) :
    ∀ (svcAllPol : ExternalPolicy) (w w0 : World), w.tracedFrom harmless w0 →
      (HandlePolicyChangeForAgreement.mergeServicePolicies env ids svcAllPol w).1 ≠ none →
      (HandlePolicyChangeForAgreement.mergeServicePolicies env ids svcAllPol w).2.tracedFrom
        harmless w0 := by
  induction ids with
  | nil =>
    intro svcAllPol w w0 h _
    simpa [HandlePolicyChangeForAgreement.mergeServicePolicies] using h
  | cons svcId rest ih =>
    intro svcAllPol w w0 h
    rcases hr : env.GetServiceWithId svcId with e | _ | svcDef
    · simp [HandlePolicyChangeForAgreement.mergeServicePolicies, hr]
    · simp only [HandlePolicyChangeForAgreement.mergeServicePolicies, hr]
      exact ih _ _ _ (World.tracedFrom_record _ _ h rfl)
    · rcases hp : env.GetServicePolicyWithDefaultProperties svcDef.URL (env.GetOrg svcId)
          svcDef.Version svcDef.Arch with e | _ | mergedSvcPol
      · simp [HandlePolicyChangeForAgreement.mergeServicePolicies, hr, hp]
      · simp only [HandlePolicyChangeForAgreement.mergeServicePolicies, hr, hp]
        exact ih _ _ _ (World.tracedFrom_record _ _ (World.tracedFrom_record _ _ h rfl) rfl)
      · simp only [HandlePolicyChangeForAgreement.mergeServicePolicies, hr, hp]
        exact ih _ _ _ (World.tracedFrom_record _ _ (World.tracedFrom_record _ _ h rfl) rfl)

theorem found_harmless {w w0 : World} {env : Env} {deviceId policyName : String}
    {wlUsage : Option WorkloadUsage}
    (hf : (FindSingleWorkloadUsageByDeviceAndPolicyName env deviceId policyName w).1
      = .ok wlUsage)
    (h : w.tracedFrom harmless w0) :
    (FindSingleWorkloadUsageByDeviceAndPolicyName env deviceId policyName w).2.tracedFrom
      harmless w0 := by
  cases hfault : env.dbFault
      (Call.FindSingleWorkloadUsageByDeviceAndPolicyName deviceId policyName)
  · simp only [FindSingleWorkloadUsageByDeviceAndPolicyName, hfault]
    refine World.tracedFrom_record _ _ h ?_
    cases w.db.workloadUsages.find? (WorkloadUsage.hasKey deviceId policyName) <;> rfl
  · simp [FindSingleWorkloadUsageByDeviceAndPolicyName, hfault] at hf

theorem analyse_harmless {w w0 : World} (env : Env) (ag : Agreement) (oldPolicy : Option Policy)
    (busPol : Policy) (cr : CompatibilityResult) (dev : Device) (nodeArch : String)
    (wlUsagePriority : Int) (wl : Workload) (h : w.tracedFrom harmless w0) :
    harmlessUnlessFailed w0 (HandlePolicyChangeForAgreement.analyse env ag oldPolicy busPol cr
      dev nodeArch wlUsagePriority wl w) := by
  simp only [HandlePolicyChangeForAgreement.analyse]
  repeat' split
  all_goals
    first
      | exact fun _ => h
      | exact fun _ => World.tracedFrom_record _ _ h rfl
      | exact update_harmless _ _ _ _ _ _ _ _ h
      | exact update_harmless _ _ _ _ _ _ _ _ (World.tracedFrom_record _ _ h rfl)

theorem evaluate_harmless {w w0 : World} (env : Env) (ag : Agreement) (oldPolicy : Option Policy)
    (svcAllPol : ExternalPolicy) (busPol : Policy) (nodePol : ExternalPolicy) (dev : Device)
    (h : w.tracedFrom harmless w0) :
    harmlessUnlessFailed w0 (HandlePolicyChangeForAgreement.evaluate env ag oldPolicy svcAllPol
      busPol nodePol dev w) := by
  simp only [HandlePolicyChangeForAgreement.evaluate]
  repeat' split
  all_goals
    first
      | exact fun hne => absurd rfl hne
      | exact fun _ => h
      | exact fun _ => World.tracedFrom_record _ _ h rfl
      | exact fun _ => found_harmless (by assumption) (World.tracedFrom_record _ _ h rfl)
      | exact analyse_harmless _ _ _ _ _ _ _ _ _
          (found_harmless (by assumption) (World.tracedFrom_record _ _ h rfl))

theorem HandlePolicyChangeForAgreement_harmless (env : Env) (ag : Agreement)
    (oldPolicy : Option Policy) (w : World) :
    harmlessUnlessFailed w (HandlePolicyChangeForAgreement env ag oldPolicy w) := by
  simp only [HandlePolicyChangeForAgreement]
  rcases hm : (HandlePolicyChangeForAgreement.mergeServicePolicies env ag.ServiceId
      { Properties := [], Constraints := [] } w).1 with _ | svcAllPol
  · exact fun hne => absurd rfl hne
  · have h1 := mergeServicePolicies_harmless env ag.ServiceId
      { Properties := [], Constraints := [] } w w (World.tracedFrom_refl _ _) (by simp [hm])
    rcases hb : env.GetBusinessPolicy ag.PolicyName with e | busPol
    · exact fun hne => absurd rfl hne
    · rcases hn : env.GetNodePolicy ag.DeviceId with e | nodePol
      · exact fun hne => absurd rfl hne
      · rcases hd : env.GetExchangeDevice ag.DeviceId with e | _ | dev
        · exact fun hne => absurd rfl hne
        · exact fun hne => absurd rfl hne
        · exact evaluate_harmless _ _ _ _ _ _ _
            (World.tracedFrom_record _ _ (World.tracedFrom_record _ _
              (World.tracedFrom_record _ _ h1 rfl) rfl) rfl)

theorem update_dispatch {w w0 : World} (env : Env) (ag : Agreement) (oldPolicy : Option Policy)
    (producerPol consumerPol : Policy) (dev : Device) (nodeArch : String) (wl0 : Workload)
    (h : w.tracedFrom beforeUpdate w0) :
    updatedOnlyIfKept w0 (HandlePolicyChangeForAgreement.update env ag oldPolicy producerPol
      consumerPol dev nodeArch wl0 w) := by
  simp only [HandlePolicyChangeForAgreement.update]
  repeat' split
  all_goals try simp only [*]
  all_goals
    first
      | exact fun hne => absurd rfl hne
      | exact fun _ => World.tracedFrom_record _ _ h rfl
      | exact fun _ => World.tracedFrom_record _ _ (World.tracedFrom_record _ _ h rfl) rfl

theorem mergeServicePolicies_dispatch (env : Env) (ids : List String) :
    ∀ (svcAllPol : ExternalPolicy) (w w0 : World), w.tracedFrom beforeUpdate w0 →
      (HandlePolicyChangeForAgreement.mergeServicePolicies env ids svcAllPol w).2.tracedFrom
        beforeUpdate w0 := by
  induction ids with
  | nil => intro svcAllPol w w0 h; simpa [HandlePolicyChangeForAgreement.mergeServicePolicies] using h
  | cons svcId rest ih =>
    intro svcAllPol w w0 h
    simp only [HandlePolicyChangeForAgreement.mergeServicePolicies]
    repeat' split
    all_goals
      repeat' first
        | apply ih
        | apply World.tracedFrom_record
        | exact h
        | exact rfl

theorem analyse_dispatch {w w0 : World} (env : Env) (ag : Agreement) (oldPolicy : Option Policy)
    (busPol : Policy) (cr : CompatibilityResult) (dev : Device) (nodeArch : String)
    (wlUsagePriority : Int) (wl : Workload) (h : w.tracedFrom beforeUpdate w0) :
    updatedOnlyIfKept w0 (HandlePolicyChangeForAgreement.analyse env ag oldPolicy busPol cr
      dev nodeArch wlUsagePriority wl w) := by
  simp only [HandlePolicyChangeForAgreement.analyse]
  repeat' split
  all_goals
    first
      | exact fun _ => h
      | exact fun _ => World.tracedFrom_record _ _ h rfl
      | exact update_dispatch _ _ _ _ _ _ _ _ h
      | exact update_dispatch _ _ _ _ _ _ _ _ (World.tracedFrom_record _ _ h rfl)

theorem evaluate_dispatch {w w0 : World} (env : Env) (ag : Agreement) (oldPolicy : Option Policy)
    (svcAllPol : ExternalPolicy) (busPol : Policy) (nodePol : ExternalPolicy) (dev : Device)
    (h : w.tracedFrom beforeUpdate w0) :
    updatedOnlyIfKept w0 (HandlePolicyChangeForAgreement.evaluate env ag oldPolicy svcAllPol
      busPol nodePol dev w) := by
  simp only [HandlePolicyChangeForAgreement.evaluate]
  repeat' split
  all_goals
    first
      | exact fun hne => absurd rfl hne
      | exact fun _ => h
      | exact fun _ => World.tracedFrom_record _ _ h rfl
      | exact fun _ => FindSingleWorkloadUsage_traced _ _ _
          (World.tracedFrom_record _ _ h rfl) (fun _ => rfl)
      | exact analyse_dispatch _ _ _ _ _ _ _ _ _
          (FindSingleWorkloadUsage_traced _ _ _ (World.tracedFrom_record _ _ h rfl)
            (fun _ => rfl))

theorem HandlePolicyChangeForAgreement_dispatch (env : Env) (ag : Agreement)
    (oldPolicy : Option Policy) (w : World) :
    updatedOnlyIfKept w (HandlePolicyChangeForAgreement env ag oldPolicy w) := by
  simp only [HandlePolicyChangeForAgreement]
  have h1 := mergeServicePolicies_dispatch env ag.ServiceId
    { Properties := [], Constraints := [] } w w (World.tracedFrom_refl _ _)
  rcases hm : (HandlePolicyChangeForAgreement.mergeServicePolicies env ag.ServiceId
      { Properties := [], Constraints := [] } w).1 with _ | svcAllPol
  · exact fun _ => h1
  · rcases hb : env.GetBusinessPolicy ag.PolicyName with e | busPol
    · exact fun _ => World.tracedFrom_record _ _ h1 rfl
    · rcases hn : env.GetNodePolicy ag.DeviceId with e | nodePol
      · exact fun _ => World.tracedFrom_record _ _ (World.tracedFrom_record _ _ h1 rfl) rfl
      · rcases hd : env.GetExchangeDevice ag.DeviceId with e | _ | dev
        · exact fun _ => World.tracedFrom_record _ _ (World.tracedFrom_record _ _
              (World.tracedFrom_record _ _ h1 rfl) rfl) rfl
        · exact fun _ => World.tracedFrom_record _ _ (World.tracedFrom_record _ _
              (World.tracedFrom_record _ _ h1 rfl) rfl) rfl
        · exact evaluate_dispatch _ _ _ _ _ _ _
            (World.tracedFrom_record _ _ (World.tracedFrom_record _ _
              (World.tracedFrom_record _ _ h1 rfl) rfl) rfl)

/-- C6, amended: `HandlePolicyChangeForAgreement` returns `(false, false, false)` whenever
one of these steps it performs reports an error: fetching a service definition, its merged
service policy, the business policy, the node policy or the exchange device, looking up
the workload usage, fetching the chosen workload's service definition, building the terms
and conditions; and whenever the exchange device or the chosen workload's service
definition is missing.  Once it dispatches the update, it returns `(true, true, true)`,
whether the dispatch succeeds or fails. -/
theorem C6_error_paths (env : Env) (ag : Agreement) (oldPolicy : Option Policy) (w : World)
    (s : Step) (hs : s ∈ w.newSteps (HandlePolicyChangeForAgreement env ag oldPolicy w).2) :
    (s.isFatal = true →
      (HandlePolicyChangeForAgreement env ag oldPolicy w).1 = (false, false, false))
    ∧ (s.call.isUpdate = true →
      (HandlePolicyChangeForAgreement env ag oldPolicy w).1 = (true, true, true)) := by
  constructor
  · intro hfatal
    by_contra hne
    obtain ⟨steps, htr, hall⟩ := HandlePolicyChangeForAgreement_harmless env ag oldPolicy w hne
    have hmem : s ∈ steps := by simpa [World.newSteps, htr] using hs
    have := hall s hmem
    simp [harmless, hfatal] at this
  · intro hupdate
    by_contra hne
    obtain ⟨steps, htr, hall⟩ := HandlePolicyChangeForAgreement_dispatch env ag oldPolicy w hne
    have hmem : s ∈ steps := by simpa [World.newSteps, htr] using hs
    have := hall s hmem
    simp [beforeUpdate, hupdate] at this

/-- Witness of C6, amended: the exchange fails to return the business policy of agreement
`A1` and the evaluation returns `(false, false, false)`. -/
theorem C6_error_paths_witness :
    ({ call := Call.GetBusinessPolicy "org1/pol", outcome := .failed } : Step) ∈
        (Scenario.world 2).newSteps (HandlePolicyChangeForAgreement Scenario.noBusinessPolicyEnv
          Scenario.agreement (some Scenario.pol2) (Scenario.world 2)).2
    ∧ Step.isFatal { call := Call.GetBusinessPolicy "org1/pol", outcome := .failed } = true
    ∧ (HandlePolicyChangeForAgreement Scenario.noBusinessPolicyEnv Scenario.agreement
        (some Scenario.pol2) (Scenario.world 2)).1 = (false, false, false) :=
  ⟨by decide, rfl,
    (C6_error_paths Scenario.noBusinessPolicyEnv Scenario.agreement (some Scenario.pol2)
      (Scenario.world 2) { call := Call.GetBusinessPolicy "org1/pol", outcome := .failed }
      (by decide)).1 rfl⟩

/-- C6 fails as stated: dispatching the update of agreement `A1` reports an error (the
protocol handler fails to send it) and `HandlePolicyChangeForAgreement` returns
`(true, true, true)`, not `(false, false, false)`. -/
theorem C6_counterexample :
    ({ call := Call.UpdateAgreement { Scenario.agreement with LastPolicyUpdateTime := 300 }
          "PolicyChange" Scenario.pol2ns, outcome := .failed } : Step) ∈
        (Scenario.world 2).newSteps (HandlePolicyChangeForAgreement Scenario.failingUpdateEnv
          Scenario.agreement (some Scenario.pol2) (Scenario.world 2)).2
    ∧ (HandlePolicyChangeForAgreement Scenario.failingUpdateEnv Scenario.agreement
        (some Scenario.pol2) (Scenario.world 2)).1 = (true, true, true) := by
  refine ⟨by decide, by decide⟩

/-! ## Workload priorities -/

theorem GetNextWorkloadChoice_none (workloads : List Workload) (c : Int) :
    GetNextWorkloadChoice workloads c = none ↔
      ∀ v ∈ workloads, v.Priority.PriorityValue ≤ c := by
  induction workloads with
  | nil => simp [GetNextWorkloadChoice]
  | cons wl rest ih =>
    simp only [GetNextWorkloadChoice]
    cases hrec : GetNextWorkloadChoice rest c with
    | none =>
      have hrest := ih.mp hrec
      by_cases hlt : c < wl.Priority.PriorityValue
      · simp only [hlt, if_true]
        constructor
        · intro h; cases h
        · intro h
          have := h wl (List.mem_cons_self _ _)
          omega
      · simp only [hlt, if_false, true_iff]
        intro v hv
        rcases List.mem_cons.mp hv with h | h
        · subst h; omega
        · exact hrest v h
    | some best =>
      have hne : ¬ ∀ v ∈ rest, v.Priority.PriorityValue ≤ c := by
        intro h
        rw [ih.mpr h] at hrec
        cases hrec
      have hfalse : ¬ ∀ v ∈ wl :: rest, v.Priority.PriorityValue ≤ c :=
        fun h => hne (fun v hv => h v (List.mem_cons_of_mem _ hv))
      simp only [hfalse, iff_false]
      split <;> simp

theorem GetNextWorkloadChoice_some (workloads : List Workload) (c : Int) (np : Workload)
    (h : GetNextWorkloadChoice workloads c = some np) :
    np ∈ workloads ∧ c < np.Priority.PriorityValue
    ∧ (∀ v ∈ workloads, c < v.Priority.PriorityValue →
        np.Priority.PriorityValue ≤ v.Priority.PriorityValue)
    ∧ GetWorkloadWithPriority workloads np.Priority.PriorityValue = some np := by
  induction workloads generalizing np with
  | nil => simp [GetNextWorkloadChoice] at h
  | cons wl rest ih =>
    simp only [GetNextWorkloadChoice] at h
    cases hrec : GetNextWorkloadChoice rest c with
    | none =>
      rw [hrec] at h
      have hrest := (GetNextWorkloadChoice_none rest c).mp hrec
      by_cases hlt : c < wl.Priority.PriorityValue
      · simp only [hlt, if_true, Option.some.injEq] at h
        subst h
        refine ⟨List.mem_cons_self _ _, hlt, ?_, by simp [GetWorkloadWithPriority]⟩
        intro v hv hcv
        rcases List.mem_cons.mp hv with h | h
        · subst h; exact le_refl _
        · have := hrest v h
          omega
      · simp [hlt] at h
    | some best =>
      rw [hrec] at h
      obtain ⟨hmem, hcb, hmin, hfirst⟩ := ih best hrec
      by_cases hcond : c < wl.Priority.PriorityValue ∧
          wl.Priority.PriorityValue ≤ best.Priority.PriorityValue
      · simp only [hcond, and_self, if_true, Option.some.injEq] at h
        subst h
        refine ⟨List.mem_cons_self _ _, hcond.1, ?_, by simp [GetWorkloadWithPriority]⟩
        intro v hv hcv
        rcases List.mem_cons.mp hv with h | h
        · subst h; exact le_refl _
        · have := hmin v h hcv
          omega
      · simp only [if_neg hcond, Option.some.injEq] at h
        subst h
        have hne : wl.Priority.PriorityValue ≠ best.Priority.PriorityValue := by
          intro heq
          apply hcond
          omega
        refine ⟨List.mem_cons_of_mem _ hmem, hcb, ?_, ?_⟩
        · intro v hv hcv
          rcases List.mem_cons.mp hv with h | h
          · subst h
            by_contra hlt
            apply hcond
            omega
          · exact hmin v h hcv
        · simp only [GetWorkloadWithPriority] at hfirst ⊢
          rw [List.find?_cons_of_neg _ (by simpa using hne)]
          exact hfirst

theorem GetWorkloadWithPriority_some (workloads : List Workload) (q : Int) (wl : Workload)
    (h : GetWorkloadWithPriority workloads q = some wl) :
    wl ∈ workloads ∧ wl.Priority.PriorityValue = q := by
  simp only [GetWorkloadWithPriority] at h
  exact ⟨List.mem_of_find?_eq_some h, by simpa using List.find?_some h⟩

/-- The number of workloads with a priority value above `c`: a bound on the number of
iterations left in the walk. -/
theorem countAbove_lt (workloads : List Workload) (c : Int) (np : Workload)
    (hmem : np ∈ workloads) (hc : c < np.Priority.PriorityValue) :
    workloads.countP (fun v => decide (np.Priority.PriorityValue < v.Priority.PriorityValue))
      < workloads.countP (fun v => decide (c < v.Priority.PriorityValue)) := by
  induction workloads with
  | nil => simp at hmem
  | cons wl rest ih =>
    simp only [List.countP_cons]
    have hmono : rest.countP (fun v => decide (np.Priority.PriorityValue < v.Priority.PriorityValue))
        ≤ rest.countP (fun v => decide (c < v.Priority.PriorityValue)) := by
      apply List.countP_mono_left
      intro x _ hx
      simp only [decide_eq_true_eq] at hx ⊢
      omega
    rcases List.mem_cons.mp hmem with h | h
    · subst h
      simp only [lt_self_iff_false, decide_False, Bool.false_eq_true, if_false, hc, decide_True,
        if_true]
      omega
    · have := ih h
      by_cases h1 : np.Priority.PriorityValue < wl.Priority.PriorityValue
      · have h2 : c < wl.Priority.PriorityValue := by omega
        simp only [h1, h2, decide_True, if_true]
        omega
      · simp only [h1, decide_False, Bool.false_eq_true, if_false]
        split <;> omega

/-- The walk returns `true` when it reaches a priority `q` of the new policy that was
added or modified: `q` is above the starting choice and every priority of the new policy
between the two is at most `wlUsagePriority`. -/
theorem priorityWalk_finds (busWorkloads oldWorkloads : List Workload) (wlUsagePriority : Int)
    (q : Int) (hq : addedOrModified busWorkloads oldWorkloads q) :
    ∀ (fuel : Nat) (c : Int),
      busWorkloads.countP (fun v => decide (c < v.Priority.PriorityValue)) < fuel →
      c ≤ wlUsagePriority → c < q →
      (∀ v ∈ busWorkloads, c < v.Priority.PriorityValue → v.Priority.PriorityValue < q →
        v.Priority.PriorityValue ≤ wlUsagePriority) →
      HandlePolicyChangeForAgreement.priorityWalk busWorkloads oldWorkloads wlUsagePriority fuel c
        (GetNextWorkloadChoice busWorkloads c) = true := by
  obtain ⟨added, hadded, hdiff⟩ := hq
  obtain ⟨haddedMem, haddedPrio⟩ := GetWorkloadWithPriority_some _ _ _ hadded
  intro fuel
  induction fuel with
  | zero => intro c hfuel; omega
  | succ fuel ih =>
    intro c hfuel hcU hcq hbetween
    cases hnext : GetNextWorkloadChoice busWorkloads c with
    | none =>
      have := (GetNextWorkloadChoice_none busWorkloads c).mp hnext added haddedMem
      omega
    | some np =>
      obtain ⟨hmem, hcnp, hmin, hfirst⟩ := GetNextWorkloadChoice_some _ _ _ hnext
      have hle : np.Priority.PriorityValue ≤ q := by
        have := hmin added haddedMem (by omega)
        omega
      simp only [HandlePolicyChangeForAgreement.priorityWalk, hcU, if_true]
      by_cases heq : np.Priority.PriorityValue = q
      · have hnp : np = added := by
          rw [heq, hadded] at hfirst
          exact (Option.some.inj hfirst).symm
        subst hnp
        rcases hdiff with hnone | ⟨m, hm, hsame⟩
        · rw [heq, hnone]
        · rw [heq, hm]
          simp [hsame]
      · have hlt : np.Priority.PriorityValue < q := by omega
        cases hold : GetWorkloadWithPriority oldWorkloads np.Priority.PriorityValue with
        | none => rfl
        | some m =>
          by_cases hsame : m.IsSame np = true
          · simp only [hsame, Bool.not_true, Bool.false_eq_true, if_false]
            apply ih
            · have := countAbove_lt busWorkloads c np hmem hcnp
              omega
            · exact hbetween np hmem hcnp hlt
            · exact hlt
            · intro v hv h1 h2
              exact hbetween v hv (by omega) h2
          · simp [hsame]

/-- The walk returns `true` only for a priority of the new policy that was added or
modified and that it reaches. -/
theorem priorityWalk_true (busWorkloads oldWorkloads : List Workload) (wlUsagePriority : Int) :
    ∀ (fuel : Nat) (c : Int),
      HandlePolicyChangeForAgreement.priorityWalk busWorkloads oldWorkloads wlUsagePriority fuel c
        (GetNextWorkloadChoice busWorkloads c) = true →
      c ≤ wlUsagePriority ∧ ∃ q, c < q ∧ addedOrModified busWorkloads oldWorkloads q ∧
        ∀ v ∈ busWorkloads, c < v.Priority.PriorityValue → v.Priority.PriorityValue < q →
          v.Priority.PriorityValue ≤ wlUsagePriority := by
  intro fuel
  induction fuel with
  | zero => intro c h; simp [HandlePolicyChangeForAgreement.priorityWalk] at h
  | succ fuel ih =>
    intro c h
    cases hnext : GetNextWorkloadChoice busWorkloads c with
    | none => simp [HandlePolicyChangeForAgreement.priorityWalk, hnext] at h
    | some np =>
      obtain ⟨hmem, hcnp, hmin, hfirst⟩ := GetNextWorkloadChoice_some _ _ _ hnext
      rw [hnext] at h
      by_cases hcU : c ≤ wlUsagePriority
      · refine ⟨hcU, ?_⟩
        simp only [HandlePolicyChangeForAgreement.priorityWalk, hcU, if_true] at h
        have hhere : (GetWorkloadWithPriority oldWorkloads np.Priority.PriorityValue = none ∨
            ∃ m, GetWorkloadWithPriority oldWorkloads np.Priority.PriorityValue = some m ∧
              m.IsSame np = false) →
            ∃ q, c < q ∧ addedOrModified busWorkloads oldWorkloads q ∧
              ∀ v ∈ busWorkloads, c < v.Priority.PriorityValue →
                v.Priority.PriorityValue < q → v.Priority.PriorityValue ≤ wlUsagePriority := by
          intro hd
          refine ⟨np.Priority.PriorityValue, hcnp, ⟨np, hfirst, hd⟩, ?_⟩
          intro v hv h1 h2
          have := hmin v hv h1
          omega
        cases hold : GetWorkloadWithPriority oldWorkloads np.Priority.PriorityValue with
        | none => exact hhere (Or.inl hold)
        | some m =>
          rw [hold] at h
          by_cases hsame : m.IsSame np = true
          · simp only [hsame, Bool.not_true, Bool.false_eq_true, if_false] at h
            obtain ⟨hnpU, q, hq1, hq2, hq3⟩ := ih _ h
            refine ⟨q, by omega, hq2, ?_⟩
            intro v hv h1 h2
            by_cases hv2 : np.Priority.PriorityValue < v.Priority.PriorityValue
            · exact hq3 v hv hv2 h2
            · have := hmin v hv h1
              omega
          · exact hhere (Or.inr ⟨m, hold, by simpa using hsame⟩)
      · simp [HandlePolicyChangeForAgreement.priorityWalk, hcU] at h

/-- What the walk of lines 496-504 computes, given fuel for every workload above the
starting choice: it looks for an added or modified workload among the priorities of the
new policy that are above the starting choice and preceded, above that choice, only by
priorities up to `wlUsagePriority`.  The fuel does not show in the result. -/
theorem priorityWalk_iff (busWorkloads oldWorkloads : List Workload) (wlUsagePriority : Int)
    (fuel : Nat) (c : Int)
    (hfuel : busWorkloads.countP (fun v => decide (c < v.Priority.PriorityValue)) < fuel) :
    HandlePolicyChangeForAgreement.priorityWalk busWorkloads oldWorkloads wlUsagePriority fuel c
        (GetNextWorkloadChoice busWorkloads c) = true ↔
      c ≤ wlUsagePriority ∧ ∃ q, c < q ∧ addedOrModified busWorkloads oldWorkloads q ∧
        ∀ v ∈ busWorkloads, c < v.Priority.PriorityValue → v.Priority.PriorityValue < q →
          v.Priority.PriorityValue ≤ wlUsagePriority :=
  ⟨priorityWalk_true busWorkloads oldWorkloads wlUsagePriority fuel c,
    fun ⟨hcU, q, hcq, hq, hbetween⟩ =>
      priorityWalk_finds busWorkloads oldWorkloads wlUsagePriority q hq fuel c hfuel hcU hcq
        hbetween⟩

/-- The fuel `len(busPol.Workloads) + 1` that `HandlePolicyChangeForAgreement` gives to the
walk is enough: any larger amount gives the same result. -/
theorem priorityWalk_fuel (busWorkloads oldWorkloads : List Workload) (wlUsagePriority : Int)
    (c : Int) (more : Nat) :
    HandlePolicyChangeForAgreement.priorityWalk busWorkloads oldWorkloads wlUsagePriority
        (busWorkloads.length + 1 + more) c (GetNextWorkloadChoice busWorkloads c) =
      HandlePolicyChangeForAgreement.priorityWalk busWorkloads oldWorkloads wlUsagePriority
        (busWorkloads.length + 1) c (GetNextWorkloadChoice busWorkloads c) := by
  have hcount : busWorkloads.countP (fun v => decide (c < v.Priority.PriorityValue))
      ≤ busWorkloads.length := List.countP_le_length _
  have h1 := priorityWalk_iff busWorkloads oldWorkloads wlUsagePriority
    (busWorkloads.length + 1 + more) c (by omega)
  have h2 := priorityWalk_iff busWorkloads oldWorkloads wlUsagePriority
    (busWorkloads.length + 1) c (by omega)
  exact Bool.eq_iff_iff.mpr (h1.trans h2.symm)

/-! ## Priority analysis of `HandlePolicyChangeForAgreement` -/

theorem mergeServicePolicies_db (env : Env) (ids : List String) (svcAllPol : ExternalPolicy)
    (w : World) :
    (HandlePolicyChangeForAgreement.mergeServicePolicies env ids svcAllPol w).2.db = w.db :=
  (mergeServicePolicies_readOnly env ids svcAllPol w w (World.readOnlyFrom_refl _ _)).1

/-- Once the run reaches the priority analysis, the result is `true, false, false` when
the new policy has no workload of the current priority, and else the result of the
analysis of lines 495-568 for that workload. -/
theorem reaches_analysis {env : Env} {ag : Agreement} {w : World} {svcAllPol : ExternalPolicy}
    {busPol : Policy} {nodePol : ExternalPolicy} {dev : Device}
    (h : ReachesPriorityAnalysis env ag w svcAllPol busPol nodePol dev)
    (oldPolicy : Option Policy) :
    ∃ w2 : World, w2.db = w.db ∧
      HandlePolicyChangeForAgreement env ag oldPolicy w =
        match GetWorkloadWithPriority busPol.Workloads (currentPriority w ag) with
        | none => ((true, false, false), w2)
        | some wl =>
          HandlePolicyChangeForAgreement.analyse env ag oldPolicy busPol
            (env.CheckPolicyCompatiblility nodePol busPol svcAllPol
              (HandlePolicyChangeForAgreement.nodeArch env dev))
            dev (HandlePolicyChangeForAgreement.nodeArch env dev) (currentPriority w ag) wl w2 := by
  refine ⟨(FindSingleWorkloadUsageByDeviceAndPolicyName env ag.DeviceId ag.PolicyName
    ((((((HandlePolicyChangeForAgreement.mergeServicePolicies env ag.ServiceId
      { Properties := [], Constraints := [] } w).2.record
        (Call.GetBusinessPolicy ag.PolicyName) .ok).record
        (Call.GetNodePolicy ag.DeviceId) .ok).record
        (Call.GetExchangeDevice ag.DeviceId) .ok).record
        Call.CheckPolicyCompatiblility (Outcome.ofError
          (env.CheckPolicyCompatiblility nodePol busPol svcAllPol
            (HandlePolicyChangeForAgreement.nodeArch env dev)).err)))).2, ?_, ?_⟩
  · simp [FindSingleWorkloadUsageByDeviceAndPolicyName, World.record, mergeServicePolicies_db]
  · simp only [HandlePolicyChangeForAgreement, h.services, h.business, h.node, h.device,
      HandlePolicyChangeForAgreement.evaluate, h.builtIns, h.compatible, h.finalized,
      Outcome.ofExcept, Outcome.ofResult]
    simp [FindSingleWorkloadUsageByDeviceAndPolicyName, h.lookup, World.record,
      mergeServicePolicies_db, currentPriority, Outcome.ofResult]

/-- The workload of the priority of a member of the list is found. -/
theorem GetWorkloadWithPriority_of_mem (workloads : List Workload) (wl : Workload)
    (h : wl ∈ workloads) :
    ∃ np, GetWorkloadWithPriority workloads wl.Priority.PriorityValue = some np := by
  cases hfind : GetWorkloadWithPriority workloads wl.Priority.PriorityValue with
  | some np => exact ⟨np, rfl⟩
  | none =>
    simp only [GetWorkloadWithPriority, List.find?_eq_none] at hfind
    have := hfind wl h
    simp at this

/-- C7: for a finalized agreement for which all fetches succeed, the node policy has all
built-ins, the compatibility check passes, the workload with priority `wlUsagePriority`
exists in the new business policy and an old policy is supplied: if a workload of the new
business policy with a higher priority than the current one (priority value below
`wlUsagePriority`) has no workload of the same priority in the old policy, or is not the
same as the old policy's workload of that priority, `HandlePolicyChangeForAgreement` returns
`(true, false, false)`.  Priority values are those of the data model: not negative (0
stands for no priority), and in the second case the workload is the only one of its
priority in the new policy. -/
theorem C7_higher_priority_added_or_modified (env : Env) (ag : Agreement) (old : Policy)
    (w : World) (svcAllPol : ExternalPolicy) (busPol : Policy) (nodePol : ExternalPolicy)
    (dev : Device) (current : Workload) (added : Workload)
    (hreach : ReachesPriorityAnalysis env ag w svcAllPol busPol nodePol dev)
    (hcurrent : GetWorkloadWithPriority busPol.Workloads (currentPriority w ag) = some current)
    (hmem : added ∈ busPol.Workloads)
    (hmodel : 0 ≤ added.Priority.PriorityValue)
    (hhigher : added.Priority.PriorityValue < currentPriority w ag)
    (hchanged : GetWorkloadWithPriority old.Workloads added.Priority.PriorityValue = none
      ∨ ∃ m, GetWorkloadWithPriority old.Workloads added.Priority.PriorityValue = some m
          ∧ m.IsSame added = false
          ∧ ∀ v ∈ busPol.Workloads,
              v.Priority.PriorityValue = added.Priority.PriorityValue → v = added) :
    (HandlePolicyChangeForAgreement env ag (some old) w).1 = (true, false, false) := by
  obtain ⟨np, hnp⟩ := GetWorkloadWithPriority_of_mem busPol.Workloads added hmem
  have hadded : addedOrModified busPol.Workloads old.Workloads added.Priority.PriorityValue := by
    rcases hchanged with hnone | ⟨m, hm, hsame, honly⟩
    · exact ⟨np, hnp, Or.inl hnone⟩
    · obtain ⟨hnpMem, hnpPrio⟩ := GetWorkloadWithPriority_some _ _ _ hnp
      have heq : np = added := honly np hnpMem hnpPrio
      subst heq
      exact ⟨np, hnp, Or.inr ⟨m, hm, hsame⟩⟩
  obtain ⟨w2, _, heq⟩ := reaches_analysis hreach (some old)
  have hwalk := priorityWalk_finds busPol.Workloads old.Workloads (currentPriority w ag)
    added.Priority.PriorityValue hadded (busPol.Workloads.length + 1) (-1)
    (by have := List.countP_le_length (fun v : Workload =>
          decide (-1 < v.Priority.PriorityValue)) (l := busPol.Workloads); omega)
    (by omega) (by omega) (fun v _ _ hv => by omega)
  rw [heq, hcurrent]
  simp [HandlePolicyChangeForAgreement.analyse, hwalk]

/-- Witness of C7 on the scenario "higher priority added": old `[{prio 2, v 1.0}]`, new
`[{prio 1, v 2.0}, {prio 2, v 1.0}]`, workload-usage priority 2. -/
theorem C7_higher_priority_added_or_modified_witness :
    ReachesPriorityAnalysis (Scenario.env Scenario.pol2 Scenario.pol12 "") Scenario.agreement
        (Scenario.world 2) Scenario.svcAllPol Scenario.pol12 Scenario.svcAllPol
        (Scenario.device "" "device")
    ∧ GetWorkloadWithPriority Scenario.pol12.Workloads
        (currentPriority (Scenario.world 2) Scenario.agreement) = some (Scenario.workload 2 "1.0")
    ∧ Scenario.workload 1 "2.0" ∈ Scenario.pol12.Workloads
    ∧ 0 ≤ (Scenario.workload 1 "2.0").Priority.PriorityValue
    ∧ (Scenario.workload 1 "2.0").Priority.PriorityValue
        < currentPriority (Scenario.world 2) Scenario.agreement
    ∧ GetWorkloadWithPriority Scenario.pol2.Workloads
        (Scenario.workload 1 "2.0").Priority.PriorityValue = none
    ∧ (HandlePolicyChangeForAgreement (Scenario.env Scenario.pol2 Scenario.pol12 "")
        Scenario.agreement (some Scenario.pol2) (Scenario.world 2)).1 = (true, false, false) :=
  ⟨⟨rfl, rfl, rfl, rfl, rfl, rfl, by decide, rfl⟩, rfl, by decide, by decide, by decide, rfl,
    C7_higher_priority_added_or_modified (Scenario.env Scenario.pol2 Scenario.pol12 "")
      Scenario.agreement Scenario.pol2 (Scenario.world 2) Scenario.svcAllPol Scenario.pol12
      Scenario.svcAllPol (Scenario.device "" "device") (Scenario.workload 2 "1.0")
      (Scenario.workload 1 "2.0")
      ⟨rfl, rfl, rfl, rfl, rfl, rfl, by decide, rfl⟩ rfl (by decide) (by decide) (by decide)
      (Or.inl rfl)⟩

/-- C8 at its failing input: old policy `[{prio 1, v 2.0}, {prio 2, v 1.0}]`, new policy
`[{prio 1, v 2.0}, {prio 2, v 1.0}, {prio 3, v 0.5}]`, workload-usage priority 2.  Every
workload of the new policy with a priority value of at most 2 has the identical workload
in the old policy, and `HandlePolicyChangeForAgreement` returns `(true, false, false)`:
the loop of lines 496-504 tests the previous choice against `wlUsagePriority`, so it also
compares the first workload after the current one. -/
theorem C8_walk_compares_one_past_current :
    ReachesPriorityAnalysis (Scenario.env Scenario.pol12 Scenario.pol123 "")
        Scenario.agreement (Scenario.world 2) Scenario.svcAllPol Scenario.pol123
        Scenario.svcAllPol (Scenario.device "" "device")
    ∧ currentPriority (Scenario.world 2) Scenario.agreement = 2
    ∧ (∀ wl ∈ Scenario.pol123.Workloads, wl.Priority.PriorityValue ≤ 2 →
        GetWorkloadWithPriority Scenario.pol12.Workloads wl.Priority.PriorityValue = some wl)
    ∧ (HandlePolicyChangeForAgreement (Scenario.env Scenario.pol12 Scenario.pol123 "")
        Scenario.agreement (some Scenario.pol12) (Scenario.world 2)).1 = (true, false, false) :=
  ⟨⟨rfl, rfl, rfl, rfl, rfl, rfl, by decide, rfl⟩, rfl, by decide, by decide⟩

theorem update_result (env : Env) (ag : Agreement) (oldPolicy : Option Policy)
    (producerPol consumerPol : Policy) (dev : Device) (nodeArch : String) (wl0 : Workload)
    (w : World) :
    (HandlePolicyChangeForAgreement.update env ag oldPolicy producerPol consumerPol dev nodeArch
        wl0 w).1 = (true, true, true)
    ∨ (HandlePolicyChangeForAgreement.update env ag oldPolicy producerPol consumerPol dev nodeArch
        wl0 w).1 = (false, false, false) := by
  simp only [HandlePolicyChangeForAgreement.update]
  repeat' split
  all_goals simp

/-- C9, amended: for a finalized policy-based agreement whose workload-usage priority is 2,
whose old policy has the workloads `[higher, current]` of priorities 1 and 2 and whose new
business policy has the one workload `[current]` (all fetches succeeding and compatibility
passing), `HandlePolicyChangeForAgreement` does not return `(true, false, false)`: the
priority analysis passes and the result is `(true, true, true)`, `(false, false, false)`
or, for a cluster, `(true, true, false)`.  When it is `(true, true, true)`,
`HandlePolicyChanged` calls no `CancelAgreement` for the agreement and records it as
kept. -/
theorem C9_priority_demoted (env : Env) (cmd : PolicyChangedCommand) (eventPol : Policy)
    (ag : Agreement) (old : Policy) (w : World) (kept : List String)
    (svcAllPol : ExternalPolicy) (busPol : Policy) (nodePol : ExternalPolicy) (dev : Device)
    (higher current : Workload) (e : String)
    (hreach : ReachesPriorityAnalysis env ag w svcAllPol busPol nodePol dev)
    (hold : old.Workloads = [higher, current]) (hnew : busPol.Workloads = [current])
    (hhigher : higher.Priority.PriorityValue = 1) (hcur : current.Priority.PriorityValue = 2)
    (husage : currentPriority w ag = 2)
    (hpattern : ag.Pattern = "")
    (hpol : env.DemarshalPolicy ag.Policy = .ok old)
    (hname : eventPol.Header.Name = old.Header.Name)
    (hmine : env.MatchesMine cmd.Org old = some e) :
    (HandlePolicyChangeForAgreement env ag (some old) w).1 ≠ (true, false, false)
    ∧ ((HandlePolicyChangeForAgreement env ag (some old) w).1 = (true, true, true)
      ∨ (HandlePolicyChangeForAgreement env ag (some old) w).1 = (false, false, false)
      ∨ (dev.NodeType = DEVICE_TYPE_CLUSTER
        ∧ (HandlePolicyChangeForAgreement env ag (some old) w).1 = (true, true, false)))
    ∧ ((HandlePolicyChangeForAgreement env ag (some old) w).1 = (true, true, true) →
      HandlePolicyChanged.body env cmd eventPol (w, kept) ag =
          ((HandlePolicyChangeForAgreement env ag (some old) w).2,
            kept ++ [ag.CurrentAgreementId])
      ∧ cancelCalls (w.newSteps (HandlePolicyChanged.body env cmd eventPol (w, kept) ag).1)
          = []) := by
  have hro := HandlePolicyChangeForAgreement_readOnly env ag (some old) w
  have htr : (HandlePolicyChangeForAgreement env ag (some old) w).2.tracedFrom insideCancel w :=
    World.tracedFrom_mono evaluationStep_insideCancel hro.traced
  have hres : (HandlePolicyChangeForAgreement env ag (some old) w).1 = (true, true, true)
      ∨ (HandlePolicyChangeForAgreement env ag (some old) w).1 = (false, false, false)
      ∨ (dev.NodeType = DEVICE_TYPE_CLUSTER
        ∧ (HandlePolicyChangeForAgreement env ag (some old) w).1 = (true, true, false)) := by
    obtain ⟨w2, _, heq⟩ := reaches_analysis hreach (some old)
    have hfound : GetWorkloadWithPriority busPol.Workloads (currentPriority w ag)
        = some current := by
      simp [GetWorkloadWithPriority, hnew, husage, hcur]
    have hwalk : HandlePolicyChangeForAgreement.priorityWalk busPol.Workloads old.Workloads
        (currentPriority w ag) (busPol.Workloads.length + 1) (-1)
        (GetNextWorkloadChoice busPol.Workloads (-1)) = false := by
      simp [HandlePolicyChangeForAgreement.priorityWalk, GetNextWorkloadChoice,
        GetWorkloadWithPriority, hnew, hold, husage, hcur, hhigher, Workload.IsSame]
    rw [heq, hfound]
    simp only [HandlePolicyChangeForAgreement.analyse, hwalk, Bool.false_eq_true, if_false]
    by_cases hc : dev.NodeType = DEVICE_TYPE_CLUSTER ∧
        busPol.ClusterNamespace ≠ old.ClusterNamespace
    · rw [if_pos hc]
      split
      · exact Or.inr (Or.inr ⟨hc.1, rfl⟩)
      · split
        · exact Or.inr (Or.inr ⟨hc.1, rfl⟩)
        · rcases update_result env ag (some old) _ _ dev _ current _ with h | h
          · exact Or.inl h
          · exact Or.inr (Or.inl h)
    · rw [if_neg hc]
      rcases update_result env ag (some old) _ _ dev _ current _ with h | h
      · exact Or.inl h
      · exact Or.inr (Or.inl h)
  refine ⟨?_, hres, ?_⟩
  · rcases hres with h | h | ⟨_, h⟩ <;> rw [h] <;> simp
  · intro hok
    have hb : HandlePolicyChanged.body env cmd eventPol (w, kept) ag =
        ((HandlePolicyChangeForAgreement env ag (some old) w).2,
          kept ++ [ag.CurrentAgreementId]) := by
      simp [HandlePolicyChanged.body, hpol, hname, hmine, hpattern, hok]
    exact ⟨hb, by rw [hb]; exact cancelCalls_of_traced htr⟩

/-- Witness of C9, amended, on the scenario "priority demoted": old
`[{prio 1, v 2.0}, {prio 2, v 1.0}]`, new `[{prio 2, v 1.0}]`, workload-usage priority 2. -/
theorem C9_priority_demoted_witness :
    ReachesPriorityAnalysis (Scenario.env Scenario.pol12 Scenario.pol2 "") Scenario.agreement
        (Scenario.world 2) Scenario.svcAllPol Scenario.pol2 Scenario.svcAllPol
        (Scenario.device "" "device")
    ∧ Scenario.pol12.Workloads = [Scenario.workload 1 "2.0", Scenario.workload 2 "1.0"]
    ∧ Scenario.pol2.Workloads = [Scenario.workload 2 "1.0"]
    ∧ currentPriority (Scenario.world 2) Scenario.agreement = 2
    ∧ (HandlePolicyChangeForAgreement (Scenario.env Scenario.pol12 Scenario.pol2 "")
        Scenario.agreement (some Scenario.pol12) (Scenario.world 2)).1 ≠ (true, false, false) :=
  ⟨⟨rfl, rfl, rfl, rfl, rfl, rfl, by decide, rfl⟩, rfl, rfl, rfl,
    (C9_priority_demoted (Scenario.env Scenario.pol12 Scenario.pol2 "") Scenario.policyChanged
      Scenario.pol2 Scenario.agreement Scenario.pol12 (Scenario.world 2) []
      Scenario.svcAllPol Scenario.pol2 Scenario.svcAllPol (Scenario.device "" "device")
      (Scenario.workload 1 "2.0") (Scenario.workload 2 "1.0") "policy differs"
      ⟨rfl, rfl, rfl, rfl, rfl, rfl, by decide, rfl⟩ rfl rfl rfl rfl rfl rfl rfl rfl rfl).1⟩

/-- C9 fails as stated: on the scenario "priority demoted" (old
`[{prio 1, v 2.0}, {prio 2, v 1.0}]`, new `[{prio 2, v 1.0}]`, workload-usage priority 2,
all fetches succeeding) `HandlePolicyChangeForAgreement` returns `(true, true, true)` and
`HandlePolicyChanged` keeps the agreement without calling `CancelAgreement`. -/
theorem C9_counterexample :
    (HandlePolicyChangeForAgreement (Scenario.env Scenario.pol12 Scenario.pol2 "")
        Scenario.agreement (some Scenario.pol12) (Scenario.world 2)).1 = (true, true, true)
    ∧ (HandlePolicyChanged.body (Scenario.env Scenario.pol12 Scenario.pol2 "")
        Scenario.policyChanged Scenario.pol2 (Scenario.world 2, []) Scenario.agreement).2
        = ["A1"]
    ∧ cancelCalls ((Scenario.world 2).newSteps
        (HandlePolicyChanged.body (Scenario.env Scenario.pol12 Scenario.pol2 "")
          Scenario.policyChanged Scenario.pol2 (Scenario.world 2, []) Scenario.agreement).1)
        = [] := by
  refine ⟨by decide, by decide, by decide⟩

/-- C10, amended: when `wlUsagePriority` is 0 (no workload-usage row, or a row with
priority 0) and no workload of the business policy has priority 0 (its workloads have
priorities 1..k), `HandlePolicyChangeForAgreement`, once it reaches the priority analysis
(all fetches succeed, the node policy has all built-ins, the compatibility check passes,
the agreement is finalized, the workload-usage lookup succeeds), returns
`(true, false, false)`, whatever the old policy: the priority 0 in use counts as removed
from the policy. -/
theorem C10_priority_zero_not_in_policy (env : Env) (ag : Agreement)
    (oldPolicy : Option Policy) (w : World) (svcAllPol : ExternalPolicy) (busPol : Policy)
    (nodePol : ExternalPolicy) (dev : Device)
    (hreach : ReachesPriorityAnalysis env ag w svcAllPol busPol nodePol dev)
    (hzero : currentPriority w ag = 0)
    (hprios : ∀ wl ∈ busPol.Workloads, 1 ≤ wl.Priority.PriorityValue) :
    (HandlePolicyChangeForAgreement env ag oldPolicy w).1 = (true, false, false) := by
  obtain ⟨w2, _, heq⟩ := reaches_analysis hreach oldPolicy
  have hnone : GetWorkloadWithPriority busPol.Workloads (currentPriority w ag) = none := by
    simp only [GetWorkloadWithPriority, hzero, List.find?_eq_none, decide_eq_true_eq]
    intro wl hwl
    have := hprios wl hwl
    omega
  rw [heq, hnone]

/-- Witness of C10, amended: no workload-usage row, new and old policy with the
priorities 1 and 2. -/
theorem C10_priority_zero_not_in_policy_witness :
    ReachesPriorityAnalysis (Scenario.env Scenario.pol12 Scenario.pol12 "") Scenario.agreement
        Scenario.worldNoUsage Scenario.svcAllPol Scenario.pol12 Scenario.svcAllPol
        (Scenario.device "" "device")
    ∧ currentPriority Scenario.worldNoUsage Scenario.agreement = 0
    ∧ (∀ wl ∈ Scenario.pol12.Workloads, 1 ≤ wl.Priority.PriorityValue)
    ∧ (HandlePolicyChangeForAgreement (Scenario.env Scenario.pol12 Scenario.pol12 "")
        Scenario.agreement (some Scenario.pol12) Scenario.worldNoUsage).1
        = (true, false, false) :=
  ⟨⟨rfl, rfl, rfl, rfl, rfl, rfl, by decide, rfl⟩, rfl, by decide,
    C10_priority_zero_not_in_policy (Scenario.env Scenario.pol12 Scenario.pol12 "")
      Scenario.agreement (some Scenario.pol12) Scenario.worldNoUsage Scenario.svcAllPol
      Scenario.pol12 Scenario.svcAllPol (Scenario.device "" "device")
      ⟨rfl, rfl, rfl, rfl, rfl, rfl, by decide, rfl⟩ rfl (by decide)⟩

/-- C10 fails as stated: the agreement has no workload-usage row (`wlUsagePriority = 0`),
the business policy has the priorities 1 and 2 and is identical to the old policy (no
priority was added or removed), and `HandlePolicyChangeForAgreement` returns
`noNewPriority = false`. -/
theorem C10_counterexample :
    currentPriority Scenario.worldNoUsage Scenario.agreement = 0
    ∧ Scenario.pol12.Workloads.map (fun wl => wl.Priority.PriorityValue) = [1, 2]
    ∧ (Scenario.env Scenario.pol12 Scenario.pol12 "").GetBusinessPolicy
        Scenario.agreement.PolicyName = .ok Scenario.pol12
    ∧ (HandlePolicyChangeForAgreement (Scenario.env Scenario.pol12 Scenario.pol12 "")
        Scenario.agreement (some Scenario.pol12) Scenario.worldNoUsage).1.2.1 = false := by
  refine ⟨rfl, by decide, rfl, by decide⟩

/-! ## The HA race -/

/-- The stages compose to the method: without other agbots in between, three steps of
`CancelAgreement.step` are `CancelAgreement`. -/
theorem CancelAgreement_eq_steps (env : Env) (ag : Agreement) (reason : String)
    (policyMatches : Bool) (w : World) (halone : ∀ t, env.otherAgbots t = t) :
    CancelAgreement env ag reason policyMatches w =
      (CancelAgreement.step env ag reason policyMatches
        (some (CancelAgreement.step env ag reason policyMatches
          (some (CancelAgreement.step env ag reason policyMatches none w).1)
          (CancelAgreement.step env ag reason policyMatches none w).2).1)
        (CancelAgreement.step env ag reason policyMatches
          (some (CancelAgreement.step env ag reason policyMatches none w).1)
          (CancelAgreement.step env ag reason policyMatches none w).2).2).2 := by
  have hw : ∀ v : World, v.interleave env = v := by
    intro v
    simp [World.interleave, halone]
  simp only [CancelAgreement, CancelAgreement.step, hw]
  rcases hs : (CancelAgreement.start env ag reason policyMatches w).1 with _ | g | g
  · simp
  · simp only []
    rcases hq : (CancelAgreement.query env ag g
        (CancelAgreement.start env ag reason policyMatches w).2).1 with _ | g2 | g2
    · simp
    · exfalso
      simp only [CancelAgreement.query] at hq
      split at hq <;> simp at hq
    · simp
  · exfalso
    simp only [CancelAgreement.start] at hs
    repeat' split at hs
    all_goals simp at hs

/-! ### Stages of one agbot -/

theorem find?_eq_head?_filter {α : Type} (p : α → Bool) (l : List α) :
    l.find? p = (l.filter p).head? :=
  (List.filter_head? p l).symm

theorem step_start (env : Env) (ag : Agreement) (reason : String) (w : World) (d : Device)
    (hstore : ∀ c, env.dbFault c = false)
    (husage : w.db.workloadUsages.find? (WorkloadUsage.hasKey ag.DeviceId ag.PolicyName) ≠ none)
    (hdev : env.GetDevice ag.DeviceId = .ok (some d)) (hgroup : d.HAGroup ≠ "") :
    (CancelAgreement.step env ag reason true none w).1 = .query d.HAGroup
    ∧ (CancelAgreement.step env ag reason true none w).2.inboundHigh = w.inboundHigh
    ∧ (CancelAgreement.step env ag reason true none w).2.db.haUpgrading = w.db.haUpgrading := by
  obtain ⟨u, hu⟩ := Option.ne_none_iff_exists'.mp husage
  simp [CancelAgreement.step, CancelAgreement.start, FindSingleWorkloadUsageByDeviceAndPolicyName,
    GetDevice, UpdatePendingUpgrade, World.record, hstore, hu, hdev, hgroup]

theorem step_query (env : Env) (ag : Agreement) (reason : String) (w : World) (haGroup : String)
    (hstore : ∀ c, env.dbFault c = false) :
    (CancelAgreement.step env ag reason true (some (.query haGroup)) w).1 =
        (if (w.db.haUpgrading.filter
            (UpgradingHAGroupWorkload.hasKey (env.GetOrg ag.DeviceId) haGroup ag.PolicyName)) = []
          then .claim haGroup else .finished)
    ∧ (CancelAgreement.step env ag reason true (some (.query haGroup)) w).2.inboundHigh
        = w.inboundHigh
    ∧ (CancelAgreement.step env ag reason true (some (.query haGroup)) w).2.db.haUpgrading
        = w.db.haUpgrading := by
  simp only [CancelAgreement.step, CancelAgreement.query, GetHAUpgradingWorkload, World.record,
    hstore, find?_eq_head?_filter]
  cases hS : w.db.haUpgrading.filter
      (UpgradingHAGroupWorkload.hasKey (env.GetOrg ag.DeviceId) haGroup ag.PolicyName) <;>
    simp

theorem step_claim (env : Env) (ag : Agreement) (reason : String) (w : World) (haGroup : String)
    (hstore : ∀ c, env.dbFault c = false) :
    (CancelAgreement.step env ag reason true (some (.claim haGroup)) w).1 = .finished
    ∧ (CancelAgreement.step env ag reason true (some (.claim haGroup)) w).2.inboundHigh =
        (if (insertIfAbsent (env.GetOrg ag.DeviceId) haGroup ag.PolicyName ag.DeviceId
            w.db.haUpgrading).1 = ag.DeviceId
          then w.inboundHigh ++ [AgreementWork.CancelAgreement ag.CurrentAgreementId
            ag.AgreementProtocol (env.GetTerminationCode reason) 0]
          else w.inboundHigh)
    ∧ (CancelAgreement.step env ag reason true (some (.claim haGroup)) w).2.db.haUpgrading =
        (insertIfAbsent (env.GetOrg ag.DeviceId) haGroup ag.PolicyName ag.DeviceId
          w.db.haUpgrading).2 := by
  simp only [CancelAgreement.step, CancelAgreement.claim,
    InsertHAUpgradingWorkloadForGroupAndPolicy, hstore]
  by_cases hw : (insertIfAbsent (env.GetOrg ag.DeviceId) haGroup ag.PolicyName ag.DeviceId
      w.db.haUpgrading).1 = ag.DeviceId <;>
    simp [hw, CancelAgreement.cancelNow, DeleteWorkloadUsage, World.enqueueHigh,
      NewCancelAgreement]

theorem insertIfAbsent_of_filter_nil (org haGroup policyName deviceId : String)
    (table : List UpgradingHAGroupWorkload)
    (h : table.filter (UpgradingHAGroupWorkload.hasKey org haGroup policyName) = []) :
    insertIfAbsent org haGroup policyName deviceId table =
      (deviceId, table ++ [{ GroupOrg := org, GroupName := haGroup, PolicyName := policyName,
                             NodeId := deviceId }]) := by
  simp only [insertIfAbsent, find?_eq_head?_filter, h, List.head?_nil, List.head?_cons]

theorem insertIfAbsent_of_filter_cons (org haGroup policyName deviceId : String)
    (table : List UpgradingHAGroupWorkload) (r : UpgradingHAGroupWorkload)
    (rest : List UpgradingHAGroupWorkload)
    (h : table.filter (UpgradingHAGroupWorkload.hasKey org haGroup policyName) = r :: rest) :
    insertIfAbsent org haGroup policyName deviceId table = (r.NodeId, table) := by
  simp only [insertIfAbsent, find?_eq_head?_filter, h, List.head?_nil, List.head?_cons]

/-! ### The invariant -/

theorem row_injective (f0 : Fleet) (haGroup : String)
    (hdistinct : Function.Injective (fun i => (f0.agbots i).ag.DeviceId)) (i j : Fin 3)
    (h : [(f0.agbots i).row haGroup] = [(f0.agbots j).row haGroup]) : i = j := by
  apply hdistinct
  have := congrArg UpgradingHAGroupWorkload.NodeId (List.cons.inj h).1
  simpa [Agbot.row] using this

theorem row_hasKey (a : Agbot) (org haGroup policyName : String)
    (hready : RaceReady a org haGroup policyName) :
    UpgradingHAGroupWorkload.hasKey org haGroup policyName (a.row haGroup) = true := by
  simp [UpgradingHAGroupWorkload.hasKey, Agbot.row, hready.org, hready.policy]

theorem raceInv_init (f0 : Fleet) (org haGroup policyName : String)
    (hready : ∀ i, RaceReady (f0.agbots i) org haGroup policyName)
    (hempty : f0.shared.find? (UpgradingHAGroupWorkload.hasKey org haGroup policyName) = none) :
    raceInv f0 f0 org haGroup policyName := by
  have hrows : f0.rows org haGroup policyName = [] := by
    simp only [Fleet.rows, List.filter_eq_nil_iff]
    intro a ha
    exact List.find?_eq_none.mp hempty a ha
  refine ⟨Or.inl hrows, fun i => ⟨rfl, rfl, rfl, ?_⟩⟩
  rw [(hready i).fresh]
  exact ⟨rfl, rfl, by simp [hrows]⟩

theorem raceInv_step (f0 g : Fleet) (org haGroup policyName : String) (i : Fin 3)
    (hready : ∀ i, RaceReady (f0.agbots i) org haGroup policyName)
    (hgroup : haGroup ≠ "")
    (hdistinct : Function.Injective (fun i => (f0.agbots i).ag.DeviceId))
    (hinv : raceInv f0 g org haGroup policyName) :
    raceInv f0 (g.step i) org haGroup policyName
    ∧ min 3 (CancelStage.rank (g.agbots i).stage + 1)
        ≤ CancelStage.rank ((g.step i).agbots i).stage
    ∧ ∀ j, j ≠ i → (g.step i).agbots j = g.agbots j := by
  obtain ⟨hrows, hall⟩ := hinv
  obtain ⟨henv, hag, hreason, hstage⟩ := hall i
  have hstore : ∀ c, (g.agbots i).env.dbFault c = false := by
    rw [henv]; exact (hready i).store
  have horg : (g.agbots i).env.GetOrg (g.agbots i).ag.DeviceId = org := by
    rw [henv, hag]; exact (hready i).org
  have hpol : (g.agbots i).ag.PolicyName = policyName := by
    rw [hag]; exact (hready i).policy
  have hother : ∀ j, j ≠ i → (g.step i).agbots j = g.agbots j := by
    intro j hj
    simp [Fleet.step, Function.update_noteq hj]
  -- the other agbots keep their invariant when the rows of the key stay the same
  have hkeep : (g.step i).rows org haGroup policyName = g.rows org haGroup policyName →
      ∀ j, j ≠ i → raceAgbotInv f0 (g.step i) org haGroup policyName j := by
    intro hsame j hj
    have := hall j
    simp only [raceAgbotInv, hother j hj, hsame] at this ⊢
    exact this
  obtain ⟨r, hr⟩ : ∃ r, r = CancelAgreement.step (g.agbots i).env (g.agbots i).ag
      (g.agbots i).reason true (g.agbots i).stage ((g.agbots i).view g.shared) := ⟨_, rfl⟩
  have hself : (g.step i).agbots i = { g.agbots i with stage := some r.1, world := r.2 } := by
    simp [Fleet.step, hr]
  have hshared : (g.step i).shared = r.2.db.haUpgrading := by
    simp [Fleet.step, hr]
  have hrowsEq : r.2.db.haUpgrading = g.shared →
      (g.step i).rows org haGroup policyName = g.rows org haGroup policyName := by
    intro h
    simp only [Fleet.rows, hshared, h]
  rcases hst : (g.agbots i).stage with _ | (_ | h | h)
  · -- the call starts
    rw [hst] at hstage hr
    obtain ⟨husage, hhigh, hrow⟩ := hstage
    obtain ⟨d, hd, hdG⟩ := (hready i).device
    have hs := step_start (g.agbots i).env (g.agbots i).ag (g.agbots i).reason
      ((g.agbots i).view g.shared) d hstore
      (by simp only [Agbot.view, husage, hag]; exact (hready i).usage)
      (by rw [henv, hag]; exact hd) (by rw [hdG]; exact hgroup)
    rw [← hr, hdG] at hs
    have h1 : r.1 = CancelStage.query haGroup := hs.1
    have h2 : r.2.inboundHigh = (g.agbots i).world.inboundHigh := hs.2.1
    have hrows' := hrowsEq hs.2.2
    refine ⟨⟨by rw [hrows']; exact hrows, fun j => ?_⟩, ?_, hother⟩
    · by_cases hj : j = i
      · subst hj
        simp only [raceAgbotInv, hself, h1, h2, hrows']
        exact ⟨henv, hag, hreason, trivial, hhigh, hrow⟩
      · exact hkeep hrows' j hj
    · simp [hself, h1, CancelStage.rank]
  · -- the call has returned
    rw [hst] at hstage hr
    have h1 : r.1 = CancelStage.finished := by rw [hr]; rfl
    have h2 : r.2.inboundHigh = (g.agbots i).world.inboundHigh := by rw [hr]; rfl
    have hrows' := hrowsEq (by rw [hr]; rfl)
    refine ⟨⟨by rw [hrows']; exact hrows, fun j => ?_⟩, ?_, hother⟩
    · by_cases hj : j = i
      · subst hj
        simp only [raceAgbotInv, hself, h1, h2, hrows']
        exact ⟨henv, hag, hreason, hstage⟩
      · exact hkeep hrows' j hj
    · simp [hself, h1, CancelStage.rank]
  · -- the query of the HA table
    rw [hst] at hstage hr
    obtain ⟨hh, hhigh, hrow⟩ := hstage
    subst hh
    have hs := step_query (g.agbots i).env (g.agbots i).ag (g.agbots i).reason
      ((g.agbots i).view g.shared) h hstore
    rw [← hr, horg, hpol] at hs
    have h2 : r.2.inboundHigh = (g.agbots i).world.inboundHigh := hs.2.1
    have hrows' := hrowsEq hs.2.2
    by_cases hnil : g.rows org h policyName = []
    · have h1 : r.1 = CancelStage.claim h := by
        rw [hs.1]
        exact if_pos hnil
      refine ⟨⟨by rw [hrows']; exact hrows, fun j => ?_⟩, ?_, hother⟩
      · by_cases hj : j = i
        · subst hj
          simp only [raceAgbotInv, hself, h1, h2, hrows']
          exact ⟨henv, hag, hreason, trivial, hhigh, hrow⟩
        · exact hkeep hrows' j hj
      · simp [hself, h1, CancelStage.rank]
    · have h1 : r.1 = CancelStage.finished := by
        rw [hs.1]
        exact if_neg hnil
      obtain ⟨k, hk⟩ := hrows.resolve_left hnil
      have hki : k ≠ i := by
        intro hki
        subst hki
        exact hrow hk
      refine ⟨⟨by rw [hrows']; exact hrows, fun j => ?_⟩, ?_, hother⟩
      · by_cases hj : j = i
        · subst hj
          simp only [raceAgbotInv, hself, h1, h2, hrows']
          exact ⟨henv, hag, hreason, Or.inr ⟨hhigh, k, hki, hk⟩⟩
        · exact hkeep hrows' j hj
      · simp [hself, h1, CancelStage.rank]
  · -- the insert-if-absent
    rw [hst] at hstage hr
    obtain ⟨hh, hhigh, hrow⟩ := hstage
    subst hh
    have hs := step_claim (g.agbots i).env (g.agbots i).ag (g.agbots i).reason
      ((g.agbots i).view g.shared) h hstore
    rw [← hr, horg, hpol] at hs
    have h1 : r.1 = CancelStage.finished := hs.1
    have hrowi : (f0.agbots i).row h =
        { GroupOrg := org, GroupName := h, PolicyName := policyName,
          NodeId := (g.agbots i).ag.DeviceId } := by
      simp only [Agbot.row, (hready i).org, (hready i).policy, hag]
    have hitem : (f0.agbots i).cancelItem =
        AgreementWork.CancelAgreement (g.agbots i).ag.CurrentAgreementId
          (g.agbots i).ag.AgreementProtocol
          ((g.agbots i).env.GetTerminationCode (g.agbots i).reason) 0 := by
      simp only [Agbot.cancelItem, henv, hag, hreason]
    by_cases hnil : g.rows org h policyName = []
    · have hins := insertIfAbsent_of_filter_nil org h policyName (g.agbots i).ag.DeviceId
        g.shared hnil
      have hview : ((g.agbots i).view g.shared).db.haUpgrading = g.shared := rfl
      rw [hview, hins] at hs
      have h2 : r.2.inboundHigh =
          (f0.agbots i).world.inboundHigh ++ [(f0.agbots i).cancelItem] := by
        rw [hs.2.1, hitem, ← hhigh]
        simp [Agbot.view]
      have hrows' : (g.step i).rows org h policyName = [(f0.agbots i).row h] := by
        have hk := row_hasKey (f0.agbots i) org h policyName (hready i)
        rw [hrowi] at hk
        simp only [Fleet.rows, hshared, hs.2.2, List.filter_append, hrowi]
        simp only [Fleet.rows] at hnil
        simp [hnil, List.filter_cons, hk]
      refine ⟨⟨Or.inr ⟨i, hrows'⟩, fun j => ?_⟩, ?_, hother⟩
      · by_cases hj : j = i
        · subst hj
          simp only [raceAgbotInv, hself, h1, h2, hrows']
          exact ⟨henv, hag, hreason, Or.inl ⟨trivial, trivial⟩⟩
        · have hold := hall j
          have hne : [(f0.agbots i).row h] ≠ [(f0.agbots j).row h] := fun heq =>
            hj (row_injective f0 h hdistinct i j heq).symm
          simp only [raceAgbotInv, hother j hj, hrows', hnil] at hold ⊢
          refine ⟨hold.1, hold.2.1, hold.2.2.1, ?_⟩
          have hst := hold.2.2.2
          rcases hstj : (g.agbots j).stage with _ | (_ | hq | hc)
          · rw [hstj] at hst
            exact ⟨hst.1, hst.2.1, hne⟩
          · rw [hstj] at hst
            rcases hst with ⟨_, hbad⟩ | ⟨_, _, _, hbad⟩ <;> simp at hbad
          · rw [hstj] at hst
            exact ⟨hst.1, hst.2.1, hne⟩
          · rw [hstj] at hst
            exact ⟨hst.1, hst.2.1, hne⟩
      · simp [hself, h1, CancelStage.rank]
    · obtain ⟨k, hk⟩ := hrows.resolve_left hnil
      have hki : k ≠ i := by
        intro hki
        subst hki
        exact hrow hk
      have hins := insertIfAbsent_of_filter_cons org h policyName (g.agbots i).ag.DeviceId
        g.shared ((f0.agbots k).row h) [] hk
      have hview : ((g.agbots i).view g.shared).db.haUpgrading = g.shared := rfl
      rw [hview, hins] at hs
      have hdev : ((f0.agbots k).row h).NodeId ≠ (g.agbots i).ag.DeviceId := by
        rw [hag]
        exact fun heq => hki (hdistinct heq)
      have h2 : r.2.inboundHigh = (g.agbots i).world.inboundHigh := by
        rw [hs.2.1, if_neg hdev]
        rfl
      have hrows' := hrowsEq hs.2.2
      refine ⟨⟨by rw [hrows']; exact hrows, fun j => ?_⟩, ?_, hother⟩
      · by_cases hj : j = i
        · subst hj
          simp only [raceAgbotInv, hself, h1, h2, hrows']
          exact ⟨henv, hag, hreason, Or.inr ⟨hhigh, k, hki, hk⟩⟩
        · exact hkeep hrows' j hj
      · simp [hself, h1, CancelStage.rank]

theorem raceInv_run (f0 : Fleet) (org haGroup policyName : String)
    (hready : ∀ i, RaceReady (f0.agbots i) org haGroup policyName)
    (hgroup : haGroup ≠ "")
    (hdistinct : Function.Injective (fun i => (f0.agbots i).ag.DeviceId))
    (schedule : List (Fin 3)) :
    ∀ g, raceInv f0 g org haGroup policyName →
      raceInv f0 (g.run schedule) org haGroup policyName
      ∧ ∀ i, min 3 (CancelStage.rank (g.agbots i).stage + schedule.count i)
          ≤ CancelStage.rank ((g.run schedule).agbots i).stage := by
  induction schedule with
  | nil =>
    intro g hinv
    exact ⟨hinv, fun i => by simp [Fleet.run]⟩
  | cons k rest ih =>
    intro g hinv
    obtain ⟨hstep, hrank, hother⟩ := raceInv_step f0 g org haGroup policyName k hready hgroup
      hdistinct hinv
    obtain ⟨hfinal, hprogress⟩ := ih (g.step k) hstep
    refine ⟨hfinal, fun i => ?_⟩
    have hrun : g.run (k :: rest) = (g.step k).run rest := rfl
    rw [hrun]
    have hp := hprogress i
    by_cases hik : i = k
    · subst hik
      simp only [List.count_cons_self]
      omega
    · rw [hother i hik] at hp
      have hcount : List.count i (k :: rest) = List.count i rest := by
        simp [List.count_cons, show ¬ k = i from fun h => hik h.symm]
      rw [hcount]
      exact hp

/-- C5: three agbots run `CancelAgreement` with `policyMatches = true` for three different
devices of the same HA group and policy, each device with a workload-usage row, no row of
the HA table for the key beforehand and the store answering every call.  In every
interleaving of their stages (the insert-if-absent being atomic), at every moment the key
has at most one row and at most one agbot has queued anything; an agbot that has had three
steps has returned; and once all three have returned, the row of the key is the one
inserted by one agbot, that agbot has queued exactly its cancel work item and the other
two have queued nothing. -/
theorem C5_HA_race (f : Fleet) (org haGroup policyName : String) (schedule : List (Fin 3))
    (hready : ∀ i, RaceReady (f.agbots i) org haGroup policyName)
    (hgroup : haGroup ≠ "")
    (hdistinct : Function.Injective (fun i => (f.agbots i).ag.DeviceId))
    (hempty : f.shared.find? (UpgradingHAGroupWorkload.hasKey org haGroup policyName) = none) :
    ((f.run schedule).rows org haGroup policyName).length ≤ 1
    ∧ (∀ i j,
        ((f.run schedule).agbots i).world.inboundHigh ≠ (f.agbots i).world.inboundHigh →
        ((f.run schedule).agbots j).world.inboundHigh ≠ (f.agbots j).world.inboundHigh →
        i = j)
    ∧ (∀ i, 3 ≤ schedule.count i → ((f.run schedule).agbots i).stage = some .finished)
    ∧ ((∀ i, ((f.run schedule).agbots i).stage = some .finished) →
        ∃ i, (f.run schedule).rows org haGroup policyName = [(f.agbots i).row haGroup]
          ∧ ((f.run schedule).agbots i).world.inboundHigh =
              (f.agbots i).world.inboundHigh ++ [(f.agbots i).cancelItem]
          ∧ ∀ j, j ≠ i →
              ((f.run schedule).agbots j).world.inboundHigh = (f.agbots j).world.inboundHigh) := by
  obtain ⟨⟨hrows, hall⟩, hprogress⟩ := raceInv_run f org haGroup policyName hready hgroup
    hdistinct schedule f (raceInv_init f org haGroup policyName hready hempty)
  -- an agbot that has queued something holds the row of the key
  have hqueued : ∀ i,
      ((f.run schedule).agbots i).world.inboundHigh ≠ (f.agbots i).world.inboundHigh →
      (f.run schedule).rows org haGroup policyName = [(f.agbots i).row haGroup] := by
    intro i hne
    obtain ⟨_, _, _, hst⟩ := hall i
    rcases hstage : ((f.run schedule).agbots i).stage with _ | (_ | h | h) <;>
      rw [hstage] at hst
    · exact absurd hst.2.1 hne
    · rcases hst with ⟨_, hr⟩ | ⟨hsame, _⟩
      · exact hr
      · exact absurd hsame hne
    · exact absurd hst.2.1 hne
    · exact absurd hst.2.1 hne
  refine ⟨?_, ?_, ?_, ?_⟩
  · rcases hrows with h | ⟨j, h⟩ <;> simp [h]
  · intro i j hi hj
    exact row_injective f haGroup hdistinct i j ((hqueued i hi).symm.trans (hqueued j hj))
  · intro i hcount
    have hp := hprogress i
    have hle : 3 ≤ CancelStage.rank ((f.run schedule).agbots i).stage := by omega
    rcases hstage : ((f.run schedule).agbots i).stage with _ | (_ | h | h) <;>
      rw [hstage] at hle <;> simp [CancelStage.rank] at hle
  · intro hdone
    -- the row of the key is the one of some agbot `i`
    have hrow : ∃ i, (f.run schedule).rows org haGroup policyName = [(f.agbots i).row haGroup] := by
      obtain ⟨_, _, _, hst⟩ := hall 0
      rw [hdone 0] at hst
      rcases hst with ⟨_, hr⟩ | ⟨_, j, _, hr⟩
      · exact ⟨0, hr⟩
      · exact ⟨j, hr⟩
    obtain ⟨i, hi⟩ := hrow
    refine ⟨i, hi, ?_, ?_⟩
    · obtain ⟨_, _, _, hst⟩ := hall i
      rw [hdone i] at hst
      rcases hst with ⟨hq, _⟩ | ⟨_, j, hj, hr⟩
      · exact hq
      · exact absurd (row_injective f haGroup hdistinct i j (hi.symm.trans hr)).symm hj
    · intro j hj
      obtain ⟨_, _, _, hst⟩ := hall j
      rw [hdone j] at hst
      rcases hst with ⟨_, hr⟩ | ⟨hsame, _⟩
      · exact absurd (row_injective f haGroup hdistinct i j (hi.symm.trans hr)).symm hj
      · exact hsame

theorem Scenario.fleet_ready : ∀ i, RaceReady (Scenario.fleet.agbots i) "org1" "g1" "org1/pol" := by
  intro i
  fin_cases i <;>
    exact ⟨rfl, by decide, ⟨_, rfl, rfl⟩, rfl, rfl, fun _ => rfl⟩

theorem Scenario.fleet_distinct :
    Function.Injective (fun i => (Scenario.fleet.agbots i).ag.DeviceId) := by
  intro i j h
  fin_cases i <;> fin_cases j <;> first | rfl | (exfalso; revert h; decide)

/-- Witness of C5 on the interleaving in which all three agbots query the HA table before
any of them inserts. -/
theorem C5_HA_race_witness :
    (∀ i, RaceReady (Scenario.fleet.agbots i) "org1" "g1" "org1/pol")
    ∧ "g1" ≠ ""
    ∧ Function.Injective (fun i => (Scenario.fleet.agbots i).ag.DeviceId)
    ∧ Scenario.fleet.shared.find? (UpgradingHAGroupWorkload.hasKey "org1" "g1" "org1/pol") = none
    ∧ ∃ i, (Scenario.fleet.run Scenario.allQueryFirst).rows "org1" "g1" "org1/pol"
          = [(Scenario.fleet.agbots i).row "g1"]
        ∧ ((Scenario.fleet.run Scenario.allQueryFirst).agbots i).world.inboundHigh =
            (Scenario.fleet.agbots i).world.inboundHigh ++ [(Scenario.fleet.agbots i).cancelItem]
        ∧ ∀ j, j ≠ i →
            ((Scenario.fleet.run Scenario.allQueryFirst).agbots j).world.inboundHigh
              = (Scenario.fleet.agbots j).world.inboundHigh :=
  ⟨Scenario.fleet_ready, by decide, Scenario.fleet_distinct, rfl,
    (C5_HA_race Scenario.fleet "org1" "g1" "org1/pol" Scenario.allQueryFirst
      Scenario.fleet_ready (by decide) Scenario.fleet_distinct rfl).2.2.2
      (fun i => (C5_HA_race Scenario.fleet "org1" "g1" "org1/pol" Scenario.allQueryFirst
        Scenario.fleet_ready (by decide) Scenario.fleet_distinct rfl).2.2.1 i
        (by fin_cases i <;> decide))⟩

/-! ## `DispatchProtocolMessage` -/

/-- C14: for a message that parses as a cancel and neither as a reply nor as a data-received
acknowledgement, `DispatchProtocolMessage` queues nothing when no agreement with the
cancel's agreement id exists or when the stored agreement's deviceId differs from the
sender; it queues one `CancelAgreement` item (agreement id, protocol, the cancel's reason,
the message id) on `inboundHigh`, and only then, when the stored agreement's deviceId
equals the sender. -/
theorem C14_cancel_from_sender_only (env : Env) (cmd : NewProtocolMessageCommand) (w : World)
    (can : Cancel)
    (hreply : parses (env.ValidateReply cmd.Message) = false)
    (hack : parses (env.ValidateDataReceivedAck cmd.Message) = false)
    (hcancel : env.ValidateCancel cmd.Message = .ok can) :
    ((∀ a ∈ w.db.agreements, a.CurrentAgreementId ≠ can.AgreementId) →
        (DispatchProtocolMessage env cmd w).2.inboundHigh = w.inboundHigh
        ∧ (DispatchProtocolMessage env cmd w).2.inboundLow = w.inboundLow)
    ∧ ((FindSingleAgreementByAgreementId env can.AgreementId can.Protocol [] w).1 = .ok none →
        (DispatchProtocolMessage env cmd w).2.inboundHigh = w.inboundHigh
        ∧ (DispatchProtocolMessage env cmd w).2.inboundLow = w.inboundLow)
    ∧ (∀ ag, (FindSingleAgreementByAgreementId env can.AgreementId can.Protocol [] w).1
          = .ok (some ag) → ag.DeviceId ≠ cmd.From →
        (DispatchProtocolMessage env cmd w).2.inboundHigh = w.inboundHigh
        ∧ (DispatchProtocolMessage env cmd w).2.inboundLow = w.inboundLow)
    ∧ (∀ ag, (FindSingleAgreementByAgreementId env can.AgreementId can.Protocol [] w).1
          = .ok (some ag) → ag.DeviceId = cmd.From →
        (DispatchProtocolMessage env cmd w).2.inboundHigh = w.inboundHigh ++
          [NewCancelAgreement can.AgreementId can.Protocol can.Reason cmd.MessageId]
        ∧ (DispatchProtocolMessage env cmd w).2.inboundLow = w.inboundLow)
    ∧ ((DispatchProtocolMessage env cmd w).2.inboundHigh ≠ w.inboundHigh →
        ∃ ag, (FindSingleAgreementByAgreementId env can.AgreementId can.Protocol [] w).1
          = .ok (some ag) ∧ ag.DeviceId = cmd.From)
    ∧ (DispatchProtocolMessage env cmd w).1 = none := by
  have hr : ∃ e, env.ValidateReply cmd.Message = .error e := by
    cases h : env.ValidateReply cmd.Message with
    | ok r => simp [h, parses] at hreply
    | error e => exact ⟨e, rfl⟩
  have ha : ∃ e, env.ValidateDataReceivedAck cmd.Message = .error e := by
    cases h : env.ValidateDataReceivedAck cmd.Message with
    | ok r => simp [h, parses] at hack
    | error e => exact ⟨e, rfl⟩
  obtain ⟨e1, hr⟩ := hr
  obtain ⟨e2, ha⟩ := ha
  rcases hl : (FindSingleAgreementByAgreementId env can.AgreementId can.Protocol [] w).1
    with e | _ | ag
  · have hd : DispatchProtocolMessage env cmd w =
        (none, (FindSingleAgreementByAgreementId env can.AgreementId can.Protocol [] w).2) := by
      simp [DispatchProtocolMessage, hr, ha, hcancel, hl]
    simp [hd, FindSingleAgreementByAgreementId, World.record]
  · have hd : DispatchProtocolMessage env cmd w =
        (none, (FindSingleAgreementByAgreementId env can.AgreementId can.Protocol [] w).2) := by
      simp [DispatchProtocolMessage, hr, ha, hcancel, hl]
    simp [hd, FindSingleAgreementByAgreementId, World.record]
  · by_cases hfrom : ag.DeviceId = cmd.From
    · have hd : DispatchProtocolMessage env cmd w =
          (none, (FindSingleAgreementByAgreementId env can.AgreementId can.Protocol [] w).2.enqueueHigh
            (NewCancelAgreement can.AgreementId can.Protocol can.Reason cmd.MessageId)) := by
        simp [DispatchProtocolMessage, hr, ha, hcancel, hl, hfrom]
      have hmem : ∃ a ∈ w.db.agreements, a.CurrentAgreementId = can.AgreementId := by
        have hl2 := hl
        simp only [FindSingleAgreementByAgreementId] at hl2
        split at hl2
        · simp at hl2
        · simp only [Except.ok.injEq] at hl2
          have h1 := List.mem_of_find?_eq_some hl2
          have h2 := List.find?_some hl2
          simp at h2
          exact ⟨ag, h1, h2.1⟩
      obtain ⟨a, hain, haid⟩ := hmem
      refine ⟨fun hno => absurd haid (hno a hain), by simp, ?_, ?_, ?_, by simp [hd]⟩
      · intro ag2 h2 hne
        simp at h2
        exact absurd (h2 ▸ hfrom) hne
      · intro ag2 _ _
        simp [hd, FindSingleAgreementByAgreementId, World.record, World.enqueueHigh]
      · intro _
        exact ⟨ag, rfl, hfrom⟩
    · have hd : DispatchProtocolMessage env cmd w =
          (none, (FindSingleAgreementByAgreementId env can.AgreementId can.Protocol [] w).2) := by
        simp [DispatchProtocolMessage, hr, ha, hcancel, hl, hfrom]
      refine ⟨fun _ => ?_, by simp, fun _ _ _ => ?_, ?_, ?_, by simp [hd]⟩
      · simp [hd, FindSingleAgreementByAgreementId, World.record]
      · simp [hd, FindSingleAgreementByAgreementId, World.record]
      · intro ag2 h2 heq
        simp at h2
        exact absurd (h2 ▸ heq) hfrom
      · intro hne
        simp [hd, FindSingleAgreementByAgreementId, World.record] at hne

/-- Witness of C14 on the scenario "cancel from wrong device": a cancel for agreement `A1`
comes from `org1/D2` while the stored agreement is with `org1/D1`; nothing is queued. -/
theorem C14_cancel_from_sender_only_witness :
    parses ((Scenario.env Scenario.pol2 Scenario.pol2 "").ValidateReply
      Scenario.cancelFromD2.Message) = false
    ∧ parses ((Scenario.env Scenario.pol2 Scenario.pol2 "").ValidateDataReceivedAck
      Scenario.cancelFromD2.Message) = false
    ∧ (Scenario.env Scenario.pol2 Scenario.pol2 "").ValidateCancel Scenario.cancelFromD2.Message
      = .ok { AgreementId := "A1", Protocol := "Basic", Reason := 201 }
    ∧ (FindSingleAgreementByAgreementId (Scenario.env Scenario.pol2 Scenario.pol2 "") "A1" "Basic"
        [] (Scenario.world 2)).1 = .ok (some Scenario.agreement)
    ∧ Scenario.agreement.DeviceId = "org1/D1"
    ∧ (DispatchProtocolMessage (Scenario.env Scenario.pol2 Scenario.pol2 "")
        Scenario.cancelFromD2 (Scenario.world 2)).2.inboundHigh = []
    ∧ (DispatchProtocolMessage (Scenario.env Scenario.pol2 Scenario.pol2 "")
        Scenario.cancelFromD2 (Scenario.world 2)).2.inboundLow = [] :=
  ⟨rfl, rfl, rfl, rfl, rfl,
    (C14_cancel_from_sender_only (Scenario.env Scenario.pol2 Scenario.pol2 "")
      Scenario.cancelFromD2 (Scenario.world 2)
      { AgreementId := "A1", Protocol := "Basic", Reason := 201 } rfl rfl rfl).2.2.1
      Scenario.agreement rfl (by decide)⟩

/-- C15: `DispatchProtocolMessage` returns an error exactly when the message parses as none
of proposal reply, data-received acknowledgement and cancel and the extension hook does not
accept it, and then it leaves the queues (and the whole world) as they were; with the hook
of the base handler, which accepts every message, it never returns an error. -/
theorem C15_dispatch_error (env : Env) (cmd : NewProtocolMessageCommand) (w : World) :
    ((DispatchProtocolMessage env cmd w).1.isSome = true ↔
      (parses (env.ValidateReply cmd.Message) = false
        ∧ parses (env.ValidateDataReceivedAck cmd.Message) = false
        ∧ parses (env.ValidateCancel cmd.Message) = false
        ∧ (env.HandleExtensionMessage cmd).isSome = true))
    ∧ ((DispatchProtocolMessage env cmd w).1.isSome = true →
        (DispatchProtocolMessage env cmd w).2 = w)
    ∧ (env.HandleExtensionMessage cmd = HandleExtensionMessage cmd →
        (DispatchProtocolMessage env cmd w).1 = none) := by
  cases hr : env.ValidateReply cmd.Message with
  | ok r => simp [DispatchProtocolMessage, hr, parses]
  | error e1 =>
    cases ha : env.ValidateDataReceivedAck cmd.Message with
    | ok r => simp [DispatchProtocolMessage, hr, ha, parses]
    | error e2 =>
      cases hc : env.ValidateCancel cmd.Message with
      | ok can =>
        simp only [DispatchProtocolMessage, hr, ha, hc, parses]
        repeat' split
        all_goals simp
      | error e3 =>
        cases hx : env.HandleExtensionMessage cmd with
        | none => simp [DispatchProtocolMessage, hr, ha, hc, hx, parses]
        | some e4 =>
          simp [DispatchProtocolMessage, hr, ha, hc, hx, parses, HandleExtensionMessage]

/-- Witness of C15: a message of no known kind reaches a handler whose hook accepts nothing;
`DispatchProtocolMessage` returns an error and leaves the world as it was. -/
theorem C15_dispatch_error_witness :
    parses (Scenario.strictEnv.ValidateReply Scenario.unknownMessage.Message) = false
    ∧ parses (Scenario.strictEnv.ValidateDataReceivedAck Scenario.unknownMessage.Message) = false
    ∧ parses (Scenario.strictEnv.ValidateCancel Scenario.unknownMessage.Message) = false
    ∧ (Scenario.strictEnv.HandleExtensionMessage Scenario.unknownMessage).isSome = true
    ∧ (DispatchProtocolMessage Scenario.strictEnv Scenario.unknownMessage
        (Scenario.world 2)).1.isSome = true
    ∧ (DispatchProtocolMessage Scenario.strictEnv Scenario.unknownMessage
        (Scenario.world 2)).2 = Scenario.world 2 :=
  ⟨rfl, rfl, rfl, rfl,
    (C15_dispatch_error Scenario.strictEnv Scenario.unknownMessage (Scenario.world 2)).1.mpr
      ⟨rfl, rfl, rfl, rfl⟩,
    (C15_dispatch_error Scenario.strictEnv Scenario.unknownMessage (Scenario.world 2)).2.1
      ((C15_dispatch_error Scenario.strictEnv Scenario.unknownMessage (Scenario.world 2)).1.mpr
        ⟨rfl, rfl, rfl, rfl⟩)⟩

/-! ## Trace of the policy handlers -/

theorem cancelStep_notMMS (s : Step) (h : cancelStep s = true) : notMMS s = true := by
  obtain ⟨c, o⟩ := s
  cases c <;> simp_all [cancelStep, notMMS, Call.isCancelStep, Call.isMMS]

theorem evaluationStep_notMMS (s : Step) (h : evaluationStep s = true) : notMMS s = true := by
  obtain ⟨c, o⟩ := s
  cases c <;> simp_all [evaluationStep, notMMS, Call.isEvaluation, Call.isMMS]

theorem cancelNow_steps {w w0 : World} (env : Env) (ag : Agreement) (reason : String)
    (h : w.tracedFrom cancelStep w0) :
    (CancelAgreement.cancelNow env ag reason w).tracedFrom cancelStep w0 :=
  World.enqueueHigh_traced _ (DeleteWorkloadUsage_traced _ _ h rfl)

theorem CancelAgreement_start_steps {w w0 : World} (env : Env) (ag : Agreement)
    (reason : String) (policyMatches : Bool)
    (h : (w.record (Call.CancelAgreement ag.CurrentAgreementId reason policyMatches)
      .ok).tracedFrom cancelStep w0) :
    (CancelAgreement.start env ag reason policyMatches w).2.tracedFrom cancelStep w0 := by
  simp only [CancelAgreement.start]
  repeat' split
  all_goals
    repeat' first
      | apply cancelNow_steps
      | apply UpdatePendingUpgrade_traced
      | apply GetDevice_traced
      | apply FindSingleWorkloadUsage_traced
      | exact h
      | exact rfl
      | exact fun _ => rfl

theorem CancelAgreement_query_steps {w w0 : World} (env : Env) (ag : Agreement)
    (haGroup : String) (h : w.tracedFrom cancelStep w0) :
    (CancelAgreement.query env ag haGroup w).2.tracedFrom cancelStep w0 := by
  simp only [CancelAgreement.query]
  repeat' split
  all_goals exact GetHAUpgradingWorkload_traced _ _ _ _ h (fun _ => rfl)

theorem CancelAgreement_claim_steps {w w0 : World} (env : Env) (ag : Agreement)
    (reason haGroup : String) (h : w.tracedFrom cancelStep w0) :
    (CancelAgreement.claim env ag reason haGroup w).tracedFrom cancelStep w0 := by
  simp only [CancelAgreement.claim]
  repeat' split
  all_goals
    repeat' first
      | apply cancelNow_steps
      | apply InsertHAUpgradingWorkload_traced
      | exact h
      | exact fun _ => rfl

/-- The trace of `CancelAgreement` consists of its own entry and of calls to the store and
the exchange. -/
theorem CancelAgreement_steps {w w0 : World} (env : Env) (ag : Agreement) (reason : String)
    (policyMatches : Bool) (h : w.tracedFrom cancelStep w0) :
    (CancelAgreement env ag reason policyMatches w).tracedFrom cancelStep w0 := by
  have hs : (CancelAgreement.start env ag reason policyMatches w).2.tracedFrom cancelStep w0 :=
    CancelAgreement_start_steps env ag reason policyMatches (World.tracedFrom_record _ _ h rfl)
  simp only [CancelAgreement]
  split
  · split
    · exact CancelAgreement_claim_steps _ _ _ _
        (World.interleave_traced _ (CancelAgreement_query_steps _ _ _ hs))
    · exact CancelAgreement_query_steps _ _ _ hs
  · exact hs

theorem mmsCalls_of_traced {w w0 : World} (h : w.tracedFrom notMMS w0) :
    mmsCalls (w0.newSteps w) = [] := by
  obtain ⟨steps, htr, hall⟩ := h
  simp only [mmsCalls, World.newSteps, htr, List.drop_left, List.filter_eq_nil_iff]
  intro s hs
  have := hall s hs
  simpa [notMMS] using this

theorem mmsCalls_record {w w0 : World} (c : Call) (o : Outcome) (h : w.tracedFrom notMMS w0) :
    mmsCalls (w0.newSteps (w.record c o)) =
      if c.isMMS then [{ call := c, outcome := o }] else [] := by
  obtain ⟨steps, htr, hall⟩ := h
  have h1 : steps.filter (fun s => s.call.isMMS) = [] := by
    simp only [List.filter_eq_nil_iff]
    intro s hs
    simpa [notMMS] using hall s hs
  simp only [mmsCalls, World.newSteps, World.record, htr, List.append_assoc, List.drop_left,
    List.filter_append, h1, List.nil_append]
  cases hc : c.isMMS <;> simp [hc]

/-- The evaluation writes neither an entry of `CancelAgreement` nor a hand-over to
`AgreementHandleMMSObjectPolicy`, and leaves store and queues as they are. -/
theorem evaluation_quiet (env : Env) (ag : Agreement) (oldPolicy : Option Policy) (w : World) :
    (HandlePolicyChangeForAgreement env ag oldPolicy w).2.tracedFrom insideCancel w
    ∧ (HandlePolicyChangeForAgreement env ag oldPolicy w).2.tracedFrom notMMS w
    ∧ (HandlePolicyChangeForAgreement env ag oldPolicy w).2.db = w.db
    ∧ (HandlePolicyChangeForAgreement env ag oldPolicy w).2.inboundHigh = w.inboundHigh
    ∧ (HandlePolicyChangeForAgreement env ag oldPolicy w).2.inboundLow = w.inboundLow := by
  have hro := HandlePolicyChangeForAgreement_readOnly env ag oldPolicy w
  exact ⟨World.tracedFrom_mono evaluationStep_insideCancel hro.traced,
    World.tracedFrom_mono evaluationStep_notMMS hro.traced, hro.1, hro.2.1, hro.2.2.1⟩

theorem FindAgreements_scanned (env : Env) (w : World)
    (hfault : env.dbFault (Call.FindAgreements env.Name) = false) :
    FindAgreements env [UnarchivedAFilter, InProgress] env.Name w =
      (.ok (scanned env w), w.record (Call.FindAgreements env.Name) .ok) := by
  simp [FindAgreements, hfault, scanned, UnarchivedAFilter, InProgress, Outcome.ofExcept]

/-! ## `HandleNodePolicyChanged` -/

/-- C16: `HandleNodePolicyChanged` scans the in-progress, un-archived agreements of the
handler and acts only on those with an empty pattern and
`deviceId = FormOrgSpecUrl(nodeId, nodePolOrg)`.  For such an agreement it runs
`HandlePolicyChangeForAgreement` with no old policy and calls `CancelAgreement` (reason
`PolicyChanged`, once) exactly when not (policyMatches and noNewPriority); otherwise it
calls `HandlePolicyChangeForMMSObject`, which hands the agreement to
`AgreementHandleMMSObjectPolicy` exactly when the device type is `device`, the pattern is
empty and a CSS URL is configured, and else does nothing. -/
theorem C16_node_policy_changed (env : Env) (cmd : NodePolicyChangedCommand) (w : World)
    (ag : Agreement) :
    (env.dbFault (Call.FindAgreements env.Name) = false →
      HandleNodePolicyChanged env cmd w =
        (scanned env w).foldl (HandleNodePolicyChanged.body env cmd)
          (w.record (Call.FindAgreements env.Name) .ok))
    ∧ (¬ (ag.Pattern = "" ∧ ag.DeviceId = env.FormOrgSpecUrl cmd.NodeId cmd.NodePolOrg) →
      HandleNodePolicyChanged.body env cmd w ag = w)
    ∧ (ag.Pattern = "" ∧ ag.DeviceId = env.FormOrgSpecUrl cmd.NodeId cmd.NodePolOrg →
      (¬ ((HandlePolicyChangeForAgreement env ag none w).1.1 = true
          ∧ (HandlePolicyChangeForAgreement env ag none w).1.2.1 = true) →
        HandleNodePolicyChanged.body env cmd w ag =
          CancelAgreement env ag TERM_REASON_POLICY_CHANGED
            (HandlePolicyChangeForAgreement env ag none w).1.1
            (HandlePolicyChangeForAgreement env ag none w).2
        ∧ cancelCalls (w.newSteps (HandleNodePolicyChanged.body env cmd w ag)) =
            [{ call := Call.CancelAgreement ag.CurrentAgreementId TERM_REASON_POLICY_CHANGED
                 (HandlePolicyChangeForAgreement env ag none w).1.1, outcome := .ok }]
        ∧ mmsCalls (w.newSteps (HandleNodePolicyChanged.body env cmd w ag)) = [])
      ∧ ((HandlePolicyChangeForAgreement env ag none w).1.1 = true
          ∧ (HandlePolicyChangeForAgreement env ag none w).1.2.1 = true →
        HandleNodePolicyChanged.body env cmd w ag =
          HandlePolicyChangeForMMSObject env ag (HandlePolicyChangeForAgreement env ag none w).2
        ∧ cancelCalls (w.newSteps (HandleNodePolicyChanged.body env cmd w ag)) = []
        ∧ mmsCalls (w.newSteps (HandleNodePolicyChanged.body env cmd w ag)) =
            (if ag.GetDeviceType = DEVICE_TYPE_DEVICE ∧ env.GetCSSURL ≠ "" then
              [{ call := Call.AgreementHandleMMSObjectPolicy ag.CurrentAgreementId,
                 outcome := .ok }]
            else [])
        ∧ (HandleNodePolicyChanged.body env cmd w ag).db = w.db
        ∧ (HandleNodePolicyChanged.body env cmd w ag).inboundHigh = w.inboundHigh
        ∧ (HandleNodePolicyChanged.body env cmd w ag).inboundLow = w.inboundLow))
    ∧ (∀ (a : Agreement) (w1 : World), HandlePolicyChangeForMMSObject env a w1 =
        if a.GetDeviceType = DEVICE_TYPE_DEVICE ∧ a.Pattern = "" ∧ env.GetCSSURL ≠ "" then
          AgreementHandleMMSObjectPolicy a w1
        else w1) := by
  obtain ⟨hcan, hmms, hdb, hhi, hlo⟩ := evaluation_quiet env ag none w
  refine ⟨fun hfault => ?_, fun hout => ?_, fun hin => ⟨fun hbad => ?_, fun hgood => ?_⟩, ?_⟩
  · simp [HandleNodePolicyChanged, FindAgreements_scanned env w hfault]
  · simp [HandleNodePolicyChanged.body, hout]
  · have hb : HandleNodePolicyChanged.body env cmd w ag =
        CancelAgreement env ag TERM_REASON_POLICY_CHANGED
          (HandlePolicyChangeForAgreement env ag none w).1.1
          (HandlePolicyChangeForAgreement env ag none w).2 := by
      have hv : ((HandlePolicyChangeForAgreement env ag none w).1.1 &&
          (HandlePolicyChangeForAgreement env ag none w).1.2.1) = false := by
        cases h1 : (HandlePolicyChangeForAgreement env ag none w).1.1 <;>
          cases h2 : (HandlePolicyChangeForAgreement env ag none w).1.2.1 <;> simp_all
      simp [HandleNodePolicyChanged.body, hin, hv]
    refine ⟨hb, ?_, ?_⟩
    · rw [hb]; exact cancelCalls_CancelAgreement _ _ _ _ hcan
    · rw [hb]
      apply mmsCalls_of_traced
      refine World.tracedFrom_trans hmms ?_
      exact World.tracedFrom_mono cancelStep_notMMS
        (CancelAgreement_steps _ _ _ _ (World.tracedFrom_refl _ _))
  · have hb : HandleNodePolicyChanged.body env cmd w ag =
        HandlePolicyChangeForMMSObject env ag (HandlePolicyChangeForAgreement env ag none w).2 := by
      simp [HandleNodePolicyChanged.body, hin, hgood.1, hgood.2]
    rw [hb]
    by_cases hc : ag.GetDeviceType = DEVICE_TYPE_DEVICE ∧ env.GetCSSURL ≠ ""
    · have hm : HandlePolicyChangeForMMSObject env ag
          (HandlePolicyChangeForAgreement env ag none w).2 =
          (HandlePolicyChangeForAgreement env ag none w).2.record
            (Call.AgreementHandleMMSObjectPolicy ag.CurrentAgreementId) .ok := by
        simp [HandlePolicyChangeForMMSObject, AgreementHandleMMSObjectPolicy, hc.1, hc.2, hin.1]
      rw [hm, if_pos hc]
      refine ⟨rfl, ?_, ?_, hdb, hhi, hlo⟩
      · exact cancelCalls_of_traced (World.tracedFrom_record _ _ hcan rfl)
      · rw [mmsCalls_record _ _ hmms]; rfl
    · have hm : HandlePolicyChangeForMMSObject env ag
          (HandlePolicyChangeForAgreement env ag none w).2 =
          (HandlePolicyChangeForAgreement env ag none w).2 := by
        simp only [HandlePolicyChangeForMMSObject]
        split
        · split
          · next h1 h2 => exact absurd ⟨h1, h2.1⟩ hc
          · rfl
        · rfl
      rw [hm, if_neg hc]
      exact ⟨rfl, cancelCalls_of_traced hcan, mmsCalls_of_traced hmms, hdb, hhi, hlo⟩
  · intro a w1
    simp only [HandlePolicyChangeForMMSObject]
    by_cases h1 : a.GetDeviceType = DEVICE_TYPE_DEVICE <;>
      by_cases h2 : env.GetCSSURL = "" <;> by_cases h3 : a.Pattern = "" <;> simp [h1, h2, h3]

/-- Witness of C16: the node policy of `org1/D1` changes, agreement `A1` is still valid and
is handed to `AgreementHandleMMSObjectPolicy` once, without a cancel. -/
theorem C16_node_policy_changed_witness :
    (Scenario.agreement.Pattern = "" ∧ Scenario.agreement.DeviceId =
        (Scenario.env Scenario.pol2 Scenario.pol2 "").FormOrgSpecUrl
          Scenario.nodePolicyChanged.NodeId Scenario.nodePolicyChanged.NodePolOrg)
    ∧ ((HandlePolicyChangeForAgreement (Scenario.env Scenario.pol2 Scenario.pol2 "")
          Scenario.agreement none (Scenario.world 2)).1.1 = true
        ∧ (HandlePolicyChangeForAgreement (Scenario.env Scenario.pol2 Scenario.pol2 "")
          Scenario.agreement none (Scenario.world 2)).1.2.1 = true)
    ∧ cancelCalls ((Scenario.world 2).newSteps
        (HandleNodePolicyChanged.body (Scenario.env Scenario.pol2 Scenario.pol2 "")
          Scenario.nodePolicyChanged (Scenario.world 2) Scenario.agreement)) = []
    ∧ mmsCalls ((Scenario.world 2).newSteps
        (HandleNodePolicyChanged.body (Scenario.env Scenario.pol2 Scenario.pol2 "")
          Scenario.nodePolicyChanged (Scenario.world 2) Scenario.agreement)) =
        [{ call := Call.AgreementHandleMMSObjectPolicy "A1", outcome := .ok }] :=
  ⟨⟨rfl, by decide⟩, ⟨by decide, by decide⟩,
    (((C16_node_policy_changed (Scenario.env Scenario.pol2 Scenario.pol2 "")
      Scenario.nodePolicyChanged (Scenario.world 2) Scenario.agreement).2.2.1
        ⟨rfl, by decide⟩).2 ⟨by decide, by decide⟩).2.1,
    ((((C16_node_policy_changed (Scenario.env Scenario.pol2 Scenario.pol2 "")
      Scenario.nodePolicyChanged (Scenario.world 2) Scenario.agreement).2.2.1
        ⟨rfl, by decide⟩).2 ⟨by decide, by decide⟩).2.2.1).trans (if_pos ⟨by decide, by decide⟩)⟩

/-! ## Deleting workload usages -/

/-- Deleting the rows of a list one after the other removes every row that has the key of
one of them, and nothing else. -/
theorem deleteAll_db (wlu_array : List WorkloadUsage) :
    ∀ w : World,
      (wlu_array.foldl (fun acc wlu => DeleteWorkloadUsage wlu.DeviceId wlu.PolicyName acc)
          w).db.workloadUsages =
        w.db.workloadUsages.filter (fun u =>
          wlu_array.all (fun s => !WorkloadUsage.hasKey s.DeviceId s.PolicyName u))
      ∧ (wlu_array.foldl (fun acc wlu => DeleteWorkloadUsage wlu.DeviceId wlu.PolicyName acc)
          w).db.agreements = w.db.agreements
      ∧ (wlu_array.foldl (fun acc wlu => DeleteWorkloadUsage wlu.DeviceId wlu.PolicyName acc)
          w).db.haUpgrading = w.db.haUpgrading
      ∧ (wlu_array.foldl (fun acc wlu => DeleteWorkloadUsage wlu.DeviceId wlu.PolicyName acc)
          w).inboundHigh = w.inboundHigh
      ∧ (wlu_array.foldl (fun acc wlu => DeleteWorkloadUsage wlu.DeviceId wlu.PolicyName acc)
          w).inboundLow = w.inboundLow := by
  induction wlu_array with
  | nil => intro w; simp
  | cons s rest ih =>
    intro w
    obtain ⟨h1, h2, h3, h4, h5⟩ := ih (DeleteWorkloadUsage s.DeviceId s.PolicyName w)
    simp only [List.foldl_cons]
    refine ⟨?_, ?_, ?_, ?_, ?_⟩
    · rw [h1]
      simp only [DeleteWorkloadUsage, deleteUsage, List.filter_filter, List.all_cons]
      congr 1
      funext u
      exact Bool.and_comm _ _
    · rw [h2]; rfl
    · rw [h3]; rfl
    · rw [h4]; rfl
    · rw [h5]; rfl

/-- After the rows selected by a filter have been deleted, no row that passes the filter
is left, and the rows left are rows that were there. -/
theorem deleteSelected_mem (f : WorkloadUsage → Bool) (w : World) (u : WorkloadUsage) :
    u ∈ ((w.db.workloadUsages.filter f).foldl
        (fun acc wlu => DeleteWorkloadUsage wlu.DeviceId wlu.PolicyName acc) w).db.workloadUsages ↔
      (u ∈ w.db.workloadUsages ∧ ∀ s ∈ w.db.workloadUsages, f s = true →
        WorkloadUsage.hasKey s.DeviceId s.PolicyName u = false) := by
  rw [(deleteAll_db _ w).1]
  simp only [List.mem_filter, List.all_eq_true, Bool.not_eq_true', and_imp]

/-! ## `HandlePolicyDeleted` -/

/-- C17, amended: `HandlePolicyDeleted` first deletes the workload-usage rows that the
no-agreement filter selects for the deleted policy name (every row that has the key of a
selected row goes, no other row does).  Then, for a scanned agreement whose stored policy
demarshals, whose organization is the one of the command and whose policy is absent from
the policy manager, it deletes the workload-usage row for `(deviceId, policyName)` and
queues exactly one `CancelAgreement` item with code `GetTerminationCode("PolicyChanged")`
and message id 0 on `inboundHigh`.  For an agreement of another organization, one whose
stored policy does not demarshal or one whose policy is still present it does nothing. -/
theorem C17_policy_deleted (env : Env) (cmd : PolicyDeletedCommand) (w : World)
    (ag : Agreement) :
    (∀ eventPol, env.DemarshalPolicy cmd.PolicyString = .ok eventPol →
      env.dbFault Call.FindWorkloadUsages = false →
      (∀ u, u ∈ (HandlePolicyDeleted.usages env cmd w).db.workloadUsages ↔
        (u ∈ w.db.workloadUsages ∧ ∀ s ∈ w.db.workloadUsages,
          PNoAWUFilter eventPol.Header.Name s = true →
            WorkloadUsage.hasKey s.DeviceId s.PolicyName u = false))
      ∧ (HandlePolicyDeleted.usages env cmd w).inboundHigh = w.inboundHigh
      ∧ (HandlePolicyDeleted.usages env cmd w).inboundLow = w.inboundLow)
    ∧ (env.dbFault (Call.FindAgreements env.Name) = false →
      HandlePolicyDeleted env cmd w =
        (scanned env (HandlePolicyDeleted.usages env cmd w)).foldl
          (HandlePolicyDeleted.body env cmd)
          ((HandlePolicyDeleted.usages env cmd w).record (Call.FindAgreements env.Name) .ok))
    ∧ (∀ pol, env.DemarshalPolicy ag.Policy = .ok pol → cmd.Org = ag.Org →
      env.GetPolicy cmd.Org pol.Header.Name = none →
      (HandlePolicyDeleted.body env cmd w ag).db.workloadUsages =
          deleteUsage ag.DeviceId ag.PolicyName w.db.workloadUsages
      ∧ (HandlePolicyDeleted.body env cmd w ag).inboundHigh = w.inboundHigh ++
          [NewCancelAgreement ag.CurrentAgreementId ag.AgreementProtocol
            (env.GetTerminationCode "PolicyChanged") 0]
      ∧ (HandlePolicyDeleted.body env cmd w ag).inboundLow = w.inboundLow)
    ∧ ((∀ pol, env.DemarshalPolicy ag.Policy = .ok pol → cmd.Org = ag.Org →
        (env.GetPolicy cmd.Org pol.Header.Name).isSome = true) →
      HandlePolicyDeleted.body env cmd w ag = w) := by
  refine ⟨fun eventPol hpol hfault => ?_, fun hfault => ?_, fun pol hpol horg hgone => ?_,
    fun hkeep => ?_⟩
  · have hu : HandlePolicyDeleted.usages env cmd w =
        (w.db.workloadUsages.filter (PNoAWUFilter eventPol.Header.Name)).foldl
          (fun acc wlu => DeleteWorkloadUsage wlu.DeviceId wlu.PolicyName acc)
          (w.record Call.FindWorkloadUsages .ok) := by
      simp [HandlePolicyDeleted.usages, hpol, FindWorkloadUsages, hfault, Outcome.ofExcept]
    rw [hu]
    refine ⟨fun u => ?_, ?_, ?_⟩
    · exact deleteSelected_mem (PNoAWUFilter eventPol.Header.Name)
        (w.record Call.FindWorkloadUsages .ok) u
    · exact (deleteAll_db _ _).2.2.2.1
    · exact (deleteAll_db _ _).2.2.2.2
  · simp [HandlePolicyDeleted, FindAgreements_scanned env _ hfault]
  · have hgone2 : env.GetPolicy ag.Org pol.Header.Name = none := horg ▸ hgone
    simp [HandlePolicyDeleted.body, hpol, horg, hgone2, DeleteWorkloadUsage, World.enqueueHigh,
      TERM_REASON_POLICY_CHANGED]
  · simp only [HandlePolicyDeleted.body]
    split
    · rfl
    · next pol hpol =>
      split
      · next horg =>
        have := hkeep pol hpol horg
        split
        · next hnone => simp [hnone] at this
        · rfl
      · rfl

/-- Witness of C17, amended: agreement `A1` of `org1`, whose policy the policy manager no
longer has, loses its workload usage and gets one cancel queued. -/
theorem C17_policy_deleted_witness :
    (Scenario.env Scenario.pol2 Scenario.pol2 "").DemarshalPolicy Scenario.agreement.Policy
      = .ok Scenario.pol2
    ∧ Scenario.policyDeleted.Org = Scenario.agreement.Org
    ∧ (Scenario.env Scenario.pol2 Scenario.pol2 "").GetPolicy Scenario.policyDeleted.Org
        Scenario.pol2.Header.Name = none
    ∧ (HandlePolicyDeleted.body (Scenario.env Scenario.pol2 Scenario.pol2 "")
        Scenario.policyDeleted (Scenario.world 2) Scenario.agreement).db.workloadUsages
        = deleteUsage "org1/D1" "org1/pol" (Scenario.world 2).db.workloadUsages
    ∧ (HandlePolicyDeleted.body (Scenario.env Scenario.pol2 Scenario.pol2 "")
        Scenario.policyDeleted (Scenario.world 2) Scenario.agreement).inboundHigh
        = [] ++ [NewCancelAgreement "A1" "Basic" 200 0] :=
  ⟨rfl, rfl, rfl,
    ((C17_policy_deleted (Scenario.env Scenario.pol2 Scenario.pol2 "") Scenario.policyDeleted
      (Scenario.world 2) Scenario.agreement).2.2.1 Scenario.pol2 rfl rfl rfl).1,
    ((C17_policy_deleted (Scenario.env Scenario.pol2 Scenario.pol2 "") Scenario.policyDeleted
      (Scenario.world 2) Scenario.agreement).2.2.1 Scenario.pol2 rfl rfl rfl).2.1⟩

/-- C17 fails as stated: the in-progress, un-archived agreement `A1` of organization `org2`
has a policy that is absent from the policy manager (in every organization), the command
is for `org1`, and `HandlePolicyDeleted` neither deletes its workload usage nor queues a
cancel. -/
theorem C17_counterexample :
    Scenario.foreignWorld.db.agreements = [Scenario.foreignAgreement]
    ∧ UnarchivedAFilter Scenario.foreignAgreement = true
    ∧ InProgress Scenario.foreignAgreement = true
    ∧ Scenario.foreignAgreement.AgreementProtocol = (Scenario.env Scenario.pol2 Scenario.pol2 "").Name
    ∧ (Scenario.env Scenario.pol2 Scenario.pol2 "").DemarshalPolicy
        Scenario.foreignAgreement.Policy = .ok Scenario.pol2
    ∧ (∀ org, (Scenario.env Scenario.pol2 Scenario.pol2 "").GetPolicy org
        Scenario.pol2.Header.Name = none)
    ∧ (HandlePolicyDeleted (Scenario.env Scenario.pol2 Scenario.pol2 "") Scenario.policyDeleted
        Scenario.foreignWorld).inboundHigh = []
    ∧ (HandlePolicyDeleted (Scenario.env Scenario.pol2 Scenario.pol2 "") Scenario.policyDeleted
        Scenario.foreignWorld).db.workloadUsages = Scenario.foreignWorld.db.workloadUsages
    ∧ Scenario.foreignWorld.db.workloadUsages ≠ [] := by
  refine ⟨rfl, rfl, by decide, rfl, rfl, fun _ => rfl, by decide, by decide, by decide⟩

/-! ## `HandleServicePolicyDeleted` -/

/-- For an agreement with an empty pattern, `policyName = busOrg/busName` and the
deleted service id as its first service id, the body of the loop of
`HandleServicePolicyDeleted` deletes the workload-usage row for `(deviceId, policyName)` and
queues exactly one `CancelAgreement` item with code `GetTerminationCode("PolicyChanged")`
on `inboundHigh`; the one call it makes is `DeleteWorkloadUsage`: no policy evaluation, no
access to the HA table.  For an agreement outside this scope it changes nothing (with an
empty pattern, that policy name and no service id at all the index expression panics). -/
theorem HandleServicePolicyDeleted_cases (env : Env) (cmd : ServicePolicyDeletedCommand) (w : World)
    (ag : Agreement) :
    (env.dbFault (Call.FindAgreements env.Name) = false →
      HandleServicePolicyDeleted env cmd w =
        rangeAgreements (HandleServicePolicyDeleted.body env cmd) (scanned env w)
          (w.record (Call.FindAgreements env.Name) .ok))
    ∧ (∀ rest, ag.Pattern = "" →
      ag.PolicyName = cmd.BusinessPolOrg ++ "/" ++ cmd.BusinessPolName →
      ag.ServiceId = cmd.ServiceId :: rest →
      ∃ w1, HandleServicePolicyDeleted.body env cmd w ag = some w1
        ∧ w1.db.workloadUsages = deleteUsage ag.DeviceId ag.PolicyName w.db.workloadUsages
        ∧ w1.db.agreements = w.db.agreements
        ∧ w1.db.haUpgrading = w.db.haUpgrading
        ∧ w1.inboundHigh = w.inboundHigh ++
            [NewCancelAgreement ag.CurrentAgreementId ag.AgreementProtocol
              (env.GetTerminationCode "PolicyChanged") 0]
        ∧ w1.inboundLow = w.inboundLow
        ∧ w.newSteps w1 =
            [{ call := Call.DeleteWorkloadUsage ag.DeviceId ag.PolicyName, outcome := .ok }])
    ∧ (¬ (ag.Pattern = "" ∧ ag.PolicyName = cmd.BusinessPolOrg ++ "/" ++ cmd.BusinessPolName
          ∧ ag.ServiceId.head? = some cmd.ServiceId) →
      ∀ w1, HandleServicePolicyDeleted.body env cmd w ag = some w1 → w1 = w)
    ∧ (HandleServicePolicyDeleted.body env cmd w ag = none ↔
      (ag.Pattern = "" ∧ ag.PolicyName = cmd.BusinessPolOrg ++ "/" ++ cmd.BusinessPolName
        ∧ ag.ServiceId = [])) := by
  refine ⟨fun hfault => ?_, fun rest hpat hname hsvc => ?_, fun hout w1 hb => ?_, ?_⟩
  · simp [HandleServicePolicyDeleted, FindAgreements_scanned env _ hfault]
  · refine ⟨(DeleteWorkloadUsage ag.DeviceId ag.PolicyName w).enqueueHigh
      (NewCancelAgreement ag.CurrentAgreementId ag.AgreementProtocol
        (env.GetTerminationCode TERM_REASON_POLICY_CHANGED) 0), ?_, ?_⟩
    · simp [HandleServicePolicyDeleted.body, inServicePolicyScope, hpat, hname, hsvc]
    · simp [DeleteWorkloadUsage, World.enqueueHigh, World.newSteps, TERM_REASON_POLICY_CHANGED]
  · by_cases h1 : ag.Pattern = "" ∧ ag.PolicyName = cmd.BusinessPolOrg ++ "/" ++ cmd.BusinessPolName
    · cases hs : ag.ServiceId with
      | nil => simp [HandleServicePolicyDeleted.body, inServicePolicyScope, h1, hs] at hb
      | cons first rest =>
        have hne : first ≠ cmd.ServiceId := by
          intro heq
          exact hout ⟨h1.1, h1.2, by simp [hs, heq]⟩
        simp [HandleServicePolicyDeleted.body, inServicePolicyScope, h1, hs, hne] at hb
        exact hb.symm
    · simp [HandleServicePolicyDeleted.body, inServicePolicyScope, h1] at hb
      exact hb.symm
  · by_cases h1 : ag.Pattern = "" ∧ ag.PolicyName = cmd.BusinessPolOrg ++ "/" ++ cmd.BusinessPolName
    · cases hs : ag.ServiceId with
      | nil => simp [HandleServicePolicyDeleted.body, inServicePolicyScope, h1, hs]
      | cons first rest =>
        by_cases hf : first = cmd.ServiceId <;>
          simp [HandleServicePolicyDeleted.body, inServicePolicyScope, h1, hs, hf]
    · have h2 : ¬ (ag.Pattern = "" ∧
          ag.PolicyName = cmd.BusinessPolOrg ++ "/" ++ cmd.BusinessPolName ∧ ag.ServiceId = []) :=
        fun h => h1 ⟨h.1, h.2.1⟩
      simp only [HandleServicePolicyDeleted.body, inServicePolicyScope, h1, if_false, h2,
        iff_false]
      simp

/-- C18: the store holds, in this order, the agreement `A0` (in progress, un-archived,
policy based, policy name `org1/pol`, no service id) and the agreement `A1`, which is in
the scope of the `ServicePolicyDeleted` command.  `HandleServicePolicyDeleted` evaluates
`ag.ServiceId[0]` for `A0` (line 690) and ends in a run-time panic before it gets to `A1`:
the workload usage of `A1` is not deleted and no cancel is queued.  With `A1` alone in the
store the handler deletes the row and queues the cancel. -/
theorem C18_panic_before_in_scope_agreement :
    Scenario.panicWorld.db.agreements = [Scenario.strayAgreement, Scenario.agreement]
    ∧ UnarchivedAFilter Scenario.strayAgreement = true
    ∧ InProgress Scenario.strayAgreement = true
    ∧ Scenario.strayAgreement.Pattern = ""
    ∧ Scenario.strayAgreement.PolicyName =
        Scenario.servicePolicyDeleted.BusinessPolOrg ++ "/" ++
          Scenario.servicePolicyDeleted.BusinessPolName
    ∧ Scenario.strayAgreement.ServiceId = []
    ∧ UnarchivedAFilter Scenario.agreement = true
    ∧ InProgress Scenario.agreement = true
    ∧ inServicePolicyScope Scenario.servicePolicyDeleted.BusinessPolOrg
        Scenario.servicePolicyDeleted.BusinessPolName Scenario.servicePolicyDeleted.ServiceId
        Scenario.agreement = some true
    ∧ (HandleServicePolicyDeleted (Scenario.env Scenario.pol2 Scenario.pol2 "")
        Scenario.servicePolicyDeleted Scenario.panicWorld).2 = true
    ∧ (HandleServicePolicyDeleted (Scenario.env Scenario.pol2 Scenario.pol2 "")
        Scenario.servicePolicyDeleted Scenario.panicWorld).1.inboundHigh = []
    ∧ (HandleServicePolicyDeleted (Scenario.env Scenario.pol2 Scenario.pol2 "")
        Scenario.servicePolicyDeleted Scenario.panicWorld).1.db.workloadUsages =
        [{ DeviceId := "org1/D1", PolicyName := "org1/pol", CurrentAgreementId := "A1",
           Priority := 2, PendingUpgrade := false }]
    ∧ (HandleServicePolicyDeleted (Scenario.env Scenario.pol2 Scenario.pol2 "")
        Scenario.servicePolicyDeleted (Scenario.world 2)).2 = false
    ∧ (HandleServicePolicyDeleted (Scenario.env Scenario.pol2 Scenario.pol2 "")
        Scenario.servicePolicyDeleted (Scenario.world 2)).1.inboundHigh =
        [NewCancelAgreement "A1" "Basic" 200 0]
    ∧ (HandleServicePolicyDeleted (Scenario.env Scenario.pol2 Scenario.pol2 "")
        Scenario.servicePolicyDeleted (Scenario.world 2)).1.db.workloadUsages = [] := by
  refine ⟨rfl, by decide, by decide, rfl, by decide, rfl, by decide, by decide, by decide,
    by decide, by decide, by decide, by decide, by decide, by decide⟩

/-! ## Node policy without the built-in properties -/

theorem mergeServicePolicies_traced {p : Step → Bool} (env : Env) (ids : List String)
    (hp1 : ∀ id o, p { call := Call.GetServiceWithId id, outcome := o } = true)
    (hp2 : ∀ id o, p { call := Call.GetServicePolicyWithDefaultProperties id, outcome := o }
      = true) :
    ∀ (svcAllPol : ExternalPolicy) (w w0 : World), w.tracedFrom p w0 →
      (HandlePolicyChangeForAgreement.mergeServicePolicies env ids svcAllPol w).2.tracedFrom
        p w0 := by
  induction ids with
  | nil => intro svcAllPol w w0 h; simpa [HandlePolicyChangeForAgreement.mergeServicePolicies] using h
  | cons svcId rest ih =>
    intro svcAllPol w w0 h
    simp only [HandlePolicyChangeForAgreement.mergeServicePolicies]
    repeat' split
    all_goals
      repeat' first
        | apply ih
        | apply World.tracedFrom_record
        | exact h
        | exact hp1 _ _
        | exact hp2 _ _

/-- With the fetches succeeding and a built-in property missing from the node policy, the
evaluation stops at line 455. -/
theorem missing_builtIns_eq {env : Env} {ag : Agreement} {w : World} {svcAllPol : ExternalPolicy}
    {busPol : Policy} {nodePol : ExternalPolicy} {dev : Device}
    (hservices : (HandlePolicyChangeForAgreement.mergeServicePolicies env ag.ServiceId
      { Properties := [], Constraints := [] } w).1 = some svcAllPol)
    (hbusiness : env.GetBusinessPolicy ag.PolicyName = .ok busPol)
    (hnode : env.GetNodePolicy ag.DeviceId = .ok nodePol)
    (hdevice : env.GetExchangeDevice ag.DeviceId = .ok (some dev))
    (hbuiltIns : env.ContainsAllBuiltInNodeProps nodePol.Properties
      (HandlePolicyChangeForAgreement.swVers dev) dev.GetNodeType = false)
    (oldPolicy : Option Policy) :
    (HandlePolicyChangeForAgreement env ag oldPolicy w).1 = (true, true, true)
    ∧ (HandlePolicyChangeForAgreement env ag oldPolicy w).2.tracedFrom fetchStep w := by
  have hm := @mergeServicePolicies_traced fetchStep env ag.ServiceId (fun _ _ => rfl)
    (fun _ _ => rfl) { Properties := [], Constraints := [] } w w (World.tracedFrom_refl _ _)
  have heq : HandlePolicyChangeForAgreement env ag oldPolicy w =
      ((true, true, true),
        (((HandlePolicyChangeForAgreement.mergeServicePolicies env ag.ServiceId
          { Properties := [], Constraints := [] } w).2.record
            (Call.GetBusinessPolicy ag.PolicyName) .ok).record
            (Call.GetNodePolicy ag.DeviceId) .ok).record
            (Call.GetExchangeDevice ag.DeviceId) .ok) := by
    simp [HandlePolicyChangeForAgreement, hservices, hbusiness, hnode, hdevice,
      HandlePolicyChangeForAgreement.evaluate, hbuiltIns, Outcome.ofExcept, Outcome.ofResult]
  rw [heq]
  exact ⟨rfl, World.tracedFrom_record _ _ (World.tracedFrom_record _ _
    (World.tracedFrom_record _ _ hm rfl) rfl) rfl⟩

theorem fetchStep_insideCancel (s : Step) (h : fetchStep s = true) : insideCancel s = true := by
  obtain ⟨c, o⟩ := s
  cases c <;> simp_all [fetchStep, insideCancel, Call.isFetch, Call.isCancel]

/-- C12: when all fetches up to the exchange device succeed and the node policy lacks a
built-in property expected for the node's type and agent software version (`0.0.0` when the
node reports none), `HandlePolicyChangeForAgreement` returns `(true, true, true)` and has
made only fetches: no compatibility check, no lookup of the workload usage, no agreement
update; and the handler that called it (`HandlePolicyChanged`, `HandleServicePolicyChanged`
or `HandleNodePolicyChanged`) calls no `CancelAgreement` for the agreement. -/
theorem C12_missing_builtIns (env : Env) (ag : Agreement) (oldPolicy : Option Policy)
    (w : World) (svcAllPol : ExternalPolicy) (busPol : Policy) (nodePol : ExternalPolicy)
    (dev : Device)
    (hservices : (HandlePolicyChangeForAgreement.mergeServicePolicies env ag.ServiceId
      { Properties := [], Constraints := [] } w).1 = some svcAllPol)
    (hbusiness : env.GetBusinessPolicy ag.PolicyName = .ok busPol)
    (hnode : env.GetNodePolicy ag.DeviceId = .ok nodePol)
    (hdevice : env.GetExchangeDevice ag.DeviceId = .ok (some dev))
    (hbuiltIns : env.ContainsAllBuiltInNodeProps nodePol.Properties
      (HandlePolicyChangeForAgreement.swVers dev) dev.GetNodeType = false) :
    (HandlePolicyChangeForAgreement env ag oldPolicy w).1 = (true, true, true)
    ∧ (∀ s ∈ w.newSteps (HandlePolicyChangeForAgreement env ag oldPolicy w).2,
        s.call ≠ Call.CheckPolicyCompatiblility ∧ s.call.isUsageLookup = false
          ∧ s.call.isUpdate = false)
    ∧ (dev.SoftwareVersions.lookup AGENT_VERSION = none →
        HandlePolicyChangeForAgreement.swVers dev = "0.0.0")
    ∧ (∀ (cmd : PolicyChangedCommand) (eventPol : Policy) (kept : List String),
        ag.Pattern = "" →
        cancelCalls (w.newSteps (HandlePolicyChanged.body env cmd eventPol (w, kept) ag).1) = [])
    ∧ (∀ (cmd : ServicePolicyChangedCommand) (w1 : World),
        HandleServicePolicyChanged.body env cmd w ag = some w1 →
        cancelCalls (w.newSteps w1) = [])
    ∧ (∀ cmd : NodePolicyChangedCommand,
        cancelCalls (w.newSteps (HandleNodePolicyChanged.body env cmd w ag)) = []) := by
  have hall := fun old => missing_builtIns_eq hservices hbusiness hnode hdevice hbuiltIns old
  have hcan : ∀ old, (HandlePolicyChangeForAgreement env ag old w).2.tracedFrom insideCancel w :=
    fun old => World.tracedFrom_mono fetchStep_insideCancel (hall old).2
  refine ⟨(hall oldPolicy).1, ?_, ?_, ?_, ?_, ?_⟩
  · obtain ⟨steps, htr, hsteps⟩ := (hall oldPolicy).2
    intro s hs
    have hmem : s ∈ steps := by simpa [World.newSteps, htr] using hs
    have hf := hsteps s hmem
    obtain ⟨c, o⟩ := s
    cases c <;> simp_all [fetchStep, Call.isFetch, Call.isUsageLookup, Call.isUpdate]
  · intro h
    simp [HandlePolicyChangeForAgreement.swVers, h]
  · intro cmd eventPol kept hpat
    simp only [HandlePolicyChanged.body]
    split
    · simp [cancelCalls, World.newSteps]
    · next pol hpol =>
      split
      · simp [cancelCalls, World.newSteps]
      · split
        · simp [cancelCalls, World.newSteps]
        · simp only [hpat, if_true, (hall (some pol)).1, Bool.and_self, ite_self,
            Bool.not_true, Bool.false_eq_true, if_false]
          exact cancelCalls_of_traced (hcan (some pol))
  · intro cmd w1 hb
    simp only [HandleServicePolicyChanged.body] at hb
    split at hb
    · simp at hb
    · simp only [Option.some.injEq] at hb
      subst hb
      simp [cancelCalls, World.newSteps]
    · simp only [(hall none).1, Bool.and_self, Bool.not_true, Bool.false_eq_true, if_false,
        Option.some.injEq] at hb
      subst hb
      exact cancelCalls_of_traced (hcan none)
  · intro cmd
    simp only [HandleNodePolicyChanged.body]
    split
    · simp only [(hall none).1, Bool.and_self, Bool.not_true, Bool.false_eq_true, if_false]
      simp only [HandlePolicyChangeForMMSObject]
      repeat' split
      · exact cancelCalls_of_traced (World.tracedFrom_record _ _ (hcan none) rfl)
      · exact cancelCalls_of_traced (hcan none)
      · exact cancelCalls_of_traced (hcan none)
    · simp [cancelCalls, World.newSteps]

/-- Witness of C12: the node of agreement `A1` has no built-in properties in its policy yet;
the evaluation returns `(true, true, true)` after the fetches. -/
theorem C12_missing_builtIns_witness :
    (HandlePolicyChangeForAgreement.mergeServicePolicies Scenario.noBuiltInsEnv
        Scenario.agreement.ServiceId { Properties := [], Constraints := [] }
        (Scenario.world 2)).1 = some Scenario.svcAllPol
    ∧ Scenario.noBuiltInsEnv.GetBusinessPolicy Scenario.agreement.PolicyName = .ok Scenario.pol2ns
    ∧ Scenario.noBuiltInsEnv.GetNodePolicy Scenario.agreement.DeviceId = .ok Scenario.svcAllPol
    ∧ Scenario.noBuiltInsEnv.GetExchangeDevice Scenario.agreement.DeviceId
        = .ok (some (Scenario.device "" "device"))
    ∧ Scenario.noBuiltInsEnv.ContainsAllBuiltInNodeProps Scenario.svcAllPol.Properties
        (HandlePolicyChangeForAgreement.swVers (Scenario.device "" "device"))
        (Scenario.device "" "device").GetNodeType = false
    ∧ (HandlePolicyChangeForAgreement Scenario.noBuiltInsEnv Scenario.agreement
        (some Scenario.pol2) (Scenario.world 2)).1 = (true, true, true) :=
  ⟨rfl, rfl, rfl, rfl, rfl,
    (C12_missing_builtIns Scenario.noBuiltInsEnv Scenario.agreement (some Scenario.pol2)
      (Scenario.world 2) Scenario.svcAllPol Scenario.pol2ns Scenario.svcAllPol
      (Scenario.device "" "device") rfl rfl rfl rfl rfl).1⟩

/-! ## Cluster namespace analysis -/

theorem update_ne_namespace (env : Env) (ag : Agreement) (oldPolicy : Option Policy)
    (producerPol consumerPol : Policy) (dev : Device) (nodeArch : String) (wl0 : Workload)
    (w : World) :
    (HandlePolicyChangeForAgreement.update env ag oldPolicy producerPol consumerPol dev nodeArch
        wl0 w).1 ≠ (true, true, false) := by
  rcases update_result env ag oldPolicy producerPol consumerPol dev nodeArch wl0 w with h | h <;>
    simp [h]

theorem analyse_namespace (env : Env) (ag : Agreement) (oldPolicy : Option Policy)
    (busPol : Policy) (cr : CompatibilityResult) (dev : Device) (nodeArch : String)
    (wlUsagePriority : Int) (wl : Workload) (w : World)
    (h : (HandlePolicyChangeForAgreement.analyse env ag oldPolicy busPol cr dev nodeArch
      wlUsagePriority wl w).1 = (true, true, false)) :
    oldPolicy.isSome = true ∧ dev.NodeType = DEVICE_TYPE_CLUSTER := by
  cases oldPolicy with
  | none =>
    simp only [HandlePolicyChangeForAgreement.analyse] at h
    rcases update_result env ag none cr.producerPol cr.consumerPol dev nodeArch wl w with h1 | h1 <;>
      simp [h1] at h
  | some old =>
    simp only [HandlePolicyChangeForAgreement.analyse] at h
    split at h
    · simp at h
    · split at h
      · next hc => exact ⟨rfl, hc.1⟩
      · rcases update_result env ag (some old) cr.producerPol cr.consumerPol dev nodeArch wl w
          with h1 | h1 <;> simp [h1] at h

theorem evaluate_namespace (env : Env) (ag : Agreement) (oldPolicy : Option Policy)
    (svcAllPol : ExternalPolicy) (busPol : Policy) (nodePol : ExternalPolicy) (dev : Device)
    (w : World)
    (h : (HandlePolicyChangeForAgreement.evaluate env ag oldPolicy svcAllPol busPol nodePol dev
      w).1 = (true, true, false)) :
    oldPolicy.isSome = true ∧ dev.NodeType = DEVICE_TYPE_CLUSTER := by
  simp only [HandlePolicyChangeForAgreement.evaluate] at h
  repeat' split at h
  all_goals first
    | simp at h
    | exact analyse_namespace _ _ _ _ _ _ _ _ _ _ h

/-- The result `true, true, false` comes from the cluster namespace analysis only: an old
policy was supplied and the node is a cluster. -/
theorem HandlePolicyChangeForAgreement_namespace (env : Env) (ag : Agreement)
    (oldPolicy : Option Policy) (w : World)
    (h : (HandlePolicyChangeForAgreement env ag oldPolicy w).1 = (true, true, false)) :
    oldPolicy.isSome = true ∧
      ∃ dev, env.GetExchangeDevice ag.DeviceId = .ok (some dev)
        ∧ dev.NodeType = DEVICE_TYPE_CLUSTER := by
  simp only [HandlePolicyChangeForAgreement] at h
  rcases hm : (HandlePolicyChangeForAgreement.mergeServicePolicies env ag.ServiceId
      { Properties := [], Constraints := [] } w).1 with _ | svcAllPol
  · simp [hm] at h
  · rcases hb : env.GetBusinessPolicy ag.PolicyName with e | busPol
    · simp [hm, hb] at h
    · rcases hn : env.GetNodePolicy ag.DeviceId with e | nodePol
      · simp [hm, hb, hn] at h
      · rcases hd : env.GetExchangeDevice ag.DeviceId with e | _ | dev
        · simp [hm, hb, hn, hd] at h
        · simp [hm, hb, hn, hd] at h
        · simp only [hm, hb, hn, hd] at h
          have := evaluate_namespace _ _ _ _ _ _ _ _ h
          exact ⟨this.1, dev, rfl, this.2⟩

/-- C11: for a cluster with an old policy supplied and the priority analysis passing,
`HandlePolicyChangeForAgreement` returns `(true, true, false)` exactly when the cluster
namespace of the new business policy differs from the old policy's and the namespace
check fails or chooses a consumer namespace other than the old policy's; it never returns
it without an old policy or for a node that is not a cluster.  On that result
`HandlePolicyChanged` calls `CancelAgreement` for the cluster agreement with reason
`PolicyChanged` and `policyMatches = true`. -/
theorem C11_cluster_namespace_changed (env : Env) (ag : Agreement) (old : Policy) (w : World)
    (svcAllPol : ExternalPolicy) (busPol : Policy) (nodePol : ExternalPolicy) (dev : Device)
    (wl : Workload) (cmd : PolicyChangedCommand) (eventPol : Policy) (kept : List String)
    (e : String)
    (hreach : ReachesPriorityAnalysis env ag w svcAllPol busPol nodePol dev)
    (hcurrent : GetWorkloadWithPriority busPol.Workloads (currentPriority w ag) = some wl)
    (hwalk : HandlePolicyChangeForAgreement.priorityWalk busPol.Workloads old.Workloads
      (currentPriority w ag) (busPol.Workloads.length + 1) (-1)
      (GetNextWorkloadChoice busPol.Workloads (-1)) = false) :
    ((dev.NodeType = DEVICE_TYPE_CLUSTER ∧ busPol.ClusterNamespace ≠ old.ClusterNamespace
        ∧ ((env.CheckClusterNamespaceCompatibility dev.NodeType dev.ClusterNamespace
              dev.IsNamespaceScoped busPol.ClusterNamespace wl.ClusterDeployment
              ag.Pattern).compatible = false
          ∨ (env.CheckClusterNamespaceCompatibility dev.NodeType dev.ClusterNamespace
              dev.IsNamespaceScoped busPol.ClusterNamespace wl.ClusterDeployment
              ag.Pattern).consumerNamespace ≠ old.ClusterNamespace)) ↔
      (HandlePolicyChangeForAgreement env ag (some old) w).1 = (true, true, false))
    ∧ (∀ (oldPolicy : Option Policy) (w1 : World),
        (HandlePolicyChangeForAgreement env ag oldPolicy w1).1 = (true, true, false) →
        oldPolicy.isSome = true ∧
          ∃ d, env.GetExchangeDevice ag.DeviceId = .ok (some d)
            ∧ d.NodeType = DEVICE_TYPE_CLUSTER)
    ∧ (env.DemarshalPolicy ag.Policy = .ok old → eventPol.Header.Name = old.Header.Name →
        env.MatchesMine cmd.Org old = some e → ag.GetDeviceType = DEVICE_TYPE_CLUSTER →
        (HandlePolicyChangeForAgreement env ag (some old) w).1 = (true, true, false) →
        (HandlePolicyChanged.body env cmd eventPol (w, kept) ag).2 = kept
        ∧ cancelCalls (w.newSteps (HandlePolicyChanged.body env cmd eventPol (w, kept) ag).1) =
            [{ call := Call.CancelAgreement ag.CurrentAgreementId TERM_REASON_POLICY_CHANGED true,
               outcome := .ok }]) := by
  refine ⟨?_, fun oldPolicy w1 h => HandlePolicyChangeForAgreement_namespace env ag oldPolicy w1 h,
    fun hpol hname hmine hcluster hres => ?_⟩
  · obtain ⟨w2, _, heq⟩ := reaches_analysis hreach (some old)
    rw [heq, hcurrent]
    simp only [HandlePolicyChangeForAgreement.analyse, hwalk, Bool.false_eq_true, if_false]
    generalize env.CheckClusterNamespaceCompatibility dev.NodeType dev.ClusterNamespace
      dev.IsNamespaceScoped busPol.ClusterNamespace wl.ClusterDeployment ag.Pattern = ns
    by_cases hc : dev.NodeType = DEVICE_TYPE_CLUSTER ∧
        busPol.ClusterNamespace ≠ old.ClusterNamespace
    · rw [if_pos hc]
      cases hcomp : ns.compatible with
      | false => simp [hc.1, hc.2]
      | true =>
        by_cases hns : ns.consumerNamespace = old.ClusterNamespace
        · simp only [Bool.not_true, Bool.false_eq_true, if_false, hns, ne_eq,
            not_true_eq_false]
          constructor
          · rintro ⟨_, _, h | h⟩
            · simp at h
            · exact h.elim
          · intro h
            exact absurd h (update_ne_namespace _ _ _ _ _ _ _ _ _)
        · simp [hc.1, hc.2, hns]
    · rw [if_neg hc]
      constructor
      · rintro ⟨h1, h2, _⟩
        exact absurd ⟨h1, h2⟩ hc
      · intro h
        exact absurd h (update_ne_namespace _ _ _ _ _ _ _ _ _)
  · have hro := HandlePolicyChangeForAgreement_readOnly env ag (some old) w
    have htr : (HandlePolicyChangeForAgreement env ag (some old) w).2.tracedFrom insideCancel w :=
      World.tracedFrom_mono evaluationStep_insideCancel hro.traced
    by_cases hpat : ag.Pattern = ""
    · have hb : HandlePolicyChanged.body env cmd eventPol (w, kept) ag =
          (CancelAgreement env ag TERM_REASON_POLICY_CHANGED true
            (HandlePolicyChangeForAgreement env ag (some old) w).2, kept) := by
        simp [HandlePolicyChanged.body, hpol, hname, hmine, hpat, hres, hcluster]
      rw [hb]
      exact ⟨rfl, cancelCalls_CancelAgreement _ _ _ _ htr⟩
    · have hb : HandlePolicyChanged.body env cmd eventPol (w, kept) ag =
          (CancelAgreement env ag TERM_REASON_POLICY_CHANGED true w, kept) := by
        simp [HandlePolicyChanged.body, hpol, hname, hmine, hpat]
      rw [hb]
      exact ⟨rfl, cancelCalls_CancelAgreement _ _ _ _ (World.tracedFrom_refl _ _)⟩

/-- Witness of C11 on the scenario "cluster namespace changed": old namespace `nsA`, new
namespace `nsB`, the check passes with the chosen namespace `nsB`; the evaluation returns
`(true, true, false)` and `HandlePolicyChanged` cancels with `policyMatches = true`. -/
theorem C11_cluster_namespace_changed_witness :
    ReachesPriorityAnalysis Scenario.clusterEnv Scenario.clusterAgreement (Scenario.world 2)
        Scenario.svcAllPol Scenario.polNsB Scenario.svcAllPol (Scenario.device "" "cluster")
    ∧ GetWorkloadWithPriority Scenario.polNsB.Workloads
        (currentPriority (Scenario.world 2) Scenario.clusterAgreement)
        = some (Scenario.workload 2 "1.0")
    ∧ HandlePolicyChangeForAgreement.priorityWalk Scenario.polNsB.Workloads
        Scenario.polNsA.Workloads (currentPriority (Scenario.world 2) Scenario.clusterAgreement)
        (Scenario.polNsB.Workloads.length + 1) (-1)
        (GetNextWorkloadChoice Scenario.polNsB.Workloads (-1)) = false
    ∧ (Scenario.clusterEnv.CheckClusterNamespaceCompatibility "cluster" "" false "nsB" ""
        "").compatible = true
    ∧ (Scenario.clusterEnv.CheckClusterNamespaceCompatibility "cluster" "" false "nsB" ""
        "").consumerNamespace = "nsB"
    ∧ (HandlePolicyChangeForAgreement Scenario.clusterEnv Scenario.clusterAgreement
        (some Scenario.polNsA) (Scenario.world 2)).1 = (true, true, false)
    ∧ cancelCalls ((Scenario.world 2).newSteps
        (HandlePolicyChanged.body Scenario.clusterEnv Scenario.policyChanged Scenario.polNsB
          (Scenario.world 2, []) Scenario.clusterAgreement).1) =
        [{ call := Call.CancelAgreement "A1" "PolicyChanged" true, outcome := .ok }] :=
  ⟨⟨rfl, rfl, rfl, rfl, rfl, rfl, by decide, rfl⟩, rfl, by decide, rfl, rfl,
    (C11_cluster_namespace_changed Scenario.clusterEnv Scenario.clusterAgreement
      Scenario.polNsA (Scenario.world 2) Scenario.svcAllPol Scenario.polNsB Scenario.svcAllPol
      (Scenario.device "" "cluster") (Scenario.workload 2 "1.0") Scenario.policyChanged
      Scenario.polNsB [] "policy differs" ⟨rfl, rfl, rfl, rfl, rfl, rfl, by decide, rfl⟩ rfl
      (by decide)).1.mp ⟨rfl, by decide, Or.inr (by decide)⟩,
    ((C11_cluster_namespace_changed Scenario.clusterEnv Scenario.clusterAgreement
      Scenario.polNsA (Scenario.world 2) Scenario.svcAllPol Scenario.polNsB Scenario.svcAllPol
      (Scenario.device "" "cluster") (Scenario.workload 2 "1.0") Scenario.policyChanged
      Scenario.polNsB [] "policy differs" ⟨rfl, rfl, rfl, rfl, rfl, rfl, by decide, rfl⟩ rfl
      (by decide)).2.2 rfl rfl rfl (by decide) (by decide)).2⟩

/-! ## Dispatch of the agreement update -/

theorem UpdateAgreement_record (env : Env) (ag : Agreement) (updateType : String)
    (metadata : Policy) (w : World) :
    ∃ o, UpdateAgreement env ag updateType metadata w =
      w.record (Call.UpdateAgreement ag updateType metadata) o := by
  unfold UpdateAgreement
  repeat' split
  all_goals exact ⟨_, rfl⟩

/-- Lines 528-568 either dispatch no update, or fetch the service definition, find the new
consumer policy changed, build the terms and conditions and end with the dispatch. -/
theorem update_cases {w w0 : World} (env : Env) (ag : Agreement) (oldPolicy : Option Policy)
    (producerPol consumerPol : Policy) (dev : Device) (nodeArch : String) (wl0 : Workload)
    (h : w.tracedFrom beforeUpdate w0) :
    (HandlePolicyChangeForAgreement.update env ag oldPolicy producerPol consumerPol dev nodeArch
        wl0 w).2.tracedFrom beforeUpdate w0
    ∨ ∃ svcDef newTsCs w2,
        env.GetService (HandlePolicyChangeForAgreement.fillArch wl0 nodeArch).WorkloadURL
          (HandlePolicyChangeForAgreement.fillArch wl0 nodeArch).Org
          (HandlePolicyChangeForAgreement.fillArch wl0 nodeArch).Version
          (HandlePolicyChangeForAgreement.fillArch wl0 nodeArch).Arch = .ok (some svcDef)
        ∧ env.IsSamePolicy consumerPol oldPolicy = false
        ∧ env.Create_Terms_And_Conditions producerPol consumerPol
            (HandlePolicyChangeForAgreement.fillDeployment dev svcDef
              (HandlePolicyChangeForAgreement.fillArch wl0 nodeArch))
            ag.CurrentAgreementId = .ok newTsCs
        ∧ w2.tracedFrom beforeUpdate w0
        ∧ HandlePolicyChangeForAgreement.update env ag oldPolicy producerPol consumerPol dev
            nodeArch wl0 w =
          ((true, true, true),
            UpdateAgreement env { ag with LastPolicyUpdateTime := env.now }
              MsgUpdateTypePolicyChange newTsCs w2) := by
  rcases hs : env.GetService (HandlePolicyChangeForAgreement.fillArch wl0 nodeArch).WorkloadURL
      (HandlePolicyChangeForAgreement.fillArch wl0 nodeArch).Org
      (HandlePolicyChangeForAgreement.fillArch wl0 nodeArch).Version
      (HandlePolicyChangeForAgreement.fillArch wl0 nodeArch).Arch with e | _ | svcDef
  · left
    simp only [HandlePolicyChangeForAgreement.update, hs]
    exact World.tracedFrom_record _ _ h rfl
  · left
    simp only [HandlePolicyChangeForAgreement.update, hs]
    exact World.tracedFrom_record _ _ h rfl
  · cases hsame : env.IsSamePolicy consumerPol oldPolicy with
    | true =>
      left
      simp only [HandlePolicyChangeForAgreement.update, hs, hsame, if_true]
      exact World.tracedFrom_record _ _ h rfl
    | false =>
      rcases ht : env.Create_Terms_And_Conditions producerPol consumerPol
          (HandlePolicyChangeForAgreement.fillDeployment dev svcDef
            (HandlePolicyChangeForAgreement.fillArch wl0 nodeArch))
          ag.CurrentAgreementId with e | newTsCs
      · left
        simp only [HandlePolicyChangeForAgreement.update, hs, hsame, ht, Bool.false_eq_true,
          if_false]
        exact World.tracedFrom_record _ _ (World.tracedFrom_record _ _ h rfl) rfl
      · right
        refine ⟨svcDef, newTsCs,
          (w.record (Call.GetService
            (HandlePolicyChangeForAgreement.fillArch wl0 nodeArch).WorkloadURL
            (HandlePolicyChangeForAgreement.fillArch wl0 nodeArch).Org
            (HandlePolicyChangeForAgreement.fillArch wl0 nodeArch).Version
            (HandlePolicyChangeForAgreement.fillArch wl0 nodeArch).Arch) .ok).record
              Call.Create_Terms_And_Conditions .ok, rfl, rfl, ht,
          World.tracedFrom_record _ _ (World.tracedFrom_record _ _ h rfl) rfl, ?_⟩
        simp only [HandlePolicyChangeForAgreement.update, hs, hsame, ht, Bool.false_eq_true,
          if_false]
        rfl

/-- Lines 495-568 either dispatch no update, or the walk over the priorities and the
cluster namespace analysis pass and lines 528-568 end with the dispatch. -/
theorem analyse_cases {w w0 : World} (env : Env) (ag : Agreement) (oldPolicy : Option Policy)
    (busPol : Policy) (cr : CompatibilityResult) (dev : Device) (nodeArch : String)
    (wlUsagePriority : Int) (wl : Workload) (h : w.tracedFrom beforeUpdate w0) :
    (HandlePolicyChangeForAgreement.analyse env ag oldPolicy busPol cr dev nodeArch
        wlUsagePriority wl w).2.tracedFrom beforeUpdate w0
    ∨ ∃ svcDef newTsCs w2,
        (∀ old, oldPolicy = some old →
          HandlePolicyChangeForAgreement.priorityWalk busPol.Workloads old.Workloads
            wlUsagePriority (busPol.Workloads.length + 1) (-1)
            (GetNextWorkloadChoice busPol.Workloads (-1)) = false)
        ∧ (∀ old, oldPolicy = some old → dev.NodeType = DEVICE_TYPE_CLUSTER →
          busPol.ClusterNamespace ≠ old.ClusterNamespace →
          (env.CheckClusterNamespaceCompatibility dev.NodeType dev.ClusterNamespace
              dev.IsNamespaceScoped busPol.ClusterNamespace wl.ClusterDeployment
              ag.Pattern).compatible = true
          ∧ (env.CheckClusterNamespaceCompatibility dev.NodeType dev.ClusterNamespace
              dev.IsNamespaceScoped busPol.ClusterNamespace wl.ClusterDeployment
              ag.Pattern).consumerNamespace = old.ClusterNamespace)
        ∧ env.GetService (HandlePolicyChangeForAgreement.fillArch wl nodeArch).WorkloadURL
          (HandlePolicyChangeForAgreement.fillArch wl nodeArch).Org
          (HandlePolicyChangeForAgreement.fillArch wl nodeArch).Version
          (HandlePolicyChangeForAgreement.fillArch wl nodeArch).Arch = .ok (some svcDef)
        ∧ env.IsSamePolicy cr.consumerPol oldPolicy = false
        ∧ env.Create_Terms_And_Conditions cr.producerPol cr.consumerPol
            (HandlePolicyChangeForAgreement.fillDeployment dev svcDef
              (HandlePolicyChangeForAgreement.fillArch wl nodeArch))
            ag.CurrentAgreementId = .ok newTsCs
        ∧ w2.tracedFrom beforeUpdate w0
        ∧ HandlePolicyChangeForAgreement.analyse env ag oldPolicy busPol cr dev nodeArch
            wlUsagePriority wl w =
          ((true, true, true),
            UpdateAgreement env { ag with LastPolicyUpdateTime := env.now }
              MsgUpdateTypePolicyChange newTsCs w2) := by
  cases oldPolicy with
  | none =>
    simp only [HandlePolicyChangeForAgreement.analyse]
    rcases update_cases env ag none cr.producerPol cr.consumerPol dev nodeArch wl h with
      hno | ⟨svcDef, newTsCs, w2, h1, h2, h3, h4, h5⟩
    · exact Or.inl hno
    · exact Or.inr ⟨svcDef, newTsCs, w2, fun _ ho => by simp at ho, fun _ ho => by simp at ho,
        h1, h2, h3, h4, h5⟩
  | some old =>
    simp only [HandlePolicyChangeForAgreement.analyse]
    cases hwalk : HandlePolicyChangeForAgreement.priorityWalk busPol.Workloads old.Workloads
        wlUsagePriority (busPol.Workloads.length + 1) (-1)
        (GetNextWorkloadChoice busPol.Workloads (-1)) with
    | true =>
      left
      simp only [if_true]
      exact h
    | false =>
      simp only [Bool.false_eq_true, if_false]
      by_cases hc : dev.NodeType = DEVICE_TYPE_CLUSTER ∧
          busPol.ClusterNamespace ≠ old.ClusterNamespace
      · rw [if_pos hc]
        cases hcomp : (env.CheckClusterNamespaceCompatibility dev.NodeType dev.ClusterNamespace
            dev.IsNamespaceScoped busPol.ClusterNamespace wl.ClusterDeployment
            ag.Pattern).compatible with
        | false =>
          left
          simp only [Bool.not_false, if_true]
          exact World.tracedFrom_record _ _ h rfl
        | true =>
          simp only [Bool.not_true, Bool.false_eq_true, if_false]
          by_cases hns : (env.CheckClusterNamespaceCompatibility dev.NodeType
              dev.ClusterNamespace dev.IsNamespaceScoped busPol.ClusterNamespace
              wl.ClusterDeployment ag.Pattern).consumerNamespace = old.ClusterNamespace
          · rw [if_neg (not_not.mpr hns)]
            rcases update_cases env ag (some old) cr.producerPol cr.consumerPol dev nodeArch wl
                (World.tracedFrom_record Call.CheckClusterNamespaceCompatibility .ok h rfl) with
              hno | ⟨svcDef, newTsCs, w2, h1, h2, h3, h4, h5⟩
            · exact Or.inl hno
            · refine Or.inr ⟨svcDef, newTsCs, w2, ?_, ?_, h1, h2, h3, h4, h5⟩
              · intro o ho
                simp only [Option.some.injEq] at ho
                subst ho
                exact hwalk
              · intro o ho _ _
                simp only [Option.some.injEq] at ho
                subst ho
                exact ⟨trivial, hns⟩
          · left
            rw [if_pos hns]
            exact World.tracedFrom_record _ _ h rfl
      · rw [if_neg hc]
        rcases update_cases env ag (some old) cr.producerPol cr.consumerPol dev nodeArch wl h with
          hno | ⟨svcDef, newTsCs, w2, h1, h2, h3, h4, h5⟩
        · exact Or.inl hno
        · refine Or.inr ⟨svcDef, newTsCs, w2, ?_, ?_, h1, h2, h3, h4, h5⟩
          · intro o ho
            simp only [Option.some.injEq] at ho
            subst ho
            exact hwalk
          · intro o ho h1 h2
            simp only [Option.some.injEq] at ho
            subst ho
            exact absurd ⟨h1, h2⟩ hc

/-- Lines 442-568 either dispatch no update, or pass every test on the way to the
dispatch. -/
theorem evaluate_cases {w w0 : World} (env : Env) (ag : Agreement) (oldPolicy : Option Policy)
    (svcAllPol : ExternalPolicy) (busPol : Policy) (nodePol : ExternalPolicy) (dev : Device)
    (h : w.tracedFrom beforeUpdate w0) :
    (HandlePolicyChangeForAgreement.evaluate env ag oldPolicy svcAllPol busPol nodePol dev
        w).2.tracedFrom beforeUpdate w0
    ∨ ∃ wl svcDef newTsCs w2,
        env.ContainsAllBuiltInNodeProps nodePol.Properties
          (HandlePolicyChangeForAgreement.swVers dev) dev.GetNodeType = true
        ∧ (env.CheckPolicyCompatiblility nodePol busPol svcAllPol
            (HandlePolicyChangeForAgreement.nodeArch env dev)).compatible = true
        ∧ ag.AgreementFinalizedTime ≠ 0
        ∧ env.dbFault
            (Call.FindSingleWorkloadUsageByDeviceAndPolicyName ag.DeviceId ag.PolicyName) = false
        ∧ GetWorkloadWithPriority busPol.Workloads (currentPriority w ag) = some wl
        ∧ (∀ old, oldPolicy = some old →
          HandlePolicyChangeForAgreement.priorityWalk busPol.Workloads old.Workloads
            (currentPriority w ag) (busPol.Workloads.length + 1) (-1)
            (GetNextWorkloadChoice busPol.Workloads (-1)) = false)
        ∧ (∀ old, oldPolicy = some old → dev.NodeType = DEVICE_TYPE_CLUSTER →
          busPol.ClusterNamespace ≠ old.ClusterNamespace →
          (env.CheckClusterNamespaceCompatibility dev.NodeType dev.ClusterNamespace
              dev.IsNamespaceScoped busPol.ClusterNamespace wl.ClusterDeployment
              ag.Pattern).compatible = true
          ∧ (env.CheckClusterNamespaceCompatibility dev.NodeType dev.ClusterNamespace
              dev.IsNamespaceScoped busPol.ClusterNamespace wl.ClusterDeployment
              ag.Pattern).consumerNamespace = old.ClusterNamespace)
        ∧ env.GetService
          (HandlePolicyChangeForAgreement.fillArch wl
            (HandlePolicyChangeForAgreement.nodeArch env dev)).WorkloadURL
          (HandlePolicyChangeForAgreement.fillArch wl
            (HandlePolicyChangeForAgreement.nodeArch env dev)).Org
          (HandlePolicyChangeForAgreement.fillArch wl
            (HandlePolicyChangeForAgreement.nodeArch env dev)).Version
          (HandlePolicyChangeForAgreement.fillArch wl
            (HandlePolicyChangeForAgreement.nodeArch env dev)).Arch = .ok (some svcDef)
        ∧ env.IsSamePolicy
            (env.CheckPolicyCompatiblility nodePol busPol svcAllPol
              (HandlePolicyChangeForAgreement.nodeArch env dev)).consumerPol oldPolicy = false
        ∧ env.Create_Terms_And_Conditions
            (env.CheckPolicyCompatiblility nodePol busPol svcAllPol
              (HandlePolicyChangeForAgreement.nodeArch env dev)).producerPol
            (env.CheckPolicyCompatiblility nodePol busPol svcAllPol
              (HandlePolicyChangeForAgreement.nodeArch env dev)).consumerPol
            (HandlePolicyChangeForAgreement.fillDeployment dev svcDef
              (HandlePolicyChangeForAgreement.fillArch wl
                (HandlePolicyChangeForAgreement.nodeArch env dev)))
            ag.CurrentAgreementId = .ok newTsCs
        ∧ w2.tracedFrom beforeUpdate w0
        ∧ HandlePolicyChangeForAgreement.evaluate env ag oldPolicy svcAllPol busPol nodePol dev
            w =
          ((true, true, true),
            UpdateAgreement env { ag with LastPolicyUpdateTime := env.now }
              MsgUpdateTypePolicyChange newTsCs w2) := by
  cases hbuilt : env.ContainsAllBuiltInNodeProps nodePol.Properties
      (HandlePolicyChangeForAgreement.swVers dev) dev.GetNodeType with
  | false =>
    left
    simp only [HandlePolicyChangeForAgreement.evaluate, hbuilt, Bool.not_false, if_true]
    exact h
  | true =>
    cases hcompat : (env.CheckPolicyCompatiblility nodePol busPol svcAllPol
        (HandlePolicyChangeForAgreement.nodeArch env dev)).compatible with
    | false =>
      left
      simp only [HandlePolicyChangeForAgreement.evaluate, hbuilt, hcompat, Bool.not_true,
        Bool.false_eq_true, if_false, Bool.not_false, if_true]
      exact World.tracedFrom_record _ _ h rfl
    | true =>
      by_cases hfin : ag.AgreementFinalizedTime = 0
      · left
        simp only [HandlePolicyChangeForAgreement.evaluate, hbuilt, hcompat, Bool.not_true,
          Bool.false_eq_true, if_false, hfin, if_true]
        exact World.tracedFrom_record _ _ h rfl
      · have hw1 : (w.record Call.CheckPolicyCompatiblility (Outcome.ofError
            (env.CheckPolicyCompatiblility nodePol busPol svcAllPol
              (HandlePolicyChangeForAgreement.nodeArch env dev)).err)).tracedFrom beforeUpdate w0 :=
          World.tracedFrom_record _ _ h rfl
        have hfound := FindSingleWorkloadUsage_traced env ag.DeviceId ag.PolicyName hw1
          (fun _ => rfl)
        cases hfault : env.dbFault
            (Call.FindSingleWorkloadUsageByDeviceAndPolicyName ag.DeviceId ag.PolicyName) with
        | true =>
          left
          have hl : (FindSingleWorkloadUsageByDeviceAndPolicyName env ag.DeviceId ag.PolicyName
              (w.record Call.CheckPolicyCompatiblility (Outcome.ofError
                (env.CheckPolicyCompatiblility nodePol busPol svcAllPol
                  (HandlePolicyChangeForAgreement.nodeArch env dev)).err))).1
              = .error "database error" := by
            simp [FindSingleWorkloadUsageByDeviceAndPolicyName, hfault]
          simp only [HandlePolicyChangeForAgreement.evaluate, hbuilt, hcompat, Bool.not_true,
            Bool.false_eq_true, if_false, hfin, hl]
          exact hfound
        | false =>
          have hl : (FindSingleWorkloadUsageByDeviceAndPolicyName env ag.DeviceId ag.PolicyName
              (w.record Call.CheckPolicyCompatiblility (Outcome.ofError
                (env.CheckPolicyCompatiblility nodePol busPol svcAllPol
                  (HandlePolicyChangeForAgreement.nodeArch env dev)).err))).1
              = .ok (w.db.workloadUsages.find? (WorkloadUsage.hasKey ag.DeviceId ag.PolicyName)) := by
            simp [FindSingleWorkloadUsageByDeviceAndPolicyName, hfault, World.record]
          rcases hwl : GetWorkloadWithPriority busPol.Workloads (currentPriority w ag) with
            _ | wl
          · left
            simp only [HandlePolicyChangeForAgreement.evaluate, hbuilt, hcompat, Bool.not_true,
              Bool.false_eq_true, if_false, hfin, hl]
            simp only [currentPriority] at hwl
            simp only [hwl]
            exact hfound
          · rcases analyse_cases env ag oldPolicy busPol
                (env.CheckPolicyCompatiblility nodePol busPol svcAllPol
                  (HandlePolicyChangeForAgreement.nodeArch env dev)) dev
                (HandlePolicyChangeForAgreement.nodeArch env dev) (currentPriority w ag) wl
                hfound with hno | ⟨svcDef, newTsCs, w2, h1, h2, h3, h4, h5, h6, h7⟩
            · left
              simp only [HandlePolicyChangeForAgreement.evaluate, hbuilt, hcompat, Bool.not_true,
                Bool.false_eq_true, if_false, hfin, hl]
              simp only [currentPriority] at hwl hno
              simp only [hwl]
              exact hno
            · right
              refine ⟨wl, svcDef, newTsCs, w2, rfl, rfl, hfin, rfl, rfl, h1, h2, h3, h4, h5, h6,
                ?_⟩
              simp only [HandlePolicyChangeForAgreement.evaluate, hbuilt, hcompat, Bool.not_true,
                Bool.false_eq_true, if_false, hfin, hl]
              simp only [currentPriority] at hwl h7
              simp only [hwl]
              exact h7

/-- A run of `HandlePolicyChangeForAgreement` either dispatches no update, or passes every
test on the way to lines 556-565 and ends with the one dispatch. -/
theorem dispatch_cases (env : Env) (ag : Agreement) (oldPolicy : Option Policy) (w : World) :
    (HandlePolicyChangeForAgreement env ag oldPolicy w).2.tracedFrom beforeUpdate w
    ∨ ∃ svcAllPol busPol nodePol dev wl svcDef newTsCs w2,
        DispatchesUpdate env ag oldPolicy w svcAllPol busPol nodePol dev wl svcDef newTsCs
        ∧ w2.tracedFrom beforeUpdate w
        ∧ HandlePolicyChangeForAgreement env ag oldPolicy w =
          ((true, true, true),
            UpdateAgreement env { ag with LastPolicyUpdateTime := env.now }
              MsgUpdateTypePolicyChange newTsCs w2) := by
  have h1 := mergeServicePolicies_dispatch env ag.ServiceId
    { Properties := [], Constraints := [] } w w (World.tracedFrom_refl _ _)
  rcases hm : (HandlePolicyChangeForAgreement.mergeServicePolicies env ag.ServiceId
      { Properties := [], Constraints := [] } w).1 with _ | svcAllPol
  · left
    simp only [HandlePolicyChangeForAgreement, hm]
    exact h1
  · rcases hb : env.GetBusinessPolicy ag.PolicyName with e | busPol
    · left
      simp only [HandlePolicyChangeForAgreement, hm, hb]
      exact World.tracedFrom_record _ _ h1 rfl
    · rcases hn : env.GetNodePolicy ag.DeviceId with e | nodePol
      · left
        simp only [HandlePolicyChangeForAgreement, hm, hb, hn]
        exact World.tracedFrom_record _ _ (World.tracedFrom_record _ _ h1 rfl) rfl
      · rcases hd : env.GetExchangeDevice ag.DeviceId with e | _ | dev
        · left
          simp only [HandlePolicyChangeForAgreement, hm, hb, hn, hd]
          exact World.tracedFrom_record _ _ (World.tracedFrom_record _ _
            (World.tracedFrom_record _ _ h1 rfl) rfl) rfl
        · left
          simp only [HandlePolicyChangeForAgreement, hm, hb, hn, hd]
          exact World.tracedFrom_record _ _ (World.tracedFrom_record _ _
            (World.tracedFrom_record _ _ h1 rfl) rfl) rfl
        · have h4 : ((((HandlePolicyChangeForAgreement.mergeServicePolicies env ag.ServiceId
              { Properties := [], Constraints := [] } w).2.record
                (Call.GetBusinessPolicy ag.PolicyName) (Outcome.ofExcept (Except.ok busPol))).record
                (Call.GetNodePolicy ag.DeviceId) (Outcome.ofExcept (Except.ok nodePol))).record
                (Call.GetExchangeDevice ag.DeviceId)
                (Outcome.ofResult (Except.ok (some dev)))).tracedFrom beforeUpdate w :=
            World.tracedFrom_record _ _ (World.tracedFrom_record _ _
              (World.tracedFrom_record _ _ h1 rfl) rfl) rfl
          have hprio : currentPriority
              ((((HandlePolicyChangeForAgreement.mergeServicePolicies env ag.ServiceId
              { Properties := [], Constraints := [] } w).2.record
                (Call.GetBusinessPolicy ag.PolicyName) (Outcome.ofExcept (Except.ok busPol))).record
                (Call.GetNodePolicy ag.DeviceId) (Outcome.ofExcept (Except.ok nodePol))).record
                (Call.GetExchangeDevice ag.DeviceId)
                (Outcome.ofResult (Except.ok (some dev)))) ag = currentPriority w ag := by
            simp [currentPriority, World.record, mergeServicePolicies_db]
          rcases evaluate_cases env ag oldPolicy svcAllPol busPol nodePol dev h4 with
            hno | ⟨wl, svcDef, newTsCs, w2, c1, c2, c3, c4, c5, c6, c7, c8, c9, c10, c11, c12⟩
          · left
            simp only [HandlePolicyChangeForAgreement, hm, hb, hn, hd]
            exact hno
          · right
            rw [hprio] at c5 c6
            refine ⟨svcAllPol, busPol, nodePol, dev, wl, svcDef, newTsCs, w2,
              ⟨⟨hm, hb, hn, hd, c1, c2, c3, c4⟩, c5, c6, c7, c8, c9, c10⟩, c11, ?_⟩
            simp only [HandlePolicyChangeForAgreement, hm, hb, hn, hd]
            exact c12

theorem updateCalls_of_traced {w w0 : World} (h : w.tracedFrom beforeUpdate w0) :
    updateCalls (w0.newSteps w) = [] := by
  obtain ⟨steps, htr, hall⟩ := h
  simp only [updateCalls, World.newSteps, htr, List.drop_left, List.filter_eq_nil_iff]
  intro s hs
  have := hall s hs
  simpa [beforeUpdate] using this

/-- Lines 528-551 with the service definition fetched and the new consumer policy the same
as the old policy: `true, true, true`. -/
theorem update_same (env : Env) (ag : Agreement) (oldPolicy : Option Policy)
    (producerPol consumerPol : Policy) (dev : Device) (nodeArch : String) (wl0 : Workload)
    (w : World) (svcDef : ServiceDefinition)
    (hs : env.GetService (HandlePolicyChangeForAgreement.fillArch wl0 nodeArch).WorkloadURL
      (HandlePolicyChangeForAgreement.fillArch wl0 nodeArch).Org
      (HandlePolicyChangeForAgreement.fillArch wl0 nodeArch).Version
      (HandlePolicyChangeForAgreement.fillArch wl0 nodeArch).Arch = .ok (some svcDef))
    (hsame : env.IsSamePolicy consumerPol oldPolicy = true) :
    (HandlePolicyChangeForAgreement.update env ag oldPolicy producerPol consumerPol dev nodeArch
      wl0 w).1 = (true, true, true) := by
  simp [HandlePolicyChangeForAgreement.update, hs, hsame]

/-- Lines 495-551 with both analyses passing, the service definition fetched and the new
consumer policy the same as the old policy: `true, true, true`. -/
theorem analyse_same (env : Env) (ag : Agreement) (oldPolicy : Option Policy)
    (busPol : Policy) (cr : CompatibilityResult) (dev : Device) (nodeArch : String)
    (wlUsagePriority : Int) (wl : Workload) (w : World) (svcDef : ServiceDefinition)
    (hwalk : ∀ old, oldPolicy = some old →
      HandlePolicyChangeForAgreement.priorityWalk busPol.Workloads old.Workloads
        wlUsagePriority (busPol.Workloads.length + 1) (-1)
        (GetNextWorkloadChoice busPol.Workloads (-1)) = false)
    (hns : ∀ old, oldPolicy = some old → dev.NodeType = DEVICE_TYPE_CLUSTER →
      busPol.ClusterNamespace ≠ old.ClusterNamespace →
      (env.CheckClusterNamespaceCompatibility dev.NodeType dev.ClusterNamespace
          dev.IsNamespaceScoped busPol.ClusterNamespace wl.ClusterDeployment
          ag.Pattern).compatible = true
      ∧ (env.CheckClusterNamespaceCompatibility dev.NodeType dev.ClusterNamespace
          dev.IsNamespaceScoped busPol.ClusterNamespace wl.ClusterDeployment
          ag.Pattern).consumerNamespace = old.ClusterNamespace)
    (hs : env.GetService (HandlePolicyChangeForAgreement.fillArch wl nodeArch).WorkloadURL
      (HandlePolicyChangeForAgreement.fillArch wl nodeArch).Org
      (HandlePolicyChangeForAgreement.fillArch wl nodeArch).Version
      (HandlePolicyChangeForAgreement.fillArch wl nodeArch).Arch = .ok (some svcDef))
    (hsame : env.IsSamePolicy cr.consumerPol oldPolicy = true) :
    (HandlePolicyChangeForAgreement.analyse env ag oldPolicy busPol cr dev nodeArch
      wlUsagePriority wl w).1 = (true, true, true) := by
  cases oldPolicy with
  | none =>
    simp only [HandlePolicyChangeForAgreement.analyse]
    exact update_same _ _ _ _ _ _ _ _ _ svcDef hs hsame
  | some old =>
    simp only [HandlePolicyChangeForAgreement.analyse, hwalk old rfl, Bool.false_eq_true,
      if_false]
    by_cases hc : dev.NodeType = DEVICE_TYPE_CLUSTER ∧
        busPol.ClusterNamespace ≠ old.ClusterNamespace
    · obtain ⟨h1, h2⟩ := hns old rfl hc.1 hc.2
      rw [if_pos hc]
      simp only [h1, Bool.not_true, Bool.false_eq_true, if_false, h2, ne_eq, not_true_eq_false]
      exact update_same _ _ _ _ _ _ _ _ _ svcDef hs hsame
    · rw [if_neg hc]
      exact update_same _ _ _ _ _ _ _ _ _ svcDef hs hsame

/-- C13, amended: `HandlePolicyChangeForAgreement` dispatches an agreement update at most
once per call, always with update type `PolicyChange`, the time stamp set and the newly built
terms and conditions, and only when the agreement is finalized, the compatibility check
passed, the priority and namespace analyses passed and the newly derived consumer policy is
not the same as the old policy (the result is then `(true, true, true)`).  When the
agreement is not finalized, or the derived consumer policy is the same as the old policy,
it dispatches no update; it then returns `(true, true, true)` once the fetches have
succeeded and the compatibility check has passed (agreement not finalized), respectively
once the analyses have passed and the service definition of the workload has been fetched
(same policy). -/
theorem C13_update_dispatch (env : Env) (ag : Agreement) (oldPolicy : Option Policy)
    (w : World) :
    (updateCalls (w.newSteps (HandlePolicyChangeForAgreement env ag oldPolicy w).2)).length ≤ 1
    ∧ (∀ s ∈ w.newSteps (HandlePolicyChangeForAgreement env ag oldPolicy w).2,
        s.call.isUpdate = true →
        ∃ svcAllPol busPol nodePol dev wl svcDef newTsCs,
          DispatchesUpdate env ag oldPolicy w svcAllPol busPol nodePol dev wl svcDef newTsCs
          ∧ s.call = Call.UpdateAgreement { ag with LastPolicyUpdateTime := env.now }
              MsgUpdateTypePolicyChange newTsCs
          ∧ (HandlePolicyChangeForAgreement env ag oldPolicy w).1 = (true, true, true))
    ∧ (ag.AgreementFinalizedTime = 0 →
        updateCalls (w.newSteps (HandlePolicyChangeForAgreement env ag oldPolicy w).2) = [])
    ∧ (∀ svcAllPol busPol nodePol dev,
        (HandlePolicyChangeForAgreement.mergeServicePolicies env ag.ServiceId
          { Properties := [], Constraints := [] } w).1 = some svcAllPol →
        env.GetBusinessPolicy ag.PolicyName = .ok busPol →
        env.GetNodePolicy ag.DeviceId = .ok nodePol →
        env.GetExchangeDevice ag.DeviceId = .ok (some dev) →
        env.IsSamePolicy (env.CheckPolicyCompatiblility nodePol busPol svcAllPol
          (HandlePolicyChangeForAgreement.nodeArch env dev)).consumerPol oldPolicy = true →
        updateCalls (w.newSteps (HandlePolicyChangeForAgreement env ag oldPolicy w).2) = [])
    ∧ (∀ svcAllPol busPol nodePol dev,
        (HandlePolicyChangeForAgreement.mergeServicePolicies env ag.ServiceId
          { Properties := [], Constraints := [] } w).1 = some svcAllPol →
        env.GetBusinessPolicy ag.PolicyName = .ok busPol →
        env.GetNodePolicy ag.DeviceId = .ok nodePol →
        env.GetExchangeDevice ag.DeviceId = .ok (some dev) →
        (env.CheckPolicyCompatiblility nodePol busPol svcAllPol
          (HandlePolicyChangeForAgreement.nodeArch env dev)).compatible = true →
        ag.AgreementFinalizedTime = 0 →
        (HandlePolicyChangeForAgreement env ag oldPolicy w).1 = (true, true, true))
    ∧ (∀ svcAllPol busPol nodePol dev wl svcDef,
        ReachesPriorityAnalysis env ag w svcAllPol busPol nodePol dev →
        GetWorkloadWithPriority busPol.Workloads (currentPriority w ag) = some wl →
        (∀ old, oldPolicy = some old →
          HandlePolicyChangeForAgreement.priorityWalk busPol.Workloads old.Workloads
            (currentPriority w ag) (busPol.Workloads.length + 1) (-1)
            (GetNextWorkloadChoice busPol.Workloads (-1)) = false) →
        (∀ old, oldPolicy = some old → dev.NodeType = DEVICE_TYPE_CLUSTER →
          busPol.ClusterNamespace ≠ old.ClusterNamespace →
          (env.CheckClusterNamespaceCompatibility dev.NodeType dev.ClusterNamespace
              dev.IsNamespaceScoped busPol.ClusterNamespace wl.ClusterDeployment
              ag.Pattern).compatible = true
          ∧ (env.CheckClusterNamespaceCompatibility dev.NodeType dev.ClusterNamespace
              dev.IsNamespaceScoped busPol.ClusterNamespace wl.ClusterDeployment
              ag.Pattern).consumerNamespace = old.ClusterNamespace) →
        env.GetService
          (HandlePolicyChangeForAgreement.fillArch wl
            (HandlePolicyChangeForAgreement.nodeArch env dev)).WorkloadURL
          (HandlePolicyChangeForAgreement.fillArch wl
            (HandlePolicyChangeForAgreement.nodeArch env dev)).Org
          (HandlePolicyChangeForAgreement.fillArch wl
            (HandlePolicyChangeForAgreement.nodeArch env dev)).Version
          (HandlePolicyChangeForAgreement.fillArch wl
            (HandlePolicyChangeForAgreement.nodeArch env dev)).Arch = .ok (some svcDef) →
        env.IsSamePolicy (env.CheckPolicyCompatiblility nodePol busPol svcAllPol
          (HandlePolicyChangeForAgreement.nodeArch env dev)).consumerPol oldPolicy = true →
        (HandlePolicyChangeForAgreement env ag oldPolicy w).1 = (true, true, true)) := by
  have h56 : (∀ svcAllPol busPol nodePol dev,
        (HandlePolicyChangeForAgreement.mergeServicePolicies env ag.ServiceId
          { Properties := [], Constraints := [] } w).1 = some svcAllPol →
        env.GetBusinessPolicy ag.PolicyName = .ok busPol →
        env.GetNodePolicy ag.DeviceId = .ok nodePol →
        env.GetExchangeDevice ag.DeviceId = .ok (some dev) →
        (env.CheckPolicyCompatiblility nodePol busPol svcAllPol
          (HandlePolicyChangeForAgreement.nodeArch env dev)).compatible = true →
        ag.AgreementFinalizedTime = 0 →
        (HandlePolicyChangeForAgreement env ag oldPolicy w).1 = (true, true, true))
    ∧ (∀ svcAllPol busPol nodePol dev wl svcDef,
        ReachesPriorityAnalysis env ag w svcAllPol busPol nodePol dev →
        GetWorkloadWithPriority busPol.Workloads (currentPriority w ag) = some wl →
        (∀ old, oldPolicy = some old →
          HandlePolicyChangeForAgreement.priorityWalk busPol.Workloads old.Workloads
            (currentPriority w ag) (busPol.Workloads.length + 1) (-1)
            (GetNextWorkloadChoice busPol.Workloads (-1)) = false) →
        (∀ old, oldPolicy = some old → dev.NodeType = DEVICE_TYPE_CLUSTER →
          busPol.ClusterNamespace ≠ old.ClusterNamespace →
          (env.CheckClusterNamespaceCompatibility dev.NodeType dev.ClusterNamespace
              dev.IsNamespaceScoped busPol.ClusterNamespace wl.ClusterDeployment
              ag.Pattern).compatible = true
          ∧ (env.CheckClusterNamespaceCompatibility dev.NodeType dev.ClusterNamespace
              dev.IsNamespaceScoped busPol.ClusterNamespace wl.ClusterDeployment
              ag.Pattern).consumerNamespace = old.ClusterNamespace) →
        env.GetService
          (HandlePolicyChangeForAgreement.fillArch wl
            (HandlePolicyChangeForAgreement.nodeArch env dev)).WorkloadURL
          (HandlePolicyChangeForAgreement.fillArch wl
            (HandlePolicyChangeForAgreement.nodeArch env dev)).Org
          (HandlePolicyChangeForAgreement.fillArch wl
            (HandlePolicyChangeForAgreement.nodeArch env dev)).Version
          (HandlePolicyChangeForAgreement.fillArch wl
            (HandlePolicyChangeForAgreement.nodeArch env dev)).Arch = .ok (some svcDef) →
        env.IsSamePolicy (env.CheckPolicyCompatiblility nodePol busPol svcAllPol
          (HandlePolicyChangeForAgreement.nodeArch env dev)).consumerPol oldPolicy = true →
        (HandlePolicyChangeForAgreement env ag oldPolicy w).1 = (true, true, true)) := by
    constructor
    · intro svcAllPol busPol nodePol dev hm hb hn hd hcompat hfin
      cases hbuilt : env.ContainsAllBuiltInNodeProps nodePol.Properties
          (HandlePolicyChangeForAgreement.swVers dev) dev.GetNodeType with
      | false => exact (missing_builtIns_eq hm hb hn hd hbuilt oldPolicy).1
      | true =>
        simp [HandlePolicyChangeForAgreement, hm, hb, hn, hd,
          HandlePolicyChangeForAgreement.evaluate, hbuilt, hcompat, hfin]
    · intro svcAllPol busPol nodePol dev wl svcDef hreach hcur hwalk hns hs hsame
      obtain ⟨w2, _, heq⟩ := reaches_analysis hreach oldPolicy
      rw [heq, hcur]
      exact analyse_same _ _ _ _ _ _ _ _ _ _ svcDef hwalk hns hs hsame
  rcases dispatch_cases env ag oldPolicy w with hno | ⟨svcAllPol, busPol, nodePol, dev, wl,
    svcDef, newTsCs, w2, hdisp, htr2, heq⟩
  · have hnone := updateCalls_of_traced hno
    refine ⟨by simp [hnone], ?_, fun _ => hnone, fun _ _ _ _ _ _ _ _ _ => hnone, h56.1, h56.2⟩
    intro s hs hup
    obtain ⟨steps, htr, hall⟩ := hno
    have hmem : s ∈ steps := by simpa [World.newSteps, htr] using hs
    have := hall s hmem
    simp [beforeUpdate, hup] at this
  · obtain ⟨o, hrec⟩ := UpdateAgreement_record env { ag with LastPolicyUpdateTime := env.now }
      MsgUpdateTypePolicyChange newTsCs w2
    obtain ⟨steps, htr, hall⟩ := htr2
    have hfilter : steps.filter (fun s => s.call.isUpdate) = [] := by
      simp only [List.filter_eq_nil_iff]
      intro s hs
      simpa [beforeUpdate] using hall s hs
    have hsteps : w.newSteps (HandlePolicyChangeForAgreement env ag oldPolicy w).2 =
        steps ++ [{ call := (Call.UpdateAgreement { ag with LastPolicyUpdateTime := env.now }
          MsgUpdateTypePolicyChange newTsCs), outcome := o }] := by
      rw [heq, hrec]
      simp [World.newSteps, World.record, htr]
    refine ⟨?_, ?_, ?_, ?_, h56.1, h56.2⟩
    · simp only [updateCalls, hsteps, List.filter_append, hfilter, List.nil_append]
      simp [Call.isUpdate]
    · intro s hs hup
      rw [hsteps] at hs
      rcases List.mem_append.mp hs with h1 | h1
      · have := hall s h1
        simp [beforeUpdate, hup] at this
      · simp only [List.mem_singleton] at h1
        refine ⟨svcAllPol, busPol, nodePol, dev, wl, svcDef, newTsCs, hdisp, ?_, ?_⟩
        · rw [h1]
        · rw [heq]
    · intro hfin
      exact absurd hfin hdisp.reaches.finalized
    · intro svcAllPol2 busPol2 nodePol2 dev2 hm hb hn hd hsame
      have e1 : svcAllPol2 = svcAllPol := by
        have := hdisp.reaches.services
        rw [hm] at this
        exact Option.some.inj this
      have e2 : busPol2 = busPol := by
        have := hdisp.reaches.business
        rw [hb] at this
        exact Except.ok.inj this
      have e3 : nodePol2 = nodePol := by
        have := hdisp.reaches.node
        rw [hn] at this
        exact Except.ok.inj this
      have e4 : dev2 = dev := by
        have := hdisp.reaches.device
        rw [hd] at this
        exact Option.some.inj (Except.ok.inj this)
      subst e1 e2 e3 e4
      have := hdisp.changed
      rw [hsame] at this
      exact absurd this (by simp)

/-- Witness of C13, amended: the business policy of agreement `A1` has changed, the
agreement is still valid; one update with the new terms and conditions is dispatched. -/
theorem C13_update_dispatch_witness :
    (updateCalls ((Scenario.world 2).newSteps (HandlePolicyChangeForAgreement
      (Scenario.env Scenario.pol2 Scenario.pol2ns "") Scenario.agreement (some Scenario.pol2)
      (Scenario.world 2)).2)).length ≤ 1
    ∧ updateCalls ((Scenario.world 2).newSteps (HandlePolicyChangeForAgreement
        (Scenario.env Scenario.pol2 Scenario.pol2ns "") Scenario.agreement (some Scenario.pol2)
        (Scenario.world 2)).2) =
      [{ call := Call.UpdateAgreement { Scenario.agreement with LastPolicyUpdateTime := 300 }
          "PolicyChange" Scenario.pol2ns, outcome := .ok }]
    ∧ updateCalls ((Scenario.world 2).newSteps (HandlePolicyChangeForAgreement
        (Scenario.env Scenario.pol2 Scenario.pol2ns "") Scenario.unfinalizedAgreement
        (some Scenario.pol2) (Scenario.world 2)).2) = [] :=
  ⟨(C13_update_dispatch (Scenario.env Scenario.pol2 Scenario.pol2ns "") Scenario.agreement
      (some Scenario.pol2) (Scenario.world 2)).1, by decide,
    (C13_update_dispatch (Scenario.env Scenario.pol2 Scenario.pol2ns "")
      Scenario.unfinalizedAgreement (some Scenario.pol2) (Scenario.world 2)).2.2.1 rfl⟩

/-- C13 fails as stated: agreement `A1` is not finalized, every fetch succeeds, the node
policy and the business policy are no longer compatible, and
`HandlePolicyChangeForAgreement` returns `(false, true, false)`, not `(true, true, true)`. -/
theorem C13_counterexample :
    Scenario.unfinalizedAgreement.AgreementFinalizedTime = 0
    ∧ (HandlePolicyChangeForAgreement Scenario.incompatibleEnv Scenario.unfinalizedAgreement
        (some Scenario.pol2) (Scenario.world 2)).1 = (false, true, false)
    ∧ updateCalls ((Scenario.world 2).newSteps (HandlePolicyChangeForAgreement
        Scenario.incompatibleEnv Scenario.unfinalizedAgreement (some Scenario.pol2)
        (Scenario.world 2)).2) = [] := by
  refine ⟨rfl, by decide, by decide⟩

/-! ## `HandlePolicyChanged`: scan and cleanup -/

theorem HandlePolicyChanged_eq (env : Env) (cmd : PolicyChangedCommand) (w : World) :
    HandlePolicyChanged env cmd w =
      match env.DemarshalPolicy cmd.PolicyString with
      | .error _ => w
      | .ok eventPol =>
        HandlePolicyChanged.cleanup env eventPol (HandlePolicyChanged.scan env cmd eventPol w) := by
  simp only [HandlePolicyChanged, HandlePolicyChanged.cleanup, HandlePolicyChanged.scan]

/-- The loop body of `HandlePolicyChanged` leaves the list of agreements kept as it is or
appends the id of the agreement. -/
theorem body_kept (env : Env) (cmd : PolicyChangedCommand) (eventPol : Policy)
    (acc : World × List String) (ag : Agreement) :
    (HandlePolicyChanged.body env cmd eventPol acc ag).2 = acc.2
    ∨ (HandlePolicyChanged.body env cmd eventPol acc ag).2 = acc.2 ++ [ag.CurrentAgreementId] := by
  simp only [HandlePolicyChanged.body]
  repeat' split
  all_goals first
    | exact Or.inl rfl
    | exact Or.inr rfl

theorem fold_kept (env : Env) (cmd : PolicyChangedCommand) (eventPol : Policy)
    (agreements : List Agreement) :
    ∀ acc : World × List String,
      ∀ id ∈ (agreements.foldl (HandlePolicyChanged.body env cmd eventPol) acc).2,
        id ∈ acc.2 ∨ ∃ a ∈ agreements, a.CurrentAgreementId = id := by
  induction agreements with
  | nil => intro acc id hid; exact Or.inl hid
  | cons ag rest ih =>
    intro acc id hid
    simp only [List.foldl_cons] at hid
    rcases ih _ id hid with h | ⟨a, ha, hida⟩
    · rcases body_kept env cmd eventPol acc ag with hk | hk
      · rw [hk] at h
        exact Or.inl h
      · rw [hk] at h
        rcases List.mem_append.mp h with h1 | h1
        · exact Or.inl h1
        · simp only [List.mem_singleton] at h1
          exact Or.inr ⟨ag, List.mem_cons_self _ _, h1.symm⟩
    · exact Or.inr ⟨a, List.mem_cons_of_mem _ ha, hida⟩

/-- The agreements kept by the scan are agreements of the store. -/
theorem scan_kept (env : Env) (cmd : PolicyChangedCommand) (eventPol : Policy) (w : World) :
    ∀ id ∈ (HandlePolicyChanged.scan env cmd eventPol w).2,
      ∃ a ∈ w.db.agreements, a.CurrentAgreementId = id := by
  intro id hid
  simp only [HandlePolicyChanged.scan] at hid
  cases hfault : env.dbFault (Call.FindAgreements env.Name) with
  | true =>
    simp [FindAgreements, hfault] at hid
  | false =>
    rw [FindAgreements_scanned env w hfault] at hid
    simp only [] at hid
    rcases fold_kept env cmd eventPol _ _ id hid with h | ⟨a, ha, hida⟩
    · simp at h
    · exact ⟨a, (List.mem_filter.mp ha).1, hida⟩

/-- After the cleanup no row is left that has the changed policy name and no agreement id
associated, when the query of the workload usages succeeds and no agreement kept has an
empty id. -/
theorem cleanup_unassociated (env : Env) (eventPol : Policy) (s : World × List String)
    (hfault : env.dbFault Call.FindWorkloadUsages = false) (hkept : "" ∉ s.2) :
    ∀ u ∈ (HandlePolicyChanged.cleanup env eventPol s).db.workloadUsages,
      PNoAWUFilter eventPol.Header.Name u = false := by
  intro u hu
  have hc : HandlePolicyChanged.cleanup env eventPol s =
      (s.1.db.workloadUsages.filter (fun u =>
        [PNoAWUFilter eventPol.Header.Name, AgNotKept s.2].all (fun f => f u))).foldl
        (fun acc wlu => DeleteWorkloadUsage wlu.DeviceId wlu.PolicyName acc)
        (s.1.record Call.FindWorkloadUsages .ok) := by
    simp [HandlePolicyChanged.cleanup, FindWorkloadUsages, hfault, Outcome.ofExcept]
  rw [hc] at hu
  have hmem := (deleteSelected_mem (fun u =>
      [PNoAWUFilter eventPol.Header.Name, AgNotKept s.2].all (fun f => f u))
      (s.1.record Call.FindWorkloadUsages .ok) u).mp hu
  by_contra hne
  have hp : PNoAWUFilter eventPol.Header.Name u = true := by simpa using hne
  have hid : u.CurrentAgreementId = "" := by
    simp only [PNoAWUFilter, decide_eq_true_eq] at hp
    exact hp.2
  have hsel : [PNoAWUFilter eventPol.Header.Name, AgNotKept s.2].all (fun f => f u) = true := by
    simp only [List.all_cons, List.all_nil, Bool.and_true, Bool.and_eq_true, hp, true_and]
    simp only [AgNotKept, hid, Bool.not_eq_true', List.contains_eq_any_beq, List.any_eq_false,
      beq_iff_eq]
    intro x hx hxe
    exact hkept (hxe ▸ hx)
  have := hmem.2 u hmem.1 hsel
  simp [WorkloadUsage.hasKey] at this

/-- After `HandlePolicyChanged` no row is left that has the changed policy name and no
agreement id associated. -/
theorem unassociated_deleted (env : Env) (cmd : PolicyChangedCommand) (w : World)
    (eventPol : Policy)
    (hpol : env.DemarshalPolicy cmd.PolicyString = .ok eventPol)
    (hfault : env.dbFault Call.FindWorkloadUsages = false)
    (hids : ∀ a ∈ w.db.agreements, a.CurrentAgreementId ≠ "") :
    ∀ u ∈ (HandlePolicyChanged env cmd w).db.workloadUsages,
      PNoAWUFilter eventPol.Header.Name u = false := by
  rw [HandlePolicyChanged_eq, hpol]
  apply cleanup_unassociated env eventPol _ hfault
  intro hin
  obtain ⟨a, ha, hid⟩ := scan_kept env cmd eventPol w "" hin
  exact hids a ha hid

/-! ## What `HandlePolicyChanged` leaves of the workload-usage table -/

theorem Spares_refl (safe : WorkloadUsage → Prop) (rows : List WorkloadUsage) :
    Spares safe rows rows :=
  ⟨fun u1 h => ⟨u1, h, rfl, rfl, rfl, rfl⟩, fun _ h _ => h⟩

theorem Spares_trans {safe : WorkloadUsage → Prop} {a b c : List WorkloadUsage}
    (h1 : Spares safe a b) (h2 : Spares safe b c) : Spares safe a c := by
  constructor
  · intro u1 hu1
    obtain ⟨u, hu, e1, e2, e3, e4⟩ := h2.origin u1 hu1
    obtain ⟨v, hv, f1, f2, f3, f4⟩ := h1.origin u hu
    exact ⟨v, hv, f1.trans e1, f2.trans e2, f3.trans e3, f4.trans e4⟩
  · intro u hu hs
    exact h2.kept u (h1.kept u hu hs) hs

theorem Spares_delete {safe : WorkloadUsage → Prop} (d p : String) (rows : List WorkloadUsage)
    (hsafe : ∀ u, safe u → WorkloadUsage.hasKey d p u = false) :
    Spares safe rows (deleteUsage d p rows) := by
  constructor
  · intro u1 hu1
    exact ⟨u1, (List.mem_filter.mp hu1).1, rfl, rfl, rfl, rfl⟩
  · intro u hu hs
    exact List.mem_filter.mpr ⟨hu, by simp [hsafe u hs]⟩

theorem Spares_mark {safe : WorkloadUsage → Prop} (d p : String) (rows : List WorkloadUsage)
    (hsafe : ∀ u, safe u → WorkloadUsage.hasKey d p u = false) :
    Spares safe rows (markPending d p rows) := by
  constructor
  · intro u1 hu1
    obtain ⟨u, hu, rfl⟩ := List.mem_map.mp hu1
    refine ⟨u, hu, ?_⟩
    split <;> exact ⟨rfl, rfl, rfl, rfl⟩
  · intro u hu hs
    refine List.mem_map.mpr ⟨u, hu, ?_⟩
    simp [hsafe u hs]

theorem DeleteWorkloadUsage_spares {safe : WorkloadUsage → Prop} {rows0 : List WorkloadUsage}
    {w : World} (d p : String) (hsafe : ∀ u, safe u → WorkloadUsage.hasKey d p u = false)
    (h : Spares safe rows0 w.db.workloadUsages) :
    Spares safe rows0 (DeleteWorkloadUsage d p w).db.workloadUsages :=
  Spares_trans h (Spares_delete d p _ hsafe)

theorem UpdatePendingUpgrade_spares {safe : WorkloadUsage → Prop} {rows0 : List WorkloadUsage}
    {w : World} (d p : String) (hsafe : ∀ u, safe u → WorkloadUsage.hasKey d p u = false)
    (h : Spares safe rows0 w.db.workloadUsages) :
    Spares safe rows0 (UpdatePendingUpgrade d p w).db.workloadUsages :=
  Spares_trans h (Spares_mark d p _ hsafe)

theorem cancelNow_spares {safe : WorkloadUsage → Prop} {rows0 : List WorkloadUsage} {w : World}
    (env : Env) (ag : Agreement) (reason : String)
    (hsafe : ∀ u, safe u → WorkloadUsage.hasKey ag.DeviceId ag.PolicyName u = false)
    (h : Spares safe rows0 w.db.workloadUsages) :
    Spares safe rows0 (CancelAgreement.cancelNow env ag reason w).db.workloadUsages :=
  DeleteWorkloadUsage_spares _ _ hsafe h

theorem CancelAgreement_start_spares {safe : WorkloadUsage → Prop}
    {rows0 : List WorkloadUsage} {w : World} (env : Env) (ag : Agreement) (reason : String)
    (policyMatches : Bool)
    (hsafe : ∀ u, safe u → WorkloadUsage.hasKey ag.DeviceId ag.PolicyName u = false)
    (h : Spares safe rows0 w.db.workloadUsages) :
    Spares safe rows0
      (CancelAgreement.start env ag reason policyMatches w).2.db.workloadUsages := by
  simp only [CancelAgreement.start]
  repeat' split
  all_goals
    first
      | exact cancelNow_spares env ag reason hsafe h
      | exact UpdatePendingUpgrade_spares _ _ hsafe h
      | exact h

theorem CancelAgreement_query_spares {safe : WorkloadUsage → Prop}
    {rows0 : List WorkloadUsage} {w : World} (env : Env) (ag : Agreement) (haGroup : String)
    (h : Spares safe rows0 w.db.workloadUsages) :
    Spares safe rows0 (CancelAgreement.query env ag haGroup w).2.db.workloadUsages := by
  simp only [CancelAgreement.query]
  repeat' split
  all_goals exact h

theorem InsertHAUpgradingWorkload_usages (env : Env) (o g p d : String) (w : World) :
    (InsertHAUpgradingWorkloadForGroupAndPolicy env o g p d w).2.db.workloadUsages =
      w.db.workloadUsages := by
  simp only [InsertHAUpgradingWorkloadForGroupAndPolicy]
  split <;> rfl

theorem CancelAgreement_claim_spares {safe : WorkloadUsage → Prop}
    {rows0 : List WorkloadUsage} {w : World} (env : Env) (ag : Agreement)
    (reason haGroup : String)
    (hsafe : ∀ u, safe u → WorkloadUsage.hasKey ag.DeviceId ag.PolicyName u = false)
    (h : Spares safe rows0 w.db.workloadUsages) :
    Spares safe rows0 (CancelAgreement.claim env ag reason haGroup w).db.workloadUsages := by
  have hins : Spares safe rows0 (InsertHAUpgradingWorkloadForGroupAndPolicy env
      (env.GetOrg ag.DeviceId) haGroup ag.PolicyName ag.DeviceId w).2.db.workloadUsages := by
    rw [InsertHAUpgradingWorkload_usages]
    exact h
  simp only [CancelAgreement.claim]
  repeat' split
  all_goals
    first
      | exact cancelNow_spares env ag reason hsafe hins
      | exact hins

/-- The method `CancelAgreement` deletes or marks rows of the key of its agreement only. -/
theorem CancelAgreement_spares {safe : WorkloadUsage → Prop} {rows0 : List WorkloadUsage}
    {w : World} (env : Env) (ag : Agreement) (reason : String) (policyMatches : Bool)
    (hsafe : ∀ u, safe u → WorkloadUsage.hasKey ag.DeviceId ag.PolicyName u = false)
    (h : Spares safe rows0 w.db.workloadUsages) :
    Spares safe rows0 (CancelAgreement env ag reason policyMatches w).db.workloadUsages := by
  have hs := CancelAgreement_start_spares env ag reason policyMatches hsafe h
  simp only [CancelAgreement]
  split
  · split
    · exact CancelAgreement_claim_spares (w := World.interleave env _) env ag reason _ hsafe
        (CancelAgreement_query_spares env ag _ hs)
    · exact CancelAgreement_query_spares env ag _ hs
  · exact hs

theorem body_spares {safe : WorkloadUsage → Prop} {rows0 : List WorkloadUsage} (env : Env)
    (cmd : PolicyChangedCommand) (eventPol : Policy) (acc : World × List String)
    (ag : Agreement)
    (hsafe : ∀ u, safe u → WorkloadUsage.hasKey ag.DeviceId ag.PolicyName u = false)
    (h : Spares safe rows0 acc.1.db.workloadUsages) :
    Spares safe rows0 (HandlePolicyChanged.body env cmd eventPol acc ag).1.db.workloadUsages := by
  have hev : ∀ old, Spares safe rows0
      (HandlePolicyChangeForAgreement env ag old acc.1).2.db.workloadUsages := by
    intro old
    rw [(HandlePolicyChangeForAgreement_readOnly env ag old acc.1).1]
    exact h
  simp only [HandlePolicyChanged.body]
  split
  · exact h
  · split
    · exact h
    · split
      · exact h
      · by_cases hpat : ag.Pattern = ""
        · simp only [hpat, if_true]
          repeat' split
          all_goals
            first
              | exact CancelAgreement_spares _ _ _ _ hsafe (hev _)
              | exact hev _
        · simp only [hpat, if_false, Bool.not_false, if_true]
          exact CancelAgreement_spares _ _ _ _ hsafe h

theorem fold_spares {safe : WorkloadUsage → Prop} {rows0 : List WorkloadUsage} (env : Env)
    (cmd : PolicyChangedCommand) (eventPol : Policy) (agreements : List Agreement)
    (hsafe : ∀ ag ∈ agreements, ∀ u, safe u →
      WorkloadUsage.hasKey ag.DeviceId ag.PolicyName u = false) :
    ∀ acc : World × List String, Spares safe rows0 acc.1.db.workloadUsages →
      Spares safe rows0
        (agreements.foldl (HandlePolicyChanged.body env cmd eventPol) acc).1.db.workloadUsages := by
  induction agreements with
  | nil => intro acc h; exact h
  | cons ag rest ih =>
    intro acc h
    simp only [List.foldl_cons]
    exact ih (fun a ha => hsafe a (List.mem_cons_of_mem _ ha)) _
      (body_spares env cmd eventPol acc ag (hsafe ag (List.mem_cons_self _ _)) h)

/-- The loop of `HandlePolicyChanged` over the agreements found deletes or marks only rows
that have the device id and the policy name of one of these agreements. -/
theorem scan_spares (env : Env) (cmd : PolicyChangedCommand) (eventPol : Policy) (w : World) :
    Spares (fun u => ∀ ag ∈ scanned env w,
        WorkloadUsage.hasKey ag.DeviceId ag.PolicyName u = false)
      w.db.workloadUsages (HandlePolicyChanged.scan env cmd eventPol w).1.db.workloadUsages := by
  cases hfault : env.dbFault (Call.FindAgreements env.Name) with
  | true =>
    have : (HandlePolicyChanged.scan env cmd eventPol w).1.db = w.db := by
      simp [HandlePolicyChanged.scan, FindAgreements, hfault, World.record]
    rw [this]
    exact Spares_refl _ _
  | false =>
    simp only [HandlePolicyChanged.scan, FindAgreements_scanned env w hfault]
    exact fold_spares env cmd eventPol (scanned env w) (fun ag hag u hu => hu ag hag) _
      (Spares_refl _ _)

/-- With the query of the workload usages succeeding and no empty id among the agreements
kept, the clean-up deletes exactly the rows that have the key of a row of the changed
policy name without agreement id. -/
theorem cleanup_mem (env : Env) (eventPol : Policy) (s : World × List String)
    (hfault : env.dbFault Call.FindWorkloadUsages = false) (hkept : "" ∉ s.2)
    (u : WorkloadUsage) :
    u ∈ (HandlePolicyChanged.cleanup env eventPol s).db.workloadUsages ↔
      (u ∈ s.1.db.workloadUsages ∧ ∀ r ∈ s.1.db.workloadUsages,
        r.PolicyName = eventPol.Header.Name → r.CurrentAgreementId = "" →
        ¬ (u.DeviceId = r.DeviceId ∧ u.PolicyName = r.PolicyName)) := by
  have hc : HandlePolicyChanged.cleanup env eventPol s =
      (s.1.db.workloadUsages.filter (fun u =>
        [PNoAWUFilter eventPol.Header.Name, AgNotKept s.2].all (fun f => f u))).foldl
        (fun acc wlu => DeleteWorkloadUsage wlu.DeviceId wlu.PolicyName acc)
        (s.1.record Call.FindWorkloadUsages .ok) := by
    simp [HandlePolicyChanged.cleanup, FindWorkloadUsages, hfault, Outcome.ofExcept]
  rw [hc]
  refine (deleteSelected_mem (fun u =>
      [PNoAWUFilter eventPol.Header.Name, AgNotKept s.2].all (fun f => f u))
      (s.1.record Call.FindWorkloadUsages .ok) u).trans ?_
  simp only [World.record]
  constructor
  · rintro ⟨hu, hall⟩
    refine ⟨hu, ?_⟩
    intro r hr hname hid hkey
    have hsel : ([PNoAWUFilter eventPol.Header.Name, AgNotKept s.2].all (fun f => f r)) = true := by
      simp [PNoAWUFilter, AgNotKept, hname, hid, hkept]
    have := hall r hr hsel
    simp [WorkloadUsage.hasKey, hkey.1, hkey.2] at this
  · rintro ⟨hu, hall⟩
    refine ⟨hu, ?_⟩
    intro r hr hsel
    simp only [List.all_cons, List.all_nil, Bool.and_true, Bool.and_eq_true, PNoAWUFilter,
      decide_eq_true_eq] at hsel
    have := hall r hr hsel.1.1 hsel.1.2
    simpa [WorkloadUsage.hasKey] using this

/-- C19, amended: after `HandlePolicyChanged` has processed a `PolicyChanged` command whose
policy demarshals, with the query of the workload usages succeeding and no agreement of the
store having an empty id: (1) no workload-usage row is left that references the changed
policy name and has no agreement id; (2) from the table that the loop over the agreements
leaves, the clean-up deletes exactly the rows that have the device id and the policy name of
such a row, so that (3) a row of another policy name stays and (4) a row with an agreement
id stays when no other row has its device id and policy name; (5) a row of the table
before the command stays, unchanged, when it has neither the device id and policy name of an
in-progress, un-archived agreement of the handler nor those of a row of the changed policy
name without agreement id. -/
theorem C19_unassociated_usages_deleted (env : Env) (cmd : PolicyChangedCommand) (w : World)
    (eventPol : Policy)
    (hpol : env.DemarshalPolicy cmd.PolicyString = .ok eventPol)
    (hfault : env.dbFault Call.FindWorkloadUsages = false)
    (hids : ∀ a ∈ w.db.agreements, a.CurrentAgreementId ≠ "") :
    (∀ u ∈ (HandlePolicyChanged env cmd w).db.workloadUsages,
      ¬ (u.PolicyName = eventPol.Header.Name ∧ u.CurrentAgreementId = ""))
    ∧ (∀ u, u ∈ (HandlePolicyChanged env cmd w).db.workloadUsages ↔
        (u ∈ (HandlePolicyChanged.scan env cmd eventPol w).1.db.workloadUsages
          ∧ ∀ r ∈ (HandlePolicyChanged.scan env cmd eventPol w).1.db.workloadUsages,
              r.PolicyName = eventPol.Header.Name → r.CurrentAgreementId = "" →
              ¬ (u.DeviceId = r.DeviceId ∧ u.PolicyName = r.PolicyName)))
    ∧ (∀ u ∈ (HandlePolicyChanged.scan env cmd eventPol w).1.db.workloadUsages,
        u.PolicyName ≠ eventPol.Header.Name →
        u ∈ (HandlePolicyChanged env cmd w).db.workloadUsages)
    ∧ (∀ u ∈ (HandlePolicyChanged.scan env cmd eventPol w).1.db.workloadUsages,
        u.CurrentAgreementId ≠ "" →
        (∀ r ∈ (HandlePolicyChanged.scan env cmd eventPol w).1.db.workloadUsages,
          r.DeviceId = u.DeviceId → r.PolicyName = u.PolicyName → r = u) →
        u ∈ (HandlePolicyChanged env cmd w).db.workloadUsages)
    ∧ (∀ u ∈ w.db.workloadUsages,
        (∀ ag ∈ scanned env w, ¬ (u.DeviceId = ag.DeviceId ∧ u.PolicyName = ag.PolicyName)) →
        (∀ r ∈ w.db.workloadUsages, r.PolicyName = eventPol.Header.Name →
          r.CurrentAgreementId = "" →
          ¬ (u.DeviceId = r.DeviceId ∧ u.PolicyName = r.PolicyName)) →
        u ∈ (HandlePolicyChanged env cmd w).db.workloadUsages) := by
  have hkept : "" ∉ (HandlePolicyChanged.scan env cmd eventPol w).2 := by
    intro hin
    obtain ⟨a, ha, hid⟩ := scan_kept env cmd eventPol w "" hin
    exact hids a ha hid
  have heq : HandlePolicyChanged env cmd w =
      HandlePolicyChanged.cleanup env eventPol (HandlePolicyChanged.scan env cmd eventPol w) := by
    rw [HandlePolicyChanged_eq, hpol]
  have hmem := cleanup_mem env eventPol (HandlePolicyChanged.scan env cmd eventPol w) hfault
    hkept
  refine ⟨?_, ?_, ?_, ?_, ?_⟩
  · intro u hu hrow
    have := unassociated_deleted env cmd w eventPol hpol hfault hids u hu
    simp [PNoAWUFilter, hrow.1, hrow.2] at this
  · intro u
    rw [heq]
    exact hmem u
  · intro u hu hname
    rw [heq]
    refine (hmem u).mpr ⟨hu, ?_⟩
    intro r _ hr _ hkey
    exact hname (hkey.2.trans hr)
  · intro u hu hid honly
    rw [heq]
    refine (hmem u).mpr ⟨hu, ?_⟩
    intro r hr _ hrid hkey
    have := honly r hr hkey.1.symm hkey.2.symm
    rw [this] at hrid
    exact hid hrid
  · intro u hu hags hrows
    have hscan := scan_spares env cmd eventPol w
    rw [heq]
    refine (hmem u).mpr ⟨hscan.kept u hu ?_, ?_⟩
    · intro ag hag
      have := hags ag hag
      simpa [WorkloadUsage.hasKey] using this
    · intro r1 hr1 hname hid hkey
      obtain ⟨r, hr, e1, e2, e3, _⟩ := hscan.origin r1 hr1
      exact hrows r hr (e2.trans hname) (e3.trans hid)
        ⟨hkey.1.trans e1.symm, hkey.2.trans e2.symm⟩

/-- Witness of C19, amended: the store holds the agreement `A1` with its workload usage and a
workload usage of the policy `org1/pol` for the node `org1/D5` with no agreement id; after
the command the second row is gone and the first is left. -/
theorem C19_unassociated_usages_deleted_witness :
    (Scenario.env Scenario.pol2 Scenario.pol2 "").DemarshalPolicy
      Scenario.policyChanged.PolicyString = .ok Scenario.pol2
    ∧ (Scenario.env Scenario.pol2 Scenario.pol2 "").dbFault Call.FindWorkloadUsages = false
    ∧ (∀ a ∈ Scenario.unassociatedWorld.db.agreements, a.CurrentAgreementId ≠ "")
    ∧ (∃ u ∈ Scenario.unassociatedWorld.db.workloadUsages,
        u.PolicyName = Scenario.pol2.Header.Name ∧ u.CurrentAgreementId = "")
    ∧ (HandlePolicyChanged (Scenario.env Scenario.pol2 Scenario.pol2 "")
          Scenario.policyChanged Scenario.unassociatedWorld).db.workloadUsages =
        [{ DeviceId := "org1/D1", PolicyName := "org1/pol", CurrentAgreementId := "A1",
           Priority := 2, PendingUpgrade := false }]
    ∧ ∀ u ∈ (HandlePolicyChanged (Scenario.env Scenario.pol2 Scenario.pol2 "")
          Scenario.policyChanged Scenario.unassociatedWorld).db.workloadUsages,
        ¬ (u.PolicyName = Scenario.pol2.Header.Name ∧ u.CurrentAgreementId = "") :=
  ⟨rfl, rfl, by decide, by decide, by decide,
    (C19_unassociated_usages_deleted (Scenario.env Scenario.pol2 Scenario.pol2 "")
      Scenario.policyChanged Scenario.unassociatedWorld Scenario.pol2 rfl rfl (by decide)).1⟩

/-- C19 fails as stated: the store has no agreement at all; after the `PolicyChanged`
command for `org1/pol` it still holds a workload usage of another policy and a workload
usage of `org1/pol` whose agreement id is not the id of a retained agreement. -/
theorem C19_counterexample :
    (Scenario.env Scenario.pol2 Scenario.pol2 "").DemarshalPolicy
      Scenario.policyChanged.PolicyString = .ok Scenario.pol2
    ∧ (HandlePolicyChanged (Scenario.env Scenario.pol2 Scenario.pol2 "")
        Scenario.policyChanged Scenario.staleWorld).db.agreements = []
    ∧ (HandlePolicyChanged (Scenario.env Scenario.pol2 Scenario.pol2 "")
        Scenario.policyChanged Scenario.staleWorld).db.workloadUsages =
        [{ DeviceId := "org1/D7", PolicyName := "org1/other", CurrentAgreementId := "",
           Priority := 1, PendingUpgrade := false },
         { DeviceId := "org1/D9", PolicyName := "org1/pol", CurrentAgreementId := "A9",
           Priority := 2, PendingUpgrade := false }]
    ∧ Scenario.pol2.Header.Name = "org1/pol" := by
  refine ⟨rfl, by decide, by decide, rfl⟩

/-! ## Later states of the store -/

theorem Later.refl (db : AgbotDatabase) : Later db db :=
  ⟨rfl, fun _ _ => Or.inr rfl, fun _ _ h => h, fun _ _ h => h, fun _ _ _ h => h⟩

theorem absentKey_iff_find? (d p : String) (rows : List WorkloadUsage) :
    absentKey d p rows ↔ rows.find? (WorkloadUsage.hasKey d p) = none := by
  simp [absentKey, List.find?_eq_none]

theorem Later.trans {db db1 db2 : AgbotDatabase} (h1 : Later db db1) (h2 : Later db1 db2) :
    Later db db2 := by
  refine ⟨h2.agreements.trans h1.agreements, fun d p => ?_, fun d p h => h2.absent d p (h1.absent d p h),
    fun d p h => h2.pending d p (h1.pending d p h), fun o g p h => h2.held o g p (h1.held o g p h)⟩
  rcases h2.priority d p with h | h
  · exact Or.inl h
  · rcases h1.priority d p with h' | h'
    · exact Or.inl (h2.absent d p h')
    · exact Or.inr (h.trans h')

theorem deleteUsage_of_absent {d p : String} {rows : List WorkloadUsage}
    (h : absentKey d p rows) : deleteUsage d p rows = rows := by
  simp only [deleteUsage, List.filter_eq_self]
  intro u hu
  simp [h u hu]

theorem markPending_of_allPending {d p : String} {rows : List WorkloadUsage}
    (h : allPending d p rows) : markPending d p rows = rows := by
  simp only [markPending]
  conv_rhs => rw [← List.map_id rows]
  apply List.map_congr_left
  intro u hu
  by_cases hk : WorkloadUsage.hasKey d p u = true
  · have hp := h u hu hk
    simp only [hk, if_true, id]
    cases u
    simp_all
  · simp [hk]

theorem absentKey_deleteUsage (d p : String) (rows : List WorkloadUsage) :
    absentKey d p (deleteUsage d p rows) := by
  intro u hu
  simp only [deleteUsage, List.mem_filter, Bool.not_eq_true'] at hu
  exact hu.2

theorem allPending_markPending (d p : String) (rows : List WorkloadUsage) :
    allPending d p (markPending d p rows) := by
  intro u hu hk
  simp only [markPending, List.mem_map] at hu
  obtain ⟨v, _, hv⟩ := hu
  by_cases hkv : WorkloadUsage.hasKey d p v = true
  · simp only [hkv, if_true] at hv
    rw [← hv]
  · simp only [hkv, if_false] at hv
    rw [← hv] at hk
    exact absurd hk hkv

theorem find?_ext {α : Type} (p q : α → Bool) (l : List α) (h : ∀ a ∈ l, p a = q a) :
    l.find? p = l.find? q := by
  induction l with
  | nil => rfl
  | cons a rest ih =>
    simp only [List.find?_cons, h a (List.mem_cons_self _ _)]
    rw [ih (fun b hb => h b (List.mem_cons_of_mem _ hb))]

theorem Later.delete (db : AgbotDatabase) (d p : String) :
    Later db { db with workloadUsages := deleteUsage d p db.workloadUsages } := by
  refine ⟨rfl, fun d1 p1 => ?_, fun d1 p1 h => ?_, fun d1 p1 h => ?_, fun _ _ _ h => h⟩
  · by_cases hk : d1 = d ∧ p1 = p
    · left
      rw [hk.1, hk.2]
      exact absentKey_deleteUsage d p _
    · right
      simp only [firstPriority, deleteUsage, List.find?_filter]
      congr 1
      apply find?_ext
      intro u _
      by_cases h1 : WorkloadUsage.hasKey d1 p1 u = true
      · have h2 : WorkloadUsage.hasKey d p u = false := by
          simp only [WorkloadUsage.hasKey, decide_eq_true_eq] at h1
          simp only [WorkloadUsage.hasKey, decide_eq_false_iff_not]
          intro h3
          exact hk ⟨h1.1.symm.trans h3.1, h1.2.symm.trans h3.2⟩
        simp [h1, h2]
      · simp [h1]
  · intro u hu
    simp only [deleteUsage, List.mem_filter] at hu
    exact h u hu.1
  · intro u hu hk
    simp only [deleteUsage, List.mem_filter] at hu
    exact h u hu.1 hk

theorem hasKey_mark (d p d1 p1 : String) (u : WorkloadUsage) :
    WorkloadUsage.hasKey d1 p1
      (if WorkloadUsage.hasKey d p u then { u with PendingUpgrade := true } else u) =
    WorkloadUsage.hasKey d1 p1 u := by
  split <;> rfl

theorem Later.mark (db : AgbotDatabase) (d p : String) :
    Later db { db with workloadUsages := markPending d p db.workloadUsages } := by
  refine ⟨rfl, fun d1 p1 => Or.inr ?_, fun d1 p1 h => ?_, fun d1 p1 h => ?_, fun _ _ _ h => h⟩
  · simp only [firstPriority, markPending, List.find?_map, Option.map_map]
    have hf : (WorkloadUsage.hasKey d1 p1 ∘ fun u =>
        if WorkloadUsage.hasKey d p u then { u with PendingUpgrade := true } else u) =
        WorkloadUsage.hasKey d1 p1 := by
      funext u
      exact hasKey_mark d p d1 p1 u
    rw [hf]
    congr 1
    funext u
    simp only [Function.comp]
    split <;> rfl
  · intro u hu
    simp only [markPending, List.mem_map] at hu
    obtain ⟨v, hv, rfl⟩ := hu
    rw [hasKey_mark]
    exact h v hv
  · intro u hu hk
    simp only [markPending, List.mem_map] at hu
    obtain ⟨v, hv, rfl⟩ := hu
    rw [hasKey_mark] at hk
    have := h v hv hk
    split
    · rfl
    · exact this

theorem Later.insert (db : AgbotDatabase) (o g p d : String) :
    Later db { db with haUpgrading := (insertIfAbsent o g p d db.haUpgrading).2 } := by
  refine ⟨rfl, fun _ _ => Or.inr rfl, fun _ _ h => h, fun _ _ h => h, fun o1 g1 p1 h => ?_⟩
  simp only [insertIfAbsent]
  split
  · exact h
  · simp only [heldSlot, List.find?_append] at h ⊢
    cases hf : db.haUpgrading.find? (UpgradingHAGroupWorkload.hasKey o1 g1 p1) with
    | none => simp [heldSlot, hf] at h
    | some r => simp

theorem Later.of_eq {db0 db1 db2 : AgbotDatabase} (h : Later db0 db1) (heq : db2 = db1) :
    Later db0 db2 := heq ▸ h

theorem DeleteWorkloadUsage_later {db0 : AgbotDatabase} {w : World} (d p : String)
    (h : Later db0 w.db) : Later db0 (DeleteWorkloadUsage d p w).db :=
  h.trans (Later.delete w.db d p)

theorem UpdatePendingUpgrade_later {db0 : AgbotDatabase} {w : World} (d p : String)
    (h : Later db0 w.db) : Later db0 (UpdatePendingUpgrade d p w).db :=
  h.trans (Later.mark w.db d p)

theorem cancelNow_later {db0 : AgbotDatabase} {w : World} (env : Env) (ag : Agreement)
    (reason : String) (h : Later db0 w.db) :
    Later db0 (CancelAgreement.cancelNow env ag reason w).db :=
  DeleteWorkloadUsage_later _ _ h

theorem FindSingleWorkloadUsage_db (env : Env) (d p : String) (w : World) :
    (FindSingleWorkloadUsageByDeviceAndPolicyName env d p w).2.db = w.db := rfl

theorem GetDevice_db (env : Env) (d : String) (w : World) : (GetDevice env d w).2.db = w.db := rfl

theorem GetHAUpgradingWorkload_db (env : Env) (o g p : String) (w : World) :
    (GetHAUpgradingWorkload env o g p w).2.db = w.db := rfl

theorem InsertHAUpgradingWorkload_later {db0 : AgbotDatabase} {w : World} (env : Env)
    (o g p d : String) (h : Later db0 w.db) :
    Later db0 (InsertHAUpgradingWorkloadForGroupAndPolicy env o g p d w).2.db := by
  simp only [InsertHAUpgradingWorkloadForGroupAndPolicy]
  split
  · exact h
  · exact h.trans (Later.insert w.db o g p d)

theorem CancelAgreement_start_later {db0 : AgbotDatabase} {w : World} (env : Env)
    (ag : Agreement) (reason : String) (policyMatches : Bool) (h : Later db0 w.db) :
    Later db0 (CancelAgreement.start env ag reason policyMatches w).2.db := by
  simp only [CancelAgreement.start]
  repeat' split
  all_goals
    first
      | exact cancelNow_later env ag reason h
      | exact UpdatePendingUpgrade_later _ _ h
      | exact h

theorem CancelAgreement_query_later {db0 : AgbotDatabase} {w : World} (env : Env)
    (ag : Agreement) (haGroup : String) (h : Later db0 w.db) :
    Later db0 (CancelAgreement.query env ag haGroup w).2.db := by
  simp only [CancelAgreement.query]
  repeat' split
  all_goals exact h

theorem CancelAgreement_claim_later {db0 : AgbotDatabase} {w : World} (env : Env)
    (ag : Agreement) (reason haGroup : String) (h : Later db0 w.db) :
    Later db0 (CancelAgreement.claim env ag reason haGroup w).db := by
  simp only [CancelAgreement.claim]
  repeat' split
  all_goals
    first
      | exact cancelNow_later env ag reason (InsertHAUpgradingWorkload_later env _ _ _ _ h)
      | exact InsertHAUpgradingWorkload_later env _ _ _ _ h

theorem World.interleave_quiet (env : Env) (w : World) (hquiet : ∀ t, env.otherAgbots t = t) :
    w.interleave env = w := by
  simp [World.interleave, hquiet]

/-- With no other agbot writing the HA table meanwhile, `CancelAgreement` leaves a later
state of the store. -/
theorem CancelAgreement_later {db0 : AgbotDatabase} {w : World} (env : Env) (ag : Agreement)
    (reason : String) (policyMatches : Bool) (hquiet : ∀ t, env.otherAgbots t = t)
    (h : Later db0 w.db) :
    Later db0 (CancelAgreement env ag reason policyMatches w).db := by
  have hs := CancelAgreement_start_later env ag reason policyMatches h
  simp only [CancelAgreement]
  split
  · split
    · rw [World.interleave_quiet env _ hquiet]
      exact CancelAgreement_claim_later _ _ _ _ (CancelAgreement_query_later _ _ _ hs)
    · exact CancelAgreement_query_later _ _ _ hs
  · exact hs

theorem HandlePolicyChangeForAgreement_db (env : Env) (ag : Agreement)
    (oldPolicy : Option Policy) (w : World) :
    (HandlePolicyChangeForAgreement env ag oldPolicy w).2.db = w.db :=
  (HandlePolicyChangeForAgreement_readOnly env ag oldPolicy w).1

theorem body_later {db0 : AgbotDatabase} (env : Env) (cmd : PolicyChangedCommand)
    (eventPol : Policy) (acc : World × List String) (ag : Agreement)
    (hquiet : ∀ t, env.otherAgbots t = t) (h : Later db0 acc.1.db) :
    Later db0 (HandlePolicyChanged.body env cmd eventPol acc ag).1.db := by
  have hev : ∀ old, Later db0 (HandlePolicyChangeForAgreement env ag old acc.1).2.db :=
    fun old => h.of_eq (HandlePolicyChangeForAgreement_db env ag old acc.1)
  simp only [HandlePolicyChanged.body]
  split
  · exact h
  · split
    · exact h
    · split
      · exact h
      · by_cases hpat : ag.Pattern = ""
        · simp only [hpat, if_true]
          repeat' split
          all_goals
            first
              | exact CancelAgreement_later _ _ _ _ hquiet (hev _)
              | exact hev _
        · simp only [hpat, if_false, Bool.not_false, if_true]
          exact CancelAgreement_later _ _ _ _ hquiet h

theorem fold_later (env : Env) (cmd : PolicyChangedCommand) (eventPol : Policy)
    (hquiet : ∀ t, env.otherAgbots t = t) (agreements : List Agreement) :
    ∀ (db0 : AgbotDatabase) (acc : World × List String), Later db0 acc.1.db →
      Later db0 (agreements.foldl (HandlePolicyChanged.body env cmd eventPol) acc).1.db := by
  induction agreements with
  | nil => intro db0 acc h; exact h
  | cons ag rest ih =>
    intro db0 acc h
    simp only [List.foldl_cons]
    exact ih db0 _ (body_later env cmd eventPol acc ag hquiet h)

theorem scan_later (env : Env) (cmd : PolicyChangedCommand) (eventPol : Policy) (w : World)
    (hquiet : ∀ t, env.otherAgbots t = t) :
    Later w.db (HandlePolicyChanged.scan env cmd eventPol w).1.db := by
  simp only [HandlePolicyChanged.scan]
  split
  · exact fold_later env cmd eventPol hquiet _ _ _ (Later.refl _)
  · exact Later.refl _

theorem deleteAll_later (wlu_array : List WorkloadUsage) :
    ∀ (db0 : AgbotDatabase) (w : World), Later db0 w.db →
      Later db0 (wlu_array.foldl
        (fun acc wlu => DeleteWorkloadUsage wlu.DeviceId wlu.PolicyName acc) w).db := by
  induction wlu_array with
  | nil => intro db0 w h; exact h
  | cons s rest ih =>
    intro db0 w h
    simp only [List.foldl_cons]
    exact ih db0 _ (DeleteWorkloadUsage_later _ _ h)

theorem cleanup_later (env : Env) (eventPol : Policy) (s : World × List String) :
    Later s.1.db (HandlePolicyChanged.cleanup env eventPol s).db := by
  simp only [HandlePolicyChanged.cleanup]
  split
  · exact Later.refl _
  · exact deleteAll_later _ _ _ (Later.refl _)

/-! ## The evaluation reads the store through one lookup -/

theorem update_fst (env : Env) (ag : Agreement) (oldPolicy : Option Policy)
    (producerPol consumerPol : Policy) (dev : Device) (nodeArch : String) (wl0 : Workload)
    (w w1 : World) :
    (HandlePolicyChangeForAgreement.update env ag oldPolicy producerPol consumerPol dev nodeArch
      wl0 w).1 =
    (HandlePolicyChangeForAgreement.update env ag oldPolicy producerPol consumerPol dev nodeArch
      wl0 w1).1 := by
  simp only [HandlePolicyChangeForAgreement.update]
  repeat' split
  all_goals rfl

theorem analyse_fst (env : Env) (ag : Agreement) (oldPolicy : Option Policy)
    (busPol : Policy) (cr : CompatibilityResult) (dev : Device) (nodeArch : String)
    (wlUsagePriority : Int) (wl : Workload) (w w1 : World) :
    (HandlePolicyChangeForAgreement.analyse env ag oldPolicy busPol cr dev nodeArch
      wlUsagePriority wl w).1 =
    (HandlePolicyChangeForAgreement.analyse env ag oldPolicy busPol cr dev nodeArch
      wlUsagePriority wl w1).1 := by
  simp only [HandlePolicyChangeForAgreement.analyse]
  repeat' split
  all_goals first
    | rfl
    | exact update_fst _ _ _ _ _ _ _ _ _ _

theorem wlUsagePriority_eq (x : Option WorkloadUsage) :
    HandlePolicyChangeForAgreement.wlUsagePriority x =
      (x.map (fun u => u.Priority)).getD 0 := by
  cases x <;> rfl

theorem currentPriority_congr {w w1 : World} (ag : Agreement)
    (h : firstPriority ag.DeviceId ag.PolicyName w.db.workloadUsages =
      firstPriority ag.DeviceId ag.PolicyName w1.db.workloadUsages) :
    currentPriority w ag = currentPriority w1 ag := by
  simp only [currentPriority, wlUsagePriority_eq]
  simp only [firstPriority] at h
  rw [h]

theorem evaluate_fst (env : Env) (ag : Agreement) (oldPolicy : Option Policy)
    (svcAllPol : ExternalPolicy) (busPol : Policy) (nodePol : ExternalPolicy) (dev : Device)
    (w w1 : World)
    (h : firstPriority ag.DeviceId ag.PolicyName w.db.workloadUsages =
      firstPriority ag.DeviceId ag.PolicyName w1.db.workloadUsages) :
    (HandlePolicyChangeForAgreement.evaluate env ag oldPolicy svcAllPol busPol nodePol dev w).1 =
    (HandlePolicyChangeForAgreement.evaluate env ag oldPolicy svcAllPol busPol nodePol dev
      w1).1 := by
  have hp := currentPriority_congr ag h
  simp only [currentPriority] at hp
  cases hbuilt : env.ContainsAllBuiltInNodeProps nodePol.Properties
      (HandlePolicyChangeForAgreement.swVers dev) dev.GetNodeType with
  | false => simp [HandlePolicyChangeForAgreement.evaluate, hbuilt]
  | true =>
    cases hcompat : (env.CheckPolicyCompatiblility nodePol busPol svcAllPol
        (HandlePolicyChangeForAgreement.nodeArch env dev)).compatible with
    | false => simp [HandlePolicyChangeForAgreement.evaluate, hbuilt, hcompat]
    | true =>
      by_cases hfin : ag.AgreementFinalizedTime = 0
      · simp [HandlePolicyChangeForAgreement.evaluate, hbuilt, hcompat, hfin]
      · cases hfault : env.dbFault
            (Call.FindSingleWorkloadUsageByDeviceAndPolicyName ag.DeviceId ag.PolicyName) with
        | true =>
          simp [HandlePolicyChangeForAgreement.evaluate, hbuilt, hcompat, hfin,
            FindSingleWorkloadUsageByDeviceAndPolicyName, hfault]
        | false =>
          simp only [HandlePolicyChangeForAgreement.evaluate, hbuilt, hcompat, hfin,
            FindSingleWorkloadUsageByDeviceAndPolicyName, hfault, World.record, Bool.not_true,
            Bool.false_eq_true, if_false]
          rw [hp]
          cases GetWorkloadWithPriority busPol.Workloads
              (HandlePolicyChangeForAgreement.wlUsagePriority
                (w1.db.workloadUsages.find? (WorkloadUsage.hasKey ag.DeviceId ag.PolicyName))) with
          | none => rfl
          | some wl => exact analyse_fst _ _ _ _ _ _ _ _ _ _ _

theorem mergeServicePolicies_fst (env : Env) (ids : List String) :
    ∀ (svcAllPol : ExternalPolicy) (w w1 : World),
      (HandlePolicyChangeForAgreement.mergeServicePolicies env ids svcAllPol w).1 =
      (HandlePolicyChangeForAgreement.mergeServicePolicies env ids svcAllPol w1).1 := by
  induction ids with
  | nil => intro _ _ _; rfl
  | cons svcId rest ih =>
    intro svcAllPol w w1
    simp only [HandlePolicyChangeForAgreement.mergeServicePolicies]
    repeat' split
    all_goals first
      | rfl
      | exact ih _ _ _

/-- The triple that `HandlePolicyChangeForAgreement` returns depends on the store only
through the priority of the workload usage it looks up. -/
theorem HandlePolicyChangeForAgreement_fst (env : Env) (ag : Agreement)
    (oldPolicy : Option Policy) (w w1 : World)
    (h : firstPriority ag.DeviceId ag.PolicyName w.db.workloadUsages =
      firstPriority ag.DeviceId ag.PolicyName w1.db.workloadUsages) :
    (HandlePolicyChangeForAgreement env ag oldPolicy w).1 =
    (HandlePolicyChangeForAgreement env ag oldPolicy w1).1 := by
  have hm := mergeServicePolicies_fst env ag.ServiceId { Properties := [], Constraints := [] }
    w w1
  simp only [HandlePolicyChangeForAgreement]
  rw [hm]
  cases (HandlePolicyChangeForAgreement.mergeServicePolicies env ag.ServiceId
      { Properties := [], Constraints := [] } w1).1 with
  | none => rfl
  | some svcAllPol =>
    simp only []
    cases env.GetBusinessPolicy ag.PolicyName with
    | error e => rfl
    | ok busPol =>
      simp only []
      cases env.GetNodePolicy ag.DeviceId with
      | error e => rfl
      | ok nodePol =>
        simp only []
        cases env.GetExchangeDevice ag.DeviceId with
        | error e => rfl
        | ok d =>
          cases d with
          | none => rfl
          | some dev =>
            simp only []
            apply evaluate_fst
            simpa [World.record, mergeServicePolicies_db] using h

/-! ## `CancelAgreement` on a later state of the store -/

theorem db_eta (db : AgbotDatabase) :
    ({ agreements := db.agreements, workloadUsages := db.workloadUsages,
       haUpgrading := db.haUpgrading } : AgbotDatabase) = db := by
  cases db; rfl

/-- Without a workload usage for the agreement, `CancelAgreement` leaves the store as it
is. -/
theorem CancelAgreement_absent (env : Env) (ag : Agreement) (reason : String)
    (policyMatches : Bool) (w : World)
    (h : absentKey ag.DeviceId ag.PolicyName w.db.workloadUsages) :
    (CancelAgreement env ag reason policyMatches w).db = w.db := by
  have hfind := (absentKey_iff_find? _ _ _).mp h
  have hdel := deleteUsage_of_absent h
  cases hfault : env.dbFault
      (Call.FindSingleWorkloadUsageByDeviceAndPolicyName ag.DeviceId ag.PolicyName) with
  | true =>
    simp [CancelAgreement, CancelAgreement.start, FindSingleWorkloadUsageByDeviceAndPolicyName,
      hfault, CancelAgreement.cancelNow, DeleteWorkloadUsage, World.enqueueHigh, World.record,
      hdel, db_eta]
  | false =>
    simp [CancelAgreement, CancelAgreement.start, FindSingleWorkloadUsageByDeviceAndPolicyName,
      hfault, hfind, CancelAgreement.cancelNow, DeleteWorkloadUsage, World.enqueueHigh,
      World.record, hdel, db_eta]

/-- How a call of `CancelAgreement` ends, with no other agbot writing the HA table
meanwhile: the workload usage of the agreement is gone; or the device could not be fetched;
or the device is in an HA group, the workload usage is marked pending and the slot of the
group is held or the HA table answered with an error. -/
theorem CancelAgreement_cases (env : Env) (ag : Agreement) (reason : String)
    (policyMatches : Bool) (w : World) (hquiet : ∀ t, env.otherAgbots t = t) :
    absentKey ag.DeviceId ag.PolicyName
      (CancelAgreement env ag reason policyMatches w).db.workloadUsages
    ∨ (env.dbFault
        (Call.FindSingleWorkloadUsageByDeviceAndPolicyName ag.DeviceId ag.PolicyName) = false
      ∧ policyMatches = true ∧ ∃ e, env.GetDevice ag.DeviceId = .error e)
    ∨ ∃ d, env.dbFault
        (Call.FindSingleWorkloadUsageByDeviceAndPolicyName ag.DeviceId ag.PolicyName) = false
      ∧ policyMatches = true ∧ env.GetDevice ag.DeviceId = .ok (some d) ∧ d.HAGroup ≠ ""
      ∧ allPending ag.DeviceId ag.PolicyName
          (CancelAgreement env ag reason policyMatches w).db.workloadUsages
      ∧ (env.dbFault
            (Call.GetHAUpgradingWorkload (env.GetOrg ag.DeviceId) d.HAGroup ag.PolicyName) = true
        ∨ heldSlot (env.GetOrg ag.DeviceId) d.HAGroup ag.PolicyName
            (CancelAgreement env ag reason policyMatches w).db.haUpgrading
        ∨ env.dbFault (Call.InsertHAUpgradingWorkloadForGroupAndPolicy (env.GetOrg ag.DeviceId)
            d.HAGroup ag.PolicyName ag.DeviceId) = true) := by
  have hgone := absentKey_deleteUsage ag.DeviceId ag.PolicyName w.db.workloadUsages
  have hgone2 := absentKey_deleteUsage ag.DeviceId ag.PolicyName
    (markPending ag.DeviceId ag.PolicyName w.db.workloadUsages)
  have hmarked := allPending_markPending ag.DeviceId ag.PolicyName w.db.workloadUsages
  cases hfault : env.dbFault
      (Call.FindSingleWorkloadUsageByDeviceAndPolicyName ag.DeviceId ag.PolicyName) with
  | true =>
    left
    simpa [CancelAgreement, CancelAgreement.start, FindSingleWorkloadUsageByDeviceAndPolicyName,
      hfault, CancelAgreement.cancelNow, DeleteWorkloadUsage, World.enqueueHigh, World.record]
      using hgone
  | false =>
    cases hfind : w.db.workloadUsages.find? (WorkloadUsage.hasKey ag.DeviceId ag.PolicyName) with
    | none =>
      left
      simpa [CancelAgreement, CancelAgreement.start,
        FindSingleWorkloadUsageByDeviceAndPolicyName, hfault, hfind, CancelAgreement.cancelNow,
        DeleteWorkloadUsage, World.enqueueHigh, World.record] using hgone
    | some u =>
      cases policyMatches with
      | false =>
        left
        simpa [CancelAgreement, CancelAgreement.start,
          FindSingleWorkloadUsageByDeviceAndPolicyName, hfault, hfind,
          CancelAgreement.cancelNow, DeleteWorkloadUsage, World.enqueueHigh, World.record]
          using hgone
      | true =>
        rcases hdev : env.GetDevice ag.DeviceId with e | _ | d
        · exact Or.inr (Or.inl ⟨rfl, rfl, e, rfl⟩)
        · left
          simpa [CancelAgreement, CancelAgreement.start,
            FindSingleWorkloadUsageByDeviceAndPolicyName, hfault, hfind, GetDevice, hdev,
            CancelAgreement.cancelNow, DeleteWorkloadUsage, World.enqueueHigh, World.record]
            using hgone
        · by_cases hha : d.HAGroup = ""
          · left
            simpa [CancelAgreement, CancelAgreement.start,
              FindSingleWorkloadUsageByDeviceAndPolicyName, hfault, hfind, GetDevice, hdev, hha,
              CancelAgreement.cancelNow, DeleteWorkloadUsage, World.enqueueHigh, World.record]
              using hgone
          · cases hq : env.dbFault
                (Call.GetHAUpgradingWorkload (env.GetOrg ag.DeviceId) d.HAGroup ag.PolicyName) with
            | true =>
              refine Or.inr (Or.inr ⟨d, rfl, rfl, rfl, hha, ?_, Or.inl hq⟩)
              simpa [CancelAgreement, CancelAgreement.start,
                FindSingleWorkloadUsageByDeviceAndPolicyName, hfault, hfind, GetDevice, hdev, hha,
                CancelAgreement.query, GetHAUpgradingWorkload, hq, UpdatePendingUpgrade,
                World.record] using hmarked
            | false =>
              cases hslot : w.db.haUpgrading.find?
                  (UpgradingHAGroupWorkload.hasKey (env.GetOrg ag.DeviceId) d.HAGroup
                    ag.PolicyName) with
              | some r =>
                refine Or.inr (Or.inr ⟨d, rfl, rfl, rfl, hha, ?_, Or.inr (Or.inl ?_)⟩)
                · simpa [CancelAgreement, CancelAgreement.start,
                    FindSingleWorkloadUsageByDeviceAndPolicyName, hfault, hfind, GetDevice, hdev,
                    hha, CancelAgreement.query, GetHAUpgradingWorkload, hq, hslot,
                    UpdatePendingUpgrade, World.record] using hmarked
                · simp [heldSlot, CancelAgreement, CancelAgreement.start,
                    FindSingleWorkloadUsageByDeviceAndPolicyName, hfault, hfind, GetDevice, hdev,
                    hha, CancelAgreement.query, GetHAUpgradingWorkload, hq, hslot,
                    UpdatePendingUpgrade, World.record]
              | none =>
                cases hi : env.dbFault (Call.InsertHAUpgradingWorkloadForGroupAndPolicy
                    (env.GetOrg ag.DeviceId) d.HAGroup ag.PolicyName ag.DeviceId) with
                | true =>
                  refine Or.inr (Or.inr ⟨d, rfl, rfl, rfl, hha, ?_, Or.inr (Or.inr hi)⟩)
                  simpa [CancelAgreement, CancelAgreement.start,
                    FindSingleWorkloadUsageByDeviceAndPolicyName, hfault, hfind, GetDevice, hdev,
                    hha, CancelAgreement.query, GetHAUpgradingWorkload, hq, hslot,
                    CancelAgreement.claim, InsertHAUpgradingWorkloadForGroupAndPolicy, hi,
                    World.interleave, hquiet, UpdatePendingUpgrade, World.record] using hmarked
                | false =>
                  left
                  simpa [CancelAgreement, CancelAgreement.start,
                    FindSingleWorkloadUsageByDeviceAndPolicyName, hfault, hfind, GetDevice, hdev,
                    hha, CancelAgreement.query, GetHAUpgradingWorkload, hq, hslot,
                    CancelAgreement.claim, InsertHAUpgradingWorkloadForGroupAndPolicy, hi,
                    insertIfAbsent, World.interleave, hquiet, UpdatePendingUpgrade,
                    CancelAgreement.cancelNow, DeleteWorkloadUsage, World.enqueueHigh,
                    World.record] using hgone2

theorem db_marked (db : AgbotDatabase) (d p : String) (h : allPending d p db.workloadUsages) :
    ({ agreements := db.agreements, workloadUsages := markPending d p db.workloadUsages,
       haUpgrading := db.haUpgrading } : AgbotDatabase) = db := by
  rw [markPending_of_allPending h]

/-- With no other agbot writing the HA table meanwhile, `CancelAgreement` leaves a store as
it is when that store is a later state of the store a first call of it left. -/
theorem CancelAgreement_settled (env : Env) (ag : Agreement) (reason : String)
    (policyMatches : Bool) (w0 w : World) (hquiet : ∀ t, env.otherAgbots t = t)
    (hlater : Later (CancelAgreement env ag reason policyMatches w0).db w.db) :
    (CancelAgreement env ag reason policyMatches w).db = w.db := by
  by_cases habs : absentKey ag.DeviceId ag.PolicyName w.db.workloadUsages
  · exact CancelAgreement_absent env ag reason policyMatches w habs
  · have hfind : ∃ u, w.db.workloadUsages.find? (WorkloadUsage.hasKey ag.DeviceId ag.PolicyName)
        = some u := by
      cases hf : w.db.workloadUsages.find? (WorkloadUsage.hasKey ag.DeviceId ag.PolicyName) with
      | none => exact absurd ((absentKey_iff_find? _ _ _).mpr hf) habs
      | some u => exact ⟨u, rfl⟩
    obtain ⟨u, hfind⟩ := hfind
    rcases CancelAgreement_cases env ag reason policyMatches w0 hquiet with
      hgone | ⟨hfault, hpm, e, hdev⟩ | ⟨d, hfault, hpm, hdev, hha, hpend, hblocked⟩
    · exact absurd (hlater.absent _ _ hgone) habs
    · subst hpm
      simp [CancelAgreement, CancelAgreement.start,
        FindSingleWorkloadUsageByDeviceAndPolicyName, hfault, hfind, GetDevice, hdev,
        World.record]
    · subst hpm
      have hpend1 := hlater.pending _ _ hpend
      have hm := db_marked w.db ag.DeviceId ag.PolicyName hpend1
      cases hq : env.dbFault
          (Call.GetHAUpgradingWorkload (env.GetOrg ag.DeviceId) d.HAGroup ag.PolicyName) with
      | true =>
        simp [CancelAgreement, CancelAgreement.start,
          FindSingleWorkloadUsageByDeviceAndPolicyName, hfault, hfind, GetDevice, hdev, hha,
          CancelAgreement.query, GetHAUpgradingWorkload, hq, UpdatePendingUpgrade,
          World.record, hm]
      | false =>
        cases hslot : w.db.haUpgrading.find?
            (UpgradingHAGroupWorkload.hasKey (env.GetOrg ag.DeviceId) d.HAGroup
              ag.PolicyName) with
        | some r =>
          simp [CancelAgreement, CancelAgreement.start,
            FindSingleWorkloadUsageByDeviceAndPolicyName, hfault, hfind, GetDevice, hdev, hha,
            CancelAgreement.query, GetHAUpgradingWorkload, hq, hslot, UpdatePendingUpgrade,
            World.record, hm]
        | none =>
          have hi : env.dbFault (Call.InsertHAUpgradingWorkloadForGroupAndPolicy
              (env.GetOrg ag.DeviceId) d.HAGroup ag.PolicyName ag.DeviceId) = true := by
            rcases hblocked with h1 | h1 | h1
            · rw [hq] at h1
              exact absurd h1 (by simp)
            · have := hlater.held _ _ _ h1
              simp [heldSlot, hslot] at this
            · exact h1
          simp [CancelAgreement, CancelAgreement.start,
            FindSingleWorkloadUsageByDeviceAndPolicyName, hfault, hfind, GetDevice, hdev, hha,
            CancelAgreement.query, GetHAUpgradingWorkload, hq, hslot, CancelAgreement.claim,
            InsertHAUpgradingWorkloadForGroupAndPolicy, hi, World.interleave, hquiet,
            UpdatePendingUpgrade, World.record, hm]

/-- The loop body of `HandlePolicyChanged` for a policy-based agreement in scope. -/
theorem body_in_scope (env : Env) (cmd : PolicyChangedCommand) (eventPol : Policy)
    (acc : World × List String) (ag : Agreement) (pol : Policy) (e : String)
    (hpol : env.DemarshalPolicy ag.Policy = .ok pol)
    (hname : eventPol.Header.Name = pol.Header.Name)
    (hmine : env.MatchesMine cmd.Org pol = some e) (hpat : ag.Pattern = "") :
    HandlePolicyChanged.body env cmd eventPol acc ag =
      if agStillValid ag (HandlePolicyChangeForAgreement env ag (some pol) acc.1).1 = true then
        ((HandlePolicyChangeForAgreement env ag (some pol) acc.1).2,
          acc.2 ++ [ag.CurrentAgreementId])
      else
        (CancelAgreement env ag TERM_REASON_POLICY_CHANGED
          (HandlePolicyChangeForAgreement env ag (some pol) acc.1).1.1
          (HandlePolicyChangeForAgreement env ag (some pol) acc.1).2, acc.2) := by
  generalize hr : HandlePolicyChangeForAgreement env ag (some pol) acc.1 = r
  obtain ⟨⟨a, b, c⟩, w1⟩ := r
  by_cases hc : ag.GetDeviceType = DEVICE_TYPE_CLUSTER <;>
    cases a <;> cases b <;> cases c <;>
    simp [HandlePolicyChanged.body, hpol, hname, hmine, hpat, hc, agStillValid, hr]

/-- The loop body of `HandlePolicyChanged` leaves a store as it is when that store is a
later state of the store a first run of the body for the same agreement left. -/
theorem body_settled (env : Env) (cmd : PolicyChangedCommand) (eventPol : Policy)
    (acc0 acc : World × List String) (ag : Agreement) (hquiet : ∀ t, env.otherAgbots t = t)
    (hlater : Later (HandlePolicyChanged.body env cmd eventPol acc0 ag).1.db acc.1.db) :
    (HandlePolicyChanged.body env cmd eventPol acc ag).1.db = acc.1.db := by
  rcases hpol : env.DemarshalPolicy ag.Policy with e | pol
  · simp [HandlePolicyChanged.body, hpol]
  · by_cases hname : eventPol.Header.Name = pol.Header.Name
    · rcases hmine : env.MatchesMine cmd.Org pol with _ | e
      · simp [HandlePolicyChanged.body, hpol, hname, hmine]
      · by_cases hpat : ag.Pattern = ""
        · have hdb0 := HandlePolicyChangeForAgreement_db env ag (some pol) acc0.1
          have hdb := HandlePolicyChangeForAgreement_db env ag (some pol) acc.1
          have hb := body_in_scope env cmd eventPol acc ag pol e hpol hname hmine hpat
          have hb0 := body_in_scope env cmd eventPol acc0 ag pol e hpol hname hmine hpat
          by_cases habs : absentKey ag.DeviceId ag.PolicyName acc.1.db.workloadUsages
          · have habs1 : absentKey ag.DeviceId ag.PolicyName
                (HandlePolicyChangeForAgreement env ag (some pol) acc.1).2.db.workloadUsages := by
              rw [hdb]; exact habs
            rw [hb]
            split
            · exact hdb
            · simp only []
              rw [CancelAgreement_absent _ _ _ _ _ habs1, hdb]
          · have hbl : Later acc0.1.db (HandlePolicyChanged.body env cmd eventPol acc0 ag).1.db :=
              body_later env cmd eventPol acc0 ag hquiet (Later.refl _)
            have hp1 : firstPriority ag.DeviceId ag.PolicyName acc.1.db.workloadUsages =
                firstPriority ag.DeviceId ag.PolicyName
                  (HandlePolicyChanged.body env cmd eventPol acc0 ag).1.db.workloadUsages := by
              rcases hlater.priority ag.DeviceId ag.PolicyName with h | h
              · exact absurd h habs
              · exact h
            have hp2 : firstPriority ag.DeviceId ag.PolicyName
                  (HandlePolicyChanged.body env cmd eventPol acc0 ag).1.db.workloadUsages =
                firstPriority ag.DeviceId ag.PolicyName acc0.1.db.workloadUsages := by
              rcases hbl.priority ag.DeviceId ag.PolicyName with h | h
              · exact absurd (hlater.absent _ _ h) habs
              · exact h
            have hres : (HandlePolicyChangeForAgreement env ag (some pol) acc.1).1 =
                (HandlePolicyChangeForAgreement env ag (some pol) acc0.1).1 :=
              HandlePolicyChangeForAgreement_fst env ag (some pol) acc.1 acc0.1 (hp1.trans hp2)
            rw [hb0] at hlater
            rw [hb, hres]
            by_cases hv : agStillValid ag
                (HandlePolicyChangeForAgreement env ag (some pol) acc0.1).1 = true
            · rw [if_pos hv]
              exact hdb
            · rw [if_neg hv] at hlater ⊢
              simp only [] at hlater ⊢
              have hset := CancelAgreement_settled env ag TERM_REASON_POLICY_CHANGED
                (HandlePolicyChangeForAgreement env ag (some pol) acc0.1).1.1
                (HandlePolicyChangeForAgreement env ag (some pol) acc0.1).2
                (HandlePolicyChangeForAgreement env ag (some pol) acc.1).2 hquiet
                (by rw [hdb]; exact hlater)
              rw [hset, hdb]
        · have hb : ∀ a : World × List String, HandlePolicyChanged.body env cmd eventPol a ag =
              (CancelAgreement env ag TERM_REASON_POLICY_CHANGED true a.1, a.2) := by
            intro a
            simp [HandlePolicyChanged.body, hpol, hname, hmine, hpat]
          rw [hb] at hlater ⊢
          exact CancelAgreement_settled env ag _ _ acc0.1 acc.1 hquiet hlater
    · simp [HandlePolicyChanged.body, hpol, hname]

theorem fold_settled (env : Env) (cmd : PolicyChangedCommand) (eventPol : Policy)
    (hquiet : ∀ t, env.otherAgbots t = t) (agreements : List Agreement) :
    ∀ (acc0 : World × List String), ∀ a ∈ agreements, ∀ acc : World × List String,
      Later (agreements.foldl (HandlePolicyChanged.body env cmd eventPol) acc0).1.db acc.1.db →
      (HandlePolicyChanged.body env cmd eventPol acc a).1.db = acc.1.db := by
  induction agreements with
  | nil => intro _ a ha; simp at ha
  | cons b rest ih =>
    intro acc0 a ha acc hlater
    simp only [List.foldl_cons] at hlater
    rcases List.mem_cons.mp ha with hab | hrest
    · subst hab
      have h1 : Later (HandlePolicyChanged.body env cmd eventPol acc0 a).1.db
          (rest.foldl (HandlePolicyChanged.body env cmd eventPol)
            (HandlePolicyChanged.body env cmd eventPol acc0 a)).1.db :=
        fold_later env cmd eventPol hquiet rest _ _ (Later.refl _)
      exact body_settled env cmd eventPol acc0 acc a hquiet (h1.trans hlater)
    · exact ih _ a hrest acc hlater

theorem fold_fixed (env : Env) (cmd : PolicyChangedCommand) (eventPol : Policy)
    (db : AgbotDatabase) (agreements : List Agreement)
    (h : ∀ a ∈ agreements, ∀ acc : World × List String, acc.1.db = db →
      (HandlePolicyChanged.body env cmd eventPol acc a).1.db = db) :
    ∀ acc : World × List String, acc.1.db = db →
      (agreements.foldl (HandlePolicyChanged.body env cmd eventPol) acc).1.db = db := by
  induction agreements with
  | nil => intro acc hacc; exact hacc
  | cons b rest ih =>
    intro acc hacc
    simp only [List.foldl_cons]
    exact ih (fun a ha => h a (List.mem_cons_of_mem _ ha)) _
      (h b (List.mem_cons_self _ _) acc hacc)

/-- With no other agbot writing the HA table meanwhile and no agreement with an empty id,
a second run of `HandlePolicyChanged` with the same command leaves the store as the first
run left it. -/
theorem policy_changed_twice (env : Env) (cmd : PolicyChangedCommand) (w : World)
    (hquiet : ∀ t, env.otherAgbots t = t)
    (hids : ∀ a ∈ w.db.agreements, a.CurrentAgreementId ≠ "") :
    (HandlePolicyChanged env cmd (HandlePolicyChanged env cmd w)).db =
      (HandlePolicyChanged env cmd w).db := by
  rcases hpol : env.DemarshalPolicy cmd.PolicyString with e | eventPol
  · simp [HandlePolicyChanged_eq, hpol]
  · have h1 : HandlePolicyChanged env cmd w =
        HandlePolicyChanged.cleanup env eventPol (HandlePolicyChanged.scan env cmd eventPol w) := by
      rw [HandlePolicyChanged_eq, hpol]
    have hlater1 : Later (HandlePolicyChanged.scan env cmd eventPol w).1.db
        (HandlePolicyChanged env cmd w).db := by
      rw [h1]; exact cleanup_later env eventPol _
    have hlater0 : Later w.db (HandlePolicyChanged env cmd w).db :=
      (scan_later env cmd eventPol w hquiet).trans hlater1
    generalize hW : HandlePolicyChanged env cmd w = W1 at hlater0 hlater1
    have h2 : HandlePolicyChanged env cmd W1 =
        HandlePolicyChanged.cleanup env eventPol (HandlePolicyChanged.scan env cmd eventPol W1) := by
      rw [HandlePolicyChanged_eq, hpol]
    -- the scan of the second run leaves the store as it is
    have hscan : (HandlePolicyChanged.scan env cmd eventPol W1).1.db = W1.db := by
      cases hfa : env.dbFault (Call.FindAgreements env.Name) with
      | true => simp [HandlePolicyChanged.scan, FindAgreements, hfa, World.record]
      | false =>
        have hsame : scanned env W1 = scanned env w := by
          simp only [scanned, hlater0.agreements]
        have hfold : (HandlePolicyChanged.scan env cmd eventPol w) =
            (scanned env w).foldl (HandlePolicyChanged.body env cmd eventPol)
              (w.record (Call.FindAgreements env.Name) .ok, []) := by
          simp only [HandlePolicyChanged.scan, FindAgreements_scanned env w hfa]
        simp only [HandlePolicyChanged.scan, FindAgreements_scanned env W1 hfa, hsame]
        apply fold_fixed env cmd eventPol W1.db
        · intro a ha acc hacc
          have := fold_settled env cmd eventPol hquiet (scanned env w)
            (w.record (Call.FindAgreements env.Name) .ok, []) a ha acc
            (by rw [← hfold, hacc]; exact hlater1)
          rw [this, hacc]
        · rfl
    -- and so does its cleanup, as no unassociated row of the policy is left
    have hnone : ∀ u ∈ W1.db.workloadUsages,
        env.dbFault Call.FindWorkloadUsages = false →
        PNoAWUFilter eventPol.Header.Name u = false := by
      intro u hu hfu
      rw [← hW] at hu
      exact unassociated_deleted env cmd w eventPol hpol hfu hids u hu
    rw [h2]
    cases hfu : env.dbFault Call.FindWorkloadUsages with
    | true =>
      simp only [HandlePolicyChanged.cleanup, FindWorkloadUsages, hfu, if_true]
      exact hscan
    | false =>
      have hempty : (HandlePolicyChanged.scan env cmd eventPol W1).1.db.workloadUsages.filter
          (fun u => [PNoAWUFilter eventPol.Header.Name,
            AgNotKept (HandlePolicyChanged.scan env cmd eventPol W1).2].all (fun f => f u))
          = [] := by
        simp only [List.filter_eq_nil_iff, hscan]
        intro u hu
        simp [hnone u hu hfu]
      simp only [HandlePolicyChanged.cleanup, FindWorkloadUsages, hfu, Bool.false_eq_true,
        if_false, hempty, List.foldl_nil]
      exact hscan

/-! ## `HandlePolicyChanged` run twice -/

/-- C20: running `HandlePolicyChanged` twice in a row with the same `PolicyChanged` command,
the exchange, the policy manager and the store answering the same both times and no other
agbot writing the HA table meanwhile, leaves the agreement table and the workload-usage
table as they are after running it once (the store holds no time stamp of an update
dispatch; agreement ids are not empty). -/
theorem C20_policy_changed_idempotent (env : Env) (cmd : PolicyChangedCommand) (w : World)
    (hquiet : ∀ t, env.otherAgbots t = t)
    (hids : ∀ a ∈ w.db.agreements, a.CurrentAgreementId ≠ "") :
    (HandlePolicyChanged env cmd (HandlePolicyChanged env cmd w)).db.agreements =
      (HandlePolicyChanged env cmd w).db.agreements
    ∧ (HandlePolicyChanged env cmd (HandlePolicyChanged env cmd w)).db.workloadUsages =
      (HandlePolicyChanged env cmd w).db.workloadUsages := by
  have h := policy_changed_twice env cmd w hquiet hids
  exact ⟨by rw [h], by rw [h]⟩

/-- Witness of C20: the business policy of agreement `A1` got a workload of priority 3; the
first run deletes the workload usage of `A1` and queues a cancel, the second run leaves
both tables as they are. -/
theorem C20_policy_changed_idempotent_witness :
    (∀ t, (Scenario.env Scenario.pol12 Scenario.pol123 "").otherAgbots t = t)
    ∧ (∀ a ∈ (Scenario.world 2).db.agreements, a.CurrentAgreementId ≠ "")
    ∧ (HandlePolicyChanged (Scenario.env Scenario.pol12 Scenario.pol123 "")
        Scenario.policyChanged (Scenario.world 2)).db.workloadUsages = []
    ∧ (Scenario.world 2).db.workloadUsages ≠ []
    ∧ (HandlePolicyChanged (Scenario.env Scenario.pol12 Scenario.pol123 "")
        Scenario.policyChanged
        (HandlePolicyChanged (Scenario.env Scenario.pol12 Scenario.pol123 "")
          Scenario.policyChanged (Scenario.world 2))).db.agreements =
      (HandlePolicyChanged (Scenario.env Scenario.pol12 Scenario.pol123 "")
        Scenario.policyChanged (Scenario.world 2)).db.agreements
    ∧ (HandlePolicyChanged (Scenario.env Scenario.pol12 Scenario.pol123 "")
        Scenario.policyChanged
        (HandlePolicyChanged (Scenario.env Scenario.pol12 Scenario.pol123 "")
          Scenario.policyChanged (Scenario.world 2))).db.workloadUsages =
      (HandlePolicyChanged (Scenario.env Scenario.pol12 Scenario.pol123 "")
        Scenario.policyChanged (Scenario.world 2)).db.workloadUsages :=
  ⟨fun _ => rfl, by decide, by decide, by decide,
    C20_policy_changed_idempotent (Scenario.env Scenario.pol12 Scenario.pol123 "")
      Scenario.policyChanged (Scenario.world 2) (fun _ => rfl) (by decide)⟩

/-! ## The simple commands -/

theorem HandleStopProtocol_loop (agreementWorkers : Int) :
    ∀ (n : Nat) (ix : Int) (w : World), (agreementWorkers - ix).toNat = n →
      HandleStopProtocol.loop agreementWorkers ix w =
        { w with inboundHigh := w.inboundHigh ++ List.replicate n AgreementWork.StopWorker } := by
  intro n
  induction n with
  | zero =>
    intro ix w h
    rw [HandleStopProtocol.loop]
    have : ¬ ix < agreementWorkers := by omega
    simp [this]
  | succ n ih =>
    intro ix w h
    rw [HandleStopProtocol.loop]
    have hlt : ix < agreementWorkers := by omega
    simp only [hlt, if_true]
    rw [ih (ix + 1) _ (by omega)]
    simp [World.enqueueHigh, NewStopWorker, List.replicate_succ]

/-- C21: the simple commands are translated directly.  `HandleMMSObjectPolicy` and
`HandleWorkloadUpgrade` each put exactly one item of their variant on `inboundHigh`
(`ObjectPolicyChange`; `HandleWorkloadUpgrade` with the agreement id, protocol, device id and
policy name of the command), `HandleMakeAgreement` puts exactly one `InitiateAgreement` item
on `inboundLow`, and `HandleStopProtocol` puts exactly `AgreementWorkers` items `StopWorker`
on `inboundHigh` (4 for 4 workers, none for 0); nothing else of the world changes. -/
theorem C21_simple_commands (w : World) (mms : MMSObjectPolicyEventCommand)
    (up : WorkloadUpgradeCommand) (mk : MakeAgreementCommand) (agreementWorkers : Int) :
    HandleMMSObjectPolicy mms w =
      { w with inboundHigh := w.inboundHigh ++ [AgreementWork.ObjectPolicyChange mms.Msg] }
    ∧ HandleWorkloadUpgrade up w =
      { w with inboundHigh := w.inboundHigh ++
          [AgreementWork.HandleWorkloadUpgrade up.AgreementId up.AgreementProtocol up.DeviceId
            up.PolicyName] }
    ∧ HandleMakeAgreement mk w =
      { w with inboundLow := w.inboundLow ++
          [AgreementWork.InitiateAgreement mk.ProducerPolicy mk.ConsumerPolicy mk.Org mk.Device
            mk.ConsumerPolicyName mk.ServicePolicies] }
    ∧ HandleStopProtocol agreementWorkers w =
      { w with inboundHigh := w.inboundHigh ++
          List.replicate agreementWorkers.toNat AgreementWork.StopWorker }
    ∧ (HandleStopProtocol 4 w).inboundHigh = w.inboundHigh ++
        [AgreementWork.StopWorker, AgreementWork.StopWorker, AgreementWork.StopWorker,
          AgreementWork.StopWorker]
    ∧ (HandleStopProtocol 4 w).inboundLow = w.inboundLow
    ∧ HandleStopProtocol 0 w = w := by
  have hstop : ∀ n : Int, HandleStopProtocol n w =
      { w with inboundHigh := w.inboundHigh ++ List.replicate n.toNat AgreementWork.StopWorker } :=
    fun n => HandleStopProtocol_loop n n.toNat 0 w (by simp)
  refine ⟨rfl, rfl, rfl, hstop _, ?_, ?_, ?_⟩
  · rw [hstop]; rfl
  · rw [hstop]
  · rw [hstop]; simp

/-! ## The retry loop of `sendMessage` -/

theorem Journal.retried_requests (j : Journal) (method url : String) (body : ExchangeBody)
    (tp : Nat → String) (n : Nat) :
    (j.retried method url body tp n).requests =
      j.requests ++ List.replicate n { method := method, url := url, body := body } := by
  induction n with
  | zero => simp [Journal.retried]
  | succ n ih =>
    simp [Journal.retried, Journal.sleep, Journal.write, Journal.request, ih,
      List.replicate_succ']

theorem Journal.retried_sleeps (j : Journal) (method url : String) (body : ExchangeBody)
    (tp : Nat → String) (n : Nat) :
    (j.retried method url body tp n).sleeps = j.sleeps ++ List.replicate n 10 := by
  induction n with
  | zero => simp [Journal.retried]
  | succ n ih =>
    simp [Journal.retried, Journal.sleep, Journal.write, Journal.request, ih,
      List.replicate_succ']

/-- After `n` transport errors in a row the loop of `sendMessage` goes on from the journal
with `n` requests, warnings and sleeps more. -/
theorem post_retried (t : Transport) (messageTarget : ExchangeMessageTarget) (url : String)
    (pm : ExchangeBody) (tp : Nat → String) (j : Journal) :
    ∀ (n fuel : Nat),
      (∀ k, k < n → t.InvokeExchange (j.requests.length + k) "POST" url pm = (none, some (tp k))) →
      sendMessage.post t messageTarget url pm (n + fuel) j =
        sendMessage.post t messageTarget url pm fuel (j.retried "POST" url pm tp n) := by
  intro n
  induction n with
  | zero => intro fuel _; simp [Journal.retried]
  | succ n ih =>
    intro fuel h
    have h1 := ih (fuel + 1) (fun k hk => h k (Nat.lt_succ_of_lt hk))
    have hn := h n (Nat.lt_succ_self n)
    rw [show n + 1 + fuel = n + (fuel + 1) by omega, h1]
    have hlen : (j.retried "POST" url pm tp n).requests.length = j.requests.length + n := by
      simp [Journal.retried_requests]
    rw [sendMessage.post, hlen, hn]
    rfl

theorem announce_requests (t : Transport) (messageTarget : ExchangeMessageTarget)
    (pay : String) (j : Journal) :
    (sendMessage.announce t messageTarget pay j).requests = j.requests
    ∧ (sendMessage.announce t messageTarget pay j).sleeps = j.sleeps := by
  simp only [sendMessage.announce, Journal.infoV, Journal.write]
  repeat' split
  all_goals exact ⟨rfl, rfl⟩

/-- C22: once the message has been encrypted and serialized, `sendMessage` posts it in a
loop.  If the exchange answers the next `n` requests with a transport error and then with
success, `sendMessage` (given more than `n` attempts) returns no error after exactly `n + 1`
POST requests and `n` sleeps of 10 seconds; if it then answers with another error,
`sendMessage` returns that error after `n + 1` requests and `n` sleeps, without a sleep or
request after it; and after `n` transport errors in a row, whatever `n`, it has not given
up: given `n` attempts or fewer it is still retrying. -/
theorem C22_send_retries (t : Transport) (messageTarget : ExchangeMessageTarget) (pay : String)
    (j : Journal) (url : String) (pm : ExchangeBody) (tp : Nat → String) (n : Nat)
    (hready : (sendMessage.prepare t messageTarget pay).1 = Prepared.ready url pm)
    (htransient : ∀ k, k < n →
      t.InvokeExchange (j.requests.length + k) "POST" url pm = (none, some (tp k))) :
    (t.InvokeExchange (j.requests.length + n) "POST" url pm = (none, none) →
      ∀ fuel, n < fuel →
        (sendMessage t (.exchange messageTarget) pay fuel j).1 = .returned none
        ∧ (sendMessage t (.exchange messageTarget) pay fuel j).2.1.requests =
            j.requests ++ List.replicate (n + 1) { method := "POST", url := url, body := pm }
        ∧ (sendMessage t (.exchange messageTarget) pay fuel j).2.1.sleeps =
            j.sleeps ++ List.replicate n 10)
    ∧ (∀ err tpErr, t.InvokeExchange (j.requests.length + n) "POST" url pm = (some err, tpErr) →
      ∀ fuel, n < fuel →
        (sendMessage t (.exchange messageTarget) pay fuel j).1 = .returned (some err)
        ∧ (sendMessage t (.exchange messageTarget) pay fuel j).2.1.requests =
            j.requests ++ List.replicate (n + 1) { method := "POST", url := url, body := pm }
        ∧ (sendMessage t (.exchange messageTarget) pay fuel j).2.1.sleeps =
            j.sleeps ++ List.replicate n 10)
    ∧ (∀ fuel, fuel ≤ n →
        (sendMessage t (.exchange messageTarget) pay fuel j).1 = .retrying
        ∧ (sendMessage t (.exchange messageTarget) pay fuel j).2.1.requests =
            j.requests ++ List.replicate fuel { method := "POST", url := url, body := pm }
        ∧ (sendMessage t (.exchange messageTarget) pay fuel j).2.1.sleeps =
            j.sleeps ++ List.replicate fuel 10) := by
  obtain ⟨hreq, hsl⟩ := announce_requests t messageTarget pay j
  have hsend : ∀ fuel, ((sendMessage t (.exchange messageTarget) pay fuel j).1,
      (sendMessage t (.exchange messageTarget) pay fuel j).2.1) =
      sendMessage.post t messageTarget url pm fuel
        (sendMessage.announce t messageTarget pay j) := by
    intro fuel
    rcases hp : sendMessage.prepare t messageTarget pay with ⟨p, mt1⟩
    rw [hp] at hready
    simp only at hready
    subst hready
    simp [sendMessage, hp]
  have htr : ∀ k, k < n →
      t.InvokeExchange ((sendMessage.announce t messageTarget pay j).requests.length + k)
        "POST" url pm = (none, some (tp k)) := by
    intro k hk; rw [hreq]; exact htransient k hk
  have hlen : ∀ m, ((sendMessage.announce t messageTarget pay j).retried "POST" url pm tp
      m).requests.length = j.requests.length + m := by
    intro m; simp [Journal.retried_requests, hreq]
  refine ⟨?_, ?_, ?_⟩
  · intro hok fuel hfuel
    obtain ⟨f, rfl⟩ : ∃ f, fuel = n + (f + 1) := ⟨fuel - n - 1, by omega⟩
    have h := hsend (n + (f + 1))
    rw [post_retried t messageTarget url pm tp _ n (f + 1) htr, sendMessage.post, hlen,
      hok] at h
    have h1 := congrArg Prod.fst h
    have h2 := congrArg Prod.snd h
    simp only at h1 h2
    refine ⟨h1, ?_, ?_⟩
    · rw [h2]
      simp only [Journal.infoV, Journal.write, Journal.request]
      split <;>
        simp [Journal.retried_requests, hreq, List.replicate_succ']
    · rw [h2]
      simp only [Journal.infoV, Journal.write, Journal.request]
      split <;> simp [Journal.retried_sleeps, hsl]
  · intro err tpErr herr fuel hfuel
    obtain ⟨f, rfl⟩ : ∃ f, fuel = n + (f + 1) := ⟨fuel - n - 1, by omega⟩
    have h := hsend (n + (f + 1))
    rw [post_retried t messageTarget url pm tp _ n (f + 1) htr, sendMessage.post, hlen,
      herr] at h
    have h1 := congrArg Prod.fst h
    have h2 := congrArg Prod.snd h
    simp only at h1 h2
    refine ⟨h1, ?_, ?_⟩
    · rw [h2]
      simp [Journal.request, Journal.retried_requests, hreq, List.replicate_succ']
    · rw [h2]
      simp [Journal.request, Journal.retried_sleeps, hsl]
  · intro fuel hfuel
    have h := hsend fuel
    have h0 := post_retried t messageTarget url pm tp
      (sendMessage.announce t messageTarget pay j) fuel 0
      (fun k hk => htr k (lt_of_lt_of_le hk hfuel))
    rw [Nat.add_zero] at h0
    rw [h0, sendMessage.post] at h
    have h1 := congrArg Prod.fst h
    have h2 := congrArg Prod.snd h
    simp only at h1 h2
    refine ⟨h1, ?_, ?_⟩
    · rw [h2]; simp [Journal.retried_requests, hreq]
    · rw [h2]; simp [Journal.retried_sleeps, hsl]

/-- Witness of C22: the exchange answers the first two requests with a transport error and
the third with success; `sendMessage` returns no error after three POST requests and two
sleeps of 10 seconds. -/
theorem C22_send_retries_witness :
    (sendMessage.prepare Scenario.transport Scenario.messageTarget Scenario.payloadA).1 =
      Prepared.ready "https://exchange/orgs/org1/nodes/D1/msgs"
        (ExchangeBody.PostMessage "sealed" 120)
    ∧ (sendMessage Scenario.transport (.exchange Scenario.messageTarget) Scenario.payloadA 3
        Scenario.journal).1 = .returned none
    ∧ (sendMessage Scenario.transport (.exchange Scenario.messageTarget) Scenario.payloadA 3
        Scenario.journal).2.1.requests.length = 3
    ∧ (sendMessage Scenario.transport (.exchange Scenario.messageTarget) Scenario.payloadA 3
        Scenario.journal).2.1.sleeps = [10, 10] :=
  have h := (C22_send_retries Scenario.transport Scenario.messageTarget Scenario.payloadA
    Scenario.journal "https://exchange/orgs/org1/nodes/D1/msgs"
    (ExchangeBody.PostMessage "sealed" 120) (fun _ => "connection refused") 2 (by decide)
    (by intro k hk; simp [Scenario.transport, Scenario.journal, hk])).1
      (by simp [Scenario.transport, Scenario.journal]) 3 (by decide)
  ⟨by decide, h.1, by rw [h.2.1]; rfl, h.2.2⟩

/-! ## What `sendMessage` writes about the payload -/

/-- C23: with verbose logging on, `sendMessage` writes the payload to the log twice: obscured
in the line of level 5 (lines 171-173), but raw, cut to 300 characters, in the line of level
3 (line 170); and the error of a failed encryption carries the raw payload (line 206).  The
two proposal payloads `payloadA` and `payloadB` differ in their secret only (both demarshal
as proposals of `A1` and have the same obscured rendering), yet the logs of `sendMessage`
differ, each showing its secret, and so do the error texts. -/
theorem C23_raw_payload_logged :
    5 ≤ Scenario.transport.verbosity
    ∧ Scenario.transport.DemarshalProposal Scenario.payloadA = .ok { AgreementId := "A1" }
    ∧ Scenario.transport.DemarshalProposal Scenario.payloadB = .ok { AgreementId := "A1" }
    ∧ Scenario.transport.ObscureProposalSecret Scenario.payloadA =
        .ok "proposal A1 secret ********"
    ∧ Scenario.transport.ObscureProposalSecret Scenario.payloadB =
        .ok "proposal A1 secret ********"
    ∧ sendMessage.logMsg Scenario.transport Scenario.payloadA =
        sendMessage.logMsg Scenario.transport Scenario.payloadB
    ∧ (sendMessage Scenario.transport (.exchange Scenario.messageTarget) Scenario.payloadA 3
        Scenario.journal).2.1.log.take 2 =
      [{ severity := .info, text := "Base Consumer Protocol Handler (Basic) " ++
          "sending exchange message to: org1/D1, message proposal A1 secret alpha" },
       { severity := .info, text := "Base Consumer Protocol Handler (Basic) " ++
          "sending exchange message to: org1/D1, message proposal A1 secret ********" }]
    ∧ (sendMessage Scenario.transport (.exchange Scenario.messageTarget) Scenario.payloadB 3
        Scenario.journal).2.1.log.take 2 =
      [{ severity := .info, text := "Base Consumer Protocol Handler (Basic) " ++
          "sending exchange message to: org1/D1, message proposal A1 secret bravo" },
       { severity := .info, text := "Base Consumer Protocol Handler (Basic) " ++
          "sending exchange message to: org1/D1, message proposal A1 secret ********" }]
    ∧ (sendMessage Scenario.transport (.exchange Scenario.messageTarget) Scenario.payloadA 3
        Scenario.journal).2.1.log ≠
      (sendMessage Scenario.transport (.exchange Scenario.messageTarget) Scenario.payloadB 3
        Scenario.journal).2.1.log
    ∧ (sendMessage Scenario.noSealTransport (.exchange Scenario.messageTarget)
        Scenario.payloadA 3 Scenario.journal).1 = .returned (some
          "Unable to construct encrypted message, error bad key for message proposal A1 secret alpha")
    ∧ (sendMessage Scenario.noSealTransport (.exchange Scenario.messageTarget)
        Scenario.payloadB 3 Scenario.journal).1 = .returned (some
          "Unable to construct encrypted message, error bad key for message proposal A1 secret bravo") := by
  refine ⟨by decide, rfl, rfl, rfl, rfl, by decide, by decide,
    by decide, by decide, by decide, by decide⟩

/-- Lines 156-167: with verbose logging on, the rendering of a proposal payload for the line
of level 5 is what `ObscureProposalSecret` returns, and the empty string when that fails. -/
theorem logMsg_obscured (t : Transport) (pay : String) (newProp : Proposal)
    (hverbose : 5 ≤ t.verbosity) (hprop : t.DemarshalProposal pay = .ok newProp)
    (hid : newProp.AgreementId.length > 0) :
    (∀ obscured, t.ObscureProposalSecret pay = .ok obscured →
      sendMessage.logMsg t pay = obscured)
    ∧ (∀ err, t.ObscureProposalSecret pay = .error err → sendMessage.logMsg t pay = "") := by
  constructor
  · intro obscured h
    simp [sendMessage.logMsg, hverbose, hprop, hid, h]
  · intro err h
    simp [sendMessage.logMsg, hverbose, hprop, hid, h]

/-! ## Run-time panics of the handlers -/

/-- C24: the agreement `A1` is in progress, un-archived, policy based, has the policy name
`org1/pol` of the command and no service id.  `HandleServicePolicyChanged` and
`HandleServicePolicyDeleted` evaluate `ag.ServiceId[0]` (lines 637 and 690) and end in a
run-time panic, having queued nothing; `RecordConsumerAgreementState` evaluates
`pol.Workloads[0]` (line 882) and ends in a run-time panic for a policy without
workloads. -/
theorem C24_index_out_of_range :
    Scenario.noServiceWorld.db.agreements = [Scenario.noServiceAgreement]
    ∧ UnarchivedAFilter Scenario.noServiceAgreement = true
    ∧ InProgress Scenario.noServiceAgreement = true
    ∧ Scenario.noServiceAgreement.Pattern = ""
    ∧ Scenario.noServiceAgreement.PolicyName =
        Scenario.servicePolicyChanged.BusinessPolOrg ++ "/" ++
          Scenario.servicePolicyChanged.BusinessPolName
    ∧ Scenario.noServiceAgreement.ServiceId = []
    ∧ (HandleServicePolicyChanged (Scenario.env Scenario.pol2 Scenario.pol2 "")
        Scenario.servicePolicyChanged Scenario.noServiceWorld).2 = true
    ∧ (HandleServicePolicyChanged (Scenario.env Scenario.pol2 Scenario.pol2 "")
        Scenario.servicePolicyChanged Scenario.noServiceWorld).1.inboundHigh = []
    ∧ (HandleServicePolicyDeleted (Scenario.env Scenario.pol2 Scenario.pol2 "")
        Scenario.servicePolicyDeleted Scenario.noServiceWorld).2 = true
    ∧ (HandleServicePolicyDeleted (Scenario.env Scenario.pol2 Scenario.pol2 "")
        Scenario.servicePolicyDeleted Scenario.noServiceWorld).1.inboundHigh = []
    ∧ (Scenario.policy [] "").Workloads = []
    ∧ (RecordConsumerAgreementState Scenario.transport "A1" (Scenario.policy [] "") "org1"
        "Formed Proposal" "worker1" 1 Scenario.journal).1 = Completion.panicked := by
  refine ⟨rfl, by decide, by decide, rfl, by decide, rfl, by decide, by decide, by decide,
    by decide, rfl, rfl⟩

/-! ## Deferred commands and the event channel -/

theorem defer_all (cmds : List AgreementWork) :
    ∀ b : BaseConsumerProtocolHandler,
      cmds.foldl (fun h c => DeferCommand c h) b =
        { b with deferredCommands := b.deferredCommands ++ cmds } := by
  induction cmds with
  | nil => intro b; simp
  | cons c rest ih =>
    intro b
    simp only [List.foldl_cons]
    rw [ih]
    simp [DeferCommand]

/-- C25: the deferred buffer is an ordered list.  After a drain, the commands `c1, ..., cn`
deferred one after the other are returned by `GetDeferredCommands` exactly, in the order
deferred, and the buffer is cleared: a second `GetDeferredCommands` right after returns the
empty list.  Without a drain before, the commands come after those already in the buffer.
Neither method touches the event channel. -/
theorem C25_deferred_commands (b : BaseConsumerProtocolHandler) (cmds : List AgreementWork) :
    (GetDeferredCommands (cmds.foldl (fun h c => DeferCommand c h)
        (GetDeferredCommands b).2)).1 = cmds
    ∧ (GetDeferredCommands (GetDeferredCommands (cmds.foldl (fun h c => DeferCommand c h)
        (GetDeferredCommands b).2)).2).1 = []
    ∧ (GetDeferredCommands (cmds.foldl (fun h c => DeferCommand c h) b)).1 =
        b.deferredCommands ++ cmds
    ∧ (GetDeferredCommands (cmds.foldl (fun h c => DeferCommand c h) b)).2 =
        { b with deferredCommands := [] }
    ∧ (GetDeferredCommands b).1 = b.deferredCommands := by
  have hdrained := defer_all cmds (GetDeferredCommands b).2
  have hkept := defer_all cmds b
  refine ⟨?_, ?_, ?_, ?_, rfl⟩
  · rw [hdrained]
    simp [GetDeferredCommands]
  · rw [hdrained]
    rfl
  · rw [hkept]
    rfl
  · rw [hkept]
    rfl

/-- C26: the event channel has the capacity of the configured queue size.  When the channel
is full, `SendEventMessage` does not block and leaves the handler, channel included, as it
is: the event is dropped.  When it is not full, `SendEventMessage` does not block either and
appends the event as the last item of the channel, changing nothing else. -/
theorem C26_send_event_message (b : BaseConsumerProtocolHandler) (event : String)
    (hcap : (b.messages.cap : Int) = intOfUint64 b.AgbotAgreementQueueSize) :
    (b.messages.cap ≤ b.messages.buf.length → SendEventMessage event b = some b)
    ∧ (b.messages.buf.length < b.messages.cap →
        SendEventMessage event b =
          some { b with messages := { b.messages with buf := b.messages.buf ++ [event] } }) := by
  constructor
  · intro hfull
    have : ¬ ((b.messages.buf.length : Int) < intOfUint64 b.AgbotAgreementQueueSize) := by
      rw [← hcap]; omega
    simp [SendEventMessage, this]
  · intro hroom
    have : (b.messages.buf.length : Int) < intOfUint64 b.AgbotAgreementQueueSize := by
      rw [← hcap]; omega
    simp [SendEventMessage, this, Chan.send, hroom]

/-- Witness of C26: on the channel of capacity 2 that holds two events the event `e3` is
dropped; on the channel that holds one event it becomes the last item. -/
theorem C26_send_event_message_witness :
    (Scenario.fullHandler.messages.cap : Int) =
      intOfUint64 Scenario.fullHandler.AgbotAgreementQueueSize
    ∧ Scenario.fullHandler.messages.cap ≤ Scenario.fullHandler.messages.buf.length
    ∧ SendEventMessage "e3" Scenario.fullHandler = some Scenario.fullHandler
    ∧ (SendEventMessage "e3" Scenario.roomyHandler).map (fun h => h.messages.buf) =
        some ["e1", "e3"] :=
  ⟨by decide, by decide,
    (C26_send_event_message Scenario.fullHandler "e3" (by decide)).1 (by decide),
    by decide⟩

/-! ## `HandlePolicyChangeForAgreement` and the store -/

/-- C27: `HandlePolicyChangeForAgreement` is read-only on the store.  On every path the
agreement table, the workload-usage table and the HA-upgrading-workload table are after the
call what they were before, and so are the two work queues.  Every dispatch of an update
hands `UpdateAgreement` the copy of the agreement with `LastPolicyUpdateTime` set to the
current time, the other fields as they were; the agreement of the caller is passed by value
and every stored row keeps its `LastPolicyUpdateTime`. -/
theorem C27_evaluation_read_only (env : Env) (ag : Agreement) (oldPolicy : Option Policy)
    (w : World) :
    (HandlePolicyChangeForAgreement env ag oldPolicy w).2.db.agreements = w.db.agreements
    ∧ (HandlePolicyChangeForAgreement env ag oldPolicy w).2.db.workloadUsages =
        w.db.workloadUsages
    ∧ (HandlePolicyChangeForAgreement env ag oldPolicy w).2.db.haUpgrading = w.db.haUpgrading
    ∧ (HandlePolicyChangeForAgreement env ag oldPolicy w).2.inboundHigh = w.inboundHigh
    ∧ (HandlePolicyChangeForAgreement env ag oldPolicy w).2.inboundLow = w.inboundLow
    ∧ (∀ s ∈ w.newSteps (HandlePolicyChangeForAgreement env ag oldPolicy w).2,
        s.call.isUpdate = true →
        ∃ newTsCs, s.call = Call.UpdateAgreement { ag with LastPolicyUpdateTime := env.now }
          MsgUpdateTypePolicyChange newTsCs)
    ∧ (HandlePolicyChangeForAgreement env ag oldPolicy w).2.db.agreements.map
          (fun a => (a.CurrentAgreementId, a.LastPolicyUpdateTime)) =
        w.db.agreements.map (fun a => (a.CurrentAgreementId, a.LastPolicyUpdateTime)) := by
  obtain ⟨hdb, hhigh, hlow, _⟩ := HandlePolicyChangeForAgreement_readOnly env ag oldPolicy w
  refine ⟨by rw [hdb], by rw [hdb], by rw [hdb], hhigh, hlow, ?_, by rw [hdb]⟩
  intro s hs hup
  rcases dispatch_cases env ag oldPolicy w with hno | ⟨svcAllPol, busPol, nodePol, dev, wl,
    svcDef, newTsCs, w2, _, htr2, heq⟩
  · obtain ⟨steps, htr, hall⟩ := hno
    have hmem : s ∈ steps := by simpa [World.newSteps, htr] using hs
    have := hall s hmem
    simp [beforeUpdate, hup] at this
  · obtain ⟨o, hrec⟩ := UpdateAgreement_record env { ag with LastPolicyUpdateTime := env.now }
      MsgUpdateTypePolicyChange newTsCs w2
    obtain ⟨steps, htr, hall⟩ := htr2
    have hsteps : w.newSteps (HandlePolicyChangeForAgreement env ag oldPolicy w).2 =
        steps ++ [{ call := (Call.UpdateAgreement { ag with LastPolicyUpdateTime := env.now }
          MsgUpdateTypePolicyChange newTsCs), outcome := o }] := by
      rw [heq, hrec]
      simp [World.newSteps, World.record, htr]
    rw [hsteps] at hs
    rcases List.mem_append.mp hs with h1 | h1
    · have := hall s h1
      simp [beforeUpdate, hup] at this
    · simp only [List.mem_singleton] at h1
      exact ⟨newTsCs, by rw [h1]⟩

end agreementbot
